import Mathlib

/-!
# Ketsji engine: frame scheduling and scene lifecycle

A shallow embedding of `source/gameengine/Ketsji/KX_KetsjiEngine.cpp` and
`source/gameengine/Ketsji/KX_Scene.cpp`.

Conventions of the embedding:

* C++ `double`/`float` times are exact rationals (`ℚ`); rounding is not modelled.
* C++ `int` frame counts and caps are `Int`; `int(x)` on a double truncates toward zero.
* Game objects are shared between many lists through pointers, so they live in a heap
  (`Heap`) and the lists hold addresses (`Nat`).  Scenes are held by exactly one list
  (`m_scenes`), so a scene is the list entry itself.
* A function that may dereference a null pointer or recurse/loop without bound returns
  `Option`; `none` stands for "no result" (crash or divergence), and the unbounded
  recursion is cut by a `fuel` argument.
* Calls into collaborators that are outside the two files (rasterizer, physics solver,
  scripting, scene graph update) leave the modelled state alone; the calls the engine makes on
  a scene are recorded in the ghost field `KX_Scene.calls`.
-/

namespace Ketsji

/-! ## Data model -/

/-- The values of `KX_GameObject::GetObjectType()` (enum of `KX_GameObject.h`). -/
inductive ObjectType
  | OBJECT_TYPE_OBJECT
  | OBJECT_TYPE_ARMATURE
  | OBJECT_TYPE_CAMERA
  | OBJECT_TYPE_LIGHT
  | OBJECT_TYPE_TEXT
  | OBJECT_TYPE_NAVMESH
deriving DecidableEq

/-- A vector `mt::vec3`. -/
abbrev Vec3 := ℚ × ℚ × ℚ

/-- A matrix `mt::mat3`, by rows. -/
abbrev Mat3 := Vec3 × Vec3 × Vec3

/-- The constant `mt::zero3`. -/
def zero3 : Vec3 := (0, 0, 0)

/-- The matrix `mt::mat3::Identity()`. -/
def Mat3.Identity : Mat3 := ((1, 0, 0), (0, 1, 0), (0, 0, 1))

/-- Camera settings `RAS_CameraData`, kept abstract except for the fields the engine reads:
the projection kind and whether the camera draws into a viewport of its own. -/
structure RAS_CameraData where
  m_perspective : Bool
  m_viewport : Bool := false
deriving DecidableEq

/-- A game object (`KX_GameObject` and its subclasses) as the two files use it.
`m_sgNode` tells whether `GetNode()` is non-null; `m_parent` and `m_children` are the client
objects of the node's parent and children; `timebomb` is the float property `"::timebomb"`;
`m_camdata = none` is a default-constructed `RAS_CameraData()`; `m_propertyNames` are the
names of the other properties of the object. -/
structure KX_GameObject where
  m_name : String := ""
  m_objectType : ObjectType := ObjectType.OBJECT_TYPE_OBJECT
  m_sgNode : Bool := true
  m_parent : Option Nat := none
  m_children : List Nat := []
  m_localPosition : Vec3 := zero3
  m_localOrientation : Mat3 := Mat3.Identity
  m_isDupliGroup : Bool := false
  m_instanceObjects : Option (List Nat) := none
  m_dupliGroupObject : Option Nat := none
  timebomb : Option ℚ := none
  m_camdata : Option RAS_CameraData := none
  m_propertyNames : List String := []
deriving DecidableEq

/-- The heap of game objects: the object at each address, and the next address `new` hands
out. -/
structure Heap where
  obj : Nat → KX_GameObject
  next : Nat

/-- A heap holding default objects only. -/
def Heap.empty : Heap := { obj := fun _ => {}, next := 0 }

/-- Overwrite the object at address `p`. -/
def Heap.set (h : Heap) (p : Nat) (o : KX_GameObject) : Heap :=
  { h with obj := fun q => if q = p then o else h.obj q }

/-- Allocate a new object: its address and the heap that holds it. -/
def Heap.alloc (h : Heap) (o : KX_GameObject) : Nat × Heap :=
  (h.next, { obj := fun q => if q = h.next then o else h.obj q, next := h.next + 1 })

/-- The source scene data (DNA `Scene`): `id.name` is a two-character code followed by the
scene name. -/
structure Scene where
  id_name : String
deriving DecidableEq

/-- The calls the engine makes on a scene during a tick (ghost record). -/
inductive SceneCall
  | UpdateObjectActivity
  | LogicBeginFrame (curtime framestep : ℚ)
  | UpdateParents
  | LogicUpdateFrame (curtime : ℚ)
  | LogicEndFrame
  | ProceedDeltaTime (curtime timestep framestep : ℚ)
deriving DecidableEq

/-- An entry `DebugProp` of the debug-property list. -/
structure DebugProp where
  m_obj : Nat
  m_name : String
deriving DecidableEq

/-- The members of `KX_Scene` the two files work on.  The list members hold object addresses.
`m_physicsEnvironment = none` is the null pointer.  `calls` is the ghost record of the calls
received from the engine. -/
structure KX_Scene where
  m_name : String
  m_blenderScene : Scene
  m_physicsEnvironment : Option Nat := none
  m_activeCamera : Option Nat := none
  m_overrideCullingCamera : Option Nat := none
  m_suspend : Bool := false
  m_suspendedDelta : ℚ := 0
  m_objectlist : List Nat := []
  m_inactivelist : List Nat := []
  m_parentlist : List Nat := []
  m_lightlist : List Nat := []
  m_cameralist : List Nat := []
  m_fontlist : List Nat := []
  m_tempObjectList : List Nat := []
  m_euthanasyobjects : List Nat := []
  m_animatedlist : List Nat := []
  m_debugList : List DebugProp := []
  calls : List SceneCall := []
deriving DecidableEq

/-- The exit codes `KX_ExitInfo::Code`. -/
inductive Code
  | NO_REQUEST
  | QUIT_GAME
  | RESTART_GAME
  | START_OTHER_GAME
  | NO_SCENES_LEFT
  | BLENDER_ESC
  | OUTSIDE
deriving DecidableEq

/-- The exit record `KX_ExitInfo`; the constructor sets `m_code(NO_REQUEST)`. -/
structure KX_ExitInfo where
  m_code : Code := Code.NO_REQUEST
  m_fileName : String := ""
deriving DecidableEq

/-- The asset converter `BL_Converter`, reached through `m_converter`: the two entry points the
scene registry uses.  `ConvertScene` fills a freshly constructed scene from its source data and
may allocate objects. -/
structure BL_Converter where
  GetBlenderSceneForName : String → Option Scene
  ConvertScene : Heap → KX_Scene → Heap × KX_Scene

/-- The result of `KX_KetsjiEngine::GetFrameTimes`. -/
structure FrameTimes where
  frames : Int
  timestep : ℚ
  framestep : ℚ
deriving DecidableEq

/-- The members of `KX_KetsjiEngine` the model works on, with the values the constructor gives
them.  The upper-case fields are the bits of `m_flags`.  `heap` is the heap of game objects the
scenes point into. -/
structure KX_KetsjiEngine where
  heap : Heap := Heap.empty
  m_scenes : List KX_Scene := []
  USE_EXTERNAL_CLOCK : Bool := false
  FIXED_FRAMERATE : Bool := false
  CAMERA_OVERRIDE : Bool := false
  AUTO_ADD_DEBUG_PROPERTIES : Bool := true
  m_frameTime : ℚ := 0
  m_clockTime : ℚ := 0
  m_timescale : ℚ := 1
  m_previousRealTime : ℚ := 0
  m_maxLogicFrame : Int := 5
  m_maxPhysicsFrame : Int := 5
  m_ticrate : ℚ := 60
  m_doRender : Bool := true
  m_exitInfo : KX_ExitInfo := {}
  m_overrideSceneName : String := ""
  m_overrideCamOrientation : Mat3 := Mat3.Identity
  m_overrideCamPosition : Vec3 := zero3
  m_overrideCamData : RAS_CameraData := { m_perspective := true }
  m_addingOverlayScenes : List String := []
  m_addingBackgroundScenes : List String := []
  m_removingScenes : List String := []
  m_replace_scenes : List (String × String) := []

/-! ## Clock and time scheduler -/

/-- The conversion `int(x)` of a C++ double to int: truncation toward zero. -/
def toInt (x : ℚ) : Int :=
  if 0 ≤ x then Int.floor x else Int.ceil x

/-- The function `KX_KetsjiEngine::GetFrameTimes`.  `now` is what `m_clock.GetTimeSecond()`
returns.  The idle sleep of the zero-frame branch changes no member and is left out. -/
def GetFrameTimes (now : ℚ) (e : KX_KetsjiEngine) : FrameTimes × KX_KetsjiEngine :=
  let clockTime := if !e.USE_EXTERNAL_CLOCK then now else e.m_clockTime
  let dt := clockTime - e.m_previousRealTime
  let timestep0 : ℚ := if e.FIXED_FRAMERATE then 1 / e.m_ticrate else dt
  let frames0 : Int := if e.FIXED_FRAMERATE then toInt (dt * e.m_ticrate) else 1
  let timestep1 : ℚ :=
    if frames0 > e.m_maxPhysicsFrame then dt / e.m_maxPhysicsFrame else timestep0
  let frames1 : Int := if frames0 > e.m_maxPhysicsFrame then e.m_maxPhysicsFrame else frames0
  let timestep2 : ℚ :=
    if frames1 > e.m_maxLogicFrame then dt / e.m_maxLogicFrame else timestep1
  let frames2 : Int := if frames1 > e.m_maxLogicFrame then e.m_maxLogicFrame else frames1
  let previousRealTime := if frames2 > 0 then clockTime else e.m_previousRealTime
  let framestep := timestep2 * e.m_timescale
  ({ frames := frames2, timestep := timestep2, framestep := framestep },
   { e with m_clockTime := clockTime, m_previousRealTime := previousRealTime })

/-- The elapsed time `dt` that `GetFrameTimes` computes: the simulation time (the clock reading
`now`, or `m_clockTime` under an external clock) minus `m_previousRealTime`. -/
def elapsed (now : ℚ) (e : KX_KetsjiEngine) : ℚ :=
  (if !e.USE_EXTERNAL_CLOCK then now else e.m_clockTime) - e.m_previousRealTime

/-- The frame count of `GetFrameTimes` before the two clamps. -/
def unclampedFrames (now : ℚ) (e : KX_KetsjiEngine) : Int :=
  if e.FIXED_FRAMERATE then toInt (elapsed now e * e.m_ticrate) else 1

/-- `GetFrameTimes` takes one of its two clamp branches. -/
def clamped (now : ℚ) (e : KX_KetsjiEngine) : Prop :=
  unclampedFrames now e > e.m_maxPhysicsFrame ∨ unclampedFrames now e > e.m_maxLogicFrame

/-! ## Scene graph and object lifecycle -/

/-- Modelled from the spec: `CM_ListAddIfNotFound` of `CM_List.h`, which is not among the
sources.  The spec's "queues it at most once" and the name give: the item is pushed at the back
unless the list already holds it. -/
def CM_ListAddIfNotFound (list : List Nat) (item : Nat) : List Nat :=
  if item ∈ list then list else list ++ [item]

/-- Modelled from the spec: `CM_ListRemoveIfFound` of `CM_List.h`, which is not among the
sources ("objects automatically drop out of the euthanasia queue"): the first entry equal to
the item is erased, if there is one. -/
def CM_ListRemoveIfFound (list : List Nat) (item : Nat) : List Nat :=
  list.erase item

/-- Modelled from the spec: `EXP_ListValue::RemoveValue` (class not among the sources): every
entry that is the given object is removed, the others keep their order. -/
def RemoveValue (list : List Nat) (val : Nat) : List Nat :=
  list.filter (fun item => item != val)

/-- The method `KX_Scene::Suspend`. -/
def KX_Scene.Suspend (scene : KX_Scene) : KX_Scene :=
  { scene with m_suspend := true }

/-- The method `KX_Scene::Resume`. -/
def KX_Scene.Resume (scene : KX_Scene) : KX_Scene :=
  { scene with m_suspend := false }

/-- The method `KX_Scene::IsSuspended`. -/
def KX_Scene.IsSuspended (scene : KX_Scene) : Bool :=
  scene.m_suspend

/-- The method `KX_Scene::SetSuspendedDelta`. -/
def KX_Scene.SetSuspendedDelta (scene : KX_Scene) (suspendeddelta : ℚ) : KX_Scene :=
  { scene with m_suspendedDelta := suspendeddelta }

/-- The method `KX_Scene::GetSuspendedDelta`. -/
def KX_Scene.GetSuspendedDelta (scene : KX_Scene) : ℚ :=
  scene.m_suspendedDelta

/-- The method `KX_Scene::AddAnimatedObject`. -/
def KX_Scene.AddAnimatedObject (scene : KX_Scene) (gameobj : Nat) : KX_Scene :=
  { scene with m_animatedlist := CM_ListAddIfNotFound scene.m_animatedlist gameobj }

mutual

/-- The method `KX_Scene::RemoveDupliGroup`.  A dupli-group object whose instance list is the
null pointer makes the range-for dereference null: no result.  `fuel` bounds the depth of the
recursion through `DelayedRemoveObject`. -/
def RemoveDupliGroup (h : Heap) : Nat → KX_Scene → Nat → Option KX_Scene
  | 0, _, _ => none
  | fuel + 1, scene, gameobj =>
    if (h.obj gameobj).m_isDupliGroup then
      match (h.obj gameobj).m_instanceObjects with
      | none => none
      | some instances =>
        instances.foldlM (fun sc inst => DelayedRemoveObject h fuel sc inst) scene
    else
      some scene

/-- The method `KX_Scene::DelayedRemoveObject`. -/
def DelayedRemoveObject (h : Heap) : Nat → KX_Scene → Nat → Option KX_Scene
  | 0, _, _ => none
  | fuel + 1, scene, gameobj =>
    match RemoveDupliGroup h fuel scene gameobj with
    | none => none
    | some scene1 =>
      some { scene1 with
             m_euthanasyobjects := CM_ListAddIfNotFound scene1.m_euthanasyobjects gameobj }

end

/-- The method `KX_Scene::RemoveObjectDebugProperties`. -/
def RemoveObjectDebugProperties (scene : KX_Scene) (gameobj : Nat) : KX_Scene :=
  { scene with m_debugList := scene.m_debugList.filter (fun prop => prop.m_obj != gameobj) }

/-- The method `KX_Scene::NewRemoveObject`.  The instances of a removed dupli-group proxy lose
their back-reference, and the object leaves the instance list of its own group
(`RemoveInstanceObject`).  Proxy invalidation, the obstacle simulation, the component and
texture-renderer managers and the final `delete` are outside the model. -/
def NewRemoveObject (h : Heap) (scene : KX_Scene) (gameobj : Nat) : Heap × KX_Scene :=
  let scene1 := RemoveObjectDebugProperties scene gameobj
  let h1 : Heap :=
    match (h.obj gameobj).m_instanceObjects with
    | some instances =>
      instances.foldl
        (fun hh inst => hh.set inst { hh.obj inst with m_dupliGroupObject := none }) h
    | none => h
  let h2 : Heap :=
    match (h1.obj gameobj).m_dupliGroupObject with
    | some group =>
      h1.set group
        { h1.obj group with
          m_instanceObjects :=
            (h1.obj group).m_instanceObjects.map (fun l => RemoveValue l gameobj) }
    | none => h1
  let scene2 : KX_Scene :=
    match (h2.obj gameobj).m_objectType with
    | ObjectType.OBJECT_TYPE_CAMERA =>
      { scene1 with m_cameralist := RemoveValue scene1.m_cameralist gameobj }
    | ObjectType.OBJECT_TYPE_LIGHT =>
      { scene1 with m_lightlist := RemoveValue scene1.m_lightlist gameobj }
    | ObjectType.OBJECT_TYPE_TEXT =>
      { scene1 with m_fontlist := RemoveValue scene1.m_fontlist gameobj }
    | _ => scene1
  (h2,
   { scene2 with
     m_animatedlist := CM_ListRemoveIfFound scene2.m_animatedlist gameobj
     m_euthanasyobjects := CM_ListRemoveIfFound scene2.m_euthanasyobjects gameobj
     m_tempObjectList := CM_ListRemoveIfFound scene2.m_tempObjectList gameobj
     m_parentlist := RemoveValue scene2.m_parentlist gameobj
     m_inactivelist := RemoveValue scene2.m_inactivelist gameobj
     m_objectlist := RemoveValue scene2.m_objectlist gameobj
     m_activeCamera := if scene2.m_activeCamera = some gameobj then none else scene2.m_activeCamera
     m_overrideCullingCamera :=
       if scene2.m_overrideCullingCamera = some gameobj then none
       else scene2.m_overrideCullingCamera })

/-- Modelled from the spec: `SG_Node::Destruct` (class not among the sources).  The spec has
`RemoveObject` "recursively destruct node children", and the comment in `LogicEndFrame` has the
children "destructed directly from the sgnode in the same time the parent object is
destructed": the children are destructed first, then the destruction callback
`KX_SceneDestructionFunc` runs `RemoveNodeDestructObject`, that is `NewRemoveObject`, on the
node's object.  `fuel` bounds the depth of the recursion. -/
def Destruct : Nat → Heap → KX_Scene → Nat → Option (Heap × KX_Scene)
  | 0, _, _, _ => none
  | fuel + 1, h, scene, gameobj =>
    match (h.obj gameobj).m_children.foldlM
        (fun (acc : Heap × KX_Scene) child => Destruct fuel acc.1 acc.2 child) (h, scene) with
    | none => none
    | some acc => some (NewRemoveObject acc.1 acc.2 gameobj)

/-- Modelled from the spec: `SG_Node::DisconnectFromParent` (class not among the sources,
"disconnects the spatial node from its parent"): the node leaves its parent's children and has
no parent any more. -/
def DisconnectFromParent (h : Heap) (gameobj : Nat) : Heap :=
  match (h.obj gameobj).m_parent with
  | some parent =>
    (h.set parent
      { h.obj parent with m_children := RemoveValue (h.obj parent).m_children gameobj }).set
      gameobj
      { (h.set parent
          { h.obj parent with
            m_children := RemoveValue (h.obj parent).m_children gameobj }).obj gameobj with
        m_parent := none }
  | none => h

/-- The method `KX_Scene::RemoveObject`. -/
def RemoveObject (fuel : Nat) (h : Heap) (scene : KX_Scene) (gameobj : Nat) :
    Option (Heap × KX_Scene) :=
  if (h.obj gameobj).m_sgNode then
    Destruct fuel (DisconnectFromParent h gameobj) scene gameobj
  else
    some (h, scene)

/-- The method `KX_Scene::LogicBeginFrame`.  `BLI_assert(false)` on a temporary object without
countdown is compiled out of release builds and does nothing here. -/
def LogicBeginFrame (fuel : Nat) (curtime framestep : ℚ) (h : Heap) (scene : KX_Scene) :
    Option (Heap × KX_Scene) :=
  scene.m_tempObjectList.foldlM
    (fun (acc : Heap × KX_Scene) gameobj =>
      match (acc.1.obj gameobj).timebomb with
      | some value =>
        let timeleft := value - framestep
        if timeleft > 0 then
          some (acc.1.set gameobj { acc.1.obj gameobj with timebomb := some timeleft }, acc.2)
        else
          match DelayedRemoveObject acc.1 fuel acc.2 gameobj with
          | none => none
          | some sc => some (acc.1, sc)
      | none => some acc)
    (h, { scene with calls := scene.calls ++ [SceneCall.LogicBeginFrame curtime framestep] })

/-- The method `KX_Scene::LogicUpdateFrame`: it updates the script components, which is outside
the model; the call is recorded. -/
def KX_Scene.LogicUpdateFrame (scene : KX_Scene) (curtime : ℚ) : KX_Scene :=
  { scene with calls := scene.calls ++ [SceneCall.LogicUpdateFrame curtime] }

/-- The loop `while (!m_euthanasyobjects.empty()) RemoveObject(m_euthanasyobjects.front())` of
`LogicEndFrame`; `fuel` bounds the number of iterations and the depth of each `RemoveObject`. -/
def drainEuthanasy : Nat → Heap → KX_Scene → Option (Heap × KX_Scene)
  | 0, h, scene =>
    match scene.m_euthanasyobjects with
    | [] => some (h, scene)
    | _ :: _ => none
  | fuel + 1, h, scene =>
    match scene.m_euthanasyobjects with
    | [] => some (h, scene)
    | front :: _ =>
      match RemoveObject fuel h scene front with
      | none => none
      | some r => drainEuthanasy fuel r.1 r.2

/-- The method `KX_Scene::LogicEndFrame`.  The obstacle simulation and the text update of the
font objects are outside the model. -/
def LogicEndFrame (fuel : Nat) (h : Heap) (scene : KX_Scene) : Option (Heap × KX_Scene) :=
  drainEuthanasy fuel h { scene with calls := scene.calls ++ [SceneCall.LogicEndFrame] }

/-- The method `KX_Scene::UpdateObjectActivity`: the distance test and the activity state of the
objects are outside the model; the call is recorded. -/
def KX_Scene.UpdateObjectActivity (scene : KX_Scene) : KX_Scene :=
  { scene with calls := scene.calls ++ [SceneCall.UpdateObjectActivity] }

/-- The call `scene->GetPhysicsEnvironment()->ProceedDeltaTime(...)` of `NextFrame`: no result
on a scene without physics environment (null dereference); the solver is outside the model and
the call is recorded. -/
def ProceedDeltaTime (scene : KX_Scene) (curtime timestep framestep : ℚ) : Option KX_Scene :=
  match scene.m_physicsEnvironment with
  | none => none
  | some _ =>
    some { scene with
           calls := scene.calls ++ [SceneCall.ProceedDeltaTime curtime timestep framestep] }

/-- The function `MergeScene_GameObject`: an armature joins the animated list of the
destination scene `to` (here `dest`).  The physics environment of the controllers, the client info of the node and
the scene of a light are outside the model. -/
def MergeScene_GameObject (h : Heap) (gameobj : Nat) (dest : KX_Scene) : KX_Scene :=
  if (h.obj gameobj).m_objectType = ObjectType.OBJECT_TYPE_ARMATURE then
    dest.AddAnimatedObject gameobj
  else
    dest

/-- Modelled from the spec: `EXP_ListValue::MergeList` (class not among the sources): "the
iteration order of the surviving scene is [this objects...][other's objects...]". -/
def MergeList (list other : List Nat) : List Nat :=
  list ++ other

/-- The method `KX_Scene::Merge`: the returned flag, this scene and the other scene.  The body
of `AddObjectDebugProperties` is compiled out (`#if 0`).  The bucket, bounding-box and
texture-renderer managers, the physics environments and the resources are outside the
model. -/
def Merge (h : Heap) (this other : KX_Scene) : Bool × KX_Scene × KX_Scene :=
  if this.m_physicsEnvironment.isNone != other.m_physicsEnvironment.isNone then
    (false, this, other)
  else
    let this1 := other.m_objectlist.foldl (fun dest gameobj => MergeScene_GameObject h gameobj dest) this
    let this2 :=
      other.m_inactivelist.foldl (fun dest gameobj => MergeScene_GameObject h gameobj dest) this1
    (true,
     { this2 with
       m_objectlist := MergeList this2.m_objectlist other.m_objectlist
       m_inactivelist := MergeList this2.m_inactivelist other.m_inactivelist
       m_parentlist := MergeList this2.m_parentlist other.m_parentlist
       m_lightlist := MergeList this2.m_lightlist other.m_lightlist
       m_cameralist := MergeList this2.m_cameralist other.m_cameralist
       m_fontlist := MergeList this2.m_fontlist other.m_fontlist },
     other)

/-- The second scene differs from the first one in the euthanasia queue only, which holds
what it held and is free of duplicates if it was. -/
def QueueExt (scene s1 : KX_Scene) : Prop :=
  ∃ q : List Nat, s1 = { scene with m_euthanasyobjects := q } ∧
    (∀ x : Nat, x ∈ scene.m_euthanasyobjects → x ∈ q) ∧
    (scene.m_euthanasyobjects.Nodup → q.Nodup)

/-- The dupli-group instance lists of the heap are well-founded: every dupli-group object has
an instance list, and `rank` decreases from a group to its instances. -/
def InstancesRanked (h : Heap) (rank : Nat → Nat) : Prop :=
  ∀ o : Nat, (h.obj o).m_isDupliGroup = true →
    ∃ l : List Nat, (h.obj o).m_instanceObjects = some l ∧ ∀ i : Nat, i ∈ l → rank i < rank o

/-! ## Scene registry and lifecycle manager -/

/-- The method `KX_Scene::UpdateParents`: it drains the scene-graph update queue, which is
outside the model; the call is recorded. -/
def KX_Scene.UpdateParents (scene : KX_Scene) : KX_Scene :=
  { scene with calls := scene.calls ++ [SceneCall.UpdateParents] }

/-- The method `KX_KetsjiEngine::FindScene`: `m_scenes->FindValue(scenename)`, the first scene
of the list with that name, or null. -/
def FindScene (e : KX_KetsjiEngine) (scenename : String) : Option KX_Scene :=
  e.m_scenes.find? (fun scene => scene.m_name == scenename)

/-- The method `KX_KetsjiEngine::RequestExit(code)`, which passes an empty file name. -/
def RequestExit (code : Code) (e : KX_KetsjiEngine) : KX_KetsjiEngine :=
  { e with m_exitInfo := { m_code := code, m_fileName := "" } }

/-- The method `KX_KetsjiEngine::ConvertAndAddScene`. -/
def ConvertAndAddScene (scenename : String) (overlay : Bool) (e : KX_KetsjiEngine) :
    KX_KetsjiEngine :=
  if (FindScene e scenename).isSome then
    e
  else if overlay then
    { e with m_addingOverlayScenes := e.m_addingOverlayScenes ++ [scenename] }
  else
    { e with m_addingBackgroundScenes := e.m_addingBackgroundScenes ++ [scenename] }

/-- The method `KX_KetsjiEngine::RemoveScene`. -/
def RemoveScene (scenename : String) (e : KX_KetsjiEngine) : KX_KetsjiEngine :=
  if (FindScene e scenename).isSome then
    { e with m_removingScenes := e.m_removingScenes ++ [scenename] }
  else
    e

/-- The method `KX_KetsjiEngine::ReplaceScene`: the returned flag and the engine. -/
def ReplaceScene (conv : BL_Converter) (oldscene newscene : String) (e : KX_KetsjiEngine) :
    Bool × KX_KetsjiEngine :=
  if (conv.GetBlenderSceneForName newscene).isSome then
    (true, { e with m_replace_scenes := e.m_replace_scenes ++ [(oldscene, newscene)] })
  else
    (false, e)

/-- The method `KX_KetsjiEngine::CreateScene(Scene *)`: the `KX_Scene` constructor with the name
`scene->id.name + 2`. -/
def CreateScene (scene : Scene) : KX_Scene :=
  { m_name := scene.id_name.drop 2, m_blenderScene := scene }

/-- The method `KX_KetsjiEngine::CreateScene(const std::string&)`. -/
def CreateSceneNamed (conv : BL_Converter) (scenename : String) : Option KX_Scene :=
  match conv.GetBlenderSceneForName scenename with
  | none => none
  | some scene => some (CreateScene scene)

/-- The method `KX_KetsjiEngine::PostProcessScene`, on the heap `h`; the engine is read for the
camera-override members only. -/
def PostProcessScene (e : KX_KetsjiEngine) (h : Heap) (scene : KX_Scene) : Heap × KX_Scene :=
  let override_camera := e.CAMERA_OVERRIDE && (scene.m_name == e.m_overrideSceneName)
  if scene.m_activeCamera.isNone || override_camera then
    let cam : KX_GameObject :=
      { m_name := "__default__cam__"
        m_objectType := ObjectType.OBJECT_TYPE_CAMERA
        m_sgNode := true
        m_camdata := if override_camera then some e.m_overrideCamData else none
        m_localPosition := if override_camera then e.m_overrideCamPosition else zero3
        m_localOrientation :=
          if override_camera then e.m_overrideCamOrientation else Mat3.Identity }
    let activecam := (h.alloc cam).1
    ((h.alloc cam).2,
     KX_Scene.UpdateParents
       { scene with
         m_cameralist := scene.m_cameralist ++ [activecam]
         m_activeCamera := some activecam
         m_objectlist := scene.m_objectlist ++ [activecam] })
  else
    (h, KX_Scene.UpdateParents scene)

/-- The three calls the engine makes on source scene data to get a running scene:
`CreateScene`, `m_converter->ConvertScene` and `PostProcessScene`. -/
def buildScene (conv : BL_Converter) (e : KX_KetsjiEngine) (h : Heap) (blScene : Scene) :
    Heap × KX_Scene :=
  PostProcessScene e (conv.ConvertScene h (CreateScene blScene)).1
    (conv.ConvertScene h (CreateScene blScene)).2

/-- The inner loop of `ReplaceScheduledScenes` over the indices of `m_scenes`, for one queued
pair: every scene named `oldscenename` is replaced in place.  `DestructScene` (removal callbacks
and the converter's bookkeeping) is outside the model. -/
def replaceInList (conv : BL_Converter) (e : KX_KetsjiEngine) (oldscenename newscenename : String) :
    Heap → List KX_Scene → Heap × List KX_Scene
  | h, [] => (h, [])
  | h, scene :: rest =>
    if scene.m_name == oldscenename then
      match conv.GetBlenderSceneForName newscenename with
      | some blScene =>
        let tmpscene := CreateScene blScene
        let converted := conv.ConvertScene h tmpscene
        let processed := PostProcessScene e converted.1 converted.2
        let r := replaceInList conv e oldscenename newscenename processed.1 rest
        (r.1, processed.2 :: r.2)
      | none =>
        let r := replaceInList conv e oldscenename newscenename h rest
        (r.1, scene :: r.2)
    else
      let r := replaceInList conv e oldscenename newscenename h rest
      (r.1, scene :: r.2)

/-- The method `KX_KetsjiEngine::ReplaceScheduledScenes`. -/
def ReplaceScheduledScenes (conv : BL_Converter) (e : KX_KetsjiEngine) : KX_KetsjiEngine :=
  if !e.m_replace_scenes.isEmpty then
    let r := e.m_replace_scenes.foldl
      (fun (acc : Heap × List KX_Scene) (names : String × String) =>
        replaceInList conv e names.1 names.2 acc.1 acc.2)
      (e.heap, e.m_scenes)
    { e with heap := r.1, m_scenes := r.2, m_replace_scenes := [] }
  else
    e

/-- The body of the loop of `RemoveScheduledScenes`: `FindScene`, then `RemoveValue` of the
scene found, which erases that entry of the list. -/
def removeNamed (scenes : List KX_Scene) (scenename : String) : List KX_Scene :=
  match scenes.find? (fun scene => scene.m_name == scenename) with
  | some _ => scenes.eraseP (fun scene => scene.m_name == scenename)
  | none => scenes

/-- The method `KX_KetsjiEngine::RemoveScheduledScenes`. -/
def RemoveScheduledScenes (e : KX_KetsjiEngine) : KX_KetsjiEngine :=
  if !e.m_removingScenes.isEmpty then
    { e with
      m_scenes := e.m_removingScenes.foldl removeNamed e.m_scenes
      m_removingScenes := [] }
  else
    e

/-- The body of the first loop of `AddScheduledScenes`: the new scene goes to the end. -/
def addOverlayScene (conv : BL_Converter) (e : KX_KetsjiEngine) (scenename : String) :
    KX_KetsjiEngine :=
  match CreateSceneNamed conv scenename with
  | some tmpscene =>
    let converted := conv.ConvertScene e.heap tmpscene
    let processed := PostProcessScene e converted.1 converted.2
    { e with heap := processed.1, m_scenes := e.m_scenes ++ [processed.2] }
  | none => e

/-- The body of the second loop of `AddScheduledScenes`: the new scene goes to index 0. -/
def addBackgroundScene (conv : BL_Converter) (e : KX_KetsjiEngine) (scenename : String) :
    KX_KetsjiEngine :=
  match CreateSceneNamed conv scenename with
  | some tmpscene =>
    let converted := conv.ConvertScene e.heap tmpscene
    let processed := PostProcessScene e converted.1 converted.2
    { e with heap := processed.1, m_scenes := processed.2 :: e.m_scenes }
  | none => e

/-- The method `KX_KetsjiEngine::AddScheduledScenes`. -/
def AddScheduledScenes (conv : BL_Converter) (e : KX_KetsjiEngine) : KX_KetsjiEngine :=
  let e1 :=
    if !e.m_addingOverlayScenes.isEmpty then
      { e.m_addingOverlayScenes.foldl (addOverlayScene conv) e with m_addingOverlayScenes := [] }
    else
      e
  if !e1.m_addingBackgroundScenes.isEmpty then
    { e1.m_addingBackgroundScenes.foldl (addBackgroundScene conv) e1 with
      m_addingBackgroundScenes := [] }
  else
    e1

/-- The method `KX_KetsjiEngine::ProcessScheduledScenes`. -/
def ProcessScheduledScenes (conv : BL_Converter) (e : KX_KetsjiEngine) : KX_KetsjiEngine :=
  let e1 :=
    if !(e.m_addingOverlayScenes.isEmpty && e.m_addingBackgroundScenes.isEmpty &&
        e.m_replace_scenes.isEmpty && e.m_removingScenes.isEmpty) then
      AddScheduledScenes conv (RemoveScheduledScenes (ReplaceScheduledScenes conv e))
    else
      e
  if e1.m_scenes.isEmpty then RequestExit Code.NO_SCENES_LEFT e1 else e1

/-- No scene change is queued. -/
def noPending (e : KX_KetsjiEngine) : Prop :=
  e.m_addingOverlayScenes = [] ∧ e.m_addingBackgroundScenes = [] ∧
  e.m_replace_scenes = [] ∧ e.m_removingScenes = []

/-! ## Engine orchestrator -/

/-- The method `KX_KetsjiEngine::UpdateSuspendedScenes`. -/
def UpdateSuspendedScenes (framestep : ℚ) (e : KX_KetsjiEngine) : KX_KetsjiEngine :=
  { e with
    m_scenes := e.m_scenes.map (fun scene =>
      if scene.IsSuspended then scene.SetSuspendedDelta (scene.GetSuspendedDelta + framestep)
      else scene) }

/-- The body of the loop over `m_scenes` in `NextFrame`, for one scene.  The loggers and
`KX_SetActiveScene` are outside the model. -/
def sceneFrame (fuel : Nat) (frameTime : ℚ) (times : FrameTimes) (h : Heap) (scene : KX_Scene) :
    Option (Heap × KX_Scene) :=
  let scene0 := scene.UpdateObjectActivity
  if !scene0.IsSuspended then
    match LogicBeginFrame fuel frameTime times.framestep h scene0 with
    | none => none
    | some r1 =>
      let scene2 := (r1.2.UpdateParents).LogicUpdateFrame frameTime
      match LogicEndFrame fuel r1.1 scene2 with
      | none => none
      | some r2 =>
        match ProceedDeltaTime r2.2.UpdateParents frameTime times.timestep times.framestep with
        | none => none
        | some scene3 => some (r2.1, scene3.UpdateParents)
  else
    some (h, scene0)

/-- The loop `for (KX_Scene *scene : m_scenes)` of `NextFrame`. -/
def scenesFrame (fuel : Nat) (frameTime : ℚ) (times : FrameTimes) :
    Heap → List KX_Scene → Option (Heap × List KX_Scene)
  | h, [] => some (h, [])
  | h, scene :: rest =>
    match sceneFrame fuel frameTime times h scene with
    | none => none
    | some r1 =>
      match scenesFrame fuel frameTime times r1.1 rest with
      | none => none
      | some r2 => some (r2.1, r1.2 :: r2.2)

/-- One iteration of the frame loop of `NextFrame` (one tick).  The joystick events, the network
messages, the input device and `ProcessScheduledLibraries` are outside the model. -/
def tick (fuel : Nat) (conv : BL_Converter) (times : FrameTimes) (e : KX_KetsjiEngine) :
    Option KX_KetsjiEngine :=
  match scenesFrame fuel (e.m_frameTime + times.framestep) times e.heap e.m_scenes with
  | none => none
  | some r =>
    some (ProcessScheduledScenes conv
      (UpdateSuspendedScenes times.framestep
        { e with m_frameTime := e.m_frameTime + times.framestep, heap := r.1, m_scenes := r.2 }))

/-- The first `k` iterations of the frame loop of `NextFrame`. -/
def ticks (fuel : Nat) (conv : BL_Converter) (times : FrameTimes) :
    Nat → KX_KetsjiEngine → Option KX_KetsjiEngine
  | 0, e => some e
  | k + 1, e =>
    match tick fuel conv times e with
    | none => none
    | some e1 => ticks fuel conv times k e1

/-- The method `KX_KetsjiEngine::NextFrame`: the returned flag and the engine.  The loop counter
is an `unsigned short` compared with the `int` frame count, so a count above 65535 is never
reached and the loop does not end: no result. -/
def NextFrame (fuel : Nat) (conv : BL_Converter) (now : ℚ) (e : KX_KetsjiEngine) :
    Option (Bool × KX_KetsjiEngine) :=
  let r := GetFrameTimes now e
  if r.1.frames = 0 then
    some (false, r.2)
  else if r.1.frames > 65535 then
    none
  else
    match ticks fuel conv r.1 r.1.frames.toNat r.2 with
    | none => none
    | some e1 => some (e1.m_doRender, e1)

/-- The second scene has the suspend flag and the suspended delta of the first. -/
def SameSuspend (a b : KX_Scene) : Prop :=
  b.m_suspend = a.m_suspend ∧ b.m_suspendedDelta = a.m_suspendedDelta

/-- A scene after `k` ticks of framestep `f` spent suspended: `k × f` more suspended delta, and
`k` calls of `UpdateObjectActivity` as the only calls received. -/
def suspendedAfter (scene : KX_Scene) (k : Nat) (f : ℚ) : KX_Scene :=
  { scene with
    m_suspendedDelta := scene.m_suspendedDelta + k * f
    calls := scene.calls ++ List.replicate k SceneCall.UpdateObjectActivity }

/-- The second engine differs from the first in the pending queues only, which hold what they
held, in the same order, followed by what was appended. -/
def OnlyQueued (e e2 : KX_KetsjiEngine) : Prop :=
  e2.m_scenes = e.m_scenes ∧ e2.heap = e.heap ∧ e2.m_exitInfo = e.m_exitInfo ∧
  e2.m_frameTime = e.m_frameTime ∧
  (∃ l : List String, e2.m_addingOverlayScenes = e.m_addingOverlayScenes ++ l) ∧
  (∃ l : List String, e2.m_addingBackgroundScenes = e.m_addingBackgroundScenes ++ l) ∧
  (∃ l : List String, e2.m_removingScenes = e.m_removingScenes ++ l) ∧
  (∃ l : List (String × String), e2.m_replace_scenes = e.m_replace_scenes ++ l)

/-- The second engine has the frame time, the time scale and the render flag of the first. -/
def SameTiming (e e2 : KX_KetsjiEngine) : Prop :=
  e2.m_frameTime = e.m_frameTime ∧ e2.m_timescale = e.m_timescale ∧ e2.m_doRender = e.m_doRender

/-- The engine with the four pending queues replaced. -/
def withQueues (e : KX_KetsjiEngine) (ov bg rem : List String) (rep : List (String × String)) :
    KX_KetsjiEngine :=
  { e with
    m_addingOverlayScenes := ov
    m_addingBackgroundScenes := bg
    m_removingScenes := rem
    m_replace_scenes := rep }

/-- The loops of `ReplaceScheduledScenes`, `RemoveScheduledScenes` and `AddScheduledScenes` as a
function of the four queues: the replacements in queue order, then the removals, then the
overlay additions, then the background additions, on the engine with its queues emptied; then
the exit request of `ProcessScheduledScenes` when no scene is left. -/
def applyQueues (conv : BL_Converter) (e : KX_KetsjiEngine) (rep : List (String × String))
    (rem ov bg : List String) : KX_KetsjiEngine :=
  let e0 := withQueues e [] [] [] []
  let r := rep.foldl
    (fun (acc : Heap × List KX_Scene) (names : String × String) =>
      replaceInList conv e0 names.1 names.2 acc.1 acc.2)
    (e0.heap, e0.m_scenes)
  let e1 : KX_KetsjiEngine := { e0 with heap := r.1, m_scenes := rem.foldl removeNamed r.2 }
  let e2 := bg.foldl (addBackgroundScene conv) (ov.foldl (addOverlayScene conv) e1)
  if e2.m_scenes.isEmpty then RequestExit Code.NO_SCENES_LEFT e2 else e2

/-- A scene whose part of a tick has a result whatever the fuel: it is suspended, or it has no
temporary object, nothing in the euthanasia queue, and a physics environment. -/
def Quiet (scene : KX_Scene) : Prop :=
  scene.m_suspend = true ∨
  (scene.m_tempObjectList = [] ∧ scene.m_euthanasyobjects = [] ∧
    scene.m_physicsEnvironment.isSome = true)

/-! ## Render scheduler -/

/-- The stereo modes `RAS_Rasterizer::StereoMode` that `ScheduleRender` tells apart; `other`
stands for every other mode of the enum (the modes that draw both eyes into one frame). -/
inductive StereoMode
  | RAS_STEREO_NOSTEREO
  | RAS_STEREO_INTERLACED
  | RAS_STEREO_VINTERLACE
  | RAS_STEREO_ANAGLYPH
  | other (code : Nat)
deriving DecidableEq

/-- The eyes `RAS_Rasterizer::StereoEye`. -/
inductive StereoEye
  | RAS_STEREO_LEFTEYE
  | RAS_STEREO_RIGHTEYE
deriving DecidableEq

/-- Modelled from the spec: the cast `(RAS_Rasterizer::StereoEye)index` of a loop index 0 or 1.
The enum is declared in `RAS_Rasterizer.h`, which is not among the files; the left eye has the
value 0 and the right eye the value 1. -/
def StereoEye.ofIndex (index : Nat) : StereoEye :=
  if index = 0 then StereoEye.RAS_STEREO_LEFTEYE else StereoEye.RAS_STEREO_RIGHTEYE

/-- The off-screen kinds `RAS_OffScreen::Type` that `ScheduleRender` hands out. -/
inductive OffScreenType
  | RAS_OFFSCREEN_EYE_LEFT0
  | RAS_OFFSCREEN_EYE_RIGHT0
deriving DecidableEq

/-- The plan for one camera and one eye, `KX_CameraRenderSchedule`.  The matrices, areas and
frusta are outside the model; `cullingcam` is the camera the culling members are read from. -/
structure KX_CameraRenderSchedule where
  m_camera : Nat
  cullingcam : Nat
  m_stereoMode : StereoMode
  m_eye : StereoEye
  m_index : Nat
deriving DecidableEq

/-- The plan for one frame, `KX_FrameRenderSchedule`. -/
structure KX_FrameRenderSchedule where
  m_ofsType : OffScreenType
  m_eyes : List StereoEye
deriving DecidableEq

/-- The plan for one scene, `KX_SceneRenderSchedule`: `m_cameraSchedules` is the array of
camera-schedule lists indexed by eye.  The texture schedules are outside the model. -/
structure KX_SceneRenderSchedule where
  m_scene : KX_Scene
  m_cameraSchedules : StereoEye → List KX_CameraRenderSchedule

/-- The plan for one render call, `KX_RenderSchedule`. -/
structure KX_RenderSchedule where
  m_renderPerEye : Bool
  m_frameSchedules : List KX_FrameRenderSchedule
  m_sceneSchedules : List KX_SceneRenderSchedule

/-- Modelled from the spec: `KX_Camera::UseViewport` (of `KX_Camera.cpp`, which is not among the
files), whether the camera is explicitly viewport-enabled; a camera with default settings is
not. -/
def UseViewport (h : Heap) (cam : Nat) : Bool :=
  match (h.obj cam).m_camdata with
  | some camdata => camdata.m_viewport
  | none => false

/-- The method `KX_KetsjiEngine::ScheduleCameraRender`, without the display area; the parameter
`viewportIndex` is an `unsigned short`. -/
def ScheduleCameraRender (camera : Nat) (overrideCullingCam : Option Nat)
    (stereoMode : StereoMode) (eye : StereoEye) (viewportIndex : Nat) :
    KX_CameraRenderSchedule :=
  { m_camera := camera
    cullingcam :=
      match overrideCullingCam with
      | some cam => cam
      | none => camera
    m_stereoMode := stereoMode
    m_eye := eye
    m_index := viewportIndex % 65536 }

/-- The local constant `useStereo` of `ScheduleRender`. -/
def useStereo (stereoMode : StereoMode) : Bool :=
  stereoMode != StereoMode.RAS_STEREO_NOSTEREO

/-- The local constant `renderPerEye` of `ScheduleRender`: true when each eye is rendered in a
separate off screen. -/
def renderPerEye (stereoMode : StereoMode) : Bool :=
  stereoMode == StereoMode.RAS_STEREO_INTERLACED ||
  stereoMode == StereoMode.RAS_STEREO_VINTERLACE ||
  stereoMode == StereoMode.RAS_STEREO_ANAGLYPH

/-- The local constant `numeyes` of `ScheduleRender`. -/
def numeyes (stereoMode : StereoMode) : Nat :=
  if useStereo stereoMode then 2 else 1

/-- The local constant `numframes` of `ScheduleRender`. -/
def numframes (stereoMode : StereoMode) : Nat :=
  if renderPerEye stereoMode then 2 else 1

/-- The table `ofsType` of `ScheduleRender`, read at an index below 2. -/
def ofsType (index : Nat) : OffScreenType :=
  if index = 0 then OffScreenType.RAS_OFFSCREEN_EYE_LEFT0
  else OffScreenType.RAS_OFFSCREEN_EYE_RIGHT0

/-- The body of the first loop of `ScheduleRender`: the frame schedule of index `index`. -/
def scheduleFrame (stereoMode : StereoMode) (index : Nat) : KX_FrameRenderSchedule :=
  { m_ofsType := ofsType index
    m_eyes :=
      if !useStereo stereoMode then [StereoEye.RAS_STEREO_LEFTEYE]
      else if renderPerEye stereoMode then [StereoEye.ofIndex index]
      else [StereoEye.RAS_STEREO_LEFTEYE, StereoEye.RAS_STEREO_RIGHTEYE] }

/-- The statement `m_cameraSchedules[eye].push_back(schedule)`. -/
def pushCameraSchedule (schedules : StereoEye → List KX_CameraRenderSchedule) (eye : StereoEye)
    (schedule : KX_CameraRenderSchedule) : StereoEye → List KX_CameraRenderSchedule :=
  fun other => if other = eye then schedules other ++ [schedule] else schedules other

/-- The inner loop of `ScheduleRender` over the eyes `eye`, `eye + 1`, ... below `numeyes` for
one camera (`count` eyes are left); `viewportIndex` is an `unsigned int`, incremented after each
use. -/
def scheduleEyes (scene : KX_Scene) (cam : Nat) (stereoMode : StereoMode) :
    Nat → Nat → Nat → (StereoEye → List KX_CameraRenderSchedule) →
    Nat × (StereoEye → List KX_CameraRenderSchedule)
  | 0, _, viewportIndex, schedules => (viewportIndex, schedules)
  | count + 1, eye, viewportIndex, schedules =>
    scheduleEyes scene cam stereoMode count (eye + 1) ((viewportIndex + 1) % 4294967296)
      (pushCameraSchedule schedules (StereoEye.ofIndex eye)
        (ScheduleCameraRender cam scene.m_overrideCullingCamera stereoMode
          (StereoEye.ofIndex eye) viewportIndex))

/-- The loop of `ScheduleRender` over the camera list of a scene: a camera that is neither the
active camera nor viewport-enabled is skipped. -/
def scheduleCameras (h : Heap) (scene : KX_Scene) (stereoMode : StereoMode) :
    List Nat → Nat → (StereoEye → List KX_CameraRenderSchedule) →
    StereoEye → List KX_CameraRenderSchedule
  | [], _, schedules => schedules
  | cam :: rest, viewportIndex, schedules =>
    if (some cam != scene.m_activeCamera) && !UseViewport h cam then
      scheduleCameras h scene stereoMode rest viewportIndex schedules
    else
      let r := scheduleEyes scene cam stereoMode (numeyes stereoMode) 0 viewportIndex schedules
      scheduleCameras h scene stereoMode rest r.1 r.2

/-- The body of the loop of `ScheduleRender` over the scenes, without the texture schedules. -/
def scheduleScene (h : Heap) (stereoMode : StereoMode) (scene : KX_Scene) :
    KX_SceneRenderSchedule :=
  { m_scene := scene
    m_cameraSchedules := scheduleCameras h scene stereoMode scene.m_cameralist 0 (fun _ => []) }

/-- The method `KX_KetsjiEngine::ScheduleRender`; `stereoMode` is the value of
`m_rasterizer->GetStereoMode()`. -/
def ScheduleRender (stereoMode : StereoMode) (e : KX_KetsjiEngine) : KX_RenderSchedule :=
  { m_renderPerEye := renderPerEye stereoMode
    m_frameSchedules := (List.range (numframes stereoMode)).map (scheduleFrame stereoMode)
    m_sceneSchedules := e.m_scenes.map (scheduleScene e.heap stereoMode) }

/-- The eyes in use: the eyes the loops `eye < numeyes` of `ScheduleRender` run over. -/
def eyesInUse (stereoMode : StereoMode) : List StereoEye :=
  (List.range (numeyes stereoMode)).map StereoEye.ofIndex

/-- Whether `ScheduleRender` schedules the camera `cam` of the scene: it is the active camera
or it is viewport-enabled. -/
def scheduled (h : Heap) (scene : KX_Scene) (cam : Nat) : Bool :=
  !((some cam != scene.m_activeCamera) && !UseViewport h cam)

/-! ## Time accounting over successive calls -/

/-- The method `KX_KetsjiEngine::SetClockTime`. -/
def SetClockTime (externalClockTime : ℚ) (e : KX_KetsjiEngine) : KX_KetsjiEngine :=
  { e with m_clockTime := externalClockTime }

/-- One call of `GetFrameTimes` at the clock time `now`: the reading of `m_clock`, or under an
external clock the time the user set with `SetClockTime` before the call. -/
def frameTimesAt (now : ℚ) (e : KX_KetsjiEngine) : FrameTimes × KX_KetsjiEngine :=
  GetFrameTimes now (if e.USE_EXTERNAL_CLOCK then SetClockTime now e else e)

/-- Successive calls of `GetFrameTimes` at the clock times `times`: the total simulated time,
that is the sum of frames × timestep over the calls, and the engine after the last call. -/
def simulatedTime : List ℚ → KX_KetsjiEngine → ℚ × KX_KetsjiEngine
  | [], e => (0, e)
  | now :: rest, e =>
    ((frameTimesAt now e).1.frames * (frameTimesAt now e).1.timestep +
        (simulatedTime rest (frameTimesAt now e).2).1,
      (simulatedTime rest (frameTimesAt now e).2).2)

/-- No call of the run takes a clamp branch of `GetFrameTimes`. -/
def neverClamped : List ℚ → KX_KetsjiEngine → Prop
  | [], _ => True
  | now :: rest, e =>
    ¬ clamped now (if e.USE_EXTERNAL_CLOCK then SetClockTime now e else e) ∧
    neverClamped rest (frameTimesAt now e).2

/-! ## Debug properties -/

/-- The method `KX_Scene::AddObjectDebugProperties`: its body is compiled out (`#if 0`). -/
def AddObjectDebugProperties (scene : KX_Scene) (_gameobj : Nat) : KX_Scene :=
  scene

/-- The method `KX_Scene::AddDebugProperty`. -/
def AddDebugProperty (scene : KX_Scene) (gameobj : Nat) (name : String) : KX_Scene :=
  if scene.m_debugList.length < 100 then
    { scene with m_debugList := scene.m_debugList ++ [{ m_obj := gameobj, m_name := name }] }
  else
    scene

/-- The method `KX_Scene::RemoveDebugProperty`: the first entry of that object and name is
erased. -/
def RemoveDebugProperty (scene : KX_Scene) (gameobj : Nat) (name : String) : KX_Scene :=
  { scene with
    m_debugList :=
      scene.m_debugList.eraseP (fun prop => prop.m_obj == gameobj && prop.m_name == name) }

/-- The method `KX_Scene::RemoveAllDebugProperties`. -/
def RemoveAllDebugProperties (scene : KX_Scene) : KX_Scene :=
  { scene with m_debugList := [] }

/-- Modelled from the spec: whether `gameobj->GetProperty(propname)` of `KX_GameObject` (not
among the files) finds a property; the countdown `::timebomb` is kept in its own field. -/
def HasProperty (h : Heap) (gameobj : Nat) (propname : String) : Bool :=
  if propname = "::timebomb" then (h.obj gameobj).timebomb.isSome
  else decide (propname ∈ (h.obj gameobj).m_propertyNames)

/-- A call `debugDraw.RenderText2d(debugtxt, (x, y), white)` of `RenderDebugProperties`, with
the object and the property the text is made of. -/
structure DebugLine where
  m_obj : Nat
  m_name : String
  x : Int
  y : Int
deriving DecidableEq

/-- The method `KX_Scene::RenderDebugProperties`: the lines drawn and the final `ycoord`
(`xcoord` is passed by reference and not written).  The local `numprop`, the list size capped
at `propsMax`, is computed and not used by the loop. -/
def KX_Scene.RenderDebugProperties (h : Heap) (scene : KX_Scene) (xindent ysize xcoord ycoord : Int)
    (propsMax : Nat) : List DebugLine × Int :=
  let _numprop : Nat :=
    if scene.m_debugList.length % 65536 > propsMax then propsMax
    else scene.m_debugList.length % 65536
  scene.m_debugList.foldl
    (fun (acc : List DebugLine × Int) debugProp =>
      if HasProperty h debugProp.m_obj debugProp.m_name then
        (acc.1 ++ [{ m_obj := debugProp.m_obj
                     m_name := debugProp.m_name
                     x := xcoord + xindent
                     y := acc.2 }],
          acc.2 + ysize)
      else acc)
    ([], ycoord)

/-- The method `KX_KetsjiEngine::AddScene`. -/
def AddScene (scene : KX_Scene) (e : KX_KetsjiEngine) : KX_KetsjiEngine :=
  { e with
    heap := (PostProcessScene e e.heap scene).1
    m_scenes := e.m_scenes ++ [(PostProcessScene e e.heap scene).2] }

/-- The method `KX_Scene::SetActiveCamera`. -/
def KX_Scene.SetActiveCamera (scene : KX_Scene) (cam : Option Nat) : KX_Scene :=
  { scene with m_activeCamera := cam }

/-- What the C++ types and the way the lists are filled give for a scene: the camera, light and
font lists (`EXP_ListValue<KX_Camera>`, ...) hold objects of their type, and the euthanasia
queue, the temporary-object list and the animated list, filled with `CM_ListAddIfNotFound` or
with a newly made object, are free of duplicates. -/
def ListsWellFormed (h : Heap) (scene : KX_Scene) : Prop :=
  (∀ g : Nat, g ∈ scene.m_cameralist →
    (h.obj g).m_objectType = ObjectType.OBJECT_TYPE_CAMERA) ∧
  (∀ g : Nat, g ∈ scene.m_lightlist →
    (h.obj g).m_objectType = ObjectType.OBJECT_TYPE_LIGHT) ∧
  (∀ g : Nat, g ∈ scene.m_fontlist →
    (h.obj g).m_objectType = ObjectType.OBJECT_TYPE_TEXT) ∧
  scene.m_euthanasyobjects.Nodup ∧ scene.m_tempObjectList.Nodup ∧ scene.m_animatedlist.Nodup

/-! ## Renderer -/

/-- One call of `RenderCamera` as `Render` makes it, with what it does to the buffers:
`clearDepth` tells whether it called `m_rasterizer->Clear(RAS_DEPTH_BUFFER_BIT)`, its only call
of `Clear`.  `scene` is the index of the scene schedule; `pass` is an `unsigned short`. -/
structure CameraRender where
  scene : Nat
  m_camera : Nat
  m_eye : StereoEye
  pass : Nat
  isFirstScene : Bool
  clearDepth : Bool
deriving DecidableEq

/-- The calls of `Render` on the off screens and the rasterizer, in order (ghost record):
`offScreen->Bind()` of a frame, the clear of the colour and depth buffers that follows it, the
calls of `RenderCamera` and of `PostRenderScene`. -/
inductive RenderCall
  | Bind (ofsType : OffScreenType)
  | ClearColourDepth
  | Camera (c : CameraRender)
  | PostRenderScene (scene : Nat) (islastscene : Bool)
deriving DecidableEq

/-- The method `KX_KetsjiEngine::RenderCamera`: the depth buffer is cleared if it is not the
first render pass.  The drawing itself is outside the model. -/
def RenderCamera (scene : Nat) (cameraSchedule : KX_CameraRenderSchedule) (pass : Nat)
    (isFirstScene : Bool) : RenderCall :=
  RenderCall.Camera
    { scene := scene
      m_camera := cameraSchedule.m_camera
      m_eye := cameraSchedule.m_eye
      pass := pass
      isFirstScene := isFirstScene
      clearDepth := decide (pass > 0) }

/-- The loop of `Render` over the camera schedules of one scene and eye: `RenderCamera` with
`pass++`, the counter being an `unsigned short`. -/
def renderCameras (scene : Nat) (isfirstscene : Bool) :
    List KX_CameraRenderSchedule → Nat → List RenderCall × Nat
  | [], pass => ([], pass)
  | cameraSchedule :: rest, pass =>
    (RenderCamera scene cameraSchedule pass isfirstscene ::
        (renderCameras scene isfirstscene rest ((pass + 1) % 65536)).1,
      (renderCameras scene isfirstscene rest ((pass + 1) % 65536)).2)

/-- The loop of `Render` over the eyes handled by the frame, for one scene. -/
def renderEyes (scene : Nat) (sceneSchedule : KX_SceneRenderSchedule) (isfirstscene : Bool) :
    List StereoEye → Nat → List RenderCall × Nat
  | [], pass => ([], pass)
  | eye :: rest, pass =>
    ((renderCameras scene isfirstscene (sceneSchedule.m_cameraSchedules eye) pass).1 ++
        (renderEyes scene sceneSchedule isfirstscene rest
          (renderCameras scene isfirstscene (sceneSchedule.m_cameraSchedules eye) pass).2).1,
      (renderEyes scene sceneSchedule isfirstscene rest
        (renderCameras scene isfirstscene (sceneSchedule.m_cameraSchedules eye) pass).2).2)

/-- The loop of `Render` over the scene schedules, for one frame: `i` is the index of the
scene, `size` the number of scene schedules as the `unsigned short` of the loop holds it. -/
def renderScenes (frameSchedule : KX_FrameRenderSchedule) (size : Nat) :
    List KX_SceneRenderSchedule → Nat → Nat → List RenderCall × Nat
  | [], _, pass => ([], pass)
  | sceneSchedule :: rest, i, pass =>
    ((renderEyes i sceneSchedule (i == 0) frameSchedule.m_eyes pass).1 ++
        RenderCall.PostRenderScene i (i + 1 == size) ::
        (renderScenes frameSchedule size rest (i + 1)
          (renderEyes i sceneSchedule (i == 0) frameSchedule.m_eyes pass).2).1,
      (renderScenes frameSchedule size rest (i + 1)
        (renderEyes i sceneSchedule (i == 0) frameSchedule.m_eyes pass).2).2)

/-- The loop of `Render` over the frame schedules: the off screen of the frame is bound and
cleared, then the scenes are rendered.  The counter `pass` is declared before this loop. -/
def renderFrames (sceneSchedules : List KX_SceneRenderSchedule) :
    List KX_FrameRenderSchedule → Nat → List RenderCall × Nat
  | [], pass => ([], pass)
  | frameSchedule :: rest, pass =>
    (RenderCall.Bind frameSchedule.m_ofsType :: RenderCall.ClearColourDepth ::
        ((renderScenes frameSchedule (sceneSchedules.length % 65536)
            (sceneSchedules.take (sceneSchedules.length % 65536)) 0 pass).1 ++
          (renderFrames sceneSchedules rest
            (renderScenes frameSchedule (sceneSchedules.length % 65536)
              (sceneSchedules.take (sceneSchedules.length % 65536)) 0 pass).2).1),
      (renderFrames sceneSchedules rest
        (renderScenes frameSchedule (sceneSchedules.length % 65536)
          (sceneSchedules.take (sceneSchedules.length % 65536)) 0 pass).2).2)

/-- The part of `KX_KetsjiEngine::Render` between the build of the schedule and the
compositing: the calls made for a render schedule.  The texture renders, the viewport and the
clear colour are outside the model. -/
def renderCalls (renderSchedule : KX_RenderSchedule) : List RenderCall :=
  (renderFrames renderSchedule.m_sceneSchedules renderSchedule.m_frameSchedules 0).1

/-- The method `KX_KetsjiEngine::Render`: the calls made for the schedule that
`ScheduleRender` builds. -/
def Render (stereoMode : StereoMode) (e : KX_KetsjiEngine) : List RenderCall :=
  renderCalls (ScheduleRender stereoMode e)

/-- The camera renders `l` have the passes `p`, `p + 1`, ... as an `unsigned short` counter
gives them, the counter ends at `out`, and each render cleared the depth buffer exactly if its
pass was not 0. -/
def PassesFrom (p : Nat) (l : List CameraRender) (out : Nat) : Prop :=
  l.map (fun c => c.pass) = (List.range l.length).map (fun k => (p + k) % 65536) ∧
  out = (p + l.length) % 65536 ∧
  ∀ c : CameraRender, c ∈ l → c.clearDepth = decide (c.pass > 0)

/-- A call that is made inside the scene loop of a frame: a camera render or the
post-processing of a scene. -/
def RenderCall.inScene : RenderCall → Bool
  | RenderCall.Camera _ => true
  | RenderCall.PostRenderScene _ _ => true
  | _ => false

/-- The camera renders of a record of calls, in order. -/
def cameraRenders : List RenderCall → List CameraRender
  | [] => []
  | RenderCall.Camera c :: rest => c :: cameraRenders rest
  | _ :: rest => cameraRenders rest

/-! ## Replication -/

/-- The method `KX_Scene::AddNodeReplicaObject` as `AddReplicaObject` reaches it: the set of
group objects is empty, so that every object counts as in the group.  Modelled from the spec
as far as `KX_GameObject::GetReplica` goes, which is not among the files ("replication
deep-copies an object"): the new object is a copy of the original, properties included.  It
gets a node with the local transform of the original, no parent and no children yet, and joins
the object list and the list of its type.  `AddObjectDebugProperties`, called under the engine
flag `AUTO_ADD_DEBUG_PROPERTIES`, has its body compiled out; controllers, components and bounds
are outside the model.  Returns the heap, the scene and the new object. -/
def AddNodeReplicaObject (h : Heap) (scene : KX_Scene) (gameobj : Nat) :
    Heap × KX_Scene × Nat :=
  let newobj := (h.alloc { h.obj gameobj with m_sgNode := true, m_parent := none, m_children := [] }).1
  let h1 := (h.alloc { h.obj gameobj with m_sgNode := true, m_parent := none, m_children := [] }).2
  let scene1 : KX_Scene :=
    { AddObjectDebugProperties scene newobj with
      m_objectlist := scene.m_objectlist ++ [newobj] }
  let scene2 : KX_Scene :=
    match (h1.obj newobj).m_objectType with
    | ObjectType.OBJECT_TYPE_LIGHT =>
      { scene1 with m_lightlist := scene1.m_lightlist ++ [newobj] }
    | ObjectType.OBJECT_TYPE_TEXT =>
      { scene1 with m_fontlist := scene1.m_fontlist ++ [newobj] }
    | ObjectType.OBJECT_TYPE_CAMERA =>
      { scene1 with m_cameralist := scene1.m_cameralist ++ [newobj] }
    | ObjectType.OBJECT_TYPE_ARMATURE => scene1.AddAnimatedObject newobj
    | _ => scene1
  (h1, scene2, newobj)

/-- Modelled from the spec: `SG_Node::AddChild` (class not among the files), on the client
objects: the child gets the parent and joins its children. -/
def AddChild (h : Heap) (parent child : Nat) : Heap :=
  (h.set child { h.obj child with m_parent := some parent }).set parent
    { (h.set child { h.obj child with m_parent := some parent }).obj parent with
      m_children :=
        ((h.set child { h.obj child with m_parent := some parent }).obj parent).m_children ++
          [child] }

/-- Modelled from the spec: `SG_Node::GetReplica` on the node of the object `child`, followed by
the `AddChild` of the caller (class `SG_Node` is not among the files; "children are replicated
depth-first and re-attached under the new parent node").  The replication callback
`KX_SceneReplicationFunc` runs `AddNodeReplicaObject` on the object of the node, then the
children of the node are replicated under the new node.  `fuel` bounds the depth of the
recursion. -/
def replicateChild : Nat → Heap → KX_Scene → Nat → Nat → Option (Heap × KX_Scene)
  | 0, _, _, _, _ => none
  | fuel + 1, h, scene, parent, child =>
    match (h.obj child).m_children.foldlM
        (fun (acc : Heap × KX_Scene) c =>
          replicateChild fuel acc.1 acc.2 (AddNodeReplicaObject h scene child).2.2 c)
        ((AddNodeReplicaObject h scene child).1, (AddNodeReplicaObject h scene child).2.1) with
    | none => none
    | some acc => some (AddChild acc.1 parent (AddNodeReplicaObject h scene child).2.2, acc.2)

/-- The method `KX_Scene::AddReplicaObject`: heap, scene and the replica.  An original without
node makes `AddNodeReplicaObject` dereference null: no result.  `lifespan` is a `float`; the
product `lifespan * 0.02f` is exact here.  The body of `DupliGroupRecurse` is compiled out
(`#if 0`); the transform and the layer taken from the reference object are outside the
model. -/
def AddReplicaObject (fuel : Nat) (h : Heap) (scene : KX_Scene) (originalobj : Nat)
    (lifespan : ℚ) : Option (Heap × KX_Scene × Nat) :=
  if !(h.obj originalobj).m_sgNode then
    none
  else
    let replica := (AddNodeReplicaObject h scene originalobj).2.2
    let h1 := (AddNodeReplicaObject h scene originalobj).1
    let scene1 := (AddNodeReplicaObject h scene originalobj).2.1
    let h2 : Heap :=
      if lifespan > 0 then
        h1.set replica { h1.obj replica with timebomb := some (lifespan * (2 / 100)) }
      else h1
    let scene2 : KX_Scene :=
      if lifespan > 0 then
        { scene1 with m_tempObjectList := scene1.m_tempObjectList ++ [replica] }
      else scene1
    let scene3 : KX_Scene := { scene2 with m_parentlist := scene2.m_parentlist ++ [replica] }
    match (h2.obj originalobj).m_children.foldlM
        (fun (acc : Heap × KX_Scene) child => replicateChild fuel acc.1 acc.2 replica child)
        (h2, scene3) with
    | none => none
    | some acc => some (acc.1, acc.2, replica)


/-- The address `x` is in no temporary-object list, euthanasia queue or dupli-group instance
list. -/
def Unlisted (h : Heap) (scene : KX_Scene) (x : Nat) : Prop :=
  x ∉ scene.m_tempObjectList ∧ x ∉ scene.m_euthanasyobjects ∧
  ∀ (o : Nat) (l : List Nat), (h.obj o).m_instanceObjects = some l → x ∉ l

/-- The child lists of the allocated objects are well-founded: the children of an allocated
object are allocated, and `rank` decreases from an object to its children. -/
def ChildrenRanked (h : Heap) (rank : Nat → Nat) : Prop :=
  ∀ o c : Nat, o < h.next → c ∈ (h.obj o).m_children → c < h.next ∧ rank c < rank o

/-- What the replication of children leaves alone: the temporary-object list, the euthanasia
queue, the countdown of the objects allocated before, and the instance lists, each of which is
the instance list of an object of the heap before. -/
def ReplicaKeeps (a b : Heap × KX_Scene) : Prop :=
  b.2.m_tempObjectList = a.2.m_tempObjectList ∧
  b.2.m_euthanasyobjects = a.2.m_euthanasyobjects ∧
  a.1.next ≤ b.1.next ∧
  (∀ p : Nat, p < a.1.next → (b.1.obj p).timebomb = (a.1.obj p).timebomb) ∧
  (∀ o : Nat, ∃ o2 : Nat, (b.1.obj o).m_instanceObjects = (a.1.obj o2).m_instanceObjects)

/-- The heap `h` holds the objects below `n` as the heap `h0` does, and has allocated them. -/
def AgreeBelow (n : Nat) (h0 h : Heap) : Prop :=
  n ≤ h.next ∧ ∀ p : Nat, p < n → h.obj p = h0.obj p

/-- The body of the loop of `LogicBeginFrame` over the temporary objects. -/
def timebombStep (fuel : Nat) (framestep : ℚ) (acc : Heap × KX_Scene) (gameobj : Nat) :
    Option (Heap × KX_Scene) :=
  match (acc.1.obj gameobj).timebomb with
  | some value =>
    let timeleft := value - framestep
    if timeleft > 0 then
      some (acc.1.set gameobj { acc.1.obj gameobj with timebomb := some timeleft }, acc.2)
    else
      match DelayedRemoveObject acc.1 fuel acc.2 gameobj with
      | none => none
      | some sc => some (acc.1, sc)
  | none => some acc

/-! ## Scene requests and the apply order, as the specification states them -/

/-- A request to the scene registry: one call of `ConvertAndAddScene`, `RemoveScene` or
`ReplaceScene`. -/
inductive Request
  | add (scenename : String) (overlay : Bool)
  | remove (scenename : String)
  | replace (oldscene newscene : String)
deriving DecidableEq

/-- The call a request stands for. -/
def issue (conv : BL_Converter) (r : Request) (e : KX_KetsjiEngine) : KX_KetsjiEngine :=
  match r with
  | Request.add scenename overlay => ConvertAndAddScene scenename overlay e
  | Request.remove scenename => RemoveScene scenename e
  | Request.replace oldscene newscene => (ReplaceScene conv oldscene newscene e).2

/-- The calls of a list of requests, in the order of the list. -/
def issueAll (conv : BL_Converter) (reqs : List Request) (e : KX_KetsjiEngine) :
    KX_KetsjiEngine :=
  reqs.foldl (fun x r => issue conv r x) e

/-- The kind of a request: overlay addition 0, background addition 1, removal 2,
replacement 3. -/
def Request.kind : Request → Nat
  | Request.add _ true => 0
  | Request.add _ false => 1
  | Request.remove _ => 2
  | Request.replace _ _ => 3

/-- The replacement pairs among the requests that `ReplaceScene` accepts: the new name
resolves. -/
def acceptedReplaces (conv : BL_Converter) (reqs : List Request) : List (String × String) :=
  reqs.filterMap (fun r =>
    match r with
    | Request.replace oldscene newscene =>
      if (conv.GetBlenderSceneForName newscene).isSome then some (oldscene, newscene) else none
    | _ => none)

/-- The names among the removal requests that `RemoveScene` accepts: a scene of the engine has
the name. -/
def acceptedRemoves (e : KX_KetsjiEngine) (reqs : List Request) : List String :=
  reqs.filterMap (fun r =>
    match r with
    | Request.remove scenename => if (FindScene e scenename).isSome then some scenename else none
    | _ => none)

/-- The names among the addition requests of one policy that `ConvertAndAddScene` accepts: no
scene of the engine has the name. -/
def acceptedAdds (e : KX_KetsjiEngine) (overlay : Bool) (reqs : List Request) : List String :=
  reqs.filterMap (fun r =>
    match r with
    | Request.add scenename o =>
      if o = overlay ∧ (FindScene e scenename).isSome = false then some scenename else none
    | _ => none)

/-- One step of a replacement as the specification states it ("replace preserves the scene's
position in the ordered list"): a scene named `oldscene` gives its place to the scene built
from the source data of `newscene`, every other scene keeps its place. -/
def replaceOne (conv : BL_Converter) (e : KX_KetsjiEngine) (oldscene newscene : String)
    (acc : Heap × List KX_Scene) (scene : KX_Scene) : Heap × List KX_Scene :=
  if scene.m_name == oldscene then
    match conv.GetBlenderSceneForName newscene with
    | some blScene =>
      ((buildScene conv e acc.1 blScene).1, acc.2 ++ [(buildScene conv e acc.1 blScene).2])
    | none => (acc.1, acc.2 ++ [scene])
  else
    (acc.1, acc.2 ++ [scene])

/-- The replacements of the specification, applied in queue order to a heap and a scene
list. -/
def applyReplaces (conv : BL_Converter) (e : KX_KetsjiEngine) (rep : List (String × String))
    (hl : Heap × List KX_Scene) : Heap × List KX_Scene :=
  rep.foldl (fun acc names => acc.2.foldl (replaceOne conv e names.1 names.2) (acc.1, [])) hl

/-- The removals of the specification, applied in queue order: each takes the first scene of
that name out of the list, if there is one. -/
def applyRemoves (rem : List String) (l : List KX_Scene) : List KX_Scene :=
  rem.foldl (fun l scenename => l.eraseP (fun scene => scene.m_name == scenename)) l

/-- The scenes built from the names of a queue that resolve, in queue order, each on the heap
the one before left. -/
def buildAll (conv : BL_Converter) (e : KX_KetsjiEngine) : List String → Heap →
    Heap × List KX_Scene
  | [], h => (h, [])
  | scenename :: rest, h =>
    match conv.GetBlenderSceneForName scenename with
    | some blScene =>
      ((buildAll conv e rest (buildScene conv e h blScene).1).1,
       (buildScene conv e h blScene).2 ::
         (buildAll conv e rest (buildScene conv e h blScene).1).2)
    | none => buildAll conv e rest h

/-- The additions of the specification ("overlay appends to the end", "background inserts at
index 0"): the overlay scenes follow the list in queue order, and each background scene goes
in front of the list, so that the background scenes precede it in reverse queue order. -/
def applyAdds (conv : BL_Converter) (e : KX_KetsjiEngine) (ov bg : List String)
    (hl : Heap × List KX_Scene) : Heap × List KX_Scene :=
  ((buildAll conv e bg (buildAll conv e ov hl.1).1).1,
   (buildAll conv e bg (buildAll conv e ov hl.1).1).2.reverse ++ hl.2 ++
     (buildAll conv e ov hl.1).2)

/-- The second engine has the camera-override members of the first, which is what
`PostProcessScene` reads of an engine. -/
def SameOverride (e e2 : KX_KetsjiEngine) : Prop :=
  e2.CAMERA_OVERRIDE = e.CAMERA_OVERRIDE ∧ e2.m_overrideSceneName = e.m_overrideSceneName ∧
  e2.m_overrideCamData = e.m_overrideCamData ∧
  e2.m_overrideCamPosition = e.m_overrideCamPosition ∧
  e2.m_overrideCamOrientation = e.m_overrideCamOrientation

/-- The scenes the converter builds for the names queued for addition or replacement are
quiet. -/
def BuildsQuiet (conv : BL_Converter) (e : KX_KetsjiEngine) : Prop :=
  ∀ (scenename : String) (blScene : Scene),
    (scenename ∈ e.m_addingOverlayScenes ∨ scenename ∈ e.m_addingBackgroundScenes ∨
      ∃ oldscene : String, (oldscene, scenename) ∈ e.m_replace_scenes) →
    conv.GetBlenderSceneForName scenename = some blScene →
    ∀ h : Heap, Quiet (conv.ConvertScene h (CreateScene blScene)).2

/-! ## Concrete states used by the witnesses and counterexamples -/

/-- A fixed-framerate engine with the constructor's tic rate (60) and caps (5, 5). -/
def fixedEngine : KX_KetsjiEngine := { FIXED_FRAMERATE := true }

/-- A fixed-framerate engine whose physics cap was set to 0 with `SetMaxPhysicsFrame(0)`. -/
def zeroCapEngine : KX_KetsjiEngine := { FIXED_FRAMERATE := true, m_maxPhysicsFrame := 0 }

/-- A fixed-framerate engine under an external clock: the last tick batch ran at time 1, then
the user called `SetClockTime(119/120)`. -/
def backwardClockEngine : KX_KetsjiEngine :=
  { FIXED_FRAMERATE := true
    USE_EXTERNAL_CLOCK := true
    m_clockTime := 119 / 120
    m_previousRealTime := 1 }

/-- A converter that resolves the scene names A, B, C, X, Y, Z to source data and converts
every scene to one without objects. -/
def exampleConverter : BL_Converter :=
  { GetBlenderSceneForName := fun scenename =>
      if scenename ∈ ["A", "B", "C", "X", "Y", "Z"] then some { id_name := "SC" ++ scenename }
      else none
    ConvertScene := fun h scene => (h, scene) }

/-- The engine after `ConvertAndAddScene("Y", true)` was called twice in one tick and
`ProcessScheduledScenes` ran: two scenes named Y. -/
def twoYEngine : KX_KetsjiEngine :=
  ProcessScheduledScenes exampleConverter
    (ConvertAndAddScene "Y" true (ConvertAndAddScene "Y" true {}))

/-- The engine after adding the scenes X, Y, Z as overlays to an empty engine. -/
def xyzEngine : KX_KetsjiEngine :=
  ProcessScheduledScenes exampleConverter
    (ConvertAndAddScene "Z" true (ConvertAndAddScene "Y" true (ConvertAndAddScene "X" true {})))

/-- A heap with a dupli-group object 0 whose instances are 1 and 2, the object 1 being a
dupli-group with the instance 3. -/
def dupliHeap : Heap :=
  { obj := fun p =>
      if p = 0 then { m_isDupliGroup := true, m_instanceObjects := some [1, 2] }
      else if p = 1 then { m_isDupliGroup := true, m_instanceObjects := some [3] }
      else {}
    next := 4 }

/-- A scene whose euthanasia queue holds the object 2. -/
def queueScene : KX_Scene :=
  { m_name := "X"
    m_blenderScene := { id_name := "SCX" }
    m_objectlist := [0, 1, 2, 3]
    m_euthanasyobjects := [2] }

/-- A suspended scene without objects. -/
def pausedScene : KX_Scene :=
  { m_name := "X"
    m_blenderScene := { id_name := "SCX" }
    m_physicsEnvironment := some 0
    m_suspend := true }

/-- A running scene without objects. -/
def runningScene : KX_Scene :=
  { m_name := "Y"
    m_blenderScene := { id_name := "SCY" }
    m_physicsEnvironment := some 1 }

/-- An engine with a suspended and a running scene. -/
def pausedEngine : KX_KetsjiEngine :=
  { m_scenes := [pausedScene, runningScene] }

/-- Two frames of 1/60 s. -/
def twoFrames : FrameTimes :=
  { frames := 2, timestep := 1 / 60, framestep := 1 / 60 }

/-- A fixed-framerate engine under an external clock: the last tick batch ran at time 1, then
the user called `SetClockTime(0)`. -/
def rewoundEngine : KX_KetsjiEngine :=
  { FIXED_FRAMERATE := true
    USE_EXTERNAL_CLOCK := true
    m_clockTime := 0
    m_previousRealTime := 1 }

/-- A fixed-framerate engine whose caps were raised to 70000 with `SetMaxLogicFrame` and
`SetMaxPhysicsFrame`. -/
def hugeCapEngine : KX_KetsjiEngine :=
  { FIXED_FRAMERATE := true
    m_maxLogicFrame := 70000
    m_maxPhysicsFrame := 70000 }

/-- A fixed-framerate engine with a suspended and a running scene. -/
def runEngine : KX_KetsjiEngine :=
  { FIXED_FRAMERATE := true
    m_scenes := [pausedScene, runningScene] }

/-- The engine with the scenes X, Y, Z and queued requests with bad names: the overlay additions
Q (unknown to the converter) and A, the removals Y and Y, the replacement of W by B. -/
def badNamesEngine : KX_KetsjiEngine :=
  { xyzEngine with
    m_addingOverlayScenes := ["Q", "A"]
    m_removingScenes := ["Y", "Y"]
    m_replace_scenes := [("W", "B")] }

/-- A heap whose objects are cameras with default settings: none is viewport-enabled. -/
def cameraHeap : Heap :=
  { obj := fun _ => { m_objectType := ObjectType.OBJECT_TYPE_CAMERA }
    next := 4 }

/-- A scene with the cameras `a` and `b`, the first being the active camera. -/
def twoCameraScene (name : String) (a b : Nat) : KX_Scene :=
  { m_name := name
    m_blenderScene := { id_name := "SC" ++ name }
    m_activeCamera := some a
    m_objectlist := [a, b]
    m_parentlist := [a, b]
    m_cameralist := [a, b] }

/-- Two scenes of two cameras each after the active camera of each was removed with
`NewRemoveObject`: each scene has one camera left and no active camera. -/
def lostCameraEngine : KX_KetsjiEngine :=
  { heap := cameraHeap
    m_scenes :=
      [(NewRemoveObject cameraHeap (twoCameraScene "X" 0 1) 0).2,
       (NewRemoveObject cameraHeap (twoCameraScene "Y" 2 3) 2).2] }

/-- The engine after adding the scenes X and Y as overlays to an empty engine: each scene got a
default camera from `PostProcessScene`, which is its active camera. -/
def xyEngine : KX_KetsjiEngine :=
  ProcessScheduledScenes exampleConverter
    (ConvertAndAddScene "Y" true (ConvertAndAddScene "X" true {}))

/-- A heap whose object 0 has the properties `speed` and `health`. -/
def debugHeap : Heap :=
  { obj := fun p => if p = 0 then { m_propertyNames := ["speed", "health"] } else {}
    next := 1 }

/-- A scene with two debug properties of the object 0. -/
def debugScene : KX_Scene :=
  { m_name := "X"
    m_blenderScene := { id_name := "SCX" }
    m_objectlist := [0]
    m_parentlist := [0]
    m_debugList := [{ m_obj := 0, m_name := "speed" }, { m_obj := 0, m_name := "health" }] }

/-- A scene whose debug-property list has 100 entries. -/
def fullDebugScene : KX_Scene :=
  { m_name := "X"
    m_blenderScene := { id_name := "SCX" }
    m_objectlist := [0]
    m_parentlist := [0]
    m_debugList := List.replicate 100 { m_obj := 0, m_name := "speed" } }

/-- A heap whose object 0 has no scene-graph node. -/
def nodelessHeap : Heap :=
  { obj := fun p => if p = 0 then { m_sgNode := false } else {}
    next := 1 }

/-- A scene whose euthanasia queue holds the object 0. -/
def nodelessScene : KX_Scene :=
  { m_name := "X"
    m_blenderScene := { id_name := "SCX" }
    m_objectlist := [0]
    m_parentlist := [0]
    m_euthanasyobjects := [0] }

/-- A scene without objects whose active camera was set with `SetActiveCamera` to the camera 0,
which is in none of its lists. -/
def strayCameraScene : KX_Scene :=
  (CreateScene { id_name := "SCX" }).SetActiveCamera (some 0)

/-- A scene with the cameras 0 (active) and 1, both queued for removal. -/
def doomedScene : KX_Scene :=
  { twoCameraScene "X" 0 1 with m_euthanasyobjects := [1, 0] }

/-- A render schedule without stereo of one scene with the given camera schedules for the left
eye. -/
def oneSceneSchedule (cameraSchedules : List KX_CameraRenderSchedule) : KX_RenderSchedule :=
  { m_renderPerEye := false
    m_frameSchedules :=
      [{ m_ofsType := OffScreenType.RAS_OFFSCREEN_EYE_LEFT0
         m_eyes := [StereoEye.RAS_STEREO_LEFTEYE] }]
    m_sceneSchedules :=
      [{ m_scene := runningScene
         m_cameraSchedules := fun eye =>
           if eye = StereoEye.RAS_STEREO_LEFTEYE then cameraSchedules else [] }] }

/-- The schedule of the camera 0 for the left eye, without stereo. -/
def leftSchedule : KX_CameraRenderSchedule :=
  { m_camera := 0
    cullingcam := 0
    m_stereoMode := StereoMode.RAS_STEREO_NOSTEREO
    m_eye := StereoEye.RAS_STEREO_LEFTEYE
    m_index := 0 }

/-- A render schedule whose only scene has 65537 camera schedules for the left eye (a scene
with 65537 viewport-enabled cameras gives such a schedule). -/
def manyCamerasSchedule : KX_RenderSchedule :=
  oneSceneSchedule (List.replicate 65537 leftSchedule)

/-- A heap with the object 0 and its child 1. -/
def replicaHeap : Heap :=
  { obj := fun p =>
      if p = 0 then { m_name := "Bullet", m_children := [1] }
      else if p = 1 then { m_name := "Trail", m_parent := some 0 }
      else {}
    next := 2 }

/-- A scene with the object 0 and its child 1. -/
def replicaScene : KX_Scene :=
  { m_name := "X"
    m_blenderScene := { id_name := "SCX" }
    m_objectlist := [0, 1]
    m_parentlist := [0] }

/-- A heap whose object 0 has the countdown 3. -/
def timebombHeap : Heap :=
  { obj := fun p => if p = 0 then { timebomb := some 3 } else {}
    next := 1 }

/-- A scene with the temporary object 0. -/
def timebombScene : KX_Scene :=
  { m_name := "X"
    m_blenderScene := { id_name := "SCX" }
    m_objectlist := [0]
    m_parentlist := [0]
    m_tempObjectList := [0] }

/-- The requests to replace X by A, remove Z, add B as overlay and C as background. -/
def mixedRequests : List Request :=
  [Request.replace "X" "A", Request.remove "Z", Request.add "B" true, Request.add "C" false]

/-- The fixed-framerate engine with a suspended scene X and a running scene Y, and the queued
removal of Y. -/
def removalQueuedEngine : KX_KetsjiEngine :=
  { runEngine with m_removingScenes := ["Y"] }

/-! ## Theorems: clock and time scheduler -/

/-- Helper: `toInt` is the floor on non-negative arguments. -/
theorem toInt_of_nonneg (x : ℚ) (hx : 0 ≤ x) : toInt x = Int.floor x := by
  simp [toInt, hx]

/-- C1 (as amended): whenever `GetFrameTimes` clamps the frame count and the frame count it
returns is not zero (the cap applied is not 0), frames × timestep equals the elapsed delta
exactly. -/
theorem GetFrameTimes_clamp_conserves_time (now : ℚ) (e : KX_KetsjiEngine)
    (hclamp : clamped now e) (hne : (GetFrameTimes now e).1.frames ≠ 0) :
    ((GetFrameTimes now e).1.frames : ℚ) * (GetFrameTimes now e).1.timestep = elapsed now e := by
  unfold clamped unclampedFrames elapsed at hclamp
  unfold GetFrameTimes elapsed at *
  simp only [gt_iff_lt] at *
  split_ifs at * <;> first
    | (exfalso; rcases hclamp with h | h <;> omega)
    | (exfalso; omega)
    | (field_simp)

/-- C1 (counterexample): with `m_maxPhysicsFrame = 0` and one second elapsed at the default tic
rate, `GetFrameTimes` clamps, returns 0 frames, and frames × timestep is not the elapsed second
(whatever the timestep is, since the frame count is 0). -/
theorem GetFrameTimes_clamp_to_zero_loses_time :
    clamped 1 zeroCapEngine ∧
    elapsed 1 zeroCapEngine = 1 ∧
    (GetFrameTimes 1 zeroCapEngine).1.frames = 0 ∧
    ¬ (((GetFrameTimes 1 zeroCapEngine).1.frames : ℚ) *
        (GetFrameTimes 1 zeroCapEngine).1.timestep =
      elapsed 1 zeroCapEngine) := by
  refine ⟨?_, ?_, ?_, ?_⟩ <;>
    norm_num [clamped, unclampedFrames, elapsed, GetFrameTimes, toInt, zeroCapEngine]

/-- C1 (witness): one second elapsed at the default tic rate and caps of 5 is clamped to 5 frames
of 1/5 second. -/
theorem GetFrameTimes_clamp_conserves_time_witness :
    clamped 1 fixedEngine ∧
    (GetFrameTimes 1 fixedEngine).1.frames = 5 ∧
    ((GetFrameTimes 1 fixedEngine).1.frames : ℚ) *
        (GetFrameTimes 1 fixedEngine).1.timestep =
      elapsed 1 fixedEngine :=
  ⟨by norm_num [clamped, unclampedFrames, elapsed, toInt, fixedEngine],
   by norm_num [GetFrameTimes, toInt, fixedEngine],
   GetFrameTimes_clamp_conserves_time 1 fixedEngine
     (by norm_num [clamped, unclampedFrames, elapsed, toInt, fixedEngine])
     (by norm_num [GetFrameTimes, toInt, fixedEngine])⟩

/-- C2: in fixed and in variable framerate mode, the frame count `GetFrameTimes` returns is at
most `min(m_maxPhysicsFrame, m_maxLogicFrame)`. -/
theorem GetFrameTimes_frames_le_caps (now : ℚ) (e : KX_KetsjiEngine) :
    (GetFrameTimes now e).1.frames ≤ min e.m_maxPhysicsFrame e.m_maxLogicFrame := by
  unfold GetFrameTimes
  simp only [gt_iff_lt, le_min_iff]
  split_ifs <;> constructor <;> omega

/-- C3 (as amended): in fixed-framerate mode, when no cap is exceeded, `GetFrameTimes` returns
timestep = 1 / ticrate and frames = delta × ticrate truncated toward zero; for a non-negative
delta (and a positive tic rate) that is floor(delta × ticrate). -/
theorem GetFrameTimes_fixed_unclamped (now : ℚ) (e : KX_KetsjiEngine)
    (hfixed : e.FIXED_FRAMERATE = true) (hrate : 0 < e.m_ticrate) (hno : ¬ clamped now e) :
    (GetFrameTimes now e).1.timestep = 1 / e.m_ticrate ∧
    (GetFrameTimes now e).1.frames = toInt (elapsed now e * e.m_ticrate) ∧
    (0 ≤ elapsed now e →
      (GetFrameTimes now e).1.frames = Int.floor (elapsed now e * e.m_ticrate)) := by
  have hfr : (GetFrameTimes now e).1.frames = toInt (elapsed now e * e.m_ticrate) ∧
      (GetFrameTimes now e).1.timestep = 1 / e.m_ticrate := by
    unfold clamped unclampedFrames at hno
    unfold GetFrameTimes
    unfold elapsed at *
    simp only [hfixed, if_true, gt_iff_lt, not_or, not_lt] at hno ⊢
    obtain ⟨h1, h2⟩ := hno
    split_ifs at h1 h2 ⊢ <;> first
      | (exfalso; omega)
      | simp
  refine ⟨hfr.2, hfr.1, fun hpos => ?_⟩
  rw [hfr.1]
  exact toInt_of_nonneg _ (mul_nonneg hpos hrate.le)

/-- C3 (counterexample): under an external clock set 1/120 s before the last tick time, at tic
rate 60 and with no cap exceeded, `GetFrameTimes` returns 0 frames while
floor(delta × ticrate) is -1. -/
theorem GetFrameTimes_negative_delta_not_floor :
    (backwardClockEngine.FIXED_FRAMERATE = true ∧ 0 < backwardClockEngine.m_ticrate ∧
      ¬ clamped 0 backwardClockEngine) ∧
    (GetFrameTimes 0 backwardClockEngine).1.frames = 0 ∧
    Int.floor (elapsed 0 backwardClockEngine * backwardClockEngine.m_ticrate) = -1 := by
  have hc : Int.ceil (-(1 / 2) : ℚ) = 0 := by
    rw [Int.ceil_eq_iff]; norm_num
  refine ⟨⟨rfl, by norm_num [backwardClockEngine], ?_⟩, ?_, ?_⟩ <;>
    norm_num [clamped, unclampedFrames, elapsed, GetFrameTimes, toInt, backwardClockEngine, hc]

/-- C3 (witness): 1/20 s elapsed at tic rate 60 gives 3 frames of 1/60 s. -/
theorem GetFrameTimes_fixed_unclamped_witness :
    (GetFrameTimes (1 / 20) fixedEngine).1.timestep = 1 / 60 ∧
    (GetFrameTimes (1 / 20) fixedEngine).1.frames = 3 := by
  have h := GetFrameTimes_fixed_unclamped (1 / 20) fixedEngine rfl
    (by norm_num [fixedEngine]) (by norm_num [clamped, unclampedFrames, elapsed, toInt, fixedEngine])
  refine ⟨h.1, ?_⟩
  rw [h.2.1]
  norm_num [elapsed, toInt, fixedEngine]

/-! ## Theorems: scene registry -/

/-- Helper: `PostProcessScene` reads only the camera-override members of the engine. -/
theorem PostProcessScene_congr (e e2 : KX_KetsjiEngine) (h : Heap) (scene : KX_Scene)
    (h1 : e2.CAMERA_OVERRIDE = e.CAMERA_OVERRIDE)
    (h2 : e2.m_overrideSceneName = e.m_overrideSceneName)
    (h3 : e2.m_overrideCamData = e.m_overrideCamData)
    (h4 : e2.m_overrideCamPosition = e.m_overrideCamPosition)
    (h5 : e2.m_overrideCamOrientation = e.m_overrideCamOrientation) :
    PostProcessScene e2 h scene = PostProcessScene e h scene := by
  unfold PostProcessScene
  rw [h1, h2, h3, h4, h5]

/-- Helper: `PostProcessScene` keeps the name of the scene. -/
theorem PostProcessScene_name (e : KX_KetsjiEngine) (h : Heap) (scene : KX_Scene) :
    (PostProcessScene e h scene).2.m_name = scene.m_name := by
  unfold PostProcessScene
  simp only []
  split_ifs <;> rfl

/-- Helper: `replaceInList` reads only the camera-override members of the engine. -/
theorem replaceInList_congr (conv : BL_Converter) (e e2 : KX_KetsjiEngine) (o n : String)
    (h1 : e2.CAMERA_OVERRIDE = e.CAMERA_OVERRIDE)
    (h2 : e2.m_overrideSceneName = e.m_overrideSceneName)
    (h3 : e2.m_overrideCamData = e.m_overrideCamData)
    (h4 : e2.m_overrideCamPosition = e.m_overrideCamPosition)
    (h5 : e2.m_overrideCamOrientation = e.m_overrideCamOrientation)
    (l : List KX_Scene) :
    ∀ h : Heap, replaceInList conv e2 o n h l = replaceInList conv e o n h l := by
  induction l with
  | nil => intro h; rfl
  | cons s rest ih =>
    intro h
    simp only [replaceInList, PostProcessScene_congr e e2 _ _ h1 h2 h3 h4 h5, ih]

/-- Helper: replacing keeps the length of the scene list. -/
theorem replaceInList_length (conv : BL_Converter) (e : KX_KetsjiEngine) (o n : String)
    (l : List KX_Scene) :
    ∀ h : Heap, (replaceInList conv e o n h l).2.length = l.length := by
  induction l with
  | nil => intro h; rfl
  | cons s rest ih =>
    intro h
    unfold replaceInList
    split_ifs
    · cases hb : conv.GetBlenderSceneForName n <;> simp [ih]
    · simp [ih]

/-- Helper: replacing leaves a scene with another name where it is. -/
theorem replaceInList_other (conv : BL_Converter) (e : KX_KetsjiEngine) (o n : String)
    (l : List KX_Scene) :
    ∀ (h : Heap) (i : Nat) (s : KX_Scene), l[i]? = some s → s.m_name ≠ o →
      (replaceInList conv e o n h l).2[i]? = some s := by
  induction l with
  | nil => intro h i s hs; simp at hs
  | cons t rest ih =>
    intro h i s hs hne
    cases i with
    | zero =>
      simp only [List.getElem?_cons_zero, Option.some.injEq] at hs
      subst hs
      unfold replaceInList
      have : (t.m_name == o) = false := by simpa using hne
      simp [this]
    | succ k =>
      simp only [List.getElem?_cons_succ] at hs
      unfold replaceInList
      split_ifs
      · cases hb : conv.GetBlenderSceneForName n <;> simp [ih _ k s hs hne]
      · simp [ih _ k s hs hne]

/-- Helper: replacing puts a scene built from the new source data at every index whose scene
has the old name. -/
theorem replaceInList_named (conv : BL_Converter) (e : KX_KetsjiEngine) (o n : String)
    (bl : Scene) (hbl : conv.GetBlenderSceneForName n = some bl) (l : List KX_Scene) :
    ∀ (h : Heap) (i : Nat) (s : KX_Scene), l[i]? = some s → s.m_name = o →
      ∃ h2 : Heap, (replaceInList conv e o n h l).2[i]? = some (buildScene conv e h2 bl).2 := by
  induction l with
  | nil => intro h i s hs; simp at hs
  | cons t rest ih =>
    intro h i s hs hname
    cases i with
    | zero =>
      simp only [List.getElem?_cons_zero, Option.some.injEq] at hs
      subst hs
      refine ⟨h, ?_⟩
      unfold replaceInList
      have : (t.m_name == o) = true := by simpa using hname
      simp [this, hbl, buildScene]
    | succ k =>
      simp only [List.getElem?_cons_succ] at hs
      unfold replaceInList
      split_ifs
      · obtain ⟨h2, hh⟩ := ih
          (PostProcessScene e (conv.ConvertScene h (CreateScene bl)).1
            (conv.ConvertScene h (CreateScene bl)).2).1 k s hs hname
        exact ⟨h2, by simpa [hbl] using hh⟩
      · obtain ⟨h2, hh⟩ := ih h k s hs hname
        exact ⟨h2, by simpa using hh⟩

/-- Helper: the first scene with the old name is rebuilt on the heap the loop started with. -/
theorem replaceInList_first (conv : BL_Converter) (e : KX_KetsjiEngine) (o n : String)
    (bl : Scene) (hbl : conv.GetBlenderSceneForName n = some bl) (l : List KX_Scene) :
    ∀ (h : Heap) (i : Nat) (s : KX_Scene), l[i]? = some s → s.m_name = o →
      (∀ (j : Nat) (t : KX_Scene), j < i → l[j]? = some t → t.m_name ≠ o) →
      (replaceInList conv e o n h l).2[i]? = some (buildScene conv e h bl).2 := by
  induction l with
  | nil => intro h i s hs; simp at hs
  | cons t rest ih =>
    intro h i s hs hname hfirst
    cases i with
    | zero =>
      simp only [List.getElem?_cons_zero, Option.some.injEq] at hs
      subst hs
      unfold replaceInList
      have : (t.m_name == o) = true := by simpa using hname
      simp [this, hbl, buildScene]
    | succ k =>
      simp only [List.getElem?_cons_succ] at hs
      have ht : t.m_name ≠ o := hfirst 0 t (Nat.succ_pos k) (by simp)
      have hrest : ∀ (j : Nat) (u : KX_Scene), j < k → rest[j]? = some u → u.m_name ≠ o :=
        fun j u hj hu => hfirst (j + 1) u (Nat.succ_lt_succ hj) (by simpa using hu)
      unfold replaceInList
      have : (t.m_name == o) = false := by simpa using ht
      simp [this, ih h k s hs hname hrest]

/-- Helper: what `ProcessScheduledScenes` does to the scene list when one replacement is the
only queued request. -/
theorem process_single_replace (conv : BL_Converter) (e : KX_KetsjiEngine) (o n : String)
    (bl : Scene) (hbl : conv.GetBlenderSceneForName n = some bl) (hp : noPending e) :
    (ReplaceScene conv o n e).1 = true ∧
    (ProcessScheduledScenes conv (ReplaceScene conv o n e).2).m_scenes =
      (replaceInList conv e o n e.heap e.m_scenes).2 := by
  obtain ⟨h1, h2, h3, h4⟩ := hp
  refine ⟨by simp [ReplaceScene, hbl], ?_⟩
  simp only [ReplaceScene, hbl, Option.isSome_some, if_true, ProcessScheduledScenes, h1, h2, h3,
    h4, List.nil_append]
  simp only [ReplaceScheduledScenes, RemoveScheduledScenes, AddScheduledScenes, List.isEmpty_cons,
    List.isEmpty_nil, Bool.not_false, Bool.not_true, if_true, List.foldl_cons, List.foldl_nil,
    h1, h2, h4, Bool.and_false, Bool.and_true, Bool.false_eq_true, if_false]
  split_ifs <;>
    exact congrArg Prod.snd
      (replaceInList_congr conv e _ o n (by rfl) (by rfl) (by rfl) (by rfl) (by rfl) _ _)

/-- C4 (as amended): after `ReplaceScene(old, new)` with a resolvable new name followed by
`ProcessScheduledScenes` (no other pending request), the list has the same length, every index
whose scene was not named old holds the same scene as before, and every index whose scene was
named old holds a scene built from new (the first such index one built on the heap as it was).
-/
theorem replace_preserves_position (conv : BL_Converter) (e : KX_KetsjiEngine)
    (old new : String) (bl : Scene) (hbl : conv.GetBlenderSceneForName new = some bl)
    (hp : noPending e) :
    (ProcessScheduledScenes conv (ReplaceScene conv old new e).2).m_scenes.length =
      e.m_scenes.length ∧
    (∀ (i : Nat) (s : KX_Scene), e.m_scenes[i]? = some s → s.m_name ≠ old →
      (ProcessScheduledScenes conv (ReplaceScene conv old new e).2).m_scenes[i]? = some s) ∧
    (∀ (i : Nat) (s : KX_Scene), e.m_scenes[i]? = some s → s.m_name = old →
      ∃ h : Heap, (ProcessScheduledScenes conv (ReplaceScene conv old new e).2).m_scenes[i]? =
        some (buildScene conv e h bl).2) ∧
    (∀ (i : Nat) (s : KX_Scene), e.m_scenes[i]? = some s → s.m_name = old →
      (∀ (j : Nat) (t : KX_Scene), j < i → e.m_scenes[j]? = some t → t.m_name ≠ old) →
      (ProcessScheduledScenes conv (ReplaceScene conv old new e).2).m_scenes[i]? =
        some (buildScene conv e e.heap bl).2) := by
  rw [(process_single_replace conv e old new bl hbl hp).2]
  exact ⟨replaceInList_length conv e old new e.m_scenes e.heap,
    replaceInList_other conv e old new e.m_scenes e.heap,
    replaceInList_named conv e old new bl hbl e.m_scenes e.heap,
    replaceInList_first conv e old new bl hbl e.m_scenes e.heap⟩

/-- C4 (counterexample): in the list of two scenes named Y (reached by adding Y twice in one
tick), replacing Y by Z also replaces the scene at index 1, so with i = 0 the other index does
not hold the same scene as before. -/
theorem replace_changes_other_index :
    (twoYEngine.m_scenes.map KX_Scene.m_name = ["Y", "Y"] ∧ noPending twoYEngine ∧
      (exampleConverter.GetBlenderSceneForName "Z").isSome = true) ∧
    (ProcessScheduledScenes exampleConverter
      (ReplaceScene exampleConverter "Y" "Z" twoYEngine).2).m_scenes.map KX_Scene.m_name =
        ["Z", "Z"] ∧
    (ProcessScheduledScenes exampleConverter
      (ReplaceScene exampleConverter "Y" "Z" twoYEngine).2).m_scenes[1]? ≠
        twoYEngine.m_scenes[1]? := by
  refine ⟨⟨by decide, ⟨by decide, by decide, by decide, by decide⟩, by decide⟩, by decide, ?_⟩
  intro h
  have h2 := congrArg (Option.map KX_Scene.m_name) h
  revert h2
  decide

/-- C4 (witness): in the list X, Y, Z, replacing Y by A gives X, A, Z. -/
theorem replace_preserves_position_witness :
    xyzEngine.m_scenes.map KX_Scene.m_name = ["X", "Y", "Z"] ∧
    (ProcessScheduledScenes exampleConverter
      (ReplaceScene exampleConverter "Y" "A" xyzEngine).2).m_scenes.map KX_Scene.m_name =
        ["X", "A", "Z"] ∧
    (ProcessScheduledScenes exampleConverter
      (ReplaceScene exampleConverter "Y" "A" xyzEngine).2).m_scenes.length =
        xyzEngine.m_scenes.length :=
  ⟨by decide, by decide,
   (replace_preserves_position exampleConverter xyzEngine "Y" "A" { id_name := "SCA" }
      (by decide) ⟨by decide, by decide, by decide, by decide⟩).1⟩

/-- Helper: what `ProcessScheduledScenes` does to the scene list when one overlay add is the
only queued request. -/
theorem process_single_overlay (conv : BL_Converter) (e : KX_KetsjiEngine) (name : String)
    (bl : Scene) (hbl : conv.GetBlenderSceneForName name = some bl) (hp : noPending e)
    (hfind : FindScene e name = none) :
    ProcessScheduledScenes conv (ConvertAndAddScene name true e) =
      { e with heap := (buildScene conv e e.heap bl).1
               m_scenes := e.m_scenes ++ [(buildScene conv e e.heap bl).2] } := by
  obtain ⟨h1, h2, h3, h4⟩ := hp
  simp only [ConvertAndAddScene, hfind, Option.isSome_none, Bool.false_eq_true, if_false, if_true,
    ProcessScheduledScenes, h1, h2, h3, h4, List.nil_append, ReplaceScheduledScenes,
    RemoveScheduledScenes, AddScheduledScenes, List.isEmpty_cons, List.isEmpty_nil,
    Bool.not_false, Bool.not_true, List.foldl_cons, List.foldl_nil, Bool.and_false,
    Bool.and_true, Bool.false_and, addOverlayScene, CreateSceneNamed, hbl]
  simp only [List.isEmpty_eq_true, List.append_eq_nil, List.cons_ne_self, and_false, if_false,
    reduceCtorEq]
  rfl

/-- Helper: what `ProcessScheduledScenes` does to the scene list when one background add is the
only queued request. -/
theorem process_single_background (conv : BL_Converter) (e : KX_KetsjiEngine) (name : String)
    (bl : Scene) (hbl : conv.GetBlenderSceneForName name = some bl) (hp : noPending e)
    (hfind : FindScene e name = none) :
    ProcessScheduledScenes conv (ConvertAndAddScene name false e) =
      { e with heap := (buildScene conv e e.heap bl).1
               m_scenes := (buildScene conv e e.heap bl).2 :: e.m_scenes } := by
  obtain ⟨h1, h2, h3, h4⟩ := hp
  simp only [ConvertAndAddScene, hfind, Option.isSome_none, Bool.false_eq_true, if_false, if_true,
    ProcessScheduledScenes, h1, h2, h3, h4, List.nil_append, ReplaceScheduledScenes,
    RemoveScheduledScenes, AddScheduledScenes, List.isEmpty_cons, List.isEmpty_nil,
    Bool.not_false, Bool.not_true, List.foldl_cons, List.foldl_nil, Bool.and_false,
    Bool.and_true, Bool.false_and, addBackgroundScene, CreateSceneNamed, hbl]
  rfl

/-- Helper: an overlay add and a background add queued in the same tick on an empty scene
list. -/
theorem process_overlay_background (conv : BL_Converter) (e : KX_KetsjiEngine) (a b : String)
    (bla blb : Scene) (ha : conv.GetBlenderSceneForName a = some bla)
    (hb : conv.GetBlenderSceneForName b = some blb) (hp : noPending e)
    (hempty : e.m_scenes = []) :
    ProcessScheduledScenes conv (ConvertAndAddScene b false (ConvertAndAddScene a true e)) =
      { e with heap := (buildScene conv e (buildScene conv e e.heap bla).1 blb).1
               m_scenes := [(buildScene conv e (buildScene conv e e.heap bla).1 blb).2,
                            (buildScene conv e e.heap bla).2] } := by
  obtain ⟨h1, h2, h3, h4⟩ := hp
  simp only [ConvertAndAddScene, FindScene, hempty, List.find?_nil, Option.isSome_none,
    Bool.false_eq_true, if_false, if_true,
    ProcessScheduledScenes, h1, h2, h3, h4, List.nil_append, ReplaceScheduledScenes,
    RemoveScheduledScenes, AddScheduledScenes, List.isEmpty_cons, List.isEmpty_nil,
    Bool.not_false, Bool.not_true, List.foldl_cons, List.foldl_nil, Bool.and_false,
    Bool.and_true, Bool.false_and, addBackgroundScene, addOverlayScene, CreateSceneNamed, ha, hb]
  rfl

/-- C5: with no other request pending, an overlay add of a resolvable name not in the list
appends the new scene at the end and a background add inserts it at index 0, the existing scenes
keeping their order; an overlay add of A and a background add of B on an empty list give
[B, A], and a later overlay add of C gives [B, A, C]. -/
theorem add_ordering (conv : BL_Converter) (e : KX_KetsjiEngine) (hp : noPending e) :
    (∀ (name : String) (bl : Scene), conv.GetBlenderSceneForName name = some bl →
      FindScene e name = none →
      (ProcessScheduledScenes conv (ConvertAndAddScene name true e)).m_scenes =
        e.m_scenes ++ [(buildScene conv e e.heap bl).2] ∧
      (ProcessScheduledScenes conv (ConvertAndAddScene name false e)).m_scenes =
        (buildScene conv e e.heap bl).2 :: e.m_scenes) ∧
    (∀ (a b : String) (bla blb : Scene), e.m_scenes = [] →
      conv.GetBlenderSceneForName a = some bla → conv.GetBlenderSceneForName b = some blb →
      (ProcessScheduledScenes conv
          (ConvertAndAddScene b false (ConvertAndAddScene a true e))).m_scenes =
        [(buildScene conv e (buildScene conv e e.heap bla).1 blb).2,
         (buildScene conv e e.heap bla).2] ∧
      ∀ (c : String) (blc : Scene), conv.GetBlenderSceneForName c = some blc →
        FindScene (ProcessScheduledScenes conv
          (ConvertAndAddScene b false (ConvertAndAddScene a true e))) c = none →
        (ProcessScheduledScenes conv (ConvertAndAddScene c true
          (ProcessScheduledScenes conv
            (ConvertAndAddScene b false (ConvertAndAddScene a true e))))).m_scenes =
        [(buildScene conv e (buildScene conv e e.heap bla).1 blb).2,
         (buildScene conv e e.heap bla).2,
         (buildScene conv e
            (buildScene conv e (buildScene conv e e.heap bla).1 blb).1 blc).2]) := by
  refine ⟨fun name bl hbl hfind => ⟨?_, ?_⟩, fun a b bla blb hempty ha hb => ⟨?_, ?_⟩⟩
  · rw [process_single_overlay conv e name bl hbl hp hfind]
  · rw [process_single_background conv e name bl hbl hp hfind]
  · rw [process_overlay_background conv e a b bla blb ha hb hp hempty]
  · intro c blc hc hfind
    have heq := process_overlay_background conv e a b bla blb ha hb hp hempty
    have hp2 : noPending (ProcessScheduledScenes conv
        (ConvertAndAddScene b false (ConvertAndAddScene a true e))) := by
      rw [heq]; exact hp
    rw [process_single_overlay conv _ c blc hc hp2 hfind, heq]
    rfl

/-- C5 (witness): on an empty engine, an overlay add of A and a background add of B give the
list B, A, and a later overlay add of C gives B, A, C. -/
theorem add_ordering_witness :
    (ProcessScheduledScenes exampleConverter
      (ConvertAndAddScene "B" false (ConvertAndAddScene "A" true {}))).m_scenes.map
        KX_Scene.m_name = ["B", "A"] ∧
    (ProcessScheduledScenes exampleConverter (ConvertAndAddScene "C" true
      (ProcessScheduledScenes exampleConverter
        (ConvertAndAddScene "B" false (ConvertAndAddScene "A" true {}))))).m_scenes.map
        KX_Scene.m_name = ["B", "A", "C"] := by
  have h := (add_ordering exampleConverter {} ⟨rfl, rfl, rfl, rfl⟩).2 "A" "B"
    { id_name := "SCA" } { id_name := "SCB" } rfl (by decide) (by decide)
  have h2 := h.2 "C" { id_name := "SCC" } (by decide) (by decide)
  rw [h.1, h2]
  decide

/-- Helper: after the replacement loop no scene has the old name, when the scene built from the
new name is named differently. -/
theorem replaceInList_no_old (conv : BL_Converter) (e : KX_KetsjiEngine) (o n : String)
    (bl : Scene) (hbl : conv.GetBlenderSceneForName n = some bl)
    (hname : ∀ h : Heap, (buildScene conv e h bl).2.m_name ≠ o) (l : List KX_Scene) :
    ∀ (h : Heap) (t : KX_Scene), t ∈ (replaceInList conv e o n h l).2 → t.m_name ≠ o := by
  induction l with
  | nil => intro h t ht; simp [replaceInList] at ht
  | cons s rest ih =>
    intro h t ht
    unfold replaceInList at ht
    by_cases hs : s.m_name = o
    · have : (s.m_name == o) = true := by simpa using hs
      simp only [this, if_true, hbl, List.mem_cons] at ht
      rcases ht with ht | ht
      · rw [ht]; exact hname h
      · exact ih _ t ht
    · have : (s.m_name == o) = false := by simpa using hs
      simp only [this, Bool.false_eq_true, if_false, List.mem_cons] at ht
      rcases ht with ht | ht
      · rw [ht]; exact hs
      · exact ih _ t ht

/-- Helper: a removal request for a name no scene has leaves the list alone. -/
theorem removeNamed_absent (l : List KX_Scene) (name : String)
    (h : ∀ t : KX_Scene, t ∈ l → t.m_name ≠ name) : removeNamed l name = l := by
  unfold removeNamed
  have : l.find? (fun scene => scene.m_name == name) = none := by
    rw [List.find?_eq_none]
    intro t ht
    simpa using h t ht
  rw [this]

/-- Helper: `FindScene` finds a scene when one of the list has the name. -/
theorem FindScene_isSome (e : KX_KetsjiEngine) (name : String) (i : Nat) (s : KX_Scene)
    (hs : e.m_scenes[i]? = some s) (hn : s.m_name = name) : (FindScene e name).isSome = true := by
  unfold FindScene
  rw [List.find?_isSome]
  exact ⟨s, List.getElem?_mem hs, by simpa using hn⟩

/-- Helper: what `ProcessScheduledScenes` does to the scene list when a replacement of X and a
removal of X are the queued requests and the replacing scene is not named X. -/
theorem process_replace_and_remove (conv : BL_Converter) (e : KX_KetsjiEngine) (x y : String)
    (bl : Scene) (hbl : conv.GetBlenderSceneForName y = some bl) (hp : noPending e)
    (i : Nat) (s : KX_Scene) (hs : e.m_scenes[i]? = some s) (hn : s.m_name = x)
    (hname : ∀ h : Heap, (buildScene conv e h bl).2.m_name ≠ x) :
    (ProcessScheduledScenes conv (RemoveScene x (ReplaceScene conv x y e).2)).m_scenes =
      (replaceInList conv e x y e.heap e.m_scenes).2 := by
  obtain ⟨h1, h2, h3, h4⟩ := hp
  have hfind : (FindScene (ReplaceScene conv x y e).2 x).isSome = true :=
    FindScene_isSome _ x i s (by simpa [ReplaceScene, hbl] using hs) hn
  have hrm : removeNamed (replaceInList conv e x y e.heap e.m_scenes).2 x =
      (replaceInList conv e x y e.heap e.m_scenes).2 :=
    removeNamed_absent _ x (replaceInList_no_old conv e x y bl hbl hname e.m_scenes e.heap)
  have hcongr : ∀ e2 : KX_KetsjiEngine, e2.CAMERA_OVERRIDE = e.CAMERA_OVERRIDE →
      e2.m_overrideSceneName = e.m_overrideSceneName →
      e2.m_overrideCamData = e.m_overrideCamData →
      e2.m_overrideCamPosition = e.m_overrideCamPosition →
      e2.m_overrideCamOrientation = e.m_overrideCamOrientation →
      replaceInList conv e2 x y e.heap e.m_scenes = replaceInList conv e x y e.heap e.m_scenes :=
    fun e2 a b c d f => replaceInList_congr conv e e2 x y a b c d f e.m_scenes e.heap
  simp only [RemoveScene, hfind, if_true]
  simp only [ReplaceScene, hbl, Option.isSome_some, if_true, ProcessScheduledScenes, h1, h2, h3,
    h4, List.nil_append]
  simp only [ReplaceScheduledScenes, RemoveScheduledScenes, AddScheduledScenes, List.isEmpty_cons,
    List.isEmpty_nil, Bool.not_false, Bool.not_true, if_true, List.foldl_cons, List.foldl_nil,
    h1, h2, h4, Bool.and_false, Bool.and_true, Bool.false_eq_true, if_false]
  rw [hcongr _ (by rfl) (by rfl) (by rfl) (by rfl) (by rfl), hrm]
  split_ifs <;> rfl

/-- C7: if the scene list is empty after `ProcessScheduledScenes` has applied the pending
changes, the exit code is `NO_SCENES_LEFT`; requesting removal of the only remaining scene makes
the next `ProcessScheduledScenes` empty the list and set that code. -/
theorem exit_on_empty (conv : BL_Converter) (e : KX_KetsjiEngine) :
    ((ProcessScheduledScenes conv e).m_scenes = [] →
      (ProcessScheduledScenes conv e).m_exitInfo.m_code = Code.NO_SCENES_LEFT) ∧
    (∀ s : KX_Scene, e.m_scenes = [s] → noPending e →
      (ProcessScheduledScenes conv (RemoveScene s.m_name e)).m_scenes = [] ∧
      (ProcessScheduledScenes conv (RemoveScene s.m_name e)).m_exitInfo.m_code =
        Code.NO_SCENES_LEFT) := by
  have key : ∀ e2 : KX_KetsjiEngine, (ProcessScheduledScenes conv e2).m_scenes = [] →
      (ProcessScheduledScenes conv e2).m_exitInfo.m_code = Code.NO_SCENES_LEFT := by
    intro e2
    unfold ProcessScheduledScenes
    simp only []
    split_ifs with h1 h2 h2
    · intro _; rfl
    · intro h; simp [h] at h2
    · intro _; rfl
    · intro h; simp [h] at h2
  refine ⟨key e, fun s hs hp => ?_⟩
  have hempty : (ProcessScheduledScenes conv (RemoveScene s.m_name e)).m_scenes = [] := by
    obtain ⟨h1, h2, h3, h4⟩ := hp
    simp [ProcessScheduledScenes, RemoveScene, FindScene, hs, h1, h2, h3, h4,
      ReplaceScheduledScenes, RemoveScheduledScenes, AddScheduledScenes, removeNamed,
      RequestExit]
  exact ⟨hempty, key _ hempty⟩

/-- C7 (witness): an engine whose only scene is X, after `RemoveScene("X")` and
`ProcessScheduledScenes`, has no scene and exit code `NO_SCENES_LEFT`. -/
theorem exit_on_empty_witness :
    (ProcessScheduledScenes exampleConverter
      (RemoveScene "X" { m_scenes := [{ m_name := "X", m_blenderScene := { id_name := "SCX" } }] })
      ).m_exitInfo.m_code = Code.NO_SCENES_LEFT :=
  ((exit_on_empty exampleConverter
      { m_scenes := [{ m_name := "X", m_blenderScene := { id_name := "SCX" } }] }).2
    { m_name := "X", m_blenderScene := { id_name := "SCX" } } rfl ⟨rfl, rfl, rfl, rfl⟩).2

/-! ## Theorems: scene graph and object lifecycle -/

/-- C8: `Merge` returns false exactly when one of the two scenes has a physics environment and
the other has none, and then both scenes come back as they were. -/
theorem Merge_precondition (h : Heap) (this other : KX_Scene) :
    ((Merge h this other).1 = false ↔
      (this.m_physicsEnvironment.isSome = true ∧ other.m_physicsEnvironment.isNone = true) ∨
      (this.m_physicsEnvironment.isNone = true ∧ other.m_physicsEnvironment.isSome = true)) ∧
    ((Merge h this other).1 = false → (Merge h this other).2 = (this, other)) := by
  unfold Merge
  cases ha : this.m_physicsEnvironment <;> cases hb : other.m_physicsEnvironment <;> simp

/-- Helper: `QueueExt` is reflexive. -/
theorem QueueExt_refl (s : KX_Scene) : QueueExt s s :=
  ⟨s.m_euthanasyobjects, rfl, fun _ hx => hx, fun hn => hn⟩

/-- Helper: `QueueExt` is transitive. -/
theorem QueueExt_trans {a b c : KX_Scene} (h1 : QueueExt a b) (h2 : QueueExt b c) :
    QueueExt a c := by
  obtain ⟨q1, e1, m1, n1⟩ := h1
  obtain ⟨q2, e2, m2, n2⟩ := h2
  subst e1
  subst e2
  exact ⟨q2, rfl, fun x hx => m2 x (m1 x hx), fun hn => n2 (n1 hn)⟩

/-- Helper: the queue of a `QueueExt` successor holds the queue of the scene. -/
theorem QueueExt_mem {a b : KX_Scene} (h : QueueExt a b) (x : Nat)
    (hx : x ∈ a.m_euthanasyobjects) : x ∈ b.m_euthanasyobjects := by
  obtain ⟨q, e, m, _⟩ := h
  subst e
  exact m x hx

/-- Helper: the queue of a `QueueExt` successor is free of duplicates if the queue was. -/
theorem QueueExt_nodup {a b : KX_Scene} (h : QueueExt a b)
    (hn : a.m_euthanasyobjects.Nodup) : b.m_euthanasyobjects.Nodup := by
  obtain ⟨q, e, _, n⟩ := h
  subst e
  exact n hn

/-- Helper: `CM_ListAddIfNotFound` keeps the entries, holds the item, and keeps a list free of
duplicates. -/
theorem CM_ListAddIfNotFound_spec (l : List Nat) (g : Nat) :
    (∀ x : Nat, x ∈ l → x ∈ CM_ListAddIfNotFound l g) ∧ g ∈ CM_ListAddIfNotFound l g ∧
    (l.Nodup → (CM_ListAddIfNotFound l g).Nodup) := by
  unfold CM_ListAddIfNotFound
  by_cases hg : g ∈ l
  · simp [hg]
  · simp only [hg, if_false]
    refine ⟨fun x hx => List.mem_append_left _ hx, by simp, fun hn => ?_⟩
    rw [List.nodup_append]
    refine ⟨hn, List.nodup_singleton g, ?_⟩
    intro a ha hb
    simp only [List.mem_singleton] at hb
    subst hb
    exact hg ha

/-- Helper: the unfolding of `DelayedRemoveObject` with fuel left. -/
theorem DelayedRemoveObject_succ (h : Heap) (fuel : Nat) (scene : KX_Scene) (g : Nat) :
    DelayedRemoveObject h (fuel + 1) scene g =
      match RemoveDupliGroup h fuel scene g with
      | none => none
      | some scene1 =>
        some { scene1 with
               m_euthanasyobjects := CM_ListAddIfNotFound scene1.m_euthanasyobjects g } := by
  rw [DelayedRemoveObject]

/-- Helper: the unfolding of `RemoveDupliGroup` with fuel left. -/
theorem RemoveDupliGroup_succ (h : Heap) (fuel : Nat) (scene : KX_Scene) (g : Nat) :
    RemoveDupliGroup h (fuel + 1) scene g =
      if (h.obj g).m_isDupliGroup then
        match (h.obj g).m_instanceObjects with
        | none => none
        | some instances =>
          instances.foldlM (fun sc inst => DelayedRemoveObject h fuel sc inst) scene
      else
        some scene := by
  rw [RemoveDupliGroup]

/-- Helper: a fold of steps that each extend the queue extends the queue. -/
theorem foldlM_QueueExt (f : KX_Scene → Nat → Option KX_Scene)
    (hf : ∀ (sc : KX_Scene) (g : Nat) (s1 : KX_Scene), f sc g = some s1 → QueueExt sc s1)
    (l : List Nat) :
    ∀ sc s1 : KX_Scene, l.foldlM f sc = some s1 → QueueExt sc s1 := by
  induction l with
  | nil =>
    intro sc s1 hs
    simp only [List.foldlM_nil, Option.pure_def, Option.some.injEq] at hs
    subst hs
    exact QueueExt_refl sc
  | cons a rest ih =>
    intro sc s1 hs
    simp only [List.foldlM_cons, Option.bind_eq_bind, Option.bind_eq_some] at hs
    obtain ⟨sc2, h1, h2⟩ := hs
    exact QueueExt_trans (hf sc a sc2 h1) (ih sc2 s1 h2)

/-- Helper: `RemoveDupliGroup` and `DelayedRemoveObject` change the euthanasia queue only, keep
what is queued and keep the queue free of duplicates; `DelayedRemoveObject` queues its
object. -/
theorem delayedRemove_QueueExt (h : Heap) (fuel : Nat) :
    (∀ (sc : KX_Scene) (g : Nat) (s1 : KX_Scene),
      RemoveDupliGroup h fuel sc g = some s1 → QueueExt sc s1) ∧
    (∀ (sc : KX_Scene) (g : Nat) (s1 : KX_Scene),
      DelayedRemoveObject h fuel sc g = some s1 →
        QueueExt sc s1 ∧ g ∈ s1.m_euthanasyobjects) := by
  induction fuel with
  | zero =>
    constructor
    · intro sc g s1 hs; simp [RemoveDupliGroup] at hs
    · intro sc g s1 hs; simp [DelayedRemoveObject] at hs
  | succ n ih =>
    obtain ⟨ihR, ihD⟩ := ih
    constructor
    · intro sc g s1 hs
      rw [RemoveDupliGroup_succ] at hs
      split_ifs at hs with hd
      · cases hi : (h.obj g).m_instanceObjects with
        | none => simp [hi] at hs
        | some l =>
          simp only [hi] at hs
          exact foldlM_QueueExt _ (fun a b c hc => (ihD a b c hc).1) l sc s1 hs
      · simp only [Option.some.injEq] at hs
        subst hs
        exact QueueExt_refl sc
    · intro sc g s1 hs
      rw [DelayedRemoveObject_succ] at hs
      cases hr : RemoveDupliGroup h n sc g with
      | none => simp [hr] at hs
      | some sc1 =>
        simp only [hr, Option.some.injEq] at hs
        subst hs
        have hspec := CM_ListAddIfNotFound_spec sc1.m_euthanasyobjects g
        exact ⟨QueueExt_trans (ihR sc g sc1 hr) ⟨_, rfl, hspec.1, hspec.2.2⟩, hspec.2.1⟩

/-- Helper: a second run of `RemoveDupliGroup` or `DelayedRemoveObject`, on any scene whose
queue holds what the first run queued, changes nothing. -/
theorem delayedRemove_absorb (h : Heap) (fuel : Nat) :
    (∀ (sc : KX_Scene) (g : Nat) (s1 : KX_Scene), RemoveDupliGroup h fuel sc g = some s1 →
      ∀ s2 : KX_Scene, (∀ x : Nat, x ∈ s1.m_euthanasyobjects → x ∈ s2.m_euthanasyobjects) →
        RemoveDupliGroup h fuel s2 g = some s2) ∧
    (∀ (sc : KX_Scene) (g : Nat) (s1 : KX_Scene), DelayedRemoveObject h fuel sc g = some s1 →
      ∀ s2 : KX_Scene, (∀ x : Nat, x ∈ s1.m_euthanasyobjects → x ∈ s2.m_euthanasyobjects) →
        DelayedRemoveObject h fuel s2 g = some s2) := by
  induction fuel with
  | zero =>
    constructor
    · intro sc g s1 hs; simp [RemoveDupliGroup] at hs
    · intro sc g s1 hs; simp [DelayedRemoveObject] at hs
  | succ n ih =>
    obtain ⟨ihR, ihD⟩ := ih
    constructor
    · intro sc g s1 hs s2 hsub
      rw [RemoveDupliGroup_succ] at hs ⊢
      split_ifs at hs ⊢ with hd
      · cases hi : (h.obj g).m_instanceObjects with
        | none => simp [hi] at hs
        | some l =>
          simp only [hi] at hs ⊢
          clear hi
          induction l generalizing sc with
          | nil => rfl
          | cons a rest ihl =>
            simp only [List.foldlM_cons, Option.bind_eq_bind, Option.bind_eq_some] at hs
            obtain ⟨sc2, h1, h2⟩ := hs
            have hext : QueueExt sc2 s1 :=
              foldlM_QueueExt _ (fun a b c hc => ((delayedRemove_QueueExt h n).2 a b c hc).1)
                rest sc2 s1 h2
            have hstep : DelayedRemoveObject h n s2 a = some s2 :=
              ihD sc a sc2 h1 s2 (fun x hx => hsub x (QueueExt_mem hext x hx))
            simp only [List.foldlM_cons, Option.bind_eq_bind, hstep, Option.some_bind]
            exact ihl sc2 h2
      · rfl
    · intro sc g s1 hs s2 hsub
      rw [DelayedRemoveObject_succ] at hs ⊢
      cases hr : RemoveDupliGroup h n sc g with
      | none => simp [hr] at hs
      | some sc1 =>
        simp only [hr, Option.some.injEq] at hs
        subst hs
        have hspec := CM_ListAddIfNotFound_spec sc1.m_euthanasyobjects g
        have hg : g ∈ s2.m_euthanasyobjects := hsub g hspec.2.1
        have h2 : RemoveDupliGroup h n s2 g = some s2 :=
          ihR sc g sc1 hr s2 (fun x hx => hsub x (hspec.1 x hx))
        simp [h2, CM_ListAddIfNotFound, hg]

/-- Helper: on a heap whose instance lists are ranked, `RemoveDupliGroup` and
`DelayedRemoveObject` return a scene once the fuel covers the rank of the object. -/
theorem delayedRemove_total (h : Heap) (rank : Nat → Nat) (hwf : InstancesRanked h rank)
    (fuel : Nat) :
    (∀ (sc : KX_Scene) (g : Nat), 2 * rank g + 1 ≤ fuel →
      ∃ s1 : KX_Scene, RemoveDupliGroup h fuel sc g = some s1) ∧
    (∀ (sc : KX_Scene) (g : Nat), 2 * rank g + 2 ≤ fuel →
      ∃ s1 : KX_Scene, DelayedRemoveObject h fuel sc g = some s1) := by
  induction fuel with
  | zero =>
    constructor
    · intro sc g hg; omega
    · intro sc g hg; omega
  | succ n ih =>
    obtain ⟨ihR, ihD⟩ := ih
    constructor
    · intro sc g hg
      rw [RemoveDupliGroup_succ]
      split_ifs with hd
      · obtain ⟨l, hl, hrank⟩ := hwf g hd
        simp only [hl]
        clear hl
        induction l generalizing sc with
        | nil => exact ⟨sc, rfl⟩
        | cons a rest ihl =>
          have ha : rank a < rank g := hrank a (List.mem_cons_self a rest)
          obtain ⟨sc2, h2⟩ := ihD sc a (by omega)
          simp only [List.foldlM_cons, Option.bind_eq_bind, h2, Option.some_bind]
          exact ihl sc2 (fun i hi => hrank i (List.mem_cons_of_mem a hi))
      · exact ⟨sc, rfl⟩
    · intro sc g hg
      rw [DelayedRemoveObject_succ]
      obtain ⟨sc1, h1⟩ := ihR sc g (by omega)
      simp [h1]

/-- Helper: `LogicBeginFrame` records its call and otherwise changes the euthanasia queue only,
by extension. -/
theorem LogicBeginFrame_QueueExt (fuel : Nat) (curtime framestep : ℚ) (h : Heap)
    (scene : KX_Scene) (r : Heap × KX_Scene)
    (hr : LogicBeginFrame fuel curtime framestep h scene = some r) :
    QueueExt
      { scene with calls := scene.calls ++ [SceneCall.LogicBeginFrame curtime framestep] }
      r.2 := by
  unfold LogicBeginFrame at hr
  have key : ∀ (l : List Nat) (acc r : Heap × KX_Scene),
      l.foldlM
        (fun (acc : Heap × KX_Scene) gameobj =>
          match (acc.1.obj gameobj).timebomb with
          | some value =>
            if value - framestep > 0 then
              some (acc.1.set gameobj
                { acc.1.obj gameobj with timebomb := some (value - framestep) }, acc.2)
            else
              match DelayedRemoveObject acc.1 fuel acc.2 gameobj with
              | none => none
              | some sc => some (acc.1, sc)
          | none => some acc) acc = some r → QueueExt acc.2 r.2 := by
    intro l
    induction l with
    | nil =>
      intro acc r hs
      simp only [List.foldlM_nil, Option.pure_def, Option.some.injEq] at hs
      subst hs
      exact QueueExt_refl _
    | cons a rest ih =>
      intro acc r hs
      simp only [List.foldlM_cons, Option.bind_eq_bind, Option.bind_eq_some] at hs
      obtain ⟨acc2, h1, h2⟩ := hs
      refine QueueExt_trans ?_ (ih acc2 r h2)
      cases ht : (acc.1.obj a).timebomb with
      | none =>
        simp only [ht, Option.some.injEq] at h1
        subst h1
        exact QueueExt_refl _
      | some value =>
        simp only [ht] at h1
        split_ifs at h1
        · simp only [Option.some.injEq] at h1
          subst h1
          exact QueueExt_refl _
        · cases hd : DelayedRemoveObject acc.1 fuel acc.2 a with
          | none => simp [hd] at h1
          | some sc =>
            simp only [hd, Option.some.injEq] at h1
            subst h1
            exact ((delayedRemove_QueueExt acc.1 fuel).2 acc.2 a sc hd).1
  exact key _ _ r hr

/-- Helper: `LogicBeginFrame` keeps what is queued and keeps the queue free of duplicates. -/
theorem LogicBeginFrame_queue (fuel : Nat) (curtime framestep : ℚ) (h : Heap) (scene : KX_Scene)
    (r : Heap × KX_Scene) (hr : LogicBeginFrame fuel curtime framestep h scene = some r) :
    (∀ x : Nat, x ∈ scene.m_euthanasyobjects → x ∈ r.2.m_euthanasyobjects) ∧
    (scene.m_euthanasyobjects.Nodup → r.2.m_euthanasyobjects.Nodup) := by
  have hq := LogicBeginFrame_QueueExt fuel curtime framestep h scene r hr
  exact ⟨fun x hx => QueueExt_mem hq x hx, fun hn => QueueExt_nodup hq hn⟩

/-- Helper: the members of the scene that `NewRemoveObject` leaves alone, and what it does to
the euthanasia queue. -/
theorem NewRemoveObject_fields (h : Heap) (scene : KX_Scene) (g : Nat) :
    (NewRemoveObject h scene g).2.m_euthanasyobjects =
      CM_ListRemoveIfFound scene.m_euthanasyobjects g ∧
    (NewRemoveObject h scene g).2.m_suspend = scene.m_suspend ∧
    (NewRemoveObject h scene g).2.m_suspendedDelta = scene.m_suspendedDelta ∧
    (NewRemoveObject h scene g).2.m_name = scene.m_name ∧
    (NewRemoveObject h scene g).2.m_physicsEnvironment = scene.m_physicsEnvironment ∧
    (NewRemoveObject h scene g).2.calls = scene.calls := by
  unfold NewRemoveObject RemoveObjectDebugProperties
  simp only []
  split <;> exact ⟨rfl, rfl, rfl, rfl, rfl, rfl⟩

/-- C9: a second `DelayedRemoveObject` on the same object returns the scene the first call
returned; on a heap whose dupli-group instance lists are ranked the call does return; and a
euthanasia queue free of duplicates stays so under `DelayedRemoveObject`, `RemoveDupliGroup`,
`LogicBeginFrame` and `NewRemoveObject`. -/
theorem delayed_remove_idempotent (h : Heap) (fuel : Nat) (scene : KX_Scene) (gameobj : Nat) :
    (∀ s1 : KX_Scene, DelayedRemoveObject h fuel scene gameobj = some s1 →
      DelayedRemoveObject h fuel s1 gameobj = some s1) ∧
    (∀ rank : Nat → Nat, InstancesRanked h rank →
      ∃ s1 : KX_Scene, DelayedRemoveObject h (2 * rank gameobj + 2) scene gameobj = some s1) ∧
    (scene.m_euthanasyobjects.Nodup →
      (∀ s1 : KX_Scene, DelayedRemoveObject h fuel scene gameobj = some s1 →
        s1.m_euthanasyobjects.Nodup) ∧
      (∀ s1 : KX_Scene, RemoveDupliGroup h fuel scene gameobj = some s1 →
        s1.m_euthanasyobjects.Nodup) ∧
      (∀ (curtime framestep : ℚ) (r : Heap × KX_Scene),
        LogicBeginFrame fuel curtime framestep h scene = some r →
        r.2.m_euthanasyobjects.Nodup) ∧
      (NewRemoveObject h scene gameobj).2.m_euthanasyobjects.Nodup) := by
  refine ⟨fun s1 hs => ?_, fun rank hwf => ?_, fun hn => ⟨fun s1 hs => ?_, fun s1 hs => ?_,
    fun curtime framestep r hr => ?_, ?_⟩⟩
  · exact (delayedRemove_absorb h fuel).2 scene gameobj s1 hs s1 (fun _ hx => hx)
  · exact (delayedRemove_total h rank hwf _).2 scene gameobj (le_refl _)
  · exact QueueExt_nodup ((delayedRemove_QueueExt h fuel).2 scene gameobj s1 hs).1 hn
  · exact QueueExt_nodup ((delayedRemove_QueueExt h fuel).1 scene gameobj s1 hs) hn
  · exact (LogicBeginFrame_queue fuel curtime framestep h scene r hr).2 hn
  · rw [(NewRemoveObject_fields h scene gameobj).1]
    exact hn.erase gameobj

/-- C9 (witness): on the heap with the dupli-group 0 (instances 1 and 2, 1 a dupli-group with
instance 3) and the queue [2], `DelayedRemoveObject` of 0 gives the queue [2, 3, 1, 0], and a
second call returns the same scene. -/
theorem delayed_remove_idempotent_witness :
    (DelayedRemoveObject dupliHeap 6 queueScene 0).map KX_Scene.m_euthanasyobjects =
      some [2, 3, 1, 0] ∧
    ∃ s1 : KX_Scene, DelayedRemoveObject dupliHeap 6 queueScene 0 = some s1 ∧
      DelayedRemoveObject dupliHeap 6 s1 0 = some s1 := by
  have hq : (DelayedRemoveObject dupliHeap 6 queueScene 0).map KX_Scene.m_euthanasyobjects =
      some [2, 3, 1, 0] := by decide
  refine ⟨hq, ?_⟩
  cases hs : DelayedRemoveObject dupliHeap 6 queueScene 0 with
  | none => rw [hs] at hq; exact absurd hq (by simp)
  | some s1 => exact ⟨s1, rfl, (delayed_remove_idempotent dupliHeap 6 queueScene 0).1 s1 hs⟩

/-! ## Theorems: engine orchestrator -/

/-- Helper: `SameSuspend` is transitive. -/
theorem SameSuspend_trans {a b c : KX_Scene} (h1 : SameSuspend a b) (h2 : SameSuspend b c) :
    SameSuspend a c :=
  ⟨h2.1.trans h1.1, h2.2.trans h1.2⟩

/-- Helper: a change of the euthanasia queue keeps the suspend flag and the suspended delta. -/
theorem QueueExt_SameSuspend {a b : KX_Scene} (h : QueueExt a b) : SameSuspend a b := by
  obtain ⟨q, e, _, _⟩ := h
  subst e
  exact ⟨rfl, rfl⟩

/-- Helper: a fold of steps that keep the suspend state keeps it. -/
theorem foldlM_SameSuspend (f : Heap × KX_Scene → Nat → Option (Heap × KX_Scene))
    (hf : ∀ (acc : Heap × KX_Scene) (g : Nat) (r : Heap × KX_Scene),
      f acc g = some r → SameSuspend acc.2 r.2)
    (l : List Nat) :
    ∀ acc r : Heap × KX_Scene, l.foldlM f acc = some r → SameSuspend acc.2 r.2 := by
  induction l with
  | nil =>
    intro acc r hs
    simp only [List.foldlM_nil, Option.pure_def, Option.some.injEq] at hs
    subst hs
    exact ⟨rfl, rfl⟩
  | cons a rest ih =>
    intro acc r hs
    simp only [List.foldlM_cons, Option.bind_eq_bind, Option.bind_eq_some] at hs
    obtain ⟨acc2, h1, h2⟩ := hs
    exact SameSuspend_trans (hf acc a acc2 h1) (ih acc2 r h2)

/-- Helper: `Destruct` keeps the suspend state of the scene. -/
theorem Destruct_SameSuspend (fuel : Nat) :
    ∀ (h : Heap) (scene : KX_Scene) (g : Nat) (r : Heap × KX_Scene),
      Destruct fuel h scene g = some r → SameSuspend scene r.2 := by
  induction fuel with
  | zero => intro h scene g r hr; simp [Destruct] at hr
  | succ n ih =>
    intro h scene g r hr
    rw [Destruct] at hr
    cases hc : (h.obj g).m_children.foldlM
        (fun (acc : Heap × KX_Scene) child => Destruct n acc.1 acc.2 child) (h, scene) with
    | none => simp [hc] at hr
    | some acc =>
      simp only [hc, Option.some.injEq] at hr
      subst hr
      have h1 : SameSuspend scene acc.2 :=
        foldlM_SameSuspend _ (fun a c r hr => ih a.1 a.2 c r hr) _ (h, scene) acc hc
      have h2 := NewRemoveObject_fields acc.1 acc.2 g
      exact SameSuspend_trans h1 ⟨h2.2.1, h2.2.2.1⟩

/-- Helper: `RemoveObject` keeps the suspend state of the scene. -/
theorem RemoveObject_SameSuspend (fuel : Nat) (h : Heap) (scene : KX_Scene) (g : Nat)
    (r : Heap × KX_Scene) (hr : RemoveObject fuel h scene g = some r) :
    SameSuspend scene r.2 := by
  unfold RemoveObject at hr
  split_ifs at hr
  · exact Destruct_SameSuspend fuel _ scene g r hr
  · simp only [Option.some.injEq] at hr
    subst hr
    exact ⟨rfl, rfl⟩

/-- Helper: the drain loop keeps the suspend state of the scene. -/
theorem drainEuthanasy_SameSuspend (fuel : Nat) :
    ∀ (h : Heap) (scene : KX_Scene) (r : Heap × KX_Scene),
      drainEuthanasy fuel h scene = some r → SameSuspend scene r.2 := by
  induction fuel with
  | zero =>
    intro h scene r hr
    rw [drainEuthanasy] at hr
    cases hq : scene.m_euthanasyobjects with
    | nil =>
      simp only [hq, Option.some.injEq] at hr
      subst hr
      exact ⟨rfl, rfl⟩
    | cons a rest => simp [hq] at hr
  | succ n ih =>
    intro h scene r hr
    rw [drainEuthanasy] at hr
    cases hq : scene.m_euthanasyobjects with
    | nil =>
      simp only [hq, Option.some.injEq] at hr
      subst hr
      exact ⟨rfl, rfl⟩
    | cons a rest =>
      simp only [hq] at hr
      cases hro : RemoveObject n h scene a with
      | none => simp [hro] at hr
      | some r1 =>
        simp only [hro] at hr
        exact SameSuspend_trans (RemoveObject_SameSuspend n h scene a r1 hro) (ih r1.1 r1.2 r hr)

/-- Helper: the frame of a suspended scene is the call of `UpdateObjectActivity` alone. -/
theorem sceneFrame_suspended (fuel : Nat) (frameTime : ℚ) (times : FrameTimes) (h : Heap)
    (scene : KX_Scene) (hs : scene.m_suspend = true) :
    sceneFrame fuel frameTime times h scene = some (h, scene.UpdateObjectActivity) := by
  simp [sceneFrame, KX_Scene.IsSuspended, KX_Scene.UpdateObjectActivity, hs]

/-- Helper: the frame of a running scene keeps its suspend state. -/
theorem sceneFrame_running (fuel : Nat) (frameTime : ℚ) (times : FrameTimes) (h : Heap)
    (scene : KX_Scene) (r : Heap × KX_Scene)
    (hr : sceneFrame fuel frameTime times h scene = some r) : SameSuspend scene r.2 := by
  unfold sceneFrame at hr
  simp only [] at hr
  split_ifs at hr with hsusp
  · cases h1 : LogicBeginFrame fuel frameTime times.framestep h scene.UpdateObjectActivity with
    | none => simp [h1] at hr
    | some r1 =>
      simp only [h1] at hr
      cases h2 : LogicEndFrame fuel r1.1 ((r1.2.UpdateParents).LogicUpdateFrame frameTime) with
      | none => simp [h2] at hr
      | some r2 =>
        simp only [h2] at hr
        cases h3 : ProceedDeltaTime r2.2.UpdateParents frameTime times.timestep
            times.framestep with
        | none => simp [h3] at hr
        | some s3 =>
          simp only [h3, Option.some.injEq] at hr
          subst hr
          have e1 := QueueExt_SameSuspend
            (LogicBeginFrame_QueueExt fuel frameTime times.framestep h _ r1 h1)
          have e2 := drainEuthanasy_SameSuspend fuel _ _ r2 h2
          unfold ProceedDeltaTime at h3
          cases hp : (r2.2.UpdateParents).m_physicsEnvironment with
          | none => simp [hp] at h3
          | some env =>
            simp only [hp, Option.some.injEq] at h3
            subst h3
            exact ⟨e2.1.trans e1.1, e2.2.trans e1.2⟩
  · simp only [Option.some.injEq] at hr
    subst hr
    exact ⟨rfl, rfl⟩

/-- Helper: the loop over the scenes keeps the length of the list, gives a suspended scene the
call of `UpdateObjectActivity` alone, and keeps the suspend state of a running scene. -/
theorem scenesFrame_spec (fuel : Nat) (frameTime : ℚ) (times : FrameTimes) (l : List KX_Scene) :
    ∀ (h : Heap) (r : Heap × List KX_Scene), scenesFrame fuel frameTime times h l = some r →
      ∀ (i : Nat) (s : KX_Scene), l[i]? = some s →
        (s.m_suspend = true → r.2[i]? = some s.UpdateObjectActivity) ∧
        ∃ t : KX_Scene, r.2[i]? = some t ∧ SameSuspend s t := by
  induction l with
  | nil => intro h r _ i s hs; simp at hs
  | cons a rest ih =>
    intro h r hr i s hs
    rw [scenesFrame] at hr
    cases h1 : sceneFrame fuel frameTime times h a with
    | none => simp [h1] at hr
    | some r1 =>
      simp only [h1] at hr
      cases h2 : scenesFrame fuel frameTime times r1.1 rest with
      | none => simp [h2] at hr
      | some r2 =>
        simp only [h2, Option.some.injEq] at hr
        subst hr
        cases i with
        | zero =>
          simp only [List.getElem?_cons_zero, Option.some.injEq] at hs
          subst hs
          refine ⟨fun hsusp => ?_, r1.2, by simp, sceneFrame_running fuel frameTime times h a r1 h1⟩
          rw [sceneFrame_suspended fuel frameTime times h a hsusp] at h1
          simp only [Option.some.injEq] at h1
          subst h1
          simp
        | succ k =>
          simp only [List.getElem?_cons_succ] at hs ⊢
          exact ih r1.1 r2 h2 k s hs

/-- Helper: with no scene change queued, one tick gives a suspended scene the call of
`UpdateObjectActivity` and `framestep` more suspended delta, keeps the suspend state of a
running scene, and queues nothing. -/
theorem tick_spec (fuel : Nat) (conv : BL_Converter) (times : FrameTimes) (e e1 : KX_KetsjiEngine)
    (hp : noPending e) (ht : tick fuel conv times e = some e1) :
    noPending e1 ∧
    ∀ (i : Nat) (s : KX_Scene), e.m_scenes[i]? = some s →
      (s.m_suspend = true → e1.m_scenes[i]? = some (suspendedAfter s 1 times.framestep)) ∧
      (s.m_suspend = false → ∃ t : KX_Scene, e1.m_scenes[i]? = some t ∧ SameSuspend s t) := by
  obtain ⟨p1, p2, p3, p4⟩ := hp
  unfold tick at ht
  cases hsf : scenesFrame fuel (e.m_frameTime + times.framestep) times e.heap e.m_scenes with
  | none => simp [hsf] at ht
  | some r =>
    simp only [hsf, Option.some.injEq] at ht
    have hscenes : e1.m_scenes = r.2.map (fun scene =>
        if scene.IsSuspended then scene.SetSuspendedDelta (scene.GetSuspendedDelta + times.framestep)
        else scene) := by
      rw [← ht]
      simp only [ProcessScheduledScenes, UpdateSuspendedScenes, p1, p2, p3, p4, List.isEmpty_nil,
        Bool.and_self, Bool.not_true, Bool.false_eq_true, if_false]
      split_ifs <;> rfl
    have hpend : noPending e1 := by
      rw [← ht]
      simp only [ProcessScheduledScenes, UpdateSuspendedScenes, p1, p2, p3, p4, List.isEmpty_nil,
        Bool.and_self, Bool.not_true, Bool.false_eq_true, if_false]
      split_ifs <;> exact ⟨rfl, rfl, rfl, rfl⟩
    refine ⟨hpend, fun i s hs => ?_⟩
    obtain ⟨hsus, t, ht1, ht2⟩ := scenesFrame_spec fuel _ times e.m_scenes e.heap r hsf i s hs
    rw [hscenes, List.getElem?_map]
    constructor
    · intro hsusp
      rw [hsus hsusp]
      simp [KX_Scene.IsSuspended, KX_Scene.UpdateObjectActivity, KX_Scene.SetSuspendedDelta,
        KX_Scene.GetSuspendedDelta, suspendedAfter, hsusp]
    · intro hrun
      rw [ht1]
      have htr : t.m_suspend = false := ht2.1.trans hrun
      exact ⟨t, by simp [KX_Scene.IsSuspended, htr], ht2⟩

/-- Helper: `k + 1` suspended ticks are one suspended tick followed by `k`. -/
theorem suspendedAfter_succ (s : KX_Scene) (k : Nat) (f : ℚ) :
    suspendedAfter (suspendedAfter s 1 f) k f = suspendedAfter s (k + 1) f := by
  unfold suspendedAfter
  have h1 : s.m_suspendedDelta + (1 : Nat) * f + (k : ℚ) * f =
      s.m_suspendedDelta + ((k + 1 : Nat) : ℚ) * f := by
    push_cast
    ring
  have h2 : (s.calls ++ List.replicate 1 SceneCall.UpdateObjectActivity) ++
      List.replicate k SceneCall.UpdateObjectActivity =
      s.calls ++ List.replicate (k + 1) SceneCall.UpdateObjectActivity := by
    rw [List.append_assoc, ← List.replicate_add, Nat.add_comm]
  simp only [h1, h2]

/-- Helper: the accounting of `k` ticks with no scene change queued. -/
theorem ticks_spec (fuel : Nat) (conv : BL_Converter) (times : FrameTimes) (k : Nat) :
    ∀ e e2 : KX_KetsjiEngine, noPending e → ticks fuel conv times k e = some e2 →
      ∀ (i : Nat) (s : KX_Scene), e.m_scenes[i]? = some s →
        (s.m_suspend = true → e2.m_scenes[i]? = some (suspendedAfter s k times.framestep)) ∧
        (s.m_suspend = false → ∃ t : KX_Scene, e2.m_scenes[i]? = some t ∧ SameSuspend s t) := by
  induction k with
  | zero =>
    intro e e2 _ hk i s hs
    simp only [ticks, Option.some.injEq] at hk
    subst hk
    refine ⟨fun _ => ?_, fun _ => ⟨s, hs, rfl, rfl⟩⟩
    rw [hs]
    simp [suspendedAfter]
  | succ n ih =>
    intro e e2 hp hk i s hs
    rw [ticks] at hk
    cases ht : tick fuel conv times e with
    | none => simp [ht] at hk
    | some e1 =>
      simp only [ht] at hk
      obtain ⟨hp1, hstep⟩ := tick_spec fuel conv times e e1 hp ht
      obtain ⟨hsus, hrun⟩ := hstep i s hs
      constructor
      · intro hsusp
        have h1 := (ih e1 e2 hp1 hk i _ (hsus hsusp)).1 (by simpa [suspendedAfter] using hsusp)
        rw [h1, suspendedAfter_succ]
      · intro hr
        obtain ⟨t, ht1, ht2⟩ := hrun hr
        obtain ⟨t2, ht3, ht4⟩ := (ih e1 e2 hp1 hk i t ht1).2 (ht2.1.trans hr)
        exact ⟨t2, ht3, SameSuspend_trans ht2 ht4⟩

/-! ## Theorems: clock and time scheduler, continued -/

/-- Helper: `GetFrameTimes` moves `m_previousRealTime` to the simulation time exactly when the
frame count it returns is positive. -/
theorem GetFrameTimes_marker (now : ℚ) (e : KX_KetsjiEngine) :
    (0 < (GetFrameTimes now e).1.frames →
      (GetFrameTimes now e).2.m_previousRealTime = (GetFrameTimes now e).2.m_clockTime) ∧
    ((GetFrameTimes now e).1.frames ≤ 0 →
      (GetFrameTimes now e).2.m_previousRealTime = e.m_previousRealTime) := by
  unfold GetFrameTimes
  simp only [gt_iff_lt]
  constructor
  · intro hpos
    rw [if_pos hpos]
  · intro hneg
    rw [if_neg (not_lt.mpr hneg)]

/-- C13 (failing input): under an external clock set one second before the last tick time,
`GetFrameTimes` returns the non-zero frame count -60 and leaves `m_previousRealTime` at 1, while
the simulation time `m_clockTime` is 0. -/
theorem GetFrameTimes_negative_count_keeps_marker :
    (GetFrameTimes 0 rewoundEngine).1.frames = -60 ∧
    (GetFrameTimes 0 rewoundEngine).2.m_clockTime = 0 ∧
    (GetFrameTimes 0 rewoundEngine).2.m_previousRealTime = 1 := by
  have hc : Int.ceil (-60 : ℚ) = -60 := by
    rw [Int.ceil_eq_iff]; norm_num
  refine ⟨?_, ?_, ?_⟩ <;> norm_num [GetFrameTimes, toInt, rewoundEngine, hc]

/-- C14: in variable-framerate mode with both caps at least 1, `GetFrameTimes` returns one frame
whose timestep is the elapsed delta, whatever the delta. -/
theorem GetFrameTimes_variable (now : ℚ) (e : KX_KetsjiEngine)
    (hvar : e.FIXED_FRAMERATE = false) (hP : 1 ≤ e.m_maxPhysicsFrame)
    (hL : 1 ≤ e.m_maxLogicFrame) :
    (GetFrameTimes now e).1.frames = 1 ∧ (GetFrameTimes now e).1.timestep = elapsed now e := by
  unfold GetFrameTimes elapsed
  simp only [hvar, Bool.false_eq_true, if_false, gt_iff_lt]
  have h1 : ¬ e.m_maxPhysicsFrame < 1 := not_lt.mpr hP
  have h2 : ¬ e.m_maxLogicFrame < 1 := not_lt.mpr hL
  simp [h1, h2]

/-- C14 (witness): the engine as constructed (variable framerate, caps 5 and 5), with no time
elapsed, gets one frame of timestep 0. -/
theorem GetFrameTimes_variable_witness :
    (GetFrameTimes 0 {}).1.frames = 1 ∧ (GetFrameTimes 0 {}).1.timestep = 0 := by
  have h := GetFrameTimes_variable 0 {} rfl (by decide) (by decide)
  refine ⟨h.1, ?_⟩
  rw [h.2]
  norm_num [elapsed]

/-! ## Theorems: scene registry, continued -/

/-- C15: `ConvertAndAddScene`, `RemoveScene` and `ReplaceScene` leave the scene list (and the
heap, the exit record and the frame time) as they are; they only append to the pending
queues, so the list changes when `ProcessScheduledScenes` applies the queues. -/
theorem requests_only_queue (conv : BL_Converter) (e : KX_KetsjiEngine)
    (scenename oldscene newscene : String) (overlay : Bool) :
    OnlyQueued e (ConvertAndAddScene scenename overlay e) ∧
    OnlyQueued e (RemoveScene scenename e) ∧
    OnlyQueued e (ReplaceScene conv oldscene newscene e).2 := by
  refine ⟨?_, ?_, ?_⟩
  · unfold ConvertAndAddScene
    split_ifs
    · exact ⟨rfl, rfl, rfl, rfl, ⟨[], by simp⟩, ⟨[], by simp⟩, ⟨[], by simp⟩, ⟨[], by simp⟩⟩
    · exact ⟨rfl, rfl, rfl, rfl, ⟨[scenename], rfl⟩, ⟨[], by simp⟩, ⟨[], by simp⟩,
        ⟨[], by simp⟩⟩
    · exact ⟨rfl, rfl, rfl, rfl, ⟨[], by simp⟩, ⟨[scenename], rfl⟩, ⟨[], by simp⟩,
        ⟨[], by simp⟩⟩
  · unfold RemoveScene
    split_ifs
    · exact ⟨rfl, rfl, rfl, rfl, ⟨[], by simp⟩, ⟨[], by simp⟩, ⟨[scenename], rfl⟩,
        ⟨[], by simp⟩⟩
    · exact ⟨rfl, rfl, rfl, rfl, ⟨[], by simp⟩, ⟨[], by simp⟩, ⟨[], by simp⟩, ⟨[], by simp⟩⟩
  · unfold ReplaceScene
    split_ifs
    · exact ⟨rfl, rfl, rfl, rfl, ⟨[], by simp⟩, ⟨[], by simp⟩, ⟨[], by simp⟩,
        ⟨[(oldscene, newscene)], rfl⟩⟩
    · exact ⟨rfl, rfl, rfl, rfl, ⟨[], by simp⟩, ⟨[], by simp⟩, ⟨[], by simp⟩, ⟨[], by simp⟩⟩

/-- Helper: `FindScene` finds nothing exactly when no scene of the list has the name. -/
theorem FindScene_eq_none (e : KX_KetsjiEngine) (name : String) :
    FindScene e name = none ↔ ∀ s : KX_Scene, s ∈ e.m_scenes → s.m_name ≠ name := by
  unfold FindScene
  rw [List.find?_eq_none]
  constructor
  · intro h s hs; simpa using h s hs
  · intro h s hs; simpa using h s hs

/-- C16: `ConvertAndAddScene` with a name that a scene of the list has, and `RemoveScene` with a
name that no scene of the list has, return the engine as it was, so that a later
`ProcessScheduledScenes` gives what it would have given without them. -/
theorem bad_requests_are_noops (conv : BL_Converter) (e : KX_KetsjiEngine) (scenename : String)
    (overlay : Bool) :
    ((∃ s : KX_Scene, s ∈ e.m_scenes ∧ s.m_name = scenename) →
      ConvertAndAddScene scenename overlay e = e ∧
      ProcessScheduledScenes conv (ConvertAndAddScene scenename overlay e) =
        ProcessScheduledScenes conv e) ∧
    ((∀ s : KX_Scene, s ∈ e.m_scenes → s.m_name ≠ scenename) →
      RemoveScene scenename e = e ∧
      ProcessScheduledScenes conv (RemoveScene scenename e) = ProcessScheduledScenes conv e) := by
  constructor
  · intro hex
    have hfind : (FindScene e scenename).isSome = true := by
      cases hf : FindScene e scenename with
      | some s => rfl
      | none =>
        obtain ⟨s, hs, hn⟩ := hex
        exact absurd hn ((FindScene_eq_none e scenename).mp hf s hs)
    have heq : ConvertAndAddScene scenename overlay e = e := by
      simp [ConvertAndAddScene, hfind]
    exact ⟨heq, by rw [heq]⟩
  · intro hall
    have hfind : FindScene e scenename = none := (FindScene_eq_none e scenename).mpr hall
    have heq : RemoveScene scenename e = e := by
      simp [RemoveScene, hfind]
    exact ⟨heq, by rw [heq]⟩

/-- C16 (witness): in the list X, Y, Z, adding Y again and removing the unknown A change
nothing. -/
theorem bad_requests_are_noops_witness :
    ConvertAndAddScene "Y" true xyzEngine = xyzEngine ∧ RemoveScene "A" xyzEngine = xyzEngine :=
  ⟨((bad_requests_are_noops exampleConverter xyzEngine "Y" true).1
      ⟨{ m_name := "Y"
         m_blenderScene := { id_name := "SCY" }
         m_activeCamera := some 1
         m_objectlist := [1]
         m_cameralist := [1]
         calls := [SceneCall.UpdateParents] }, by decide, rfl⟩).1,
   ((bad_requests_are_noops exampleConverter xyzEngine "A" true).2 (by decide)).1⟩

/-- C17: `ReplaceScene(old, new)` returns true exactly when the converter resolves the new name,
and then appends the pair to the replacement queue and changes nothing else; otherwise it
returns false and the engine is as it was. -/
theorem ReplaceScene_resolves (conv : BL_Converter) (e : KX_KetsjiEngine)
    (oldscene newscene : String) :
    ((ReplaceScene conv oldscene newscene e).1 = true ↔
      (conv.GetBlenderSceneForName newscene).isSome = true) ∧
    ((conv.GetBlenderSceneForName newscene).isSome = true →
      (ReplaceScene conv oldscene newscene e).2 =
        { e with m_replace_scenes := e.m_replace_scenes ++ [(oldscene, newscene)] }) ∧
    (conv.GetBlenderSceneForName newscene = none →
      (ReplaceScene conv oldscene newscene e).1 = false ∧
      (ReplaceScene conv oldscene newscene e).2 = e ∧
      ProcessScheduledScenes conv (ReplaceScene conv oldscene newscene e).2 =
        ProcessScheduledScenes conv e) := by
  unfold ReplaceScene
  cases hb : conv.GetBlenderSceneForName newscene <;> simp

/-- C17 (witness): with the example converter, replacing Y by the unknown Q is refused and
replacing Y by A is queued. -/
theorem ReplaceScene_resolves_witness :
    (ReplaceScene exampleConverter "Y" "Q" xyzEngine).1 = false ∧
    (ReplaceScene exampleConverter "Y" "A" xyzEngine).2.m_replace_scenes = [("Y", "A")] :=
  ⟨((ReplaceScene_resolves exampleConverter xyzEngine "Y" "Q").2.2 (by decide)).1,
   by rw [(ReplaceScene_resolves exampleConverter xyzEngine "Y" "A").2.1 (by decide)]; decide⟩

/-! ## Theorems: scene graph and object lifecycle, continued -/

/-- Helper: merging the objects of the other scene one by one changes the animated list of the
destination only. -/
theorem MergeScene_GameObject_fold (h : Heap) (l : List Nat) :
    ∀ dest : KX_Scene,
      (l.foldl (fun dest gameobj => MergeScene_GameObject h gameobj dest) dest) =
        { dest with
          m_animatedlist :=
            (l.foldl (fun dest gameobj => MergeScene_GameObject h gameobj dest)
              dest).m_animatedlist } := by
  induction l with
  | nil => intro dest; rfl
  | cons a rest ih =>
    intro dest
    simp only [List.foldl_cons]
    rw [ih]
    unfold MergeScene_GameObject
    split_ifs <;> rfl

/-- C19: when the physics environments of the two scenes are both present or both absent,
`Merge` returns true and the object, inactive, root-parent, light, camera and font lists of this
scene are its former lists followed by the lists of the other scene. -/
theorem Merge_concatenates (h : Heap) (this other : KX_Scene)
    (henv : this.m_physicsEnvironment.isSome = other.m_physicsEnvironment.isSome) :
    (Merge h this other).1 = true ∧
    (Merge h this other).2.1.m_objectlist = this.m_objectlist ++ other.m_objectlist ∧
    (Merge h this other).2.1.m_inactivelist = this.m_inactivelist ++ other.m_inactivelist ∧
    (Merge h this other).2.1.m_parentlist = this.m_parentlist ++ other.m_parentlist ∧
    (Merge h this other).2.1.m_lightlist = this.m_lightlist ++ other.m_lightlist ∧
    (Merge h this other).2.1.m_cameralist = this.m_cameralist ++ other.m_cameralist ∧
    (Merge h this other).2.1.m_fontlist = this.m_fontlist ++ other.m_fontlist := by
  have hne : (this.m_physicsEnvironment.isNone != other.m_physicsEnvironment.isNone) = false := by
    cases ha : this.m_physicsEnvironment <;> cases hb : other.m_physicsEnvironment <;>
      simp [ha, hb] at henv ⊢
  unfold Merge
  simp only [hne, Bool.false_eq_true, if_false, MergeList]
  rw [MergeScene_GameObject_fold h other.m_inactivelist,
    MergeScene_GameObject_fold h other.m_objectlist]
  exact ⟨trivial, rfl, rfl, rfl, rfl, rfl, rfl⟩

/-- C19 (witness): two scenes without physics environment, with the objects 0, 1 and 2, 3. -/
theorem Merge_concatenates_witness :
    (Merge Heap.empty
      { m_name := "X", m_blenderScene := { id_name := "SCX" }, m_objectlist := [0, 1] }
      { m_name := "Y", m_blenderScene := { id_name := "SCY" }, m_objectlist := [2, 3] }
      ).2.1.m_objectlist = [0, 1, 2, 3] :=
  (Merge_concatenates Heap.empty
    { m_name := "X", m_blenderScene := { id_name := "SCX" }, m_objectlist := [0, 1] }
    { m_name := "Y", m_blenderScene := { id_name := "SCY" }, m_objectlist := [2, 3] } rfl).2.1

/-! ## Theorems: engine orchestrator, continued -/

/-- Helper: `SameTiming` is transitive. -/
theorem SameTiming_trans {a b c : KX_KetsjiEngine} (h1 : SameTiming a b) (h2 : SameTiming b c) :
    SameTiming a c :=
  ⟨h2.1.trans h1.1, h2.2.1.trans h1.2.1, h2.2.2.trans h1.2.2⟩

/-- Helper: a fold of engine steps that keep the timing keeps it. -/
theorem foldl_SameTiming (f : KX_KetsjiEngine → String → KX_KetsjiEngine)
    (hf : ∀ (e : KX_KetsjiEngine) (name : String), SameTiming e (f e name)) (l : List String) :
    ∀ e : KX_KetsjiEngine, SameTiming e (l.foldl f e) := by
  induction l with
  | nil => intro e; exact ⟨rfl, rfl, rfl⟩
  | cons a rest ih =>
    intro e
    simp only [List.foldl_cons]
    exact SameTiming_trans (hf e a) (ih (f e a))

/-- Helper: `ProcessScheduledScenes` keeps the frame time, the time scale and the render
flag. -/
theorem ProcessScheduledScenes_SameTiming (conv : BL_Converter) (e : KX_KetsjiEngine) :
    SameTiming e (ProcessScheduledScenes conv e) := by
  have hrep : SameTiming e (ReplaceScheduledScenes conv e) := by
    unfold ReplaceScheduledScenes
    split_ifs <;> exact ⟨rfl, rfl, rfl⟩
  have hrem : ∀ x : KX_KetsjiEngine, SameTiming x (RemoveScheduledScenes x) := by
    intro x
    unfold RemoveScheduledScenes
    split_ifs <;> exact ⟨rfl, rfl, rfl⟩
  have hov : ∀ (x : KX_KetsjiEngine) (name : String), SameTiming x (addOverlayScene conv x name) := by
    intro x name
    unfold addOverlayScene
    cases CreateSceneNamed conv name <;> exact ⟨rfl, rfl, rfl⟩
  have hbg : ∀ (x : KX_KetsjiEngine) (name : String),
      SameTiming x (addBackgroundScene conv x name) := by
    intro x name
    unfold addBackgroundScene
    cases CreateSceneNamed conv name <;> exact ⟨rfl, rfl, rfl⟩
  have hadd : ∀ x : KX_KetsjiEngine, SameTiming x (AddScheduledScenes conv x) := by
    intro x
    have h1 : SameTiming x
        (if !x.m_addingOverlayScenes.isEmpty then
          { x.m_addingOverlayScenes.foldl (addOverlayScene conv) x with
            m_addingOverlayScenes := [] }
        else x) := by
      split_ifs
      · exact foldl_SameTiming _ hov _ x
      · exact ⟨rfl, rfl, rfl⟩
    have key : ∀ E1 : KX_KetsjiEngine, SameTiming x E1 →
        SameTiming x
          (if !E1.m_addingBackgroundScenes.isEmpty then
            { E1.m_addingBackgroundScenes.foldl (addBackgroundScene conv) E1 with
              m_addingBackgroundScenes := [] }
          else E1) := by
      intro E1 hE1
      split_ifs
      · have hb := foldl_SameTiming _ hbg E1.m_addingBackgroundScenes E1
        exact SameTiming_trans hE1 ⟨hb.1, hb.2.1, hb.2.2⟩
      · exact hE1
    exact key _ h1
  unfold ProcessScheduledScenes
  simp only []
  have hall := SameTiming_trans hrep (SameTiming_trans (hrem _) (hadd _))
  split_ifs <;> first | exact hall | exact ⟨rfl, rfl, rfl⟩

/-- Helper: a tick adds the framestep to the frame time and keeps the time scale and the render
flag. -/
theorem tick_frameTime (fuel : Nat) (conv : BL_Converter) (times : FrameTimes)
    (e e1 : KX_KetsjiEngine) (ht : tick fuel conv times e = some e1) :
    e1.m_frameTime = e.m_frameTime + times.framestep ∧ e1.m_timescale = e.m_timescale ∧
    e1.m_doRender = e.m_doRender := by
  unfold tick at ht
  cases hsf : scenesFrame fuel (e.m_frameTime + times.framestep) times e.heap e.m_scenes with
  | none => simp [hsf] at ht
  | some r =>
    simp only [hsf, Option.some.injEq] at ht
    rw [← ht]
    exact ProcessScheduledScenes_SameTiming conv _

/-- Helper: `k` ticks add `k` framesteps to the frame time and keep the time scale and the
render flag. -/
theorem ticks_frameTime (fuel : Nat) (conv : BL_Converter) (times : FrameTimes) (k : Nat) :
    ∀ e e2 : KX_KetsjiEngine, ticks fuel conv times k e = some e2 →
      e2.m_frameTime = e.m_frameTime + k * times.framestep ∧ e2.m_timescale = e.m_timescale ∧
      e2.m_doRender = e.m_doRender := by
  induction k with
  | zero =>
    intro e e2 hk
    simp only [ticks, Option.some.injEq] at hk
    subst hk
    simp
  | succ n ih =>
    intro e e2 hk
    rw [ticks] at hk
    cases ht : tick fuel conv times e with
    | none => simp [ht] at hk
    | some e1 =>
      simp only [ht] at hk
      obtain ⟨a1, a2, a3⟩ := tick_frameTime fuel conv times e e1 ht
      obtain ⟨b1, b2, b3⟩ := ih e1 e2 hk
      refine ⟨?_, b2.trans a2, b3.trans a3⟩
      rw [b1, a1]
      push_cast
      ring

/-- Helper: the frame of a quiet scene has a result, on the same heap, and the scene stays
quiet. -/
theorem sceneFrame_quiet (fuel : Nat) (frameTime : ℚ) (times : FrameTimes) (h : Heap)
    (scene : KX_Scene) (hq : Quiet scene) :
    ∃ t : KX_Scene, sceneFrame fuel frameTime times h scene = some (h, t) ∧ Quiet t := by
  by_cases hs : scene.m_suspend = true
  · exact ⟨scene.UpdateObjectActivity, sceneFrame_suspended fuel frameTime times h scene hs,
      Or.inl hs⟩
  · rcases hq with hq | ⟨h1, h2, h3⟩
    · exact absurd hq hs
    · have hs2 : scene.m_suspend = false := by simpa using hs
      cases hp : scene.m_physicsEnvironment with
      | none => simp [hp] at h3
      | some env =>
        cases scene
        simp only [] at h1 h2 hp hs2
        subst h1 h2 hp hs2
        cases fuel <;> exact ⟨_, rfl, Or.inr ⟨rfl, rfl, rfl⟩⟩

/-- Helper: the loop over quiet scenes has a result, and the scenes stay quiet. -/
theorem scenesFrame_quiet (fuel : Nat) (frameTime : ℚ) (times : FrameTimes)
    (l : List KX_Scene) (hl : ∀ s : KX_Scene, s ∈ l → Quiet s) :
    ∀ h : Heap, ∃ l2 : List KX_Scene, scenesFrame fuel frameTime times h l = some (h, l2) ∧
      ∀ s : KX_Scene, s ∈ l2 → Quiet s := by
  induction l with
  | nil => intro h; exact ⟨[], rfl, by simp⟩
  | cons a rest ih =>
    intro h
    obtain ⟨t, ht, hqt⟩ := sceneFrame_quiet fuel frameTime times h a
      (hl a (List.mem_cons_self _ _))
    obtain ⟨l2, hl2, hq2⟩ := ih (fun s hs => hl s (List.mem_cons_of_mem _ hs)) h
    refine ⟨t :: l2, ?_, ?_⟩
    · rw [scenesFrame, ht]
      simp only [hl2]
    · intro s hs
      rcases List.mem_cons.mp hs with hs | hs
      · rw [hs]; exact hqt
      · exact hq2 s hs

/-- Helper: with no scene change queued, a tick over quiet scenes has a result, queues nothing
and leaves the scenes quiet. -/
theorem tick_quiet (fuel : Nat) (conv : BL_Converter) (times : FrameTimes) (e : KX_KetsjiEngine)
    (hp : noPending e) (hq : ∀ s : KX_Scene, s ∈ e.m_scenes → Quiet s) :
    ∃ e1 : KX_KetsjiEngine, tick fuel conv times e = some e1 ∧ noPending e1 ∧
      ∀ s : KX_Scene, s ∈ e1.m_scenes → Quiet s := by
  obtain ⟨l2, hl2, hq2⟩ :=
    scenesFrame_quiet fuel (e.m_frameTime + times.framestep) times e.m_scenes hq e.heap
  obtain ⟨p1, p2, p3, p4⟩ := hp
  refine ⟨_, by rw [tick, hl2], ?_, ?_⟩
  · simp only [ProcessScheduledScenes, UpdateSuspendedScenes, p1, p2, p3, p4, List.isEmpty_nil,
      Bool.and_self, Bool.not_true, Bool.false_eq_true, if_false]
    split_ifs <;> exact ⟨rfl, rfl, rfl, rfl⟩
  · have hscenes : (ProcessScheduledScenes conv (UpdateSuspendedScenes times.framestep
        { e with m_frameTime := e.m_frameTime + times.framestep, heap := e.heap,
                 m_scenes := l2 })).m_scenes =
        l2.map (fun scene =>
          if scene.IsSuspended then
            scene.SetSuspendedDelta (scene.GetSuspendedDelta + times.framestep)
          else scene) := by
      simp only [ProcessScheduledScenes, UpdateSuspendedScenes, p1, p2, p3, p4, List.isEmpty_nil,
        Bool.and_self, Bool.not_true, Bool.false_eq_true, if_false]
      split_ifs <;> rfl
    intro s hs
    rw [hscenes, List.mem_map] at hs
    obtain ⟨t, ht, rfl⟩ := hs
    have hqt := hq2 t ht
    split_ifs
    · exact hqt
    · exact hqt

/-- Helper: with no scene change queued, any number of ticks over quiet scenes has a result. -/
theorem ticks_quiet (fuel : Nat) (conv : BL_Converter) (times : FrameTimes) (k : Nat) :
    ∀ e : KX_KetsjiEngine, noPending e → (∀ s : KX_Scene, s ∈ e.m_scenes → Quiet s) →
      ∃ e2 : KX_KetsjiEngine, ticks fuel conv times k e = some e2 := by
  induction k with
  | zero => intro e _ _; exact ⟨e, rfl⟩
  | succ n ih =>
    intro e hp hq
    obtain ⟨e1, h1, hp1, hq1⟩ := tick_quiet fuel conv times e hp hq
    obtain ⟨e2, h2⟩ := ih e1 hp1 hq1
    exact ⟨e2, by rw [ticks, h1]; exact h2⟩

/-- C12 (as amended): a `NextFrame` call whose frame count is 0 returns false and leaves the
frame time, the heap, the scenes and the pending queues as they were; a call whose frame count
is between 1 and 65535 is exactly that many ticks, and when they complete the frame time has
grown by frames × timestep × time scale and the render flag is returned.  The call has a result
whatever the fuel when no scene change is queued and every scene is quiet (suspended, or without
temporary objects and queued removals and with a physics environment). -/
theorem NextFrame_runs_frames (fuel : Nat) (conv : BL_Converter) (now : ℚ)
    (e : KX_KetsjiEngine) :
    ((GetFrameTimes now e).1.frames = 0 →
      NextFrame fuel conv now e = some (false, (GetFrameTimes now e).2) ∧
      (GetFrameTimes now e).2.m_frameTime = e.m_frameTime ∧
      (GetFrameTimes now e).2.m_scenes = e.m_scenes ∧
      (GetFrameTimes now e).2.heap = e.heap ∧
      (GetFrameTimes now e).2.m_addingOverlayScenes = e.m_addingOverlayScenes ∧
      (GetFrameTimes now e).2.m_addingBackgroundScenes = e.m_addingBackgroundScenes ∧
      (GetFrameTimes now e).2.m_removingScenes = e.m_removingScenes ∧
      (GetFrameTimes now e).2.m_replace_scenes = e.m_replace_scenes) ∧
    (0 < (GetFrameTimes now e).1.frames → (GetFrameTimes now e).1.frames ≤ 65535 →
      NextFrame fuel conv now e =
        (ticks fuel conv (GetFrameTimes now e).1 (GetFrameTimes now e).1.frames.toNat
          (GetFrameTimes now e).2).map (fun e1 => (e1.m_doRender, e1)) ∧
      ∀ r : Bool × KX_KetsjiEngine, NextFrame fuel conv now e = some r →
        r.2.m_frameTime = e.m_frameTime +
          (GetFrameTimes now e).1.frames * (GetFrameTimes now e).1.timestep * e.m_timescale ∧
        r.1 = e.m_doRender) ∧
    (noPending e → (∀ s : KX_Scene, s ∈ e.m_scenes → Quiet s) →
      (GetFrameTimes now e).1.frames ≤ 65535 →
      ∃ r : Bool × KX_KetsjiEngine, NextFrame fuel conv now e = some r) := by
  refine ⟨?_, ?_, ?_⟩
  · intro h0
    refine ⟨?_, rfl, rfl, rfl, rfl, rfl, rfl, rfl⟩
    simp [NextFrame, h0]
  rotate_left
  · intro hp hq hle
    have hbig : ¬ (GetFrameTimes now e).1.frames > 65535 := by omega
    obtain ⟨e2, he2⟩ := ticks_quiet fuel conv (GetFrameTimes now e).1
      (GetFrameTimes now e).1.frames.toNat (GetFrameTimes now e).2 hp hq
    unfold NextFrame
    by_cases h0 : (GetFrameTimes now e).1.frames = 0
    · exact ⟨(false, (GetFrameTimes now e).2), by simp only [h0, if_true]⟩
    · exact ⟨(e2.m_doRender, e2), by simp only [h0, hbig, if_false, he2]⟩
  · intro hpos hle
    have hne : ¬ (GetFrameTimes now e).1.frames = 0 := by omega
    have hbig : ¬ (GetFrameTimes now e).1.frames > 65535 := by omega
    have heq : NextFrame fuel conv now e =
        (ticks fuel conv (GetFrameTimes now e).1 (GetFrameTimes now e).1.frames.toNat
          (GetFrameTimes now e).2).map (fun e1 => (e1.m_doRender, e1)) := by
      unfold NextFrame
      simp only [hne, hbig, if_false]
      cases ticks fuel conv (GetFrameTimes now e).1 (GetFrameTimes now e).1.frames.toNat
        (GetFrameTimes now e).2 <;> rfl
    refine ⟨heq, fun r hr => ?_⟩
    rw [heq] at hr
    cases ht : ticks fuel conv (GetFrameTimes now e).1 (GetFrameTimes now e).1.frames.toNat
        (GetFrameTimes now e).2 with
    | none => simp [ht] at hr
    | some e1 =>
      simp only [ht, Option.map_some', Option.some.injEq] at hr
      subst hr
      obtain ⟨a1, _, a3⟩ := ticks_frameTime fuel conv _ _ _ e1 ht
      refine ⟨?_, a3⟩
      rw [a1]
      have hcast : (((GetFrameTimes now e).1.frames.toNat : Nat) : ℚ) =
          ((GetFrameTimes now e).1.frames : ℚ) := by
        have := Int.toNat_of_nonneg hpos.le
        exact_mod_cast this
      rw [hcast]
      have hfs : (GetFrameTimes now e).1.framestep =
          (GetFrameTimes now e).1.timestep * e.m_timescale := rfl
      rw [hfs]
      show e.m_frameTime + _ = _
      ring

/-- C12 (counterexample): under an external clock set one second before the last tick time the
frame count is -60, not 0; `NextFrame` runs no tick, leaves the frame time at 0 (the claim has
it grow by frames × timestep × time scale, that is by -1) and returns the render flag.  With
caps of 70000 and 65536/60 s elapsed the frame count is 65536, which the `unsigned short` loop
counter never reaches: `NextFrame` has no result. -/
theorem NextFrame_negative_count_runs_nothing :
    ((GetFrameTimes 0 rewoundEngine).1.frames = -60 ∧
      (GetFrameTimes 0 rewoundEngine).1.timestep = 1 / 60 ∧
      (NextFrame 0 exampleConverter 0 rewoundEngine).map (fun r => (r.1, r.2.m_frameTime)) =
        some (true, 0) ∧
      rewoundEngine.m_frameTime + (-60 : ℚ) * (1 / 60) * rewoundEngine.m_timescale = -1) ∧
    ((GetFrameTimes (65536 / 60) hugeCapEngine).1.frames = 65536 ∧
      NextFrame 0 exampleConverter (65536 / 60) hugeCapEngine = none) := by
  have hc : Int.ceil (-60 : ℚ) = -60 := by
    rw [Int.ceil_eq_iff]; norm_num
  have hf : (GetFrameTimes 0 rewoundEngine).1.frames = -60 := by
    norm_num [GetFrameTimes, toInt, rewoundEngine, hc]
  have hbig : (GetFrameTimes (65536 / 60) hugeCapEngine).1.frames = 65536 := by
    norm_num [GetFrameTimes, toInt, hugeCapEngine]
  refine ⟨⟨hf, ?_, ?_, ?_⟩, hbig, ?_⟩
  · norm_num [GetFrameTimes, toInt, rewoundEngine, hc]
  · unfold NextFrame
    simp only [hf]
    norm_num [ticks]
    constructor <;> rfl
  · norm_num [rewoundEngine]
  · unfold NextFrame
    simp only [hbig]
    norm_num

/-- C12 (witness): with 1/20 s elapsed at tic rate 60, `NextFrame` on the engine with a suspended
and a running scene runs 3 ticks, returns the render flag and leaves the frame time at 1/20; the
two scenes are quiet, so the call has a result without fuel too. -/
theorem NextFrame_runs_frames_witness :
    (GetFrameTimes (1 / 20) runEngine).1.frames = 3 ∧
    (NextFrame 1 exampleConverter (1 / 20) runEngine).map (fun r => (r.1, r.2.m_frameTime)) =
      some (true, 1 / 20) ∧
    ∃ r : Bool × KX_KetsjiEngine, NextFrame 0 exampleConverter (1 / 20) runEngine = some r := by
  have hf : (GetFrameTimes (1 / 20) runEngine).1.frames = 3 := by
    norm_num [GetFrameTimes, toInt, runEngine]
  have hquiet : ∀ s : KX_Scene, s ∈ runEngine.m_scenes → Quiet s := by
    intro s hs
    have hs2 : s = pausedScene ∨ s = runningScene := by
      simpa [runEngine] using hs
    rcases hs2 with rfl | rfl
    · exact Or.inl rfl
    · exact Or.inr ⟨rfl, rfl, rfl⟩
  refine ⟨hf, ?_, (NextFrame_runs_frames 0 exampleConverter (1 / 20) runEngine).2.2
    ⟨rfl, rfl, rfl, rfl⟩ hquiet (by rw [hf]; decide)⟩
  have hts : (GetFrameTimes (1 / 20) runEngine).1.timestep = 1 / 60 := by
    norm_num [GetFrameTimes, toInt, runEngine]
  have h := (NextFrame_runs_frames 1 exampleConverter (1 / 20) runEngine).2.1
    (by rw [hf]; decide) (by rw [hf]; decide)
  have hsome : (ticks 1 exampleConverter (GetFrameTimes (1 / 20) runEngine).1 3
      (GetFrameTimes (1 / 20) runEngine).2).isSome = true := by decide
  cases hs : NextFrame 1 exampleConverter (1 / 20) runEngine with
  | none =>
    rw [h.1, hf] at hs
    simp only [Int.toNat_ofNat, Option.map_eq_none'] at hs
    have h3 : Int.toNat 3 = 3 := rfl
    rw [h3] at hs
    rw [hs] at hsome
    exact absurd hsome (by simp)
  | some r =>
    obtain ⟨h1, h2⟩ := h.2 r hs
    rw [hf, hts] at h1
    simp only [Option.map_some', Option.some.injEq, Prod.mk.injEq]
    refine ⟨h2, ?_⟩
    rw [h1]
    norm_num [runEngine]

/-! ## Theorems: applying the queues -/

/-- Helper: the body of the overlay loop does not read the pending queues. -/
theorem addOverlayScene_withQueues (conv : BL_Converter) (x : KX_KetsjiEngine) (name : String)
    (ov bg rem : List String) (rep : List (String × String)) :
    addOverlayScene conv (withQueues x ov bg rem rep) name =
      withQueues (addOverlayScene conv x name) ov bg rem rep := by
  unfold addOverlayScene
  cases CreateSceneNamed conv name <;> rfl

/-- Helper: the body of the background loop does not read the pending queues. -/
theorem addBackgroundScene_withQueues (conv : BL_Converter) (x : KX_KetsjiEngine) (name : String)
    (ov bg rem : List String) (rep : List (String × String)) :
    addBackgroundScene conv (withQueues x ov bg rem rep) name =
      withQueues (addBackgroundScene conv x name) ov bg rem rep := by
  unfold addBackgroundScene
  cases CreateSceneNamed conv name <;> rfl

/-- Helper: a loop whose body does not read the pending queues commutes with setting them. -/
theorem foldl_withQueues (f : KX_KetsjiEngine → String → KX_KetsjiEngine)
    (ov bg rem : List String) (rep : List (String × String))
    (hf : ∀ (x : KX_KetsjiEngine) (name : String),
      f (withQueues x ov bg rem rep) name = withQueues (f x name) ov bg rem rep)
    (l : List String) :
    ∀ x : KX_KetsjiEngine,
      l.foldl f (withQueues x ov bg rem rep) = withQueues (l.foldl f x) ov bg rem rep := by
  induction l with
  | nil => intro x; rfl
  | cons a rest ih =>
    intro x
    simp only [List.foldl_cons, hf, ih]

/-- Helper: the replacement loop reads the engine for the camera-override members only. -/
theorem replaceFold_congr (conv : BL_Converter) (e e2 : KX_KetsjiEngine)
    (h1 : e2.CAMERA_OVERRIDE = e.CAMERA_OVERRIDE)
    (h2 : e2.m_overrideSceneName = e.m_overrideSceneName)
    (h3 : e2.m_overrideCamData = e.m_overrideCamData)
    (h4 : e2.m_overrideCamPosition = e.m_overrideCamPosition)
    (h5 : e2.m_overrideCamOrientation = e.m_overrideCamOrientation)
    (q : List (String × String)) (acc : Heap × List KX_Scene) :
    q.foldl (fun (acc : Heap × List KX_Scene) (names : String × String) =>
        replaceInList conv e2 names.1 names.2 acc.1 acc.2) acc =
      q.foldl (fun (acc : Heap × List KX_Scene) (names : String × String) =>
        replaceInList conv e names.1 names.2 acc.1 acc.2) acc := by
  have hfun : (fun (acc : Heap × List KX_Scene) (names : String × String) =>
        replaceInList conv e2 names.1 names.2 acc.1 acc.2) =
      (fun (acc : Heap × List KX_Scene) (names : String × String) =>
        replaceInList conv e names.1 names.2 acc.1 acc.2) := by
    funext acc names
    exact replaceInList_congr conv e e2 names.1 names.2 h1 h2 h3 h4 h5 acc.2 acc.1
  rw [hfun]

/-- Helper: `ReplaceScheduledScenes` without the test of the queue being empty. -/
theorem ReplaceScheduledScenes_eq (conv : BL_Converter) (e : KX_KetsjiEngine) :
    ReplaceScheduledScenes conv e =
      { e with
        heap := (e.m_replace_scenes.foldl
          (fun (acc : Heap × List KX_Scene) (names : String × String) =>
            replaceInList conv (withQueues e [] [] [] []) names.1 names.2 acc.1 acc.2)
          (e.heap, e.m_scenes)).1
        m_scenes := (e.m_replace_scenes.foldl
          (fun (acc : Heap × List KX_Scene) (names : String × String) =>
            replaceInList conv (withQueues e [] [] [] []) names.1 names.2 acc.1 acc.2)
          (e.heap, e.m_scenes)).2
        m_replace_scenes := [] } := by
  rw [replaceFold_congr conv e (withQueues e [] [] [] []) rfl rfl rfl rfl rfl]
  unfold ReplaceScheduledScenes
  cases hq : e.m_replace_scenes with
  | nil =>
    simp only [List.isEmpty_nil, Bool.not_true, Bool.false_eq_true, if_false, List.foldl_nil]
    cases e
    simp only [] at hq
    subst hq
    rfl
  | cons a rest =>
    simp only [List.isEmpty_cons, Bool.not_false, if_true]

/-- Helper: `RemoveScheduledScenes` without the test of the queue being empty. -/
theorem RemoveScheduledScenes_eq (e : KX_KetsjiEngine) :
    RemoveScheduledScenes e =
      { e with
        m_scenes := e.m_removingScenes.foldl removeNamed e.m_scenes
        m_removingScenes := [] } := by
  unfold RemoveScheduledScenes
  cases hq : e.m_removingScenes with
  | nil =>
    simp only [List.isEmpty_nil, Bool.not_true, Bool.false_eq_true, if_false, List.foldl_nil]
    cases e
    simp only [] at hq
    subst hq
    rfl
  | cons a rest =>
    simp only [List.isEmpty_cons, Bool.not_false, if_true]

/-- Helper: `AddScheduledScenes` without the tests of the queues being empty. -/
theorem AddScheduledScenes_eq (conv : BL_Converter) (e : KX_KetsjiEngine) :
    AddScheduledScenes conv e =
      { e.m_addingBackgroundScenes.foldl (addBackgroundScene conv)
          (withQueues (e.m_addingOverlayScenes.foldl (addOverlayScene conv)
            (withQueues e [] [] [] [])) [] e.m_addingBackgroundScenes e.m_removingScenes
            e.m_replace_scenes) with
        m_addingBackgroundScenes := [] } := by
  have heta : withQueues (withQueues e [] [] [] []) e.m_addingOverlayScenes
      e.m_addingBackgroundScenes e.m_removingScenes e.m_replace_scenes = e := by
    cases e; rfl
  have hov : (if !e.m_addingOverlayScenes.isEmpty then
        { e.m_addingOverlayScenes.foldl (addOverlayScene conv) e with
          m_addingOverlayScenes := [] }
      else e) =
      withQueues (e.m_addingOverlayScenes.foldl (addOverlayScene conv)
        (withQueues e [] [] [] [])) [] e.m_addingBackgroundScenes e.m_removingScenes
        e.m_replace_scenes := by
    cases hq : e.m_addingOverlayScenes with
    | nil =>
      simp only [List.isEmpty_nil, Bool.not_true, Bool.false_eq_true, if_false, List.foldl_nil]
      cases e
      simp only [] at hq
      subst hq
      rfl
    | cons a rest =>
      simp only [List.isEmpty_cons, Bool.not_false, if_true]
      have h2 := foldl_withQueues (addOverlayScene conv) e.m_addingOverlayScenes
        e.m_addingBackgroundScenes e.m_removingScenes e.m_replace_scenes
        (fun x name => addOverlayScene_withQueues conv x name _ _ _ _) (a :: rest)
        (withQueues e [] [] [] [])
      rw [heta] at h2
      rw [h2]
      rfl
  have hdef : AddScheduledScenes conv e =
      (fun e1 : KX_KetsjiEngine =>
        if !e1.m_addingBackgroundScenes.isEmpty then
          { e1.m_addingBackgroundScenes.foldl (addBackgroundScene conv) e1 with
            m_addingBackgroundScenes := [] }
        else e1)
      (if !e.m_addingOverlayScenes.isEmpty then
        { e.m_addingOverlayScenes.foldl (addOverlayScene conv) e with
          m_addingOverlayScenes := [] }
      else e) := rfl
  rw [hdef, hov]
  simp only []
  cases hq : e.m_addingBackgroundScenes with
  | nil =>
    simp only [withQueues, List.isEmpty_nil, Bool.not_true, Bool.false_eq_true, if_false,
      List.foldl_nil]
  | cons a rest =>
    simp only [withQueues, List.isEmpty_cons, Bool.not_false, if_true]

/-- Helper: `ProcessScheduledScenes` is `applyQueues` of the four queues of the engine. -/
theorem ProcessScheduledScenes_eq_applyQueues (conv : BL_Converter) (e : KX_KetsjiEngine) :
    ProcessScheduledScenes conv e =
      applyQueues conv e e.m_replace_scenes e.m_removingScenes e.m_addingOverlayScenes
        e.m_addingBackgroundScenes := by
  -- the three phases run on every engine: with empty queues they change nothing
  have hphases : ProcessScheduledScenes conv e =
      (fun e1 : KX_KetsjiEngine =>
        if e1.m_scenes.isEmpty then RequestExit Code.NO_SCENES_LEFT e1 else e1)
      (AddScheduledScenes conv (RemoveScheduledScenes (ReplaceScheduledScenes conv e))) := by
    unfold ProcessScheduledScenes
    by_cases hq : (e.m_addingOverlayScenes.isEmpty && e.m_addingBackgroundScenes.isEmpty &&
        e.m_replace_scenes.isEmpty && e.m_removingScenes.isEmpty) = true
    · simp only [Bool.and_eq_true, List.isEmpty_iff] at hq
      obtain ⟨⟨⟨h1, h2⟩, h3⟩, h4⟩ := hq
      have hrep : ReplaceScheduledScenes conv e = e := by
        simp [ReplaceScheduledScenes, h3]
      have hrem : RemoveScheduledScenes e = e := by
        simp [RemoveScheduledScenes, h4]
      have hadd : AddScheduledScenes conv e = e := by
        simp [AddScheduledScenes, h1, h2]
      rw [hrep, hrem, hadd]
      simp [h1, h2, h3, h4]
    · simp only [hq, Bool.not_false, if_true]
  rw [hphases]
  have hfold : ∀ (f : KX_KetsjiEngine → String → KX_KetsjiEngine) (l : List String)
      (x : KX_KetsjiEngine) (ov bg rem : List String) (rep : List (String × String)),
      (∀ (y : KX_KetsjiEngine) (name : String) (a b c : List String)
        (d : List (String × String)),
        f (withQueues y a b c d) name = withQueues (f y name) a b c d) →
      l.foldl f (withQueues x ov bg rem rep) = withQueues (l.foldl f x) ov bg rem rep :=
    fun f l x ov bg rem rep hf => foldl_withQueues f ov bg rem rep (fun y n => hf y n _ _ _ _) l x
  have hovq := fun l x a b c d => hfold (addOverlayScene conv) l x a b c d
    (fun y n a b c d => addOverlayScene_withQueues conv y n a b c d)
  have hbgq := fun l x a b c d => hfold (addBackgroundScene conv) l x a b c d
    (fun y n a b c d => addBackgroundScene_withQueues conv y n a b c d)
  have hmain : AddScheduledScenes conv (RemoveScheduledScenes (ReplaceScheduledScenes conv e)) =
      e.m_addingBackgroundScenes.foldl (addBackgroundScene conv)
        (e.m_addingOverlayScenes.foldl (addOverlayScene conv)
          { withQueues e [] [] [] [] with
            heap := (e.m_replace_scenes.foldl
              (fun (acc : Heap × List KX_Scene) (names : String × String) =>
                replaceInList conv (withQueues e [] [] [] []) names.1 names.2 acc.1 acc.2)
              (e.heap, e.m_scenes)).1
            m_scenes := e.m_removingScenes.foldl removeNamed (e.m_replace_scenes.foldl
              (fun (acc : Heap × List KX_Scene) (names : String × String) =>
                replaceInList conv (withQueues e [] [] [] []) names.1 names.2 acc.1 acc.2)
              (e.heap, e.m_scenes)).2 }) := by
    rw [AddScheduledScenes_eq, RemoveScheduledScenes_eq, ReplaceScheduledScenes_eq]
    generalize hR : (e.m_replace_scenes.foldl
      (fun (acc : Heap × List KX_Scene) (names : String × String) =>
        replaceInList conv (withQueues e [] [] [] []) names.1 names.2 acc.1 acc.2)
      (e.heap, e.m_scenes)) = R
    have hx : ∀ x : KX_KetsjiEngine, x = withQueues x x.m_addingOverlayScenes
        x.m_addingBackgroundScenes x.m_removingScenes x.m_replace_scenes := by
      intro x; cases x; rfl
    show ({ List.foldl (addBackgroundScene conv)
        (withQueues (List.foldl (addOverlayScene conv)
          (withQueues ({ withQueues e [] [] [] [] with
            heap := R.1, m_scenes := e.m_removingScenes.foldl removeNamed R.2 })
            [] [] [] []) e.m_addingOverlayScenes) [] e.m_addingBackgroundScenes [] [])
        e.m_addingBackgroundScenes with m_addingBackgroundScenes := [] } : KX_KetsjiEngine) = _
    rw [hovq, hbgq, hbgq]
    have hZ : ∀ E1 : KX_KetsjiEngine, E1 = withQueues E1 [] [] [] [] →
        e.m_addingBackgroundScenes.foldl (addBackgroundScene conv)
          (e.m_addingOverlayScenes.foldl (addOverlayScene conv) E1) =
        withQueues (e.m_addingBackgroundScenes.foldl (addBackgroundScene conv)
          (e.m_addingOverlayScenes.foldl (addOverlayScene conv) E1)) [] [] [] [] := by
      intro E1 hE1
      calc e.m_addingBackgroundScenes.foldl (addBackgroundScene conv)
            (e.m_addingOverlayScenes.foldl (addOverlayScene conv) E1)
          = e.m_addingBackgroundScenes.foldl (addBackgroundScene conv)
            (e.m_addingOverlayScenes.foldl (addOverlayScene conv)
              (withQueues E1 [] [] [] [])) := by rw [← hE1]
        _ = _ := by rw [hovq, hbgq]
    exact (hZ _ rfl).symm
  rw [hmain]
  rfl

/-- Helper: the overlay loop skips a name the converter cannot resolve. -/
theorem addOverlayScene_unresolved (conv : BL_Converter) (x : KX_KetsjiEngine) (bad : String)
    (hbad : conv.GetBlenderSceneForName bad = none) : addOverlayScene conv x bad = x := by
  simp [addOverlayScene, CreateSceneNamed, hbad]

/-- Helper: the background loop skips a name the converter cannot resolve. -/
theorem addBackgroundScene_unresolved (conv : BL_Converter) (x : KX_KetsjiEngine) (bad : String)
    (hbad : conv.GetBlenderSceneForName bad = none) : addBackgroundScene conv x bad = x := by
  simp [addBackgroundScene, CreateSceneNamed, hbad]

/-- Helper: the replacement loop leaves heap and list alone when no scene has the old name. -/
theorem replaceInList_absent (conv : BL_Converter) (e : KX_KetsjiEngine) (o n : String)
    (l : List KX_Scene) (hl : ∀ t : KX_Scene, t ∈ l → t.m_name ≠ o) :
    ∀ h : Heap, replaceInList conv e o n h l = (h, l) := by
  induction l with
  | nil => intro h; rfl
  | cons s rest ih =>
    intro h
    have hs : (s.m_name == o) = false := by
      simpa using hl s (List.mem_cons_self _ _)
    unfold replaceInList
    simp only [hs, Bool.false_eq_true, if_false]
    rw [ih (fun t ht => hl t (List.mem_cons_of_mem _ ht))]

/-- Helper: a loop over a queue skips an entry on which its body does nothing. -/
theorem foldl_skip {α β : Type} (f : α → β → α) (bad : β) (q1 q2 : List β) (x : α)
    (hbad : f (q1.foldl f x) bad = q1.foldl f x) :
    (q1 ++ bad :: q2).foldl f x = (q1 ++ q2).foldl f x := by
  rw [List.foldl_append, List.foldl_append, List.foldl_cons, hbad]

/-- C18: bad scene names are skipped when `ProcessScheduledScenes` applies the queues.  An
addition whose name the converter cannot resolve leaves the engine as it is; a removal whose name
no scene of the list has leaves the list as it is; a replacement whose old name no scene of the
list has leaves heap and list as they are.  With such a request anywhere in its queue,
`ProcessScheduledScenes` gives what it gives with that request taken out of the queue, so the
other requests of the four queues are applied. -/
theorem bad_names_skipped (conv : BL_Converter) (e : KX_KetsjiEngine) (bad : String)
    (q1 q2 : List String) (oldscene newscene : String) (p1 p2 : List (String × String)) :
    (conv.GetBlenderSceneForName bad = none →
      (∀ x : KX_KetsjiEngine,
        addOverlayScene conv x bad = x ∧ addBackgroundScene conv x bad = x) ∧
      (e.m_addingOverlayScenes = q1 ++ bad :: q2 →
        ProcessScheduledScenes conv e =
          ProcessScheduledScenes conv { e with m_addingOverlayScenes := q1 ++ q2 }) ∧
      (e.m_addingBackgroundScenes = q1 ++ bad :: q2 →
        ProcessScheduledScenes conv e =
          ProcessScheduledScenes conv { e with m_addingBackgroundScenes := q1 ++ q2 })) ∧
    (∀ scenes : List KX_Scene, (∀ t : KX_Scene, t ∈ scenes → t.m_name ≠ bad) →
      removeNamed scenes bad = scenes) ∧
    (e.m_removingScenes = q1 ++ bad :: q2 →
      (∀ t : KX_Scene, t ∈ q1.foldl removeNamed (ReplaceScheduledScenes conv e).m_scenes →
        t.m_name ≠ bad) →
      ProcessScheduledScenes conv e =
        ProcessScheduledScenes conv { e with m_removingScenes := q1 ++ q2 }) ∧
    (∀ (h : Heap) (scenes : List KX_Scene), (∀ t : KX_Scene, t ∈ scenes → t.m_name ≠ oldscene) →
      replaceInList conv e oldscene newscene h scenes = (h, scenes)) ∧
    (e.m_replace_scenes = p1 ++ (oldscene, newscene) :: p2 →
      (∀ t : KX_Scene,
        t ∈ (ReplaceScheduledScenes conv { e with m_replace_scenes := p1 }).m_scenes →
        t.m_name ≠ oldscene) →
      ProcessScheduledScenes conv e =
        ProcessScheduledScenes conv { e with m_replace_scenes := p1 ++ p2 }) := by
  refine ⟨?_, ?_, ?_, ?_, ?_⟩
  · intro hbad
    refine ⟨fun x => ⟨addOverlayScene_unresolved conv x bad hbad,
      addBackgroundScene_unresolved conv x bad hbad⟩, ?_, ?_⟩
    · intro hq
      rw [ProcessScheduledScenes_eq_applyQueues, ProcessScheduledScenes_eq_applyQueues, hq]
      show applyQueues conv e e.m_replace_scenes e.m_removingScenes (q1 ++ bad :: q2)
          e.m_addingBackgroundScenes =
        applyQueues conv e e.m_replace_scenes e.m_removingScenes (q1 ++ q2)
          e.m_addingBackgroundScenes
      unfold applyQueues
      simp only []
      rw [foldl_skip (addOverlayScene conv) bad q1 q2 _
        (addOverlayScene_unresolved conv _ bad hbad)]
    · intro hq
      rw [ProcessScheduledScenes_eq_applyQueues, ProcessScheduledScenes_eq_applyQueues, hq]
      show applyQueues conv e e.m_replace_scenes e.m_removingScenes e.m_addingOverlayScenes
          (q1 ++ bad :: q2) =
        applyQueues conv e e.m_replace_scenes e.m_removingScenes e.m_addingOverlayScenes
          (q1 ++ q2)
      unfold applyQueues
      simp only []
      rw [foldl_skip (addBackgroundScene conv) bad q1 q2 _
        (addBackgroundScene_unresolved conv _ bad hbad)]
  · exact fun scenes h => removeNamed_absent scenes bad h
  · intro hq habs
    rw [ProcessScheduledScenes_eq_applyQueues, ProcessScheduledScenes_eq_applyQueues, hq]
    show applyQueues conv e e.m_replace_scenes (q1 ++ bad :: q2) e.m_addingOverlayScenes
        e.m_addingBackgroundScenes =
      applyQueues conv e e.m_replace_scenes (q1 ++ q2) e.m_addingOverlayScenes
        e.m_addingBackgroundScenes
    rw [ReplaceScheduledScenes_eq] at habs
    have hskip := foldl_skip removeNamed bad q1 q2 _ (removeNamed_absent _ bad habs)
    exact congrArg (fun m : List KX_Scene =>
      (fun e2 : KX_KetsjiEngine =>
        if e2.m_scenes.isEmpty then RequestExit Code.NO_SCENES_LEFT e2 else e2)
      (e.m_addingBackgroundScenes.foldl (addBackgroundScene conv)
        (e.m_addingOverlayScenes.foldl (addOverlayScene conv)
          { withQueues e [] [] [] [] with
            heap := (e.m_replace_scenes.foldl
              (fun (acc : Heap × List KX_Scene) (names : String × String) =>
                replaceInList conv (withQueues e [] [] [] []) names.1 names.2 acc.1 acc.2)
              (e.heap, e.m_scenes)).1
            m_scenes := m }))) hskip
  · exact fun h scenes hl => replaceInList_absent conv e oldscene newscene scenes hl h
  · intro hq habs
    rw [ProcessScheduledScenes_eq_applyQueues, ProcessScheduledScenes_eq_applyQueues, hq]
    show applyQueues conv e (p1 ++ (oldscene, newscene) :: p2) e.m_removingScenes
        e.m_addingOverlayScenes e.m_addingBackgroundScenes =
      applyQueues conv e (p1 ++ p2) e.m_removingScenes e.m_addingOverlayScenes
        e.m_addingBackgroundScenes
    rw [ReplaceScheduledScenes_eq] at habs
    have hstep : (fun (acc : Heap × List KX_Scene) (names : String × String) =>
          replaceInList conv (withQueues e [] [] [] []) names.1 names.2 acc.1 acc.2)
        (p1.foldl (fun (acc : Heap × List KX_Scene) (names : String × String) =>
          replaceInList conv (withQueues e [] [] [] []) names.1 names.2 acc.1 acc.2)
          (e.heap, e.m_scenes)) (oldscene, newscene) =
        p1.foldl (fun (acc : Heap × List KX_Scene) (names : String × String) =>
          replaceInList conv (withQueues e [] [] [] []) names.1 names.2 acc.1 acc.2)
          (e.heap, e.m_scenes) :=
      replaceInList_absent conv _ oldscene newscene _ habs _
    have hskip := foldl_skip (fun (acc : Heap × List KX_Scene) (names : String × String) =>
        replaceInList conv (withQueues e [] [] [] []) names.1 names.2 acc.1 acc.2)
      (oldscene, newscene) p1 p2 (e.heap, e.m_scenes) hstep
    exact congrArg (fun R : Heap × List KX_Scene =>
      (fun e2 : KX_KetsjiEngine =>
        if e2.m_scenes.isEmpty then RequestExit Code.NO_SCENES_LEFT e2 else e2)
      (e.m_addingBackgroundScenes.foldl (addBackgroundScene conv)
        (e.m_addingOverlayScenes.foldl (addOverlayScene conv)
          { withQueues e [] [] [] [] with
            heap := R.1
            m_scenes := e.m_removingScenes.foldl removeNamed R.2 }))) hskip

/-- C18 (witness): on the scenes X, Y, Z with the queued overlay additions Q (unknown) and A, the
removals Y and Y and the replacement of W by B, `ProcessScheduledScenes` gives what it gives
without Q, without the second Y, and without the replacement; the list becomes X, Z, A. -/
theorem bad_names_skipped_witness :
    ProcessScheduledScenes exampleConverter badNamesEngine =
      ProcessScheduledScenes exampleConverter
        { badNamesEngine with m_addingOverlayScenes := ["A"] } ∧
    ProcessScheduledScenes exampleConverter badNamesEngine =
      ProcessScheduledScenes exampleConverter { badNamesEngine with m_removingScenes := ["Y"] } ∧
    ProcessScheduledScenes exampleConverter badNamesEngine =
      ProcessScheduledScenes exampleConverter { badNamesEngine with m_replace_scenes := [] } ∧
    (ProcessScheduledScenes exampleConverter badNamesEngine).m_scenes.map
      (fun s => s.m_name) = ["X", "Z", "A"] :=
  ⟨((bad_names_skipped exampleConverter badNamesEngine "Q" [] ["A"] "W" "B" [] []).1
      (by decide)).2.1 rfl,
   (bad_names_skipped exampleConverter badNamesEngine "Y" ["Y"] [] "W" "B" [] []).2.2.1 rfl
     (by decide),
   (bad_names_skipped exampleConverter badNamesEngine "Y" ["Y"] [] "W" "B" [] []).2.2.2.2 rfl
     (by decide),
   by decide⟩

/-! ## Theorems: render scheduler -/

/-- Helper: the eyes in use are the left eye without stereo and both eyes otherwise. -/
theorem eyesInUse_eq (stereoMode : StereoMode) :
    eyesInUse stereoMode =
      if stereoMode = StereoMode.RAS_STEREO_NOSTEREO then [StereoEye.RAS_STEREO_LEFTEYE]
      else [StereoEye.RAS_STEREO_LEFTEYE, StereoEye.RAS_STEREO_RIGHTEYE] := by
  unfold eyesInUse numeyes useStereo
  by_cases h : stereoMode = StereoMode.RAS_STEREO_NOSTEREO
  · subst h; decide
  · have hne : (stereoMode != StereoMode.RAS_STEREO_NOSTEREO) = true := by simpa using h
    rw [hne, if_neg h]
    decide

/-- Helper: the eye loop appends one schedule of the camera for each eye in use and none for
another eye. -/
theorem scheduleEyes_spec (scene : KX_Scene) (cam : Nat) (stereoMode : StereoMode)
    (viewportIndex : Nat) (schedules : StereoEye → List KX_CameraRenderSchedule)
    (eye : StereoEye) :
    ∃ k : Nat,
      (scheduleEyes scene cam stereoMode (numeyes stereoMode) 0 viewportIndex schedules).2 eye =
        schedules eye ++
          (if eye ∈ eyesInUse stereoMode then
            [ScheduleCameraRender cam scene.m_overrideCullingCamera stereoMode eye k]
          else []) := by
  rw [eyesInUse_eq]
  by_cases h : stereoMode = StereoMode.RAS_STEREO_NOSTEREO
  · have hn : numeyes stereoMode = 1 := by subst h; decide
    rw [hn, if_pos h]
    refine ⟨viewportIndex, ?_⟩
    cases eye <;> simp [scheduleEyes, pushCameraSchedule, StereoEye.ofIndex]
  · have hne : (stereoMode != StereoMode.RAS_STEREO_NOSTEREO) = true := by simpa using h
    have hn : numeyes stereoMode = 2 := by simp [numeyes, useStereo, hne]
    rw [hn, if_neg h]
    cases eye
    · refine ⟨viewportIndex, ?_⟩
      simp [scheduleEyes, pushCameraSchedule, StereoEye.ofIndex]
    · refine ⟨(viewportIndex + 1) % 4294967296, ?_⟩
      simp [scheduleEyes, pushCameraSchedule, StereoEye.ofIndex]

/-- Helper: the camera loop appends, for an eye in use, one schedule per scheduled camera in
list order, each for that eye and the stereo mode of the call; for another eye it appends
nothing. -/
theorem scheduleCameras_spec (h : Heap) (scene : KX_Scene) (stereoMode : StereoMode)
    (eye : StereoEye) (l : List Nat) :
    ∀ (viewportIndex : Nat) (schedules : StereoEye → List KX_CameraRenderSchedule),
    ∃ added : List KX_CameraRenderSchedule,
      scheduleCameras h scene stereoMode l viewportIndex schedules eye = schedules eye ++ added ∧
      added.map (fun c => c.m_camera) =
        (if eye ∈ eyesInUse stereoMode then l.filter (scheduled h scene) else []) ∧
      ∀ c : KX_CameraRenderSchedule, c ∈ added → c.m_eye = eye ∧ c.m_stereoMode = stereoMode := by
  induction l with
  | nil =>
    intro viewportIndex schedules
    exact ⟨[], by simp [scheduleCameras], by simp, by simp⟩
  | cons cam rest ih =>
    intro viewportIndex schedules
    unfold scheduleCameras
    by_cases hskip : ((some cam != scene.m_activeCamera) && !UseViewport h cam) = true
    · obtain ⟨added, h1, h2, h3⟩ := ih viewportIndex schedules
      refine ⟨added, ?_, ?_, h3⟩
      · rw [if_pos hskip]; exact h1
      · have hs : scheduled h scene cam = false := by simp [scheduled, hskip]
        rw [h2, List.filter_cons_of_neg (by simp [hs])]
    · rw [if_neg hskip]
      obtain ⟨k, hk⟩ := scheduleEyes_spec scene cam stereoMode viewportIndex schedules eye
      obtain ⟨added, h1, h2, h3⟩ := ih
        (scheduleEyes scene cam stereoMode (numeyes stereoMode) 0 viewportIndex schedules).1
        (scheduleEyes scene cam stereoMode (numeyes stereoMode) 0 viewportIndex schedules).2
      have hs : scheduled h scene cam = true := by
        simp only [Bool.not_eq_true] at hskip
        simp [scheduled, hskip]
      by_cases hin : eye ∈ eyesInUse stereoMode
      · rw [if_pos hin] at hk h2
        refine ⟨ScheduleCameraRender cam scene.m_overrideCullingCamera stereoMode eye k :: added,
          ?_, ?_, ?_⟩
        · rw [h1, hk]; simp
        · rw [if_pos hin, List.filter_cons_of_pos hs, List.map_cons, h2]
          rfl
        · intro c hc
          rcases List.mem_cons.mp hc with hc | hc
          · subst hc; exact ⟨rfl, rfl⟩
          · exact h3 c hc
      · rw [if_neg hin] at hk h2
        refine ⟨added, ?_, ?_, h3⟩
        · rw [h1, hk]; simp
        · rw [if_neg hin]; exact h2

/-- Helper: a camera is scheduled exactly when it is the active camera or viewport-enabled. -/
theorem scheduled_eq (h : Heap) (scene : KX_Scene) :
    scheduled h scene =
      fun cam => some cam == scene.m_activeCamera || UseViewport h cam := by
  funext cam
  unfold scheduled
  cases hv : UseViewport h cam <;> cases ha : (some cam == scene.m_activeCamera) <;>
    simp [bne, ha]

/-- Helper: the camera schedules of one scene, for an eye in use and for another eye. -/
theorem scheduleScene_spec (h : Heap) (stereoMode : StereoMode) (scene : KX_Scene)
    (eye : StereoEye) :
    ((scheduleScene h stereoMode scene).m_cameraSchedules eye).map (fun c => c.m_camera) =
      (if eye ∈ eyesInUse stereoMode then
        scene.m_cameralist.filter
          (fun cam => some cam == scene.m_activeCamera || UseViewport h cam)
      else []) ∧
    ∀ c : KX_CameraRenderSchedule, c ∈ (scheduleScene h stereoMode scene).m_cameraSchedules eye →
      c.m_eye = eye ∧ c.m_stereoMode = stereoMode := by
  obtain ⟨added, h1, h2, h3⟩ :=
    scheduleCameras_spec h scene stereoMode eye scene.m_cameralist 0 (fun _ => [])
  have hadd : (scheduleScene h stereoMode scene).m_cameraSchedules eye = added := by
    unfold scheduleScene
    simpa using h1
  rw [hadd, h2, scheduled_eq]
  exact ⟨rfl, h3⟩

/-- C11: the shape of the render schedule.  `ScheduleRender` returns one scene schedule per
scene of the list, in list order; for each eye in use, the camera schedules of a scene are, in
camera-list order, one for each camera of the list that is the active camera or is
viewport-enabled, each for that eye and the stereo mode of the call.  With two scenes of one
camera each, that camera being the active camera of its scene or viewport-enabled, and no
stereo, there are 1 frame schedule, 2 scene schedules and 1 camera schedule in each for the
left eye (none for the right eye). -/
theorem ScheduleRender_shape (stereoMode : StereoMode) (e : KX_KetsjiEngine) :
    (ScheduleRender stereoMode e).m_sceneSchedules.map (fun s => s.m_scene) = e.m_scenes ∧
    (∀ s : KX_SceneRenderSchedule, s ∈ (ScheduleRender stereoMode e).m_sceneSchedules →
      ∀ eye : StereoEye, eye ∈ eyesInUse stereoMode →
        (s.m_cameraSchedules eye).map (fun c => c.m_camera) =
          s.m_scene.m_cameralist.filter
            (fun cam => some cam == s.m_scene.m_activeCamera || UseViewport e.heap cam) ∧
        ∀ c : KX_CameraRenderSchedule, c ∈ s.m_cameraSchedules eye →
          c.m_eye = eye ∧ c.m_stereoMode = stereoMode) ∧
    (∀ (s1 s2 : KX_Scene) (c1 c2 : Nat),
      e.m_scenes = [s1, s2] → s1.m_cameralist = [c1] → s2.m_cameralist = [c2] →
      (s1.m_activeCamera = some c1 ∨ UseViewport e.heap c1 = true) →
      (s2.m_activeCamera = some c2 ∨ UseViewport e.heap c2 = true) →
      (ScheduleRender StereoMode.RAS_STEREO_NOSTEREO e).m_frameSchedules.length = 1 ∧
      (ScheduleRender StereoMode.RAS_STEREO_NOSTEREO e).m_sceneSchedules.length = 2 ∧
      ∀ s : KX_SceneRenderSchedule,
        s ∈ (ScheduleRender StereoMode.RAS_STEREO_NOSTEREO e).m_sceneSchedules →
        (s.m_cameraSchedules StereoEye.RAS_STEREO_LEFTEYE).length = 1 ∧
        s.m_cameraSchedules StereoEye.RAS_STEREO_RIGHTEYE = []) := by
  refine ⟨?_, ?_, ?_⟩
  · unfold ScheduleRender
    simp only [List.map_map]
    exact List.map_id _
  · intro s hs eye heye
    unfold ScheduleRender at hs
    simp only [List.mem_map] at hs
    obtain ⟨scene, _, rfl⟩ := hs
    have hspec := scheduleScene_spec e.heap stereoMode scene eye
    rw [if_pos heye] at hspec
    exact hspec
  · intro s1 s2 c1 c2 hscenes hc1 hc2 ha1 ha2
    refine ⟨rfl, by simp [ScheduleRender, hscenes], ?_⟩
    intro s hs
    unfold ScheduleRender at hs
    simp only [List.mem_map, hscenes, List.mem_cons, List.mem_singleton, List.not_mem_nil,
      or_false] at hs
    obtain ⟨scene, hscene, rfl⟩ := hs
    have hl := scheduleScene_spec e.heap StereoMode.RAS_STEREO_NOSTEREO scene
      StereoEye.RAS_STEREO_LEFTEYE
    have hr := scheduleScene_spec e.heap StereoMode.RAS_STEREO_NOSTEREO scene
      StereoEye.RAS_STEREO_RIGHTEYE
    rw [if_pos (by decide)] at hl
    rw [if_neg (by decide)] at hr
    have hfilter : scene.m_cameralist.filter
        (fun cam => some cam == scene.m_activeCamera || UseViewport e.heap cam) =
        scene.m_cameralist ∧ scene.m_cameralist.length = 1 := by
      rcases hscene with rfl | rfl
      · rw [hc1]
        rcases ha1 with ha | ha <;> simp [ha]
      · rw [hc2]
        rcases ha2 with ha | ha <;> simp [ha]
    constructor
    · have := congrArg List.length hl.1
      rw [List.length_map, hfilter.1, hfilter.2] at this
      exact this
    · exact List.map_eq_nil_iff.mp hr.1

/-- C11 (counterexample): two scenes of one camera each, no stereo, and no camera schedule at
all.  Each scene had two cameras and lost its active camera through `NewRemoveObject`, which
leaves the other camera in the list and the active camera null; that camera is not
viewport-enabled, so `ScheduleRender` skips it. -/
theorem ScheduleRender_camera_not_scheduled :
    lostCameraEngine.m_scenes.map (fun s => s.m_cameralist) = [[1], [3]] ∧
    lostCameraEngine.m_scenes.map (fun s => s.m_activeCamera) = [none, none] ∧
    (ScheduleRender StereoMode.RAS_STEREO_NOSTEREO lostCameraEngine).m_frameSchedules.length
      = 1 ∧
    (ScheduleRender StereoMode.RAS_STEREO_NOSTEREO lostCameraEngine).m_sceneSchedules.map
      (fun s => (s.m_cameraSchedules StereoEye.RAS_STEREO_LEFTEYE).length) = [0, 0] := by
  decide

/-- C11 (witness): the engine with the scenes X and Y, each with the default camera that
`PostProcessScene` gave it, has 1 frame schedule, 2 scene schedules and the camera schedules
of the cameras 0 and 1 for the left eye. -/
theorem ScheduleRender_shape_witness :
    (ScheduleRender StereoMode.RAS_STEREO_NOSTEREO xyEngine).m_frameSchedules.length = 1 ∧
    (ScheduleRender StereoMode.RAS_STEREO_NOSTEREO xyEngine).m_sceneSchedules.length = 2 ∧
    (ScheduleRender StereoMode.RAS_STEREO_NOSTEREO xyEngine).m_sceneSchedules.map
      (fun s => (s.m_cameraSchedules StereoEye.RAS_STEREO_LEFTEYE).map (fun c => c.m_camera))
      = [[0], [1]] :=
  ⟨((ScheduleRender_shape StereoMode.RAS_STEREO_NOSTEREO xyEngine).2.2
      { m_name := "X"
        m_blenderScene := { id_name := "SCX" }
        m_activeCamera := some 0
        m_objectlist := [0]
        m_cameralist := [0]
        calls := [SceneCall.UpdateParents] }
      { m_name := "Y"
        m_blenderScene := { id_name := "SCY" }
        m_activeCamera := some 1
        m_objectlist := [1]
        m_cameralist := [1]
        calls := [SceneCall.UpdateParents] }
      0 1 (by decide) rfl rfl (Or.inl rfl) (Or.inl rfl)).1,
   ((ScheduleRender_shape StereoMode.RAS_STEREO_NOSTEREO xyEngine).2.2
      { m_name := "X"
        m_blenderScene := { id_name := "SCX" }
        m_activeCamera := some 0
        m_objectlist := [0]
        m_cameralist := [0]
        calls := [SceneCall.UpdateParents] }
      { m_name := "Y"
        m_blenderScene := { id_name := "SCY" }
        m_activeCamera := some 1
        m_objectlist := [1]
        m_cameralist := [1]
        calls := [SceneCall.UpdateParents] }
      0 1 (by decide) rfl rfl (Or.inl rfl) (Or.inl rfl)).2.1,
   by decide⟩

/-- Helper: the frame schedules and the per-eye flag are a function of the stereo mode. -/
theorem ScheduleRender_frames (stereoMode : StereoMode) (e : KX_KetsjiEngine) :
    (ScheduleRender stereoMode e).m_renderPerEye = renderPerEye stereoMode ∧
    (ScheduleRender stereoMode e).m_frameSchedules =
      (List.range (numframes stereoMode)).map (scheduleFrame stereoMode) :=
  ⟨rfl, rfl⟩

/-- C20: eyes and frames per stereo mode.  Without stereo the left eye is in use, with any
stereo mode both eyes; the camera schedules of an eye that is not in use are empty.  In the
interlaced, vertical-interlace and anaglyph modes there are two frame schedules, the left eye
into the left-eye off screen and then the right eye into the right-eye off screen, and the
per-eye flag is set; otherwise there is one frame schedule, of the left eye without stereo and
of the left and then the right eye in the other stereo modes, and the per-eye flag is clear.
Every eye in use is in exactly one frame schedule, once, and a frame schedule holds eyes in use
only. -/
theorem ScheduleRender_stereo (stereoMode : StereoMode) (e : KX_KetsjiEngine) :
    (numeyes stereoMode = if stereoMode = StereoMode.RAS_STEREO_NOSTEREO then 1 else 2) ∧
    (eyesInUse stereoMode =
      if stereoMode = StereoMode.RAS_STEREO_NOSTEREO then [StereoEye.RAS_STEREO_LEFTEYE]
      else [StereoEye.RAS_STEREO_LEFTEYE, StereoEye.RAS_STEREO_RIGHTEYE]) ∧
    (∀ s : KX_SceneRenderSchedule, s ∈ (ScheduleRender stereoMode e).m_sceneSchedules →
      ∀ eye : StereoEye,
        (eye ∈ eyesInUse stereoMode →
          (s.m_cameraSchedules eye).length =
            (s.m_scene.m_cameralist.filter
              (fun cam => some cam == s.m_scene.m_activeCamera ||
                UseViewport e.heap cam)).length) ∧
        (eye ∉ eyesInUse stereoMode → s.m_cameraSchedules eye = [])) ∧
    ((stereoMode = StereoMode.RAS_STEREO_INTERLACED ∨
        stereoMode = StereoMode.RAS_STEREO_VINTERLACE ∨
        stereoMode = StereoMode.RAS_STEREO_ANAGLYPH) →
      (ScheduleRender stereoMode e).m_renderPerEye = true ∧
      (ScheduleRender stereoMode e).m_frameSchedules =
        [{ m_ofsType := OffScreenType.RAS_OFFSCREEN_EYE_LEFT0
           m_eyes := [StereoEye.RAS_STEREO_LEFTEYE] },
         { m_ofsType := OffScreenType.RAS_OFFSCREEN_EYE_RIGHT0
           m_eyes := [StereoEye.RAS_STEREO_RIGHTEYE] }]) ∧
    (stereoMode = StereoMode.RAS_STEREO_NOSTEREO →
      (ScheduleRender stereoMode e).m_renderPerEye = false ∧
      (ScheduleRender stereoMode e).m_frameSchedules =
        [{ m_ofsType := OffScreenType.RAS_OFFSCREEN_EYE_LEFT0
           m_eyes := [StereoEye.RAS_STEREO_LEFTEYE] }]) ∧
    ((stereoMode ≠ StereoMode.RAS_STEREO_NOSTEREO ∧
        stereoMode ≠ StereoMode.RAS_STEREO_INTERLACED ∧
        stereoMode ≠ StereoMode.RAS_STEREO_VINTERLACE ∧
        stereoMode ≠ StereoMode.RAS_STEREO_ANAGLYPH) →
      (ScheduleRender stereoMode e).m_renderPerEye = false ∧
      (ScheduleRender stereoMode e).m_frameSchedules =
        [{ m_ofsType := OffScreenType.RAS_OFFSCREEN_EYE_LEFT0
           m_eyes := [StereoEye.RAS_STEREO_LEFTEYE, StereoEye.RAS_STEREO_RIGHTEYE] }]) ∧
    (∀ eye : StereoEye, eye ∈ eyesInUse stereoMode →
      (((ScheduleRender stereoMode e).m_frameSchedules.map (fun f => f.m_eyes)).flatten.count eye
        = 1)) ∧
    (∀ f : KX_FrameRenderSchedule, f ∈ (ScheduleRender stereoMode e).m_frameSchedules →
      ∀ eye : StereoEye, eye ∈ f.m_eyes → eye ∈ eyesInUse stereoMode) := by
  obtain ⟨hflag, hframes⟩ := ScheduleRender_frames stereoMode e
  rw [hflag, hframes]
  refine ⟨?_, eyesInUse_eq stereoMode, ?_, ?_, ?_, ?_, ?_, ?_⟩
  · cases stereoMode <;> simp [numeyes, useStereo]
  · intro s hs eye
    unfold ScheduleRender at hs
    simp only [List.mem_map] at hs
    obtain ⟨scene, _, rfl⟩ := hs
    have hspec := (scheduleScene_spec e.heap stereoMode scene eye).1
    constructor
    · intro heye
      rw [if_pos heye] at hspec
      have hlen := congrArg List.length hspec
      rw [List.length_map] at hlen
      exact hlen
    · intro heye
      rw [if_neg heye] at hspec
      exact List.map_eq_nil_iff.mp hspec
  · rintro (rfl | rfl | rfl) <;> decide
  · rintro rfl
    decide
  · rintro ⟨h1, h2, h3, h4⟩
    cases stereoMode with
    | RAS_STEREO_NOSTEREO => exact absurd rfl h1
    | RAS_STEREO_INTERLACED => exact absurd rfl h2
    | RAS_STEREO_VINTERLACE => exact absurd rfl h3
    | RAS_STEREO_ANAGLYPH => exact absurd rfl h4
    | other code => exact ⟨rfl, rfl⟩
  · intro eye heye
    cases stereoMode with
    | other code =>
      have h2 : (List.range (numframes (StereoMode.other code))).map
          (scheduleFrame (StereoMode.other code)) =
          [{ m_ofsType := OffScreenType.RAS_OFFSCREEN_EYE_LEFT0
             m_eyes := [StereoEye.RAS_STEREO_LEFTEYE, StereoEye.RAS_STEREO_RIGHTEYE] }] := rfl
      rw [h2]
      cases eye <;> decide
    | _ =>
      revert heye
      cases eye <;> decide
  · cases stereoMode with
    | other code =>
      intro f _ eye _
      have h3 : eyesInUse (StereoMode.other code) =
          [StereoEye.RAS_STEREO_LEFTEYE, StereoEye.RAS_STEREO_RIGHTEYE] := rfl
      rw [h3]
      cases eye <;> simp
    | _ => decide

/-- C20 (witness): on the engine with the scenes X and Y, the anaglyph mode gives the per-eye
flag and two frames, one eye each; no stereo gives one frame of the left eye; another stereo
mode gives one frame of both eyes. -/
theorem ScheduleRender_stereo_witness :
    (ScheduleRender StereoMode.RAS_STEREO_ANAGLYPH xyEngine).m_renderPerEye = true ∧
    (ScheduleRender StereoMode.RAS_STEREO_ANAGLYPH xyEngine).m_frameSchedules =
      [{ m_ofsType := OffScreenType.RAS_OFFSCREEN_EYE_LEFT0
         m_eyes := [StereoEye.RAS_STEREO_LEFTEYE] },
       { m_ofsType := OffScreenType.RAS_OFFSCREEN_EYE_RIGHT0
         m_eyes := [StereoEye.RAS_STEREO_RIGHTEYE] }] ∧
    (ScheduleRender StereoMode.RAS_STEREO_NOSTEREO xyEngine).m_frameSchedules =
      [{ m_ofsType := OffScreenType.RAS_OFFSCREEN_EYE_LEFT0
         m_eyes := [StereoEye.RAS_STEREO_LEFTEYE] }] ∧
    (ScheduleRender (StereoMode.other 5) xyEngine).m_frameSchedules =
      [{ m_ofsType := OffScreenType.RAS_OFFSCREEN_EYE_LEFT0
         m_eyes := [StereoEye.RAS_STEREO_LEFTEYE, StereoEye.RAS_STEREO_RIGHTEYE] }] :=
  ⟨((ScheduleRender_stereo StereoMode.RAS_STEREO_ANAGLYPH xyEngine).2.2.2.1
      (Or.inr (Or.inr rfl))).1,
   ((ScheduleRender_stereo StereoMode.RAS_STEREO_ANAGLYPH xyEngine).2.2.2.1
      (Or.inr (Or.inr rfl))).2,
   ((ScheduleRender_stereo StereoMode.RAS_STEREO_NOSTEREO xyEngine).2.2.2.2.1 rfl).2,
   ((ScheduleRender_stereo (StereoMode.other 5) xyEngine).2.2.2.2.2.1
      ⟨by decide, by decide, by decide, by decide⟩).2⟩

/-! ## Theorems: time accounting over successive calls -/

/-- Helper: an unclamped call of `GetFrameTimes` in fixed-framerate mode with the simulation time
`c` not before the last tick time. -/
theorem GetFrameTimes_fixed_floor (now c : ℚ) (e : KX_KetsjiEngine)
    (hfix : e.FIXED_FRAMERATE = true) (hr : 0 < e.m_ticrate)
    (hclock : (if !e.USE_EXTERNAL_CLOCK then now else e.m_clockTime) = c)
    (hprev : e.m_previousRealTime ≤ c) (hc : ¬ clamped now e) :
    (GetFrameTimes now e).1.timestep = 1 / e.m_ticrate ∧
    (GetFrameTimes now e).1.frames = Int.floor ((c - e.m_previousRealTime) * e.m_ticrate) ∧
    (GetFrameTimes now e).2.m_previousRealTime =
      (if 0 < Int.floor ((c - e.m_previousRealTime) * e.m_ticrate) then c
       else e.m_previousRealTime) := by
  have hnn : 0 ≤ (c - e.m_previousRealTime) * e.m_ticrate :=
    mul_nonneg (sub_nonneg.mpr hprev) hr.le
  unfold clamped unclampedFrames elapsed at hc
  rw [hclock] at hc
  simp only [hfix, if_true, toInt, hnn, not_or, not_lt, gt_iff_lt] at hc
  obtain ⟨hc1, hc2⟩ := hc
  have h1 : ¬ e.m_maxPhysicsFrame < Int.floor ((c - e.m_previousRealTime) * e.m_ticrate) :=
    not_lt.mpr hc1
  have h2 : ¬ e.m_maxLogicFrame < Int.floor ((c - e.m_previousRealTime) * e.m_ticrate) :=
    not_lt.mpr hc2
  unfold GetFrameTimes
  simp only [hclock, hfix, if_true, toInt, hnn, gt_iff_lt, h1, h2, if_false]
  exact ⟨trivial, trivial, trivial⟩

/-- Helper: one unclamped call in fixed-framerate mode at a clock time not before the last tick
time.  The frame count is the floor of delta × ticrate, the marker moves to the clock time when
the count is positive and stays otherwise, and the other members are kept. -/
theorem frameTimesAt_fixed (now : ℚ) (e : KX_KetsjiEngine) (hfix : e.FIXED_FRAMERATE = true)
    (hr : 0 < e.m_ticrate) (hprev : e.m_previousRealTime ≤ now)
    (hc : ¬ clamped now (if e.USE_EXTERNAL_CLOCK then SetClockTime now e else e)) :
    (frameTimesAt now e).1.timestep = 1 / e.m_ticrate ∧
    (frameTimesAt now e).1.frames = Int.floor ((now - e.m_previousRealTime) * e.m_ticrate) ∧
    (frameTimesAt now e).2.m_previousRealTime =
      (if 0 < Int.floor ((now - e.m_previousRealTime) * e.m_ticrate) then now
       else e.m_previousRealTime) ∧
    (frameTimesAt now e).2.FIXED_FRAMERATE = true ∧
    (frameTimesAt now e).2.m_ticrate = e.m_ticrate := by
  unfold frameTimesAt
  cases hx : e.USE_EXTERNAL_CLOCK with
  | false =>
    rw [hx] at hc
    simp only [Bool.false_eq_true, if_false] at hc ⊢
    obtain ⟨a1, a2, a3⟩ := GetFrameTimes_fixed_floor now now e hfix hr (by simp [hx]) hprev hc
    exact ⟨a1, a2, a3, hfix, rfl⟩
  | true =>
    rw [hx] at hc
    simp only [if_true] at hc ⊢
    obtain ⟨a1, a2, a3⟩ := GetFrameTimes_fixed_floor now now (SetClockTime now e) hfix hr
      (by simp [SetClockTime, hx]) hprev hc
    exact ⟨a1, a2, a3, hfix, rfl⟩

/-- Helper: the accounting of a run of unclamped calls in fixed-framerate mode at non-decreasing
clock times `t`, `rest`: the simulated time is at most the clock time elapsed since the last
tick time and falls short of it by less than one timestep per call. -/
theorem simulatedTime_bounds (rest : List ℚ) :
    ∀ (t : ℚ) (e : KX_KetsjiEngine), e.FIXED_FRAMERATE = true → 0 < e.m_ticrate →
      e.m_previousRealTime ≤ t → List.Chain (fun a b => a ≤ b) t rest →
      neverClamped (t :: rest) e →
      (simulatedTime (t :: rest) e).1 ≤
        (t :: rest).getLast (List.cons_ne_nil t rest) - e.m_previousRealTime ∧
      (t :: rest).getLast (List.cons_ne_nil t rest) - e.m_previousRealTime -
        (simulatedTime (t :: rest) e).1 < ((rest.length + 1 : Nat) : ℚ) / e.m_ticrate := by
  induction rest with
  | nil =>
    intro t e hfix hr hprev _ hc
    obtain ⟨a1, a2, _, _, _⟩ := frameTimesAt_fixed t e hfix hr hprev hc.1
    simp only [simulatedTime, a1, a2, List.getLast_singleton, add_zero, List.length_nil,
      zero_add, Nat.cast_one]
    have hfl := Int.floor_le ((t - e.m_previousRealTime) * e.m_ticrate)
    have hlt := Int.lt_floor_add_one ((t - e.m_previousRealTime) * e.m_ticrate)
    have hmul : ((Int.floor ((t - e.m_previousRealTime) * e.m_ticrate) : Int) : ℚ) *
        (1 / e.m_ticrate) * e.m_ticrate =
        (Int.floor ((t - e.m_previousRealTime) * e.m_ticrate) : ℚ) := by
      field_simp
    constructor
    · rw [← mul_le_mul_right hr, hmul]
      exact hfl
    · rw [← mul_lt_mul_right hr, sub_mul, hmul]
      have : (1 : ℚ) / e.m_ticrate * e.m_ticrate = 1 := by field_simp
      rw [this]
      linarith
  | cons t2 rest2 ih =>
    intro t e hfix hr hprev hchain hc
    obtain ⟨a1, a2, a3, a4, a5⟩ := frameTimesAt_fixed t e hfix hr hprev hc.1
    obtain ⟨h12, hchain2⟩ := List.chain_cons.mp hchain
    have hfl := Int.floor_le ((t - e.m_previousRealTime) * e.m_ticrate)
    have hlt := Int.lt_floor_add_one ((t - e.m_previousRealTime) * e.m_ticrate)
    have hmul : ((Int.floor ((t - e.m_previousRealTime) * e.m_ticrate) : Int) : ℚ) *
        (1 / e.m_ticrate) * e.m_ticrate =
        (Int.floor ((t - e.m_previousRealTime) * e.m_ticrate) : ℚ) := by
      field_simp
    have hone : (1 : ℚ) / e.m_ticrate * e.m_ticrate = 1 := by field_simp
    have hprev1 : (frameTimesAt t e).2.m_previousRealTime ≤ t2 := by
      rw [a3]
      split_ifs
      · exact h12
      · exact hprev.trans h12
    have hr1 : 0 < (frameTimesAt t e).2.m_ticrate := by rw [a5]; exact hr
    obtain ⟨b1, b2⟩ := ih t2 (frameTimesAt t e).2 a4 hr1 hprev1 hchain2 hc.2
    rw [a5] at b2
    rw [List.getLast_cons_cons]
    have hS : (simulatedTime (t :: t2 :: rest2) e).1 =
        (Int.floor ((t - e.m_previousRealTime) * e.m_ticrate) : ℚ) * (1 / e.m_ticrate) +
          (simulatedTime (t2 :: rest2) (frameTimesAt t e).2).1 := by
      rw [simulatedTime, a1, a2]
    rw [hS]
    have hlen : (((t2 :: rest2).length + 1 : Nat) : ℚ) / e.m_ticrate =
        1 / e.m_ticrate + ((rest2.length + 1 : Nat) : ℚ) / e.m_ticrate := by
      simp only [List.length_cons]
      push_cast
      ring
    rw [hlen]
    have hfr : (Int.floor ((t - e.m_previousRealTime) * e.m_ticrate) : ℚ) * (1 / e.m_ticrate) ≤
        t - e.m_previousRealTime := by
      rw [← mul_le_mul_right hr, hmul]
      exact hfl
    have hfr2 : t - e.m_previousRealTime -
        (Int.floor ((t - e.m_previousRealTime) * e.m_ticrate) : ℚ) * (1 / e.m_ticrate) <
        1 / e.m_ticrate := by
      rw [← mul_lt_mul_right hr, sub_mul, hmul, hone]
      linarith
    by_cases hpos : 0 < Int.floor ((t - e.m_previousRealTime) * e.m_ticrate)
    · rw [a3, if_pos hpos] at b1 b2
      constructor <;> linarith
    · rw [a3, if_neg hpos] at b1 b2
      have hz : Int.floor ((t - e.m_previousRealTime) * e.m_ticrate) = 0 := by
        have hnn : 0 ≤ Int.floor ((t - e.m_previousRealTime) * e.m_ticrate) :=
          Int.floor_nonneg.mpr (mul_nonneg (sub_nonneg.mpr hprev) hr.le)
        omega
      rw [hz]
      have hrpos : 0 < 1 / e.m_ticrate := one_div_pos.mpr hr
      simp only [Int.cast_zero, zero_mul, zero_add]
      constructor <;> linarith

/-- C30 (as amended): in fixed-framerate mode with a positive tic rate, for calls of
`GetFrameTimes` at non-decreasing clock times none of which takes a clamp branch, the total
simulated time is at most the clock time elapsed since the last tick time and falls short of it
by less than one timestep `1 / ticrate` per call.  A call with a positive frame count moves the
last-tick marker to the clock time, so the part of its delta that is not a whole number of
frames is dropped; a call with frame count 0 leaves the marker, so its delta is carried. -/
theorem fixed_framerate_time_accounting (t : ℚ) (rest : List ℚ) (e : KX_KetsjiEngine)
    (hfix : e.FIXED_FRAMERATE = true) (hr : 0 < e.m_ticrate)
    (hprev : e.m_previousRealTime ≤ t) (hchain : List.Chain (fun a b => a ≤ b) t rest)
    (hc : neverClamped (t :: rest) e) :
    (simulatedTime (t :: rest) e).1 ≤
      (t :: rest).getLast (List.cons_ne_nil t rest) - e.m_previousRealTime ∧
    (t :: rest).getLast (List.cons_ne_nil t rest) - e.m_previousRealTime -
      (simulatedTime (t :: rest) e).1 < ((rest.length + 1 : Nat) : ℚ) / e.m_ticrate ∧
    (0 < (frameTimesAt t e).1.frames → (frameTimesAt t e).2.m_previousRealTime = t) ∧
    ((frameTimesAt t e).1.frames = 0 →
      (frameTimesAt t e).2.m_previousRealTime = e.m_previousRealTime) := by
  obtain ⟨b1, b2⟩ := simulatedTime_bounds rest t e hfix hr hprev hchain hc
  obtain ⟨_, a2, a3, _, _⟩ := frameTimesAt_fixed t e hfix hr hprev hc.1
  refine ⟨b1, b2, fun hpos => ?_, fun hz => ?_⟩
  · rw [a2] at hpos
    rw [a3, if_pos hpos]
  · rw [a2] at hz
    rw [a3, hz]
    simp

/-- C30 (counterexample): at tic rate 60 with the caps 5 and 5, calls at the clock times
19/600, 38/600 and 57/600 s (1.9 timesteps apart) return one frame each and none is clamped:
the simulated time is 3/60 s while 57/600 s have elapsed, 2.7 timesteps more; the 0.9 timestep
left over by each call is dropped, not carried. -/
theorem simulated_time_drops_remainders :
    neverClamped [19 / 600, 38 / 600, 57 / 600] fixedEngine ∧
    (simulatedTime [19 / 600, 38 / 600, 57 / 600] fixedEngine).1 = 3 / 60 ∧
    (57 / 600 : ℚ) - fixedEngine.m_previousRealTime -
      (simulatedTime [19 / 600, 38 / 600, 57 / 600] fixedEngine).1 > 1 / fixedEngine.m_ticrate := by
  have hfl : Int.floor (19 / 10 : ℚ) = 1 := by
    rw [Int.floor_eq_iff]; norm_num
  have h1 : frameTimesAt (19 / 600) fixedEngine =
      ({ frames := 1, timestep := 1 / 60, framestep := 1 / 60 },
       { fixedEngine with m_clockTime := 19 / 600, m_previousRealTime := 19 / 600 }) := by
    norm_num [frameTimesAt, GetFrameTimes, toInt, fixedEngine, hfl]
  have h2 : frameTimesAt (38 / 600)
      { fixedEngine with m_clockTime := 19 / 600, m_previousRealTime := 19 / 600 } =
      ({ frames := 1, timestep := 1 / 60, framestep := 1 / 60 },
       { fixedEngine with m_clockTime := 38 / 600, m_previousRealTime := 38 / 600 }) := by
    norm_num [frameTimesAt, GetFrameTimes, toInt, fixedEngine, hfl]
  have h3 : frameTimesAt (57 / 600)
      { fixedEngine with m_clockTime := 38 / 600, m_previousRealTime := 38 / 600 } =
      ({ frames := 1, timestep := 1 / 60, framestep := 1 / 60 },
       { fixedEngine with m_clockTime := 57 / 600, m_previousRealTime := 57 / 600 }) := by
    norm_num [frameTimesAt, GetFrameTimes, toInt, fixedEngine, hfl]
  have hS : (simulatedTime [19 / 600, 38 / 600, 57 / 600] fixedEngine).1 = 3 / 60 := by
    simp only [simulatedTime, h1, h2, h3]
    norm_num
  refine ⟨?_, hS, ?_⟩
  · simp only [neverClamped, h1, h2, and_true]
    refine ⟨?_, ?_, ?_⟩ <;>
      norm_num [clamped, unclampedFrames, elapsed, toInt, fixedEngine, hfl]
  · rw [hS]
    norm_num [fixedEngine]

/-- C30 (witness): the calls at 19/600, 38/600 and 57/600 s at tic rate 60 simulate at most
the 57/600 s elapsed and fall short of them by less than three timesteps. -/
theorem fixed_framerate_time_accounting_witness :
    (simulatedTime [19 / 600, 38 / 600, 57 / 600] fixedEngine).1 ≤ 57 / 600 ∧
    (57 / 600 : ℚ) - (simulatedTime [19 / 600, 38 / 600, 57 / 600] fixedEngine).1 < 3 / 60 := by
  have hfl : Int.floor (19 / 10 : ℚ) = 1 := by
    rw [Int.floor_eq_iff]; norm_num
  have h1 : frameTimesAt (19 / 600) fixedEngine =
      ({ frames := 1, timestep := 1 / 60, framestep := 1 / 60 },
       { fixedEngine with m_clockTime := 19 / 600, m_previousRealTime := 19 / 600 }) := by
    norm_num [frameTimesAt, GetFrameTimes, toInt, fixedEngine, hfl]
  have h2 : frameTimesAt (38 / 600)
      { fixedEngine with m_clockTime := 19 / 600, m_previousRealTime := 19 / 600 } =
      ({ frames := 1, timestep := 1 / 60, framestep := 1 / 60 },
       { fixedEngine with m_clockTime := 38 / 600, m_previousRealTime := 38 / 600 }) := by
    norm_num [frameTimesAt, GetFrameTimes, toInt, fixedEngine, hfl]
  have hc : neverClamped [19 / 600, 38 / 600, 57 / 600] fixedEngine := by
    simp only [neverClamped, h1, h2, and_true]
    refine ⟨?_, ?_, ?_⟩ <;>
      norm_num [clamped, unclampedFrames, elapsed, toInt, fixedEngine, hfl]
  have h := fixed_framerate_time_accounting (19 / 600) [38 / 600, 57 / 600] fixedEngine rfl
    (by norm_num [fixedEngine]) (by norm_num [fixedEngine])
    (by simp only [List.chain_cons, List.Chain.nil, and_true]; norm_num) hc
  obtain ⟨b1, b2, _, _⟩ := h
  have hlast : [(19 / 600 : ℚ), 38 / 600, 57 / 600].getLast (List.cons_ne_nil _ _) = 57 / 600 :=
    rfl
  rw [hlast] at b1 b2
  have hp : fixedEngine.m_previousRealTime = 0 := rfl
  have hr : fixedEngine.m_ticrate = 60 := rfl
  rw [hp, hr] at b2
  rw [hp] at b1
  constructor
  · linarith
  · norm_num at b2
    linarith

/-! ## Theorems: debug properties -/

/-- Helper: `Merge` leaves the debug-property list of this scene as it is. -/
theorem Merge_debugList (h : Heap) (this other : KX_Scene) :
    (Merge h this other).2.1.m_debugList = this.m_debugList := by
  unfold Merge
  split_ifs
  · rfl
  · simp only []
    rw [MergeScene_GameObject_fold h other.m_inactivelist,
      MergeScene_GameObject_fold h other.m_objectlist]

/-- C22: a debug-property list of at most 100 entries has at most 100 entries after
`AddDebugProperty` (which adds nothing to a list of 100 entries or more),
`RemoveDebugProperty`, `RemoveObjectDebugProperties`, `RemoveAllDebugProperties`,
`NewRemoveObject`, `AddObjectDebugProperties` and `Merge`; a new scene has an empty list. -/
theorem debugList_bounded (h : Heap) (scene other : KX_Scene) (gameobj : Nat) (name : String)
    (hb : scene.m_debugList.length ≤ 100) :
    (AddDebugProperty scene gameobj name).m_debugList.length ≤ 100 ∧
    (100 ≤ scene.m_debugList.length → AddDebugProperty scene gameobj name = scene) ∧
    (RemoveDebugProperty scene gameobj name).m_debugList.length ≤ 100 ∧
    (RemoveObjectDebugProperties scene gameobj).m_debugList.length ≤ 100 ∧
    (RemoveAllDebugProperties scene).m_debugList.length ≤ 100 ∧
    (NewRemoveObject h scene gameobj).2.m_debugList.length ≤ 100 ∧
    (AddObjectDebugProperties scene gameobj).m_debugList.length ≤ 100 ∧
    (Merge h scene other).2.1.m_debugList.length ≤ 100 ∧
    (∀ blScene : Scene, (CreateScene blScene).m_debugList.length ≤ 100) := by
  have hfilter : (scene.m_debugList.filter (fun prop => prop.m_obj != gameobj)).length ≤ 100 :=
    (List.length_filter_le _ _).trans hb
  refine ⟨?_, ?_, ?_, hfilter, ?_, ?_, hb, ?_, ?_⟩
  · unfold AddDebugProperty
    split_ifs with hlt
    · simp only [List.length_append, List.length_singleton]
      omega
    · exact hb
  · intro hfull
    unfold AddDebugProperty
    rw [if_neg (by omega)]
  · unfold RemoveDebugProperty
    exact (List.length_eraseP_le _).trans hb
  · simp [RemoveAllDebugProperties]
  · have : (NewRemoveObject h scene gameobj).2.m_debugList =
        scene.m_debugList.filter (fun prop => prop.m_obj != gameobj) := by
      unfold NewRemoveObject RemoveObjectDebugProperties
      simp only []
      split <;> rfl
    rw [this]
    exact hfilter
  · rw [Merge_debugList]
    exact hb
  · intro blScene
    simp [CreateScene]

/-- C22 (witness): a list of 100 entries stays as it is under `AddDebugProperty`, and a list
of 2 entries gets a third. -/
theorem debugList_bounded_witness :
    AddDebugProperty fullDebugScene 0 "health" = fullDebugScene ∧
    (AddDebugProperty debugScene 0 "state").m_debugList.length ≤ 100 ∧
    (AddDebugProperty debugScene 0 "state").m_debugList.length = 3 :=
  ⟨(debugList_bounded debugHeap fullDebugScene debugScene 0 "health" (by decide)).2.1
      (by decide),
   (debugList_bounded debugHeap debugScene debugScene 0 "state" (by decide)).1,
   by decide⟩

/-- C27 (failing input): `RenderDebugProperties` draws one line for every debug property whose
object has the property, whatever `propsMax` is, and advances `ycoord` by `ysize` per line: on
the scene with two debug properties it draws two lines with `propsMax` 1 and with `propsMax`
0. -/
theorem RenderDebugProperties_ignores_propsMax :
    (∀ (h : Heap) (scene : KX_Scene) (xindent ysize xcoord ycoord : Int) (propsMax : Nat),
      scene.RenderDebugProperties h xindent ysize xcoord ycoord propsMax =
        scene.RenderDebugProperties h xindent ysize xcoord ycoord 0) ∧
    (∀ (h : Heap) (scene : KX_Scene) (xindent ysize xcoord ycoord : Int) (propsMax : Nat),
      (scene.RenderDebugProperties h xindent ysize xcoord ycoord propsMax).2 =
        ycoord + ysize *
          (scene.RenderDebugProperties h xindent ysize xcoord ycoord propsMax).1.length) ∧
    (debugScene.RenderDebugProperties debugHeap 4 14 12 51 1).1 =
      [{ m_obj := 0, m_name := "speed", x := 16, y := 51 },
       { m_obj := 0, m_name := "health", x := 16, y := 65 }] ∧
    (debugScene.RenderDebugProperties debugHeap 4 14 12 51 1).2 = 79 ∧
    (debugScene.RenderDebugProperties debugHeap 4 14 12 51 0).1.length = 2 := by
  refine ⟨fun h scene xindent ysize xcoord ycoord propsMax => rfl, ?_, by decide, by decide,
    by decide⟩
  intro h scene xindent ysize xcoord ycoord propsMax
  unfold KX_Scene.RenderDebugProperties
  simp only []
  have key : ∀ (l : List DebugProp) (acc : List DebugLine × Int),
      acc.2 = ycoord + ysize * acc.1.length →
      (l.foldl
        (fun (acc : List DebugLine × Int) debugProp =>
          if HasProperty h debugProp.m_obj debugProp.m_name then
            (acc.1 ++ [{ m_obj := debugProp.m_obj
                         m_name := debugProp.m_name
                         x := xcoord + xindent
                         y := acc.2 }],
              acc.2 + ysize)
          else acc) acc).2 =
        ycoord + ysize * (l.foldl
          (fun (acc : List DebugLine × Int) debugProp =>
            if HasProperty h debugProp.m_obj debugProp.m_name then
              (acc.1 ++ [{ m_obj := debugProp.m_obj
                           m_name := debugProp.m_name
                           x := xcoord + xindent
                           y := acc.2 }],
                acc.2 + ysize)
            else acc) acc).1.length := by
    intro l
    induction l with
    | nil => intro acc hacc; exact hacc
    | cons a rest ih =>
      intro acc hacc
      simp only [List.foldl_cons]
      apply ih
      split_ifs
      · simp only [List.length_append, List.length_singleton, Nat.cast_add, Nat.cast_one]
        rw [hacc]
        ring
      · exact hacc
  exact key _ _ (by simp)

/-! ## Theorems: failing inputs of the scene registry and the object lifecycle -/

/-- C28 (failing input): on an engine without scenes, `ConvertAndAddScene` of the name Y twice
before `ProcessScheduledScenes` passes the test of `FindScene` twice and queues Y twice; the
list then holds two scenes named Y.  On the scenes X, Y, Z a replacement of X by Y gives two
scenes named Y as well. -/
theorem double_add_duplicates_name :
    FindScene ({} : KX_KetsjiEngine) "Y" = none ∧
    FindScene (ConvertAndAddScene "Y" true ({} : KX_KetsjiEngine)) "Y" = none ∧
    (ConvertAndAddScene "Y" true
      (ConvertAndAddScene "Y" true ({} : KX_KetsjiEngine))).m_addingOverlayScenes = ["Y", "Y"] ∧
    (ProcessScheduledScenes exampleConverter
      (ConvertAndAddScene "Y" true
        (ConvertAndAddScene "Y" true ({} : KX_KetsjiEngine)))).m_scenes.map
      (fun s => s.m_name) = ["Y", "Y"] ∧
    xyzEngine.m_scenes.map (fun s => s.m_name) = ["X", "Y", "Z"] ∧
    (ProcessScheduledScenes exampleConverter
      (ReplaceScene exampleConverter "X" "Y" xyzEngine).2).m_scenes.map
      (fun s => s.m_name) = ["Y", "Y", "Z"] := by
  decide

/-- Helper: with an object without scene-graph node at the front of the euthanasia queue, the
drain loop of `LogicEndFrame` has no result, whatever the fuel: `RemoveObject` does nothing and
the queue stays as it is. -/
theorem drainEuthanasy_nodeless (h : Heap) (g : Nat) (hnode : (h.obj g).m_sgNode = false)
    (fuel : Nat) :
    ∀ scene : KX_Scene, scene.m_euthanasyobjects.head? = some g →
      drainEuthanasy fuel h scene = none := by
  induction fuel with
  | zero =>
    intro scene hq
    cases hl : scene.m_euthanasyobjects with
    | nil => simp [hl] at hq
    | cons a rest => simp [drainEuthanasy, hl]
  | succ n ih =>
    intro scene hq
    cases hl : scene.m_euthanasyobjects with
    | nil => simp [hl] at hq
    | cons a rest =>
      have ha : a = g := by simpa [hl] using hq
      subst ha
      simp only [drainEuthanasy, hl, RemoveObject, hnode, Bool.false_eq_true, if_false]
      exact ih scene hq

/-- C29 (failing input): the scene whose euthanasia queue holds the object 0, which has no
scene-graph node.  `RemoveObject` leaves heap and scene as they are, and `LogicEndFrame` has
no result for any fuel: the loop does not end. -/
theorem LogicEndFrame_nodeless_never_ends :
    (∀ fuel : Nat, RemoveObject fuel nodelessHeap nodelessScene 0 =
      some (nodelessHeap, nodelessScene)) ∧
    (∀ fuel : Nat, LogicEndFrame fuel nodelessHeap nodelessScene = none) := by
  constructor
  · intro fuel
    rfl
  · intro fuel
    unfold LogicEndFrame
    exact drainEuthanasy_nodeless nodelessHeap 0 rfl fuel _ rfl

/-- C23 (failing input): the scene X that `AddScheduledScenes` built from scene data without
camera.  `PostProcessScene` gave it the default camera 0, which is in the object list, has a
root node (no parent) and is not in the root-parent list. -/
theorem default_camera_not_in_parentlist :
    xyEngine.m_scenes.map (fun s => s.m_name) = ["X", "Y"] ∧
    xyEngine.m_scenes.map (fun s => s.m_objectlist) = [[0], [1]] ∧
    xyEngine.m_scenes.map (fun s => s.m_parentlist) = [[], []] ∧
    (xyEngine.heap.obj 0).m_parent = none ∧
    (xyEngine.heap.obj 0).m_name = "__default__cam__" := by
  decide

/-! ## Theorems: scene post-processing -/

/-- C24 (as amended): after `PostProcessScene` the scene has an active camera.  A default
camera is created exactly when the scene had no active camera or the camera-override flag is
set and names the scene: it is a new object, the active camera, the last entry of the camera
list and of the object list, named `__default__cam__`, at the origin with the identity
orientation, or at the override position and orientation with the override camera data in the
override case; the objects there were are left alone.  Otherwise heap, lists and active camera
are as they were, so the active camera is in a list exactly if it was. -/
theorem PostProcessScene_camera (e : KX_KetsjiEngine) (h : Heap) (scene : KX_Scene) :
    (PostProcessScene e h scene).2.m_activeCamera ≠ none ∧
    ((scene.m_activeCamera = none ∨
        (e.CAMERA_OVERRIDE = true ∧ scene.m_name = e.m_overrideSceneName)) →
      (PostProcessScene e h scene).2.m_activeCamera = some h.next ∧
      (PostProcessScene e h scene).2.m_cameralist = scene.m_cameralist ++ [h.next] ∧
      (PostProcessScene e h scene).2.m_objectlist = scene.m_objectlist ++ [h.next] ∧
      h.next ∈ (PostProcessScene e h scene).2.m_cameralist ∧
      h.next ∈ (PostProcessScene e h scene).2.m_objectlist ∧
      (PostProcessScene e h scene).1.next = h.next + 1 ∧
      (∀ p : Nat, p ≠ h.next → (PostProcessScene e h scene).1.obj p = h.obj p) ∧
      ((PostProcessScene e h scene).1.obj h.next).m_name = "__default__cam__" ∧
      ((PostProcessScene e h scene).1.obj h.next).m_objectType = ObjectType.OBJECT_TYPE_CAMERA ∧
      (¬ (e.CAMERA_OVERRIDE = true ∧ scene.m_name = e.m_overrideSceneName) →
        ((PostProcessScene e h scene).1.obj h.next).m_localPosition = zero3 ∧
        ((PostProcessScene e h scene).1.obj h.next).m_localOrientation = Mat3.Identity) ∧
      ((e.CAMERA_OVERRIDE = true ∧ scene.m_name = e.m_overrideSceneName) →
        ((PostProcessScene e h scene).1.obj h.next).m_localPosition = e.m_overrideCamPosition ∧
        ((PostProcessScene e h scene).1.obj h.next).m_localOrientation =
          e.m_overrideCamOrientation ∧
        ((PostProcessScene e h scene).1.obj h.next).m_camdata = some e.m_overrideCamData)) ∧
    (¬ (scene.m_activeCamera = none ∨
        (e.CAMERA_OVERRIDE = true ∧ scene.m_name = e.m_overrideSceneName)) →
      (PostProcessScene e h scene).1 = h ∧
      (PostProcessScene e h scene).2 = scene.UpdateParents ∧
      (PostProcessScene e h scene).2.m_activeCamera = scene.m_activeCamera ∧
      (PostProcessScene e h scene).2.m_cameralist = scene.m_cameralist ∧
      (PostProcessScene e h scene).2.m_objectlist = scene.m_objectlist) := by
  have hov : (e.CAMERA_OVERRIDE && (scene.m_name == e.m_overrideSceneName)) = true ↔
      (e.CAMERA_OVERRIDE = true ∧ scene.m_name = e.m_overrideSceneName) := by
    simp
  cases hb : (e.CAMERA_OVERRIDE && (scene.m_name == e.m_overrideSceneName)) with
  | true =>
    have hyes := hov.mp hb
    have hdef : PostProcessScene e h scene =
        ((h.alloc
            { m_name := "__default__cam__"
              m_objectType := ObjectType.OBJECT_TYPE_CAMERA
              m_sgNode := true
              m_camdata := some e.m_overrideCamData
              m_localPosition := e.m_overrideCamPosition
              m_localOrientation := e.m_overrideCamOrientation }).2,
         KX_Scene.UpdateParents
           { scene with
             m_cameralist := scene.m_cameralist ++ [h.next]
             m_activeCamera := some h.next
             m_objectlist := scene.m_objectlist ++ [h.next] }) := by
      unfold PostProcessScene
      simp only [hb, Bool.or_true, if_true]
      rfl
    rw [hdef]
    refine ⟨by simp [KX_Scene.UpdateParents], fun _ => ?_, fun hno => absurd (Or.inr hyes) hno⟩
    refine ⟨rfl, rfl, rfl, by simp [KX_Scene.UpdateParents], by simp [KX_Scene.UpdateParents],
      rfl, ?_, ?_, ?_, fun hno => absurd hyes hno, fun _ => ?_⟩
    · intro p hp
      simp [Heap.alloc, hp]
    · simp [Heap.alloc]
    · simp [Heap.alloc]
    · simp [Heap.alloc]
  | false =>
    have hno : ¬ (e.CAMERA_OVERRIDE = true ∧ scene.m_name = e.m_overrideSceneName) := by
      intro hyes
      have := hov.mpr hyes
      rw [hb] at this
      exact Bool.false_ne_true this
    cases ha : scene.m_activeCamera with
    | none =>
      have hdef : PostProcessScene e h scene =
          ((h.alloc
              { m_name := "__default__cam__"
                m_objectType := ObjectType.OBJECT_TYPE_CAMERA
                m_sgNode := true
                m_camdata := none
                m_localPosition := zero3
                m_localOrientation := Mat3.Identity }).2,
           KX_Scene.UpdateParents
             { scene with
               m_cameralist := scene.m_cameralist ++ [h.next]
               m_activeCamera := some h.next
               m_objectlist := scene.m_objectlist ++ [h.next] }) := by
        unfold PostProcessScene
        simp only [hb, ha, Option.isNone_none, Bool.or_false, if_true, Bool.false_eq_true,
          if_false]
        rfl
      rw [hdef]
      refine ⟨by simp [KX_Scene.UpdateParents], fun _ => ?_,
        fun hnone => absurd (Or.inl rfl) hnone⟩
      refine ⟨rfl, rfl, rfl, by simp [KX_Scene.UpdateParents], by simp [KX_Scene.UpdateParents],
        rfl, ?_, ?_, ?_, fun _ => ?_, fun hyes => absurd hyes hno⟩
      · intro p hp
        simp [Heap.alloc, hp]
      · simp [Heap.alloc]
      · simp [Heap.alloc]
      · simp [Heap.alloc]
    | some cam =>
      have hdef : PostProcessScene e h scene = (h, KX_Scene.UpdateParents scene) := by
        unfold PostProcessScene
        simp only [hb, ha, Option.isNone_some, Bool.or_false, Bool.false_eq_true, if_false]
      rw [hdef]
      refine ⟨by simp [KX_Scene.UpdateParents, ha], fun hc => ?_, fun _ => ?_⟩
      · rcases hc with hc | hc
        · simp at hc
        · exact absurd hc hno
      · exact ⟨rfl, rfl, by simp [KX_Scene.UpdateParents, ha], rfl, rfl⟩

/-- C24 (counterexample): `AddScene` of a scene whose active camera 0 was set with
`SetActiveCamera` and is in none of its lists.  `PostProcessScene` creates no camera and leaves
the lists empty: the active camera is in neither the camera list nor the object list. -/
theorem kept_camera_not_in_lists :
    (AddScene strayCameraScene { heap := cameraHeap }).m_scenes.map
      (fun s => (s.m_activeCamera, s.m_cameralist, s.m_objectlist)) = [(some 0, [], [])] ∧
    (AddScene strayCameraScene { heap := cameraHeap }).heap.next = cameraHeap.next := by
  decide

/-- C24 (witness): a scene converted from scene data without camera gets the default camera 0
as active camera, in its camera list and in its object list, at the origin. -/
theorem PostProcessScene_camera_witness :
    (PostProcessScene {} Heap.empty (CreateScene { id_name := "SCX" })).2.m_activeCamera =
      some 0 ∧
    (0 : Nat) ∈ (PostProcessScene {} Heap.empty (CreateScene { id_name := "SCX" })).2.m_cameralist ∧
    (0 : Nat) ∈ (PostProcessScene {} Heap.empty (CreateScene { id_name := "SCX" })).2.m_objectlist ∧
    ((PostProcessScene {} Heap.empty (CreateScene { id_name := "SCX" })).1.obj 0).m_localPosition =
      zero3 :=
  ⟨((PostProcessScene_camera {} Heap.empty (CreateScene { id_name := "SCX" })).2.1
      (Or.inl rfl)).1,
   ((PostProcessScene_camera {} Heap.empty (CreateScene { id_name := "SCX" })).2.1
      (Or.inl rfl)).2.2.2.1,
   ((PostProcessScene_camera {} Heap.empty (CreateScene { id_name := "SCX" })).2.1
      (Or.inl rfl)).2.2.2.2.1,
   (((PostProcessScene_camera {} Heap.empty (CreateScene { id_name := "SCX" })).2.1
      (Or.inl rfl)).2.2.2.2.2.2.2.2.2.1 (by decide)).1⟩

/-! ## Theorems: removal of an object -/

/-- Helper: a loop whose steps are related by a reflexive and transitive relation relates its
start to its result. -/
theorem foldlM_rel {α β : Type} (f : α → β → Option α) (P : α → α → Prop)
    (hrefl : ∀ a : α, P a a) (htrans : ∀ a b c : α, P a b → P b c → P a c)
    (hstep : ∀ (a : α) (b : β) (r : α), f a b = some r → P a r) (l : List β) :
    ∀ (a r : α), l.foldlM f a = some r → P a r := by
  induction l with
  | nil =>
    intro a r hr
    simp only [List.foldlM_nil, Option.pure_def, Option.some.injEq] at hr
    subst hr
    exact hrefl a
  | cons b rest ih =>
    intro a r hr
    simp only [List.foldlM_cons, Option.bind_eq_bind, Option.bind_eq_some] at hr
    obtain ⟨a2, h1, h2⟩ := hr
    exact htrans a a2 r (hstep a b a2 h1) (ih a2 r h2)

/-- Helper: removing the first occurrence from a list free of duplicates removes the item. -/
theorem CM_ListRemoveIfFound_nodup (l : List Nat) (g : Nat) (hn : l.Nodup) :
    CM_ListRemoveIfFound l g = l.filter (fun item => item != g) := by
  unfold CM_ListRemoveIfFound
  rw [List.Nodup.erase_eq_filter hn]

/-- Helper: removing every occurrence of an item that is not in the list changes nothing. -/
theorem RemoveValue_absent (l : List Nat) (g : Nat) (hg : g ∉ l) : RemoveValue l g = l := by
  unfold RemoveValue
  rw [List.filter_eq_self]
  intro a ha
  have : a ≠ g := fun hag => hg (hag ▸ ha)
  simpa using this

/-- Helper: the updates of the dupli-group references in `NewRemoveObject` keep the type of
every object. -/
theorem clearDupliGroup_type (l : List Nat) :
    ∀ (h : Heap) (p : Nat),
      ((l.foldl (fun hh inst => hh.set inst { hh.obj inst with m_dupliGroupObject := none })
        h).obj p).m_objectType = (h.obj p).m_objectType := by
  induction l with
  | nil => intro h p; rfl
  | cons a rest ih =>
    intro h p
    simp only [List.foldl_cons]
    rw [ih]
    unfold Heap.set
    simp only []
    split_ifs with hp
    · rw [hp]
    · rfl

/-- Helper: `NewRemoveObject` in terms of the type the object had on the heap of the call. -/
theorem NewRemoveObject_scene (h : Heap) (scene : KX_Scene) (g : Nat) :
    (NewRemoveObject h scene g).2 =
      { scene with
        m_debugList := scene.m_debugList.filter (fun prop => prop.m_obj != g)
        m_cameralist :=
          if (h.obj g).m_objectType = ObjectType.OBJECT_TYPE_CAMERA then
            RemoveValue scene.m_cameralist g
          else scene.m_cameralist
        m_lightlist :=
          if (h.obj g).m_objectType = ObjectType.OBJECT_TYPE_LIGHT then
            RemoveValue scene.m_lightlist g
          else scene.m_lightlist
        m_fontlist :=
          if (h.obj g).m_objectType = ObjectType.OBJECT_TYPE_TEXT then
            RemoveValue scene.m_fontlist g
          else scene.m_fontlist
        m_animatedlist := CM_ListRemoveIfFound scene.m_animatedlist g
        m_euthanasyobjects := CM_ListRemoveIfFound scene.m_euthanasyobjects g
        m_tempObjectList := CM_ListRemoveIfFound scene.m_tempObjectList g
        m_parentlist := RemoveValue scene.m_parentlist g
        m_inactivelist := RemoveValue scene.m_inactivelist g
        m_objectlist := RemoveValue scene.m_objectlist g
        m_activeCamera := if scene.m_activeCamera = some g then none else scene.m_activeCamera
        m_overrideCullingCamera :=
          if scene.m_overrideCullingCamera = some g then none
          else scene.m_overrideCullingCamera } := by
  have htype : ∀ h1 : Heap, (h1.obj g).m_objectType = (h.obj g).m_objectType →
      ((match (h1.obj g).m_dupliGroupObject with
        | some group =>
          h1.set group
            { h1.obj group with
              m_instanceObjects :=
                (h1.obj group).m_instanceObjects.map (fun l => RemoveValue l g) }
        | none => h1).obj g).m_objectType = (h.obj g).m_objectType := by
    intro h1 h1t
    cases hd : (h1.obj g).m_dupliGroupObject with
    | none => exact h1t
    | some group =>
      simp only [Heap.set]
      split_ifs with hp
      · rw [← hp]; exact h1t
      · exact h1t
  have h1t : ((match (h.obj g).m_instanceObjects with
      | some instances =>
        instances.foldl
          (fun (hh : Heap) inst => hh.set inst { hh.obj inst with m_dupliGroupObject := none }) h
      | none => h).obj g).m_objectType = (h.obj g).m_objectType := by
    cases hi : (h.obj g).m_instanceObjects with
    | none => rfl
    | some instances => exact clearDupliGroup_type instances h g
  have hty : ((NewRemoveObject h scene g).1.obj g).m_objectType = (h.obj g).m_objectType :=
    htype _ h1t
  show (fun s2 : KX_Scene =>
      ({ s2 with
         m_animatedlist := CM_ListRemoveIfFound s2.m_animatedlist g
         m_euthanasyobjects := CM_ListRemoveIfFound s2.m_euthanasyobjects g
         m_tempObjectList := CM_ListRemoveIfFound s2.m_tempObjectList g
         m_parentlist := RemoveValue s2.m_parentlist g
         m_inactivelist := RemoveValue s2.m_inactivelist g
         m_objectlist := RemoveValue s2.m_objectlist g
         m_activeCamera := if s2.m_activeCamera = some g then none else s2.m_activeCamera
         m_overrideCullingCamera :=
           if s2.m_overrideCullingCamera = some g then none
           else s2.m_overrideCullingCamera } : KX_Scene))
    ((fun T : ObjectType =>
      (match T with
        | ObjectType.OBJECT_TYPE_CAMERA =>
          { RemoveObjectDebugProperties scene g with
            m_cameralist := RemoveValue (RemoveObjectDebugProperties scene g).m_cameralist g }
        | ObjectType.OBJECT_TYPE_LIGHT =>
          { RemoveObjectDebugProperties scene g with
            m_lightlist := RemoveValue (RemoveObjectDebugProperties scene g).m_lightlist g }
        | ObjectType.OBJECT_TYPE_TEXT =>
          { RemoveObjectDebugProperties scene g with
            m_fontlist := RemoveValue (RemoveObjectDebugProperties scene g).m_fontlist g }
        | _ => RemoveObjectDebugProperties scene g : KX_Scene))
      ((NewRemoveObject h scene g).1.obj g).m_objectType) = _
  rw [hty]
  unfold RemoveObjectDebugProperties
  cases (h.obj g).m_objectType <;> rfl

/-- Helper: `Destruct` puts nothing into the euthanasia queue. -/
theorem Destruct_queue (fuel : Nat) :
    ∀ (h : Heap) (scene : KX_Scene) (g : Nat) (r : Heap × KX_Scene),
      Destruct fuel h scene g = some r →
      ∀ x : Nat, x ∈ r.2.m_euthanasyobjects → x ∈ scene.m_euthanasyobjects := by
  induction fuel with
  | zero => intro h scene g r hr; simp [Destruct] at hr
  | succ n ih =>
    intro h scene g r hr x hx
    rw [Destruct] at hr
    cases hc : (h.obj g).m_children.foldlM
        (fun (acc : Heap × KX_Scene) child => Destruct n acc.1 acc.2 child) (h, scene) with
    | none => simp [hc] at hr
    | some acc =>
      simp only [hc, Option.some.injEq] at hr
      subst hr
      have h1 : ∀ y : Nat, y ∈ acc.2.m_euthanasyobjects → y ∈ scene.m_euthanasyobjects :=
        foldlM_rel (fun (a : Heap × KX_Scene) child => Destruct n a.1 a.2 child)
          (fun a b => ∀ y : Nat, y ∈ b.2.m_euthanasyobjects → y ∈ a.2.m_euthanasyobjects)
          (fun a y hy => hy) (fun a b c hab hbc y hy => hab y (hbc y hy))
          (fun a c r hr => ih a.1 a.2 c r hr) _ (h, scene) acc hc
      have h2 := (NewRemoveObject_fields acc.1 acc.2 g).1
      rw [h2] at hx
      exact h1 x (List.mem_of_mem_erase hx)

/-- Helper: `RemoveObject` puts nothing into the euthanasia queue. -/
theorem RemoveObject_queue (fuel : Nat) (h : Heap) (scene : KX_Scene) (g : Nat)
    (r : Heap × KX_Scene) (hr : RemoveObject fuel h scene g = some r) :
    ∀ x : Nat, x ∈ r.2.m_euthanasyobjects → x ∈ scene.m_euthanasyobjects := by
  unfold RemoveObject at hr
  split_ifs at hr
  · exact Destruct_queue fuel _ scene g r hr
  · simp only [Option.some.injEq] at hr
    subst hr
    exact fun x hx => hx

/-- Helper: `NewRemoveObject` keeps the type of every object of the heap. -/
theorem NewRemoveObject_type (h : Heap) (scene : KX_Scene) (g p : Nat) :
    ((NewRemoveObject h scene g).1.obj p).m_objectType = (h.obj p).m_objectType := by
  have htype : ∀ h1 : Heap, (h1.obj p).m_objectType = (h.obj p).m_objectType →
      ((match (h1.obj g).m_dupliGroupObject with
        | some group =>
          h1.set group
            { h1.obj group with
              m_instanceObjects :=
                (h1.obj group).m_instanceObjects.map (fun l => RemoveValue l g) }
        | none => h1).obj p).m_objectType = (h.obj p).m_objectType := by
    intro h1 h1t
    cases hd : (h1.obj g).m_dupliGroupObject with
    | none => exact h1t
    | some group =>
      simp only [Heap.set]
      split_ifs with hp
      · rw [← hp]; exact h1t
      · exact h1t
  have h1t : ((match (h.obj g).m_instanceObjects with
      | some instances =>
        instances.foldl
          (fun (hh : Heap) inst => hh.set inst { hh.obj inst with m_dupliGroupObject := none }) h
      | none => h).obj p).m_objectType = (h.obj p).m_objectType := by
    cases hi : (h.obj g).m_instanceObjects with
    | none => rfl
    | some instances => exact clearDupliGroup_type instances h p
  exact htype _ h1t

/-- Helper: `NewRemoveObject` keeps the lists of the scene well formed. -/
theorem NewRemoveObject_wellFormed (h : Heap) (scene : KX_Scene) (g : Nat)
    (hw : ListsWellFormed h scene) :
    ListsWellFormed (NewRemoveObject h scene g).1 (NewRemoveObject h scene g).2 := by
  obtain ⟨hcam, hlight, hfont, hn1, hn2, hn3⟩ := hw
  have hsub : ∀ (l : List Nat) (x : Nat),
      x ∈ (if (h.obj g).m_objectType = ObjectType.OBJECT_TYPE_CAMERA then RemoveValue l g
        else l) → x ∈ l := by
    intro l x hx
    split_ifs at hx
    · exact (List.mem_filter.mp hx).1
    · exact hx
  have hsub2 : ∀ (l : List Nat) (x : Nat),
      x ∈ (if (h.obj g).m_objectType = ObjectType.OBJECT_TYPE_LIGHT then RemoveValue l g
        else l) → x ∈ l := by
    intro l x hx
    split_ifs at hx
    · exact (List.mem_filter.mp hx).1
    · exact hx
  have hsub3 : ∀ (l : List Nat) (x : Nat),
      x ∈ (if (h.obj g).m_objectType = ObjectType.OBJECT_TYPE_TEXT then RemoveValue l g
        else l) → x ∈ l := by
    intro l x hx
    split_ifs at hx
    · exact (List.mem_filter.mp hx).1
    · exact hx
  rw [NewRemoveObject_scene]
  refine ⟨fun x hx => ?_, fun x hx => ?_, fun x hx => ?_, hn1.erase g, hn2.erase g,
    hn3.erase g⟩
  · rw [NewRemoveObject_type]; exact hcam x (hsub _ x hx)
  · rw [NewRemoveObject_type]; exact hlight x (hsub2 _ x hx)
  · rw [NewRemoveObject_type]; exact hfont x (hsub3 _ x hx)

/-- C25: on a scene whose typed lists hold objects of their type and whose euthanasia queue,
temporary-object list and animated list are free of duplicates, `NewRemoveObject(obj)` leaves
each of the nine object lists as the former list without `obj` (the other objects stay, in
their order), leaves no debug property of `obj`, nulls the active camera and the override
culling camera exactly if they were `obj`; no `RemoveObject` of the drain loop puts `obj` back
into the euthanasia queue; and the lists stay well formed. -/
theorem NewRemoveObject_removes (h : Heap) (scene : KX_Scene) (obj : Nat)
    (hw : ListsWellFormed h scene) :
    ((NewRemoveObject h scene obj).2.m_euthanasyobjects =
        scene.m_euthanasyobjects.filter (fun x => x != obj) ∧
      (NewRemoveObject h scene obj).2.m_tempObjectList =
        scene.m_tempObjectList.filter (fun x => x != obj) ∧
      (NewRemoveObject h scene obj).2.m_animatedlist =
        scene.m_animatedlist.filter (fun x => x != obj) ∧
      (NewRemoveObject h scene obj).2.m_parentlist =
        scene.m_parentlist.filter (fun x => x != obj) ∧
      (NewRemoveObject h scene obj).2.m_inactivelist =
        scene.m_inactivelist.filter (fun x => x != obj) ∧
      (NewRemoveObject h scene obj).2.m_objectlist =
        scene.m_objectlist.filter (fun x => x != obj) ∧
      (NewRemoveObject h scene obj).2.m_cameralist =
        scene.m_cameralist.filter (fun x => x != obj) ∧
      (NewRemoveObject h scene obj).2.m_lightlist =
        scene.m_lightlist.filter (fun x => x != obj) ∧
      (NewRemoveObject h scene obj).2.m_fontlist =
        scene.m_fontlist.filter (fun x => x != obj) ∧
      (NewRemoveObject h scene obj).2.m_debugList =
        scene.m_debugList.filter (fun prop => prop.m_obj != obj)) ∧
    (obj ∉ (NewRemoveObject h scene obj).2.m_euthanasyobjects ∧
      obj ∉ (NewRemoveObject h scene obj).2.m_tempObjectList ∧
      obj ∉ (NewRemoveObject h scene obj).2.m_animatedlist ∧
      obj ∉ (NewRemoveObject h scene obj).2.m_parentlist ∧
      obj ∉ (NewRemoveObject h scene obj).2.m_inactivelist ∧
      obj ∉ (NewRemoveObject h scene obj).2.m_objectlist ∧
      obj ∉ (NewRemoveObject h scene obj).2.m_cameralist ∧
      obj ∉ (NewRemoveObject h scene obj).2.m_lightlist ∧
      obj ∉ (NewRemoveObject h scene obj).2.m_fontlist ∧
      ∀ prop : DebugProp, prop ∈ (NewRemoveObject h scene obj).2.m_debugList →
        prop.m_obj ≠ obj) ∧
    ((NewRemoveObject h scene obj).2.m_activeCamera =
        (if scene.m_activeCamera = some obj then none else scene.m_activeCamera) ∧
      (NewRemoveObject h scene obj).2.m_overrideCullingCamera =
        (if scene.m_overrideCullingCamera = some obj then none
         else scene.m_overrideCullingCamera)) ∧
    (∀ (fuel : Nat) (h2 : Heap) (s2 : KX_Scene) (g : Nat) (r : Heap × KX_Scene),
      obj ∉ s2.m_euthanasyobjects → RemoveObject fuel h2 s2 g = some r →
      obj ∉ r.2.m_euthanasyobjects) ∧
    ListsWellFormed (NewRemoveObject h scene obj).1 (NewRemoveObject h scene obj).2 := by
  have hkeep := NewRemoveObject_wellFormed h scene obj hw
  obtain ⟨hcam, hlight, hfont, hn1, hn2, hn3⟩ := hw
  have hlists : (NewRemoveObject h scene obj).2.m_euthanasyobjects =
        scene.m_euthanasyobjects.filter (fun x => x != obj) ∧
      (NewRemoveObject h scene obj).2.m_tempObjectList =
        scene.m_tempObjectList.filter (fun x => x != obj) ∧
      (NewRemoveObject h scene obj).2.m_animatedlist =
        scene.m_animatedlist.filter (fun x => x != obj) ∧
      (NewRemoveObject h scene obj).2.m_parentlist =
        scene.m_parentlist.filter (fun x => x != obj) ∧
      (NewRemoveObject h scene obj).2.m_inactivelist =
        scene.m_inactivelist.filter (fun x => x != obj) ∧
      (NewRemoveObject h scene obj).2.m_objectlist =
        scene.m_objectlist.filter (fun x => x != obj) ∧
      (NewRemoveObject h scene obj).2.m_cameralist =
        scene.m_cameralist.filter (fun x => x != obj) ∧
      (NewRemoveObject h scene obj).2.m_lightlist =
        scene.m_lightlist.filter (fun x => x != obj) ∧
      (NewRemoveObject h scene obj).2.m_fontlist =
        scene.m_fontlist.filter (fun x => x != obj) ∧
      (NewRemoveObject h scene obj).2.m_debugList =
        scene.m_debugList.filter (fun prop => prop.m_obj != obj) := by
    rw [NewRemoveObject_scene]
    refine ⟨CM_ListRemoveIfFound_nodup _ obj hn1, CM_ListRemoveIfFound_nodup _ obj hn2,
      CM_ListRemoveIfFound_nodup _ obj hn3, rfl, rfl, rfl, ?_, ?_, ?_, rfl⟩
    · show (if (h.obj obj).m_objectType = ObjectType.OBJECT_TYPE_CAMERA then
          RemoveValue scene.m_cameralist obj else scene.m_cameralist) = _
      split_ifs with ht
      · rfl
      · exact (RemoveValue_absent _ obj (fun hin => ht (hcam obj hin))).symm
    · show (if (h.obj obj).m_objectType = ObjectType.OBJECT_TYPE_LIGHT then
          RemoveValue scene.m_lightlist obj else scene.m_lightlist) = _
      split_ifs with ht
      · rfl
      · exact (RemoveValue_absent _ obj (fun hin => ht (hlight obj hin))).symm
    · show (if (h.obj obj).m_objectType = ObjectType.OBJECT_TYPE_TEXT then
          RemoveValue scene.m_fontlist obj else scene.m_fontlist) = _
      split_ifs with ht
      · rfl
      · exact (RemoveValue_absent _ obj (fun hin => ht (hfont obj hin))).symm
  have hnot : ∀ l : List Nat, obj ∉ l.filter (fun x => x != obj) := by
    intro l hin
    simp at hin
  obtain ⟨e1, e2, e3, e4, e5, e6, e7, e8, e9, e10⟩ := hlists
  refine ⟨⟨e1, e2, e3, e4, e5, e6, e7, e8, e9, e10⟩, ⟨?_, ?_, ?_, ?_, ?_, ?_, ?_, ?_, ?_, ?_⟩,
    ⟨?_, ?_⟩, ?_, hkeep⟩
  · rw [e1]; exact hnot _
  · rw [e2]; exact hnot _
  · rw [e3]; exact hnot _
  · rw [e4]; exact hnot _
  · rw [e5]; exact hnot _
  · rw [e6]; exact hnot _
  · rw [e7]; exact hnot _
  · rw [e8]; exact hnot _
  · rw [e9]; exact hnot _
  · intro prop hprop
    rw [e10] at hprop
    simpa using (List.mem_filter.mp hprop).2
  · rw [NewRemoveObject_scene]
  · rw [NewRemoveObject_scene]
  · intro fuel h2 s2 g r hout hr hin
    exact hout (RemoveObject_queue fuel h2 s2 g r hr obj hin)

/-- C25 (witness): removing the active camera 0 of the scene with the cameras 0 and 1, both
queued, leaves the object list, the camera list and the queue with the camera 1 alone and no
active camera. -/
theorem NewRemoveObject_removes_witness :
    (NewRemoveObject cameraHeap doomedScene 0).2.m_objectlist = [1] ∧
    (NewRemoveObject cameraHeap doomedScene 0).2.m_cameralist = [1] ∧
    (NewRemoveObject cameraHeap doomedScene 0).2.m_euthanasyobjects = [1] ∧
    (NewRemoveObject cameraHeap doomedScene 0).2.m_activeCamera = none := by
  have hw : ListsWellFormed cameraHeap doomedScene :=
    ⟨fun g _ => rfl, fun g hg => by simp [doomedScene, twoCameraScene] at hg,
      fun g hg => by simp [doomedScene, twoCameraScene] at hg, by decide, by decide, by decide⟩
  have h := NewRemoveObject_removes cameraHeap doomedScene 0 hw
  exact ⟨h.1.2.2.2.2.2.1.trans (by decide), h.1.2.2.2.2.2.2.1.trans (by decide),
    h.1.1.trans (by decide), h.2.2.1.1.trans (by decide)⟩

/-! ## Theorems: renderer -/

/-- Helper: the camera renders of two records of calls, one after the other. -/
theorem cameraRenders_append (a b : List RenderCall) :
    cameraRenders (a ++ b) = cameraRenders a ++ cameraRenders b := by
  induction a with
  | nil => rfl
  | cons x rest ih =>
    cases x <;> simp [cameraRenders, ih]

/-- Helper: passes of two runs of camera renders, the second starting where the first ended. -/
theorem PassesFrom_append (p o1 o2 : Nat) (l1 l2 : List CameraRender)
    (h1 : PassesFrom p l1 o1) (h2 : PassesFrom o1 l2 o2) : PassesFrom p (l1 ++ l2) o2 := by
  obtain ⟨a1, a2, a3⟩ := h1
  obtain ⟨b1, b2, b3⟩ := h2
  refine ⟨?_, ?_, ?_⟩
  · rw [List.map_append, a1, b1, List.length_append, List.range_add, List.map_append,
      List.map_map]
    congr 1
    apply List.map_congr_left
    intro k _
    simp only [Function.comp, a2]
    rw [Nat.mod_add_mod, Nat.add_assoc]
  · rw [b2, a2, List.length_append, Nat.mod_add_mod, Nat.add_assoc]
  · intro c hc
    rcases List.mem_append.mp hc with hc | hc
    · exact a3 c hc
    · exact b3 c hc

/-- Helper: no camera render, the counter stays. -/
theorem PassesFrom_nil (p : Nat) (hp : p < 65536) : PassesFrom p [] p :=
  ⟨rfl, by simp [Nat.mod_eq_of_lt hp], by simp⟩

/-- Helper: the counter that `PassesFrom` ends at is an `unsigned short`. -/
theorem PassesFrom_lt {p out : Nat} {l : List CameraRender} (h : PassesFrom p l out) :
    out < 65536 := by
  rw [h.2.1]
  exact Nat.mod_lt _ (by decide)

/-- Helper: the passes of the camera loop. -/
theorem renderCameras_passes (scene : Nat) (first : Bool) (l : List KX_CameraRenderSchedule) :
    ∀ p : Nat, p < 65536 →
      PassesFrom p (cameraRenders (renderCameras scene first l p).1)
        (renderCameras scene first l p).2 := by
  induction l with
  | nil => intro p hp; exact PassesFrom_nil p hp
  | cons cs rest ih =>
    intro p hp
    have hone : PassesFrom p
        [{ scene := scene, m_camera := cs.m_camera, m_eye := cs.m_eye, pass := p,
           isFirstScene := first, clearDepth := decide (p > 0) }] ((p + 1) % 65536) := by
      refine ⟨?_, rfl, ?_⟩
      · simp [List.range_succ, Nat.mod_eq_of_lt hp]
      · intro c hc
        simp only [List.mem_singleton] at hc
        subst hc
        rfl
    exact PassesFrom_append p _ _ _ _ hone (ih _ (Nat.mod_lt _ (by decide)))

/-- Helper: the passes of the eye loop. -/
theorem renderEyes_passes (scene : Nat) (ss : KX_SceneRenderSchedule) (first : Bool)
    (eyes : List StereoEye) :
    ∀ p : Nat, p < 65536 →
      PassesFrom p (cameraRenders (renderEyes scene ss first eyes p).1)
        (renderEyes scene ss first eyes p).2 := by
  induction eyes with
  | nil => intro p hp; exact PassesFrom_nil p hp
  | cons eye rest ih =>
    intro p hp
    have h1 := renderCameras_passes scene first (ss.m_cameraSchedules eye) p hp
    have h2 := ih _ (PassesFrom_lt h1)
    simp only [renderEyes, cameraRenders_append]
    exact PassesFrom_append p _ _ _ _ h1 h2

/-- Helper: the passes of the scene loop. -/
theorem renderScenes_passes (frame : KX_FrameRenderSchedule) (size : Nat)
    (l : List KX_SceneRenderSchedule) :
    ∀ i p : Nat, p < 65536 →
      PassesFrom p (cameraRenders (renderScenes frame size l i p).1)
        (renderScenes frame size l i p).2 := by
  induction l with
  | nil => intro i p hp; exact PassesFrom_nil p hp
  | cons ss rest ih =>
    intro i p hp
    have h1 := renderEyes_passes i ss (i == 0) frame.m_eyes p hp
    have h2 := ih (i + 1) _ (PassesFrom_lt h1)
    simp only [renderScenes, cameraRenders_append, cameraRenders]
    exact PassesFrom_append p _ _ _ _ h1 h2

/-- Helper: the passes of the frame loop. -/
theorem renderFrames_passes (sss : List KX_SceneRenderSchedule)
    (frames : List KX_FrameRenderSchedule) :
    ∀ p : Nat, p < 65536 →
      PassesFrom p (cameraRenders (renderFrames sss frames p).1) (renderFrames sss frames p).2 := by
  induction frames with
  | nil => intro p hp; exact PassesFrom_nil p hp
  | cons frame rest ih =>
    intro p hp
    have h1 := renderScenes_passes frame (sss.length % 65536)
      (sss.take (sss.length % 65536)) 0 p hp
    have h2 := ih _ (PassesFrom_lt h1)
    simp only [renderFrames, cameraRenders, cameraRenders_append]
    exact PassesFrom_append p _ _ _ _ h1 h2

/-- Helper: the scene loop of a frame makes camera renders and scene post-processing only. -/
theorem renderScenes_inScene (frame : KX_FrameRenderSchedule) (size : Nat)
    (l : List KX_SceneRenderSchedule) :
    ∀ (i p : Nat) (c : RenderCall), c ∈ (renderScenes frame size l i p).1 →
      c.inScene = true := by
  have hcams : ∀ (scene : Nat) (first : Bool) (cl : List KX_CameraRenderSchedule) (p : Nat)
      (c : RenderCall), c ∈ (renderCameras scene first cl p).1 → c.inScene = true := by
    intro scene first cl
    induction cl with
    | nil => intro p c hc; simp [renderCameras] at hc
    | cons cs rest ih =>
      intro p c hc
      simp only [renderCameras, List.mem_cons] at hc
      rcases hc with hc | hc
      · subst hc; rfl
      · exact ih _ c hc
  have heyes : ∀ (scene : Nat) (ss : KX_SceneRenderSchedule) (first : Bool)
      (eyes : List StereoEye) (p : Nat) (c : RenderCall),
      c ∈ (renderEyes scene ss first eyes p).1 → c.inScene = true := by
    intro scene ss first eyes
    induction eyes with
    | nil => intro p c hc; simp [renderEyes] at hc
    | cons eye rest ih =>
      intro p c hc
      simp only [renderEyes, List.mem_append] at hc
      rcases hc with hc | hc
      · exact hcams _ _ _ _ c hc
      · exact ih _ c hc
  induction l with
  | nil => intro i p c hc; simp [renderScenes] at hc
  | cons ss rest ih =>
    intro i p c hc
    simp only [renderScenes, List.mem_append, List.mem_cons] at hc
    rcases hc with hc | hc | hc
    · exact heyes _ _ _ _ _ c hc
    · subst hc; rfl
    · exact ih _ _ c hc

/-- Helper: the record of the frame loop is, frame by frame, the bind of the off screen of the
frame, the clear of colour and depth, and then calls of the scene loop only. -/
theorem renderFrames_frames (sss : List KX_SceneRenderSchedule)
    (frames : List KX_FrameRenderSchedule) :
    ∀ p : Nat, ∃ bodies : List (List RenderCall),
      bodies.length = frames.length ∧
      (renderFrames sss frames p).1 =
        (List.zipWith
          (fun (f : KX_FrameRenderSchedule) (b : List RenderCall) =>
            RenderCall.Bind f.m_ofsType :: RenderCall.ClearColourDepth :: b)
          frames bodies).flatten ∧
      ∀ b : List RenderCall, b ∈ bodies → ∀ c : RenderCall, c ∈ b → c.inScene = true := by
  induction frames with
  | nil => intro p; exact ⟨[], rfl, rfl, by simp⟩
  | cons frame rest ih =>
    intro p
    obtain ⟨bodies, hlen, heq, hin⟩ := ih
      (renderScenes frame (sss.length % 65536) (sss.take (sss.length % 65536)) 0 p).2
    refine ⟨(renderScenes frame (sss.length % 65536) (sss.take (sss.length % 65536)) 0 p).1 ::
      bodies, by simp [hlen], ?_, ?_⟩
    · simp only [renderFrames, List.zipWith_cons_cons, List.flatten_cons, heq, List.cons_append]
    · intro b hb c hc
      rcases List.mem_cons.mp hb with hb | hb
      · subst hb
        exact renderScenes_inScene frame _ _ 0 p c hc
      · exact hin b hb c hc

/-- Helper: the camera loop makes one camera render per camera schedule. -/
theorem renderCameras_length (scene : Nat) (first : Bool) (l : List KX_CameraRenderSchedule) :
    ∀ p : Nat, (cameraRenders (renderCameras scene first l p).1).length = l.length := by
  induction l with
  | nil => intro p; rfl
  | cons cs rest ih =>
    intro p
    simp only [renderCameras, RenderCamera, cameraRenders, List.length_cons, ih]

/-- Helper: in the calls made for a render schedule, a camera render clears the depth buffer
exactly if its pass is not 0, and the camera render number `k` has the pass `k` modulo 65536. -/
theorem renderCalls_passes (renderSchedule : KX_RenderSchedule) :
    (∀ c : CameraRender, c ∈ cameraRenders (renderCalls renderSchedule) →
      c.clearDepth = decide (c.pass > 0)) ∧
    (cameraRenders (renderCalls renderSchedule)).map (fun c => c.pass) =
      (List.range (cameraRenders (renderCalls renderSchedule)).length).map
        (fun k => k % 65536) := by
  obtain ⟨h1, _, h3⟩ := renderFrames_passes renderSchedule.m_sceneSchedules
    renderSchedule.m_frameSchedules 0 (by decide)
  refine ⟨h3, ?_⟩
  unfold renderCalls
  rw [h1]
  apply List.map_congr_left
  intro k _
  rw [Nat.zero_add]

/-- Helper: what `Render` does for every render schedule.  The colour buffer is cleared only by
the clear that follows the bind of the off screen of a frame, before the scene loop of the
frame; a camera render clears the depth buffer, and nothing else, exactly if its pass is not 0;
the camera render number `k` of the call (from 0) has the pass `k` modulo 65536; with at most
65536 camera renders in the call the passes are 0, 1, 2, ... -/
theorem Render_passes (renderSchedule : KX_RenderSchedule) :
    (∃ bodies : List (List RenderCall),
      bodies.length = renderSchedule.m_frameSchedules.length ∧
      renderCalls renderSchedule =
        (List.zipWith
          (fun (f : KX_FrameRenderSchedule) (b : List RenderCall) =>
            RenderCall.Bind f.m_ofsType :: RenderCall.ClearColourDepth :: b)
          renderSchedule.m_frameSchedules bodies).flatten ∧
      ∀ b : List RenderCall, b ∈ bodies → ∀ c : RenderCall, c ∈ b → c.inScene = true) ∧
    (∀ c : CameraRender, c ∈ cameraRenders (renderCalls renderSchedule) →
      c.clearDepth = decide (c.pass > 0)) ∧
    ((cameraRenders (renderCalls renderSchedule)).map (fun c => c.pass) =
      (List.range (cameraRenders (renderCalls renderSchedule)).length).map
        (fun k => k % 65536)) ∧
    ((cameraRenders (renderCalls renderSchedule)).length ≤ 65536 →
      (cameraRenders (renderCalls renderSchedule)).map (fun c => c.pass) =
        List.range (cameraRenders (renderCalls renderSchedule)).length) := by
  obtain ⟨h3, hp⟩ := renderCalls_passes renderSchedule
  refine ⟨renderFrames_frames _ _ 0, h3, hp, fun hle => ?_⟩
  rw [hp]
  conv_rhs => rw [← List.map_id (List.range _)]
  apply List.map_congr_left
  intro k hk
  have hk2 : k < 65536 := by
    have := List.mem_range.mp hk
    omega
  simp [Nat.mod_eq_of_lt hk2]

/-- C26 (failing input): a schedule with 65537 camera renders in one call.  The pass counter
is an `unsigned short`: the render number 65536 has the pass 0 again, not 65536, and does not
clear the depth buffer, although it is not the first render of the call. -/
theorem pass_counter_wraps :
    (cameraRenders (renderCalls manyCamerasSchedule)).length = 65537 ∧
    ∃ c : CameraRender, (cameraRenders (renderCalls manyCamerasSchedule))[65536]? = some c ∧
      c.pass = 0 ∧ c.clearDepth = false := by
  have hcalls : ∀ l : List KX_CameraRenderSchedule,
      cameraRenders (renderCalls (oneSceneSchedule l)) =
        cameraRenders (renderCameras 0 true l 0).1 := by
    intro l
    simp [renderCalls, oneSceneSchedule, renderFrames, renderScenes, renderEyes,
      cameraRenders, cameraRenders_append]
  have hlen : (cameraRenders (renderCalls manyCamerasSchedule)).length = 65537 := by
    unfold manyCamerasSchedule
    rw [hcalls, renderCameras_length, List.length_replicate]
  obtain ⟨h2, h3⟩ := renderCalls_passes manyCamerasSchedule
  refine ⟨hlen, ?_⟩
  have hlt : 65536 < (cameraRenders (renderCalls manyCamerasSchedule)).length := by
    rw [hlen]; decide
  refine ⟨(cameraRenders (renderCalls manyCamerasSchedule))[65536], ?_, ?_⟩
  · exact List.getElem?_eq_getElem hlt
  · have hpass : ((cameraRenders (renderCalls manyCamerasSchedule))[65536]).pass = 0 := by
      have hget := congrArg (fun l : List Nat => l[65536]?) h3
      simp only [List.getElem?_map, List.getElem?_eq_getElem hlt, Option.map_some',
        List.getElem?_range hlt] at hget
      simpa using hget
    refine ⟨hpass, ?_⟩
    rw [h2 _ (List.getElem_mem hlt), hpass]
    rfl

/-- Helper (example): rendering the scenes X and Y of one camera each without stereo makes two
camera renders, with the passes 0 and 1; the second clears the depth buffer, the first does
not. -/
theorem Render_passes_witness :
    (cameraRenders (Render StereoMode.RAS_STEREO_NOSTEREO xyEngine)).map (fun c => c.pass) =
      List.range (cameraRenders (Render StereoMode.RAS_STEREO_NOSTEREO xyEngine)).length ∧
    (cameraRenders (Render StereoMode.RAS_STEREO_NOSTEREO xyEngine)).map
      (fun c => (c.scene, c.pass, c.clearDepth)) = [(0, 0, false), (1, 1, true)] :=
  ⟨(Render_passes (ScheduleRender StereoMode.RAS_STEREO_NOSTEREO xyEngine)).2.2.2 (by decide),
   by decide⟩

/-! ## Theorems: replication and lifespan -/

/-- Helper: the heap and the object that `AddNodeReplicaObject` returns. -/
theorem AddNodeReplicaObject_heap (h : Heap) (scene : KX_Scene) (g : Nat) :
    (AddNodeReplicaObject h scene g).2.2 = h.next ∧
    (AddNodeReplicaObject h scene g).1.next = h.next + 1 ∧
    (∀ p : Nat, p ≠ h.next → (AddNodeReplicaObject h scene g).1.obj p = h.obj p) ∧
    (AddNodeReplicaObject h scene g).1.obj h.next =
      { h.obj g with m_sgNode := true, m_parent := none, m_children := [] } := by
  refine ⟨rfl, rfl, fun p hp => ?_, ?_⟩
  · simp [AddNodeReplicaObject, Heap.alloc, hp]
  · simp [AddNodeReplicaObject, Heap.alloc]

/-- Helper: `AddNodeReplicaObject` leaves the temporary-object list and the euthanasia queue
alone. -/
theorem AddNodeReplicaObject_scene (h : Heap) (scene : KX_Scene) (g : Nat) :
    (AddNodeReplicaObject h scene g).2.1.m_tempObjectList = scene.m_tempObjectList ∧
    (AddNodeReplicaObject h scene g).2.1.m_euthanasyobjects = scene.m_euthanasyobjects := by
  unfold AddNodeReplicaObject
  simp only []
  split <;> exact ⟨rfl, rfl⟩

/-- Helper: `ReplicaKeeps` is reflexive. -/
theorem ReplicaKeeps_refl (a : Heap × KX_Scene) : ReplicaKeeps a a :=
  ⟨rfl, rfl, le_refl _, fun _ _ => rfl, fun o => ⟨o, rfl⟩⟩

/-- Helper: `ReplicaKeeps` is transitive. -/
theorem ReplicaKeeps_trans (a b c : Heap × KX_Scene) (h1 : ReplicaKeeps a b)
    (h2 : ReplicaKeeps b c) : ReplicaKeeps a c := by
  obtain ⟨t1, q1, n1, b1, i1⟩ := h1
  obtain ⟨t2, q2, n2, b2, i2⟩ := h2
  refine ⟨t2.trans t1, q2.trans q1, le_trans n1 n2, fun p hp => ?_, fun o => ?_⟩
  · rw [b2 p (lt_of_lt_of_le hp n1), b1 p hp]
  · obtain ⟨o2, ho2⟩ := i2 o
    obtain ⟨o3, ho3⟩ := i1 o2
    exact ⟨o3, ho2.trans ho3⟩

/-- Helper: `AddNodeReplicaObject` keeps what `ReplicaKeeps` names. -/
theorem AddNodeReplicaObject_keeps (h : Heap) (scene : KX_Scene) (g : Nat) :
    ReplicaKeeps (h, scene)
      ((AddNodeReplicaObject h scene g).1, (AddNodeReplicaObject h scene g).2.1) := by
  obtain ⟨_, hn, hold, hnew⟩ := AddNodeReplicaObject_heap h scene g
  obtain ⟨ht, hq⟩ := AddNodeReplicaObject_scene h scene g
  refine ⟨ht, hq, ?_, fun p hp => ?_, fun o => ?_⟩
  · show h.next ≤ _
    rw [hn]
    exact Nat.le_succ _
  · have hp2 : p < h.next := hp
    rw [hold p (by omega)]
  · by_cases ho : o = h.next
    · subst ho
      exact ⟨g, by rw [hnew]⟩
    · exact ⟨o, by rw [hold o ho]⟩

/-- Helper: overwriting an object by one with the same countdown and instance list keeps the
countdowns and instance lists of the heap. -/
theorem Heap.set_keeps (h : Heap) (p : Nat) (o : KX_GameObject)
    (ht : o.timebomb = (h.obj p).timebomb)
    (hi : o.m_instanceObjects = (h.obj p).m_instanceObjects) (q : Nat) :
    ((h.set p o).obj q).timebomb = (h.obj q).timebomb ∧
    ((h.set p o).obj q).m_instanceObjects = (h.obj q).m_instanceObjects := by
  unfold Heap.set
  by_cases hq : q = p
  · subst hq
    simp [ht, hi]
  · simp [hq]

/-- Helper: overwriting an object by one with the same instance list and dupli-group flag keeps
the instance lists and flags of the heap. -/
theorem Heap.set_keeps2 (h : Heap) (p : Nat) (o : KX_GameObject)
    (hi : o.m_instanceObjects = (h.obj p).m_instanceObjects)
    (hd : o.m_isDupliGroup = (h.obj p).m_isDupliGroup) (q : Nat) :
    ((h.set p o).obj q).m_instanceObjects = (h.obj q).m_instanceObjects ∧
    ((h.set p o).obj q).m_isDupliGroup = (h.obj q).m_isDupliGroup := by
  unfold Heap.set
  by_cases hq : q = p
  · subst hq
    simp [hi, hd]
  · simp [hq]

/-- Helper: overwriting an object leaves the other objects alone. -/
theorem Heap.set_other (h : Heap) (p : Nat) (o : KX_GameObject) (q : Nat) (hq : q ≠ p) :
    (h.set p o).obj q = h.obj q := by
  simp [Heap.set, hq]

/-- Helper: `AddChild` keeps the countdowns, the instance lists and the allocation mark, and
touches the parent and the child only. -/
theorem AddChild_keeps (h : Heap) (parent child : Nat) :
    (AddChild h parent child).next = h.next ∧
    (∀ p : Nat, ((AddChild h parent child).obj p).timebomb = (h.obj p).timebomb) ∧
    (∀ p : Nat, ((AddChild h parent child).obj p).m_instanceObjects =
      (h.obj p).m_instanceObjects) ∧
    (∀ p : Nat, p ≠ parent → p ≠ child → (AddChild h parent child).obj p = h.obj p) := by
  have h1 := Heap.set_keeps h child { h.obj child with m_parent := some parent } rfl rfl
  have h2 := Heap.set_keeps (h.set child { h.obj child with m_parent := some parent }) parent
    { (h.set child { h.obj child with m_parent := some parent }).obj parent with
      m_children :=
        ((h.set child { h.obj child with m_parent := some parent }).obj parent).m_children ++
          [child] } rfl rfl
  refine ⟨rfl, fun p => ?_, fun p => ?_, fun p hp hc => ?_⟩
  · exact (h2 p).1.trans (h1 p).1
  · exact (h2 p).2.trans (h1 p).2
  · unfold AddChild
    rw [Heap.set_other _ _ _ _ hp, Heap.set_other _ _ _ _ hc]

/-- Helper: `replicateChild` keeps what `ReplicaKeeps` names. -/
theorem replicateChild_keeps (fuel : Nat) :
    ∀ (h : Heap) (scene : KX_Scene) (parent child : Nat) (r : Heap × KX_Scene),
      replicateChild fuel h scene parent child = some r → ReplicaKeeps (h, scene) r := by
  induction fuel with
  | zero =>
    intro h scene parent child r hr
    simp [replicateChild] at hr
  | succ n ih =>
    intro h scene parent child r hr
    rw [replicateChild] at hr
    cases hf : (h.obj child).m_children.foldlM
        (fun (acc : Heap × KX_Scene) c =>
          replicateChild n acc.1 acc.2 (AddNodeReplicaObject h scene child).2.2 c)
        ((AddNodeReplicaObject h scene child).1, (AddNodeReplicaObject h scene child).2.1) with
    | none => simp [hf] at hr
    | some acc =>
      simp only [hf, Option.some.injEq] at hr
      subst hr
      have h1 := AddNodeReplicaObject_keeps h scene child
      have h2 : ReplicaKeeps
          ((AddNodeReplicaObject h scene child).1, (AddNodeReplicaObject h scene child).2.1)
          acc :=
        foldlM_rel _ ReplicaKeeps ReplicaKeeps_refl ReplicaKeeps_trans
          (fun a b r2 hr2 => ih a.1 a.2 _ b r2 hr2) _ _ _ hf
      have h3 := ReplicaKeeps_trans _ _ _ h1 h2
      obtain ⟨t3, q3, n3, b3, i3⟩ := h3
      obtain ⟨cn, ct, ci, _⟩ :=
        AddChild_keeps acc.1 parent (AddNodeReplicaObject h scene child).2.2
      refine ⟨t3, q3, ?_, fun p hp => ?_, fun o => ?_⟩
      · show h.next ≤ (AddChild acc.1 parent _).next
        rw [cn]
        exact n3
      · show ((AddChild acc.1 parent _).obj p).timebomb = _
        rw [ct p]
        exact b3 p hp
      · obtain ⟨o2, ho2⟩ := i3 o
        refine ⟨o2, ?_⟩
        show ((AddChild acc.1 parent _).obj o).m_instanceObjects = _
        rw [ci o]
        exact ho2

/-- Helper: `LogicBeginFrame` is the fold of `timebombStep` over the temporary objects. -/
theorem LogicBeginFrame_eq (fuel : Nat) (curtime framestep : ℚ) (h : Heap) (scene : KX_Scene) :
    LogicBeginFrame fuel curtime framestep h scene =
      scene.m_tempObjectList.foldlM (timebombStep fuel framestep)
        (h, { scene with
              calls := scene.calls ++ [SceneCall.LogicBeginFrame curtime framestep] }) :=
  rfl

/-- Helper: an invariant of the steps over the items of a list is an invariant of the fold. -/
theorem foldlM_inv {α β : Type} (f : α → β → Option α) (I : α → Prop) (l : List β)
    (hstep : ∀ (a : α) (b : β) (r : α), b ∈ l → I a → f a b = some r → I r) :
    ∀ (a r : α), I a → l.foldlM f a = some r → I r := by
  induction l with
  | nil =>
    intro a r ha hr
    simp only [List.foldlM_nil, Option.pure_def, Option.some.injEq] at hr
    subst hr
    exact ha
  | cons b rest ih =>
    intro a r ha hr
    simp only [List.foldlM_cons, Option.bind_eq_bind, Option.bind_eq_some] at hr
    obtain ⟨a2, h1, h2⟩ := hr
    exact ih (fun a b r hb => hstep a b r (List.mem_cons_of_mem _ hb)) a2 r
      (hstep a b a2 (List.mem_cons_self _ _) ha h1) h2

/-- Helper: a fold whose steps return under an invariant returns. -/
theorem foldlM_total {α β : Type} (f : α → β → Option α) (I : α → Prop) (l : List β)
    (hstep : ∀ (a : α) (b : β), b ∈ l → I a → ∃ r : α, f a b = some r ∧ I r) :
    ∀ a : α, I a → ∃ r : α, l.foldlM f a = some r ∧ I r := by
  induction l with
  | nil =>
    intro a ha
    exact ⟨a, rfl, ha⟩
  | cons b rest ih =>
    intro a ha
    obtain ⟨a2, h1, h2⟩ := hstep a b (List.mem_cons_self _ _) ha
    obtain ⟨r, h3, h4⟩ := ih (fun a b hb => hstep a b (List.mem_cons_of_mem _ hb)) a2 h2
    exact ⟨r, by simp only [List.foldlM_cons, Option.bind_eq_bind, h1, Option.some_bind, h3], h4⟩

/-- Helper: a step of `LogicBeginFrame` touches the countdown of its object only, and extends
the euthanasia queue. -/
theorem timebombStep_spec (fuel : Nat) (framestep : ℚ) (acc : Heap × KX_Scene) (a : Nat)
    (r : Heap × KX_Scene) (hr : timebombStep fuel framestep acc a = some r) :
    (∀ q : Nat, q ≠ a → r.1.obj q = acc.1.obj q) ∧
    (∀ q : Nat, (r.1.obj q).m_instanceObjects = (acc.1.obj q).m_instanceObjects) ∧
    (∀ q : Nat, (r.1.obj q).m_isDupliGroup = (acc.1.obj q).m_isDupliGroup) ∧
    QueueExt acc.2 r.2 ∧
    (∀ v : ℚ, (acc.1.obj a).timebomb = some v →
      (0 < v - framestep → (r.1.obj a).timebomb = some (v - framestep)) ∧
      (v - framestep ≤ 0 → a ∈ r.2.m_euthanasyobjects ∧ r.1 = acc.1 ∧
        DelayedRemoveObject acc.1 fuel acc.2 a = some r.2)) := by
  unfold timebombStep at hr
  cases ht : (acc.1.obj a).timebomb with
  | none =>
    simp only [ht, Option.some.injEq] at hr
    subst hr
    exact ⟨fun _ _ => rfl, fun _ => rfl, fun _ => rfl, QueueExt_refl _, fun v hv => by simp at hv⟩
  | some value =>
    simp only [ht] at hr
    split_ifs at hr with hpos
    · simp only [Option.some.injEq] at hr
      subst hr
      refine ⟨fun q hq => Heap.set_other _ _ _ _ hq, fun q => ?_, fun q => ?_, QueueExt_refl _,
        fun v hv => ?_⟩
      · exact (Heap.set_keeps2 acc.1 a
          { acc.1.obj a with timebomb := some (value - framestep) } rfl rfl q).1
      · exact (Heap.set_keeps2 acc.1 a
          { acc.1.obj a with timebomb := some (value - framestep) } rfl rfl q).2
      · simp only [Option.some.injEq] at hv
        subst hv
        refine ⟨fun _ => by simp [Heap.set], fun hle => ?_⟩
        exact absurd hpos (not_lt.mpr hle)
    · cases hd : DelayedRemoveObject acc.1 fuel acc.2 a with
      | none => simp [hd] at hr
      | some sc =>
        simp only [hd, Option.some.injEq] at hr
        subst hr
        have hq := (delayedRemove_QueueExt acc.1 fuel).2 acc.2 a sc hd
        refine ⟨fun _ _ => rfl, fun _ => rfl, fun _ => rfl, hq.1, fun v hv => ?_⟩
        simp only [Option.some.injEq] at hv
        subst hv
        exact ⟨fun hp => absurd hp hpos, fun _ => ⟨hq.2, rfl, rfl⟩⟩

/-- Helper: what `CM_ListAddIfNotFound` holds was in the list or is the item. -/
theorem CM_ListAddIfNotFound_mem (l : List Nat) (g x : Nat)
    (hx : x ∈ CM_ListAddIfNotFound l g) : x ∈ l ∨ x = g := by
  unfold CM_ListAddIfNotFound at hx
  split_ifs at hx
  · exact Or.inl hx
  · simpa using hx

/-- Helper: what `RemoveDupliGroup` and `DelayedRemoveObject` add to the euthanasia queue is
the object itself or a member of an instance list. -/
theorem delayedRemove_queued (h : Heap) (fuel : Nat) :
    (∀ (sc : KX_Scene) (g : Nat) (s1 : KX_Scene), RemoveDupliGroup h fuel sc g = some s1 →
      ∀ x : Nat, x ∈ s1.m_euthanasyobjects → x ∈ sc.m_euthanasyobjects ∨
        ∃ (o : Nat) (l : List Nat), (h.obj o).m_instanceObjects = some l ∧ x ∈ l) ∧
    (∀ (sc : KX_Scene) (g : Nat) (s1 : KX_Scene), DelayedRemoveObject h fuel sc g = some s1 →
      ∀ x : Nat, x ∈ s1.m_euthanasyobjects → x ∈ sc.m_euthanasyobjects ∨ x = g ∨
        ∃ (o : Nat) (l : List Nat), (h.obj o).m_instanceObjects = some l ∧ x ∈ l) := by
  induction fuel with
  | zero =>
    constructor
    · intro sc g s1 hs; simp [RemoveDupliGroup] at hs
    · intro sc g s1 hs; simp [DelayedRemoveObject] at hs
  | succ n ih =>
    obtain ⟨ihR, ihD⟩ := ih
    constructor
    · intro sc g s1 hs x hx
      rw [RemoveDupliGroup_succ] at hs
      split_ifs at hs with hd
      · cases hi : (h.obj g).m_instanceObjects with
        | none => simp [hi] at hs
        | some l =>
          simp only [hi] at hs
          have key := foldlM_inv (fun sc inst => DelayedRemoveObject h n sc inst)
            (fun s : KX_Scene => ∀ x : Nat, x ∈ s.m_euthanasyobjects →
              x ∈ sc.m_euthanasyobjects ∨
                ∃ (o : Nat) (l : List Nat), (h.obj o).m_instanceObjects = some l ∧ x ∈ l) l
            (fun a b r hb ha hr y hy => by
              rcases ihD a b r hr y hy with h1 | h1 | h1
              · exact ha y h1
              · subst h1
                exact Or.inr ⟨g, l, hi, hb⟩
              · exact Or.inr h1) sc s1 (fun y hy => Or.inl hy) hs
          exact key x hx
      · simp only [Option.some.injEq] at hs
        subst hs
        exact Or.inl hx
    · intro sc g s1 hs x hx
      rw [DelayedRemoveObject_succ] at hs
      cases hr : RemoveDupliGroup h n sc g with
      | none => simp [hr] at hs
      | some sc1 =>
        simp only [hr, Option.some.injEq] at hs
        subst hs
        rcases CM_ListAddIfNotFound_mem _ _ _ hx with h1 | h1
        · rcases ihR sc g sc1 hr x h1 with h2 | h2
          · exact Or.inl h2
          · exact Or.inr (Or.inr h2)
        · exact Or.inr (Or.inl h1)

/-- Helper: `LogicBeginFrame` leaves the temporary-object list alone. -/
theorem LogicBeginFrame_tempObjectList (fuel : Nat) (curtime framestep : ℚ) (h : Heap)
    (scene : KX_Scene) (r : Heap × KX_Scene)
    (hr : LogicBeginFrame fuel curtime framestep h scene = some r) :
    r.2.m_tempObjectList = scene.m_tempObjectList := by
  obtain ⟨q, hq, _⟩ := LogicBeginFrame_QueueExt fuel curtime framestep h scene r hr
  rw [hq]

/-- Helper: over a list of temporary objects free of duplicates, the fold of `timebombStep`
lowers the countdown of a listed object by the frame step if the result is positive, and
queues the object otherwise. -/
theorem timebombStep_fold (fuel : Nat) (framestep : ℚ) (g : Nat) (v : ℚ) (l : List Nat) :
    ∀ (acc r : Heap × KX_Scene), l.Nodup → g ∈ l → (acc.1.obj g).timebomb = some v →
      l.foldlM (timebombStep fuel framestep) acc = some r →
      (0 < v - framestep → (r.1.obj g).timebomb = some (v - framestep)) ∧
      (v - framestep ≤ 0 → g ∈ r.2.m_euthanasyobjects ∧ (r.1.obj g).timebomb = some v) := by
  induction l with
  | nil =>
    intro acc r _ hg
    simp at hg
  | cons a rest ih =>
    intro acc r hn hg hv hr
    simp only [List.foldlM_cons, Option.bind_eq_bind, Option.bind_eq_some] at hr
    obtain ⟨acc2, h1, h2⟩ := hr
    obtain ⟨hoth, _, _, hq, hown⟩ := timebombStep_spec fuel framestep acc a acc2 h1
    have hn2 := List.nodup_cons.mp hn
    by_cases hga : g = a
    · subst hga
      have hrest := foldlM_inv (timebombStep fuel framestep)
        (fun s : Heap × KX_Scene => s.1.obj g = acc2.1.obj g ∧ QueueExt acc2.2 s.2) rest
        (fun s b s2 hb hs hs2 => by
          obtain ⟨ho, _, _, hq2, _⟩ := timebombStep_spec fuel framestep s b s2 hs2
          have hgb : g ≠ b := fun e => hn2.1 (e ▸ hb)
          exact ⟨(ho g hgb).trans hs.1, QueueExt_trans hs.2 hq2⟩) acc2 r
        ⟨rfl, QueueExt_refl _⟩ h2
      obtain ⟨hp, hz⟩ := hown v hv
      refine ⟨fun hpos => ?_, fun hle => ?_⟩
      · rw [hrest.1]
        exact hp hpos
      · obtain ⟨hmem, hheap, _⟩ := hz hle
        refine ⟨QueueExt_mem hrest.2 g hmem, ?_⟩
        rw [hrest.1, hheap]
        exact hv
    · have hg2 : g ∈ rest := by
        rcases List.mem_cons.mp hg with e | e
        · exact absurd e hga
        · exact e
      exact ih acc2 r hn2.2 hg2 (by rw [hoth g hga]; exact hv) h2

/-- Helper: an address that is in no temporary-object list, queue or instance list stays so
under `LogicBeginFrame`. -/
theorem LogicBeginFrame_unlisted (fuel : Nat) (curtime framestep : ℚ) (h : Heap)
    (scene : KX_Scene) (x : Nat) (r : Heap × KX_Scene) (hx : Unlisted h scene x)
    (hr : LogicBeginFrame fuel curtime framestep h scene = some r) : Unlisted r.1 r.2 x := by
  have ht := LogicBeginFrame_tempObjectList fuel curtime framestep h scene r hr
  rw [LogicBeginFrame_eq] at hr
  obtain ⟨hx1, hx2, hx3⟩ := hx
  have key := foldlM_inv (timebombStep fuel framestep)
    (fun s : Heap × KX_Scene => x ∉ s.2.m_euthanasyobjects ∧
      ∀ (o : Nat) (l : List Nat), (s.1.obj o).m_instanceObjects = some l → x ∉ l)
    scene.m_tempObjectList
    (fun s b s2 hb hs hs2 => by
      obtain ⟨_, hinst, _, _, _⟩ := timebombStep_spec fuel framestep s b s2 hs2
      refine ⟨fun hmem => ?_, fun o l hl => hs.2 o l (by rw [← hinst o]; exact hl)⟩
      unfold timebombStep at hs2
      cases htb : (s.1.obj b).timebomb with
      | none =>
        simp only [htb, Option.some.injEq] at hs2
        subst hs2
        exact hs.1 hmem
      | some value =>
        simp only [htb] at hs2
        split_ifs at hs2 with hpos
        · simp only [Option.some.injEq] at hs2
          subst hs2
          exact hs.1 hmem
        · cases hd : DelayedRemoveObject s.1 fuel s.2 b with
          | none => simp [hd] at hs2
          | some sc =>
            simp only [hd, Option.some.injEq] at hs2
            subst hs2
            rcases (delayedRemove_queued s.1 fuel).2 s.2 b sc hd x hmem with h1 | h1 | h1
            · exact hs.1 h1
            · subst h1
              exact hx1 hb
            · obtain ⟨o, l, hl, hxl⟩ := h1
              exact hs.2 o l hl hxl)
    _ r ⟨hx2, hx3⟩ hr
  exact ⟨by rw [ht]; exact hx1, key.1, key.2⟩

/-- Helper: on a heap whose instance lists are ranked, `LogicBeginFrame` returns once the fuel
covers the ranks of the temporary objects. -/
theorem LogicBeginFrame_total (fuel : Nat) (curtime framestep : ℚ) (h : Heap) (scene : KX_Scene)
    (rank : Nat → Nat) (hwf : InstancesRanked h rank)
    (hfuel : ∀ g : Nat, g ∈ scene.m_tempObjectList → 2 * rank g + 2 ≤ fuel) :
    ∃ r : Heap × KX_Scene, LogicBeginFrame fuel curtime framestep h scene = some r := by
  rw [LogicBeginFrame_eq]
  have hstep : ∀ (s : Heap × KX_Scene) (b : Nat), b ∈ scene.m_tempObjectList →
      InstancesRanked s.1 rank →
      ∃ r : Heap × KX_Scene, timebombStep fuel framestep s b = some r ∧
        InstancesRanked r.1 rank := by
    intro s b hb hs
    cases htb : (s.1.obj b).timebomb with
    | none => exact ⟨s, by simp [timebombStep, htb], hs⟩
    | some value =>
      by_cases hpos : value - framestep > 0
      · refine ⟨(s.1.set b { s.1.obj b with timebomb := some (value - framestep) }, s.2),
          by simp [timebombStep, htb, hpos], ?_⟩
        intro o ho
        have hk := Heap.set_keeps2 s.1 b
          { s.1.obj b with timebomb := some (value - framestep) } rfl rfl o
        obtain ⟨l, hl, hrk⟩ := hs o (by rw [← hk.2]; exact ho)
        exact ⟨l, by rw [← hl]; exact hk.1, hrk⟩
      · obtain ⟨sc, hsc⟩ := (delayedRemove_total s.1 rank hs fuel).2 s.2 b (hfuel b hb)
        exact ⟨(s.1, sc), by simp [timebombStep, htb, hpos, hsc], hs⟩
  obtain ⟨r, hr, _⟩ := foldlM_total (timebombStep fuel framestep)
    (fun s : Heap × KX_Scene => InstancesRanked s.1 rank) scene.m_tempObjectList hstep
    (h, { scene with calls := scene.calls ++ [SceneCall.LogicBeginFrame curtime framestep] })
    hwf
  exact ⟨r, hr⟩

/-- Helper: what `AddReplicaObject` returns: the replica is the next address; it is on the
temporary-object list and has the countdown `lifespan * 0.02` exactly when the lifespan is
positive; the euthanasia queue is as before; every instance list is one of the heap before. -/
theorem AddReplicaObject_spec (fuel : Nat) (h : Heap) (scene : KX_Scene) (g : Nat)
    (lifespan : ℚ) (r : Heap × KX_Scene × Nat)
    (hr : AddReplicaObject fuel h scene g lifespan = some r) :
    r.2.2 = h.next ∧
    r.2.1.m_tempObjectList =
      (if lifespan > 0 then scene.m_tempObjectList ++ [h.next] else scene.m_tempObjectList) ∧
    r.2.1.m_euthanasyobjects = scene.m_euthanasyobjects ∧
    (r.1.obj h.next).timebomb =
      (if lifespan > 0 then some (lifespan * (2 / 100)) else (h.obj g).timebomb) ∧
    (∀ o : Nat, ∃ o2 : Nat, (r.1.obj o).m_instanceObjects = (h.obj o2).m_instanceObjects) := by
  by_cases hnode : (h.obj g).m_sgNode = true
  swap
  · simp [AddReplicaObject, hnode] at hr
  obtain ⟨hrep, hnext, hold, hnew⟩ := AddNodeReplicaObject_heap h scene g
  obtain ⟨ht, hq⟩ := AddNodeReplicaObject_scene h scene g
  obtain ⟨_, _, _, _, hinst⟩ := AddNodeReplicaObject_keeps h scene g
  have hcore : ∀ (h2 : Heap) (scene3 : KX_Scene),
      (match (h2.obj g).m_children.foldlM
          (fun (acc : Heap × KX_Scene) child =>
            replicateChild fuel acc.1 acc.2 (AddNodeReplicaObject h scene g).2.2 child)
          (h2, scene3) with
        | none => none
        | some acc => some (acc.1, acc.2, (AddNodeReplicaObject h scene g).2.2)) = some r →
      r.2.2 = h.next ∧ ReplicaKeeps (h2, scene3) (r.1, r.2.1) := by
    intro h2 scene3 hm
    cases hf : (h2.obj g).m_children.foldlM
        (fun (acc : Heap × KX_Scene) child =>
          replicateChild fuel acc.1 acc.2 (AddNodeReplicaObject h scene g).2.2 child)
        (h2, scene3) with
    | none => simp [hf] at hm
    | some acc =>
      simp only [hf, Option.some.injEq] at hm
      subst hm
      exact ⟨hrep, foldlM_rel _ ReplicaKeeps ReplicaKeeps_refl ReplicaKeeps_trans
        (fun a b r2 hr2 => replicateChild_keeps fuel a.1 a.2 _ b r2 hr2) _ _ _ hf⟩
  unfold AddReplicaObject at hr
  rw [if_neg (by simp [hnode])] at hr
  obtain ⟨hr1, kt, kq, kn, kb, ki⟩ := hcore
    (if lifespan > 0 then
      (AddNodeReplicaObject h scene g).1.set (AddNodeReplicaObject h scene g).2.2
        { (AddNodeReplicaObject h scene g).1.obj (AddNodeReplicaObject h scene g).2.2 with
          timebomb := some (lifespan * (2 / 100)) }
    else (AddNodeReplicaObject h scene g).1)
    { (if lifespan > 0 then
        { (AddNodeReplicaObject h scene g).2.1 with
          m_tempObjectList := (AddNodeReplicaObject h scene g).2.1.m_tempObjectList ++
            [(AddNodeReplicaObject h scene g).2.2] }
      else (AddNodeReplicaObject h scene g).2.1) with
      m_parentlist := (if lifespan > 0 then
        { (AddNodeReplicaObject h scene g).2.1 with
          m_tempObjectList := (AddNodeReplicaObject h scene g).2.1.m_tempObjectList ++
            [(AddNodeReplicaObject h scene g).2.2] }
      else (AddNodeReplicaObject h scene g).2.1).m_parentlist ++
        [(AddNodeReplicaObject h scene g).2.2] } hr
  simp only [] at kt kq kn kb ki
  rw [hrep] at kt kb ki
  refine ⟨hr1, ?_, ?_, ?_, fun o => ?_⟩
  · rw [kt]
    by_cases hl : lifespan > 0
    · simp only [hl, if_true]
      rw [ht]
    · simp only [hl, if_false]
      exact ht
  · rw [kq]
    by_cases hl : lifespan > 0
    · simp only [hl, if_true]
      exact hq
    · simp only [hl, if_false]
      exact hq
  · by_cases hl : lifespan > 0
    · simp only [hl, if_true] at kb ⊢
      rw [kb h.next (by show h.next < (AddNodeReplicaObject h scene g).1.next; omega)]
      simp [Heap.set]
    · simp only [hl, if_false] at kb ⊢
      rw [kb h.next (by omega), hnew]
  · obtain ⟨o2, ho2⟩ := ki o
    obtain ⟨o3, ho3⟩ := hinst o2
    refine ⟨o3, ho2.trans (Eq.trans ?_ ho3)⟩
    by_cases hl : lifespan > 0
    · simp only [hl, if_true]
      exact (Heap.set_keeps2 (AddNodeReplicaObject h scene g).1 h.next
        { (AddNodeReplicaObject h scene g).1.obj h.next with
          timebomb := some (lifespan * (2 / 100)) } rfl rfl o2).1
    · simp only [hl, if_false]

/-- Helper: on a heap whose child lists are ranked, `replicateChild` returns once the fuel
exceeds the rank of the child, and leaves the objects allocated before alone. -/
theorem replicateChild_total (h0 : Heap) (rank : Nat → Nat) (hwf : ChildrenRanked h0 rank)
    (fuel : Nat) :
    ∀ (h : Heap) (scene : KX_Scene) (parent child : Nat), AgreeBelow h0.next h0 h →
      h0.next ≤ parent → child < h0.next → rank child < fuel →
      ∃ r : Heap × KX_Scene, replicateChild fuel h scene parent child = some r ∧
        AgreeBelow h0.next h0 r.1 := by
  induction fuel with
  | zero =>
    intro h scene parent child _ _ _ hrk
    omega
  | succ n ih =>
    intro h scene parent child hag hpar hch hrk
    obtain ⟨hrep, hnext, hold, _⟩ := AddNodeReplicaObject_heap h scene child
    have hag1 : AgreeBelow h0.next h0 (AddNodeReplicaObject h scene child).1 := by
      refine ⟨by rw [hnext]; exact le_trans hag.1 (Nat.le_succ _), fun p hp => ?_⟩
      rw [hold p (by have := hag.1; omega)]
      exact hag.2 p hp
    have hchildren : (h.obj child).m_children = (h0.obj child).m_children := by
      rw [hag.2 child hch]
    obtain ⟨acc, hacc, hagacc⟩ := foldlM_total
      (fun (acc : Heap × KX_Scene) c =>
        replicateChild n acc.1 acc.2 (AddNodeReplicaObject h scene child).2.2 c)
      (fun s : Heap × KX_Scene => AgreeBelow h0.next h0 s.1) (h.obj child).m_children
      (fun s c hc hs => by
        rw [hchildren] at hc
        obtain ⟨hc1, hc2⟩ := hwf child c hch hc
        exact ih s.1 s.2 _ c hs (by rw [hrep]; exact hag.1) hc1 (by omega))
      ((AddNodeReplicaObject h scene child).1, (AddNodeReplicaObject h scene child).2.1) hag1
    rw [replicateChild]
    simp only [hacc]
    refine ⟨_, rfl, ?_⟩
    obtain ⟨cn, _, _, co⟩ := AddChild_keeps acc.1 parent (AddNodeReplicaObject h scene child).2.2
    refine ⟨by show h0.next ≤ (AddChild _ _ _).next; rw [cn]; exact hagacc.1, fun p hp => ?_⟩
    show (AddChild _ _ _).obj p = _
    rw [co p (by omega) (by rw [hrep]; have := hag.1; omega)]
    exact hagacc.2 p hp

/-- Helper: on a heap whose child lists are ranked, `AddReplicaObject` of an allocated object
with a node returns once the fuel covers the rank of the object. -/
theorem AddReplicaObject_total (fuel : Nat) (h : Heap) (scene : KX_Scene) (g : Nat)
    (lifespan : ℚ) (rank : Nat → Nat) (hwf : ChildrenRanked h rank)
    (hnode : (h.obj g).m_sgNode = true) (hg : g < h.next) (hfuel : rank g ≤ fuel) :
    ∃ r : Heap × KX_Scene × Nat, AddReplicaObject fuel h scene g lifespan = some r := by
  unfold AddReplicaObject
  simp only [hnode, Bool.not_true, Bool.false_eq_true, if_false]
  obtain ⟨hrep, hnext, hold, _⟩ := AddNodeReplicaObject_heap h scene g
  generalize hA : AddNodeReplicaObject h scene g = A at hrep hnext hold
  obtain ⟨h1, scene1, replica⟩ := A
  simp only [] at hrep hnext hold ⊢
  subst hrep
  have hag : AgreeBelow h.next h
      (if lifespan > 0 then
        h1.set h.next { h1.obj h.next with timebomb := some (lifespan * (2 / 100)) }
      else h1) := by
    by_cases hl : lifespan > 0
    · simp only [hl, if_true]
      refine ⟨by show h.next ≤ h1.next; omega, fun p hp => ?_⟩
      rw [Heap.set_other _ _ _ _ (by omega), hold p (by omega)]
    · simp only [hl, if_false]
      exact ⟨by omega, fun p hp => hold p (by omega)⟩
  generalize (if lifespan > 0 then
      h1.set h.next { h1.obj h.next with timebomb := some (lifespan * (2 / 100)) }
    else h1) = h2 at hag ⊢
  obtain ⟨acc, hacc, _⟩ := foldlM_total
    (fun (acc : Heap × KX_Scene) child => replicateChild fuel acc.1 acc.2 h.next child)
    (fun s : Heap × KX_Scene => AgreeBelow h.next h s.1) (h2.obj g).m_children
    (fun s c hc hs => by
      rw [hag.2 g hg] at hc
      obtain ⟨hc1, hc2⟩ := hwf g c hg hc
      exact replicateChild_total h rank hwf fuel s.1 s.2 h.next c hs (le_refl _) hc1
        (by omega))
    (h2, _) hag
  rw [hacc]
  exact ⟨_, rfl⟩

/-- Helper: a step of `LogicBeginFrame` on another object does not queue an object that is in
no instance list. -/
theorem timebombStep_notqueued (fuel : Nat) (framestep : ℚ) (s : Heap × KX_Scene) (b : Nat)
    (s2 : Heap × KX_Scene) (x : Nat) (hs2 : timebombStep fuel framestep s b = some s2)
    (hxb : x ≠ b)
    (hinst : ∀ (o : Nat) (l : List Nat), (s.1.obj o).m_instanceObjects = some l → x ∉ l)
    (hq : x ∉ s.2.m_euthanasyobjects) : x ∉ s2.2.m_euthanasyobjects := by
  intro hmem
  unfold timebombStep at hs2
  cases htb : (s.1.obj b).timebomb with
  | none =>
    simp only [htb, Option.some.injEq] at hs2
    subst hs2
    exact hq hmem
  | some value =>
    simp only [htb] at hs2
    split_ifs at hs2 with hpos
    · simp only [Option.some.injEq] at hs2
      subst hs2
      exact hq hmem
    · cases hd : DelayedRemoveObject s.1 fuel s.2 b with
      | none => simp [hd] at hs2
      | some sc =>
        simp only [hd, Option.some.injEq] at hs2
        subst hs2
        rcases (delayedRemove_queued s.1 fuel).2 s.2 b sc hd x hmem with h1 | h1 | h1
        · exact hq h1
        · exact hxb h1
        · obtain ⟨o, l, hl, hxl⟩ := h1
          exact hinst o l hl hxl

/-- Helper: over a list free of the object `x`, the fold of `timebombStep` does not queue `x`
if it is in no instance list, and leaves it alone. -/
theorem timebombStep_fold_other (fuel : Nat) (framestep : ℚ) (x : Nat) (l : List Nat)
    (hx : x ∉ l) (acc r : Heap × KX_Scene)
    (hinst : ∀ (o : Nat) (l : List Nat), (acc.1.obj o).m_instanceObjects = some l → x ∉ l)
    (hq : x ∉ acc.2.m_euthanasyobjects)
    (hr : l.foldlM (timebombStep fuel framestep) acc = some r) :
    x ∉ r.2.m_euthanasyobjects ∧ r.1.obj x = acc.1.obj x := by
  have key := foldlM_inv (timebombStep fuel framestep)
    (fun s : Heap × KX_Scene => x ∉ s.2.m_euthanasyobjects ∧ s.1.obj x = acc.1.obj x ∧
      ∀ (o : Nat) (l : List Nat), (s.1.obj o).m_instanceObjects = some l → x ∉ l) l
    (fun s b s2 hb hs hs2 => by
      obtain ⟨ho, hi, _, _, _⟩ := timebombStep_spec fuel framestep s b s2 hs2
      have hxb : x ≠ b := fun e => hx (e ▸ hb)
      exact ⟨timebombStep_notqueued fuel framestep s b s2 x hs2 hxb hs.2.2 hs.1,
        (ho x hxb).trans hs.2.1, fun o l hl => hs.2.2 o l (by rw [← hi o]; exact hl)⟩)
    acc r ⟨hq, rfl, hinst⟩ hr
  exact ⟨key.1, key.2.1⟩

/-- Helper: over a list of temporary objects free of duplicates, the fold of `timebombStep`
does not queue a listed object whose countdown stays positive and which is in no instance
list. -/
theorem timebombStep_fold_positive (fuel : Nat) (framestep : ℚ) (g : Nat) (v : ℚ)
    (hpos : 0 < v - framestep) (l : List Nat) :
    ∀ (acc r : Heap × KX_Scene), l.Nodup → g ∈ l → (acc.1.obj g).timebomb = some v →
      (∀ (o : Nat) (l : List Nat), (acc.1.obj o).m_instanceObjects = some l → g ∉ l) →
      g ∉ acc.2.m_euthanasyobjects →
      l.foldlM (timebombStep fuel framestep) acc = some r → g ∉ r.2.m_euthanasyobjects := by
  induction l with
  | nil =>
    intro acc r _ hg
    simp at hg
  | cons a rest ih =>
    intro acc r hn hg hv hinst hq hr
    simp only [List.foldlM_cons, Option.bind_eq_bind, Option.bind_eq_some] at hr
    obtain ⟨acc2, h1, h2⟩ := hr
    obtain ⟨hoth, hi, _, _, _⟩ := timebombStep_spec fuel framestep acc a acc2 h1
    have hn2 := List.nodup_cons.mp hn
    have hinst2 : ∀ (o : Nat) (l : List Nat),
        (acc2.1.obj o).m_instanceObjects = some l → g ∉ l :=
      fun o l hl => hinst o l (by rw [← hi o]; exact hl)
    by_cases hga : g = a
    · subst hga
      have hacc2 : acc2 =
          (acc.1.set g { acc.1.obj g with timebomb := some (v - framestep) }, acc.2) := by
        have h1b := h1
        simp only [timebombStep, hv, gt_iff_lt, hpos, if_true, Option.some.injEq] at h1b
        exact h1b.symm
      have hq2 : g ∉ acc2.2.m_euthanasyobjects := by
        rw [hacc2]
        exact hq
      exact (timebombStep_fold_other fuel framestep g rest hn2.1 acc2 r hinst2 hq2 h2).1
    · have hg2 : g ∈ rest := by
        rcases List.mem_cons.mp hg with e | e
        · exact absurd e hga
        · exact e
      exact ih acc2 r hn2.2 hg2 (by rw [hoth g hga]; exact hv) hinst2
        (timebombStep_notqueued fuel framestep acc a acc2 g h1 hga hinst hq) h2

/-- C21: the replica that `AddReplicaObject` returns is the newly allocated object; with a
lifespan `L > 0` it has the countdown `L * 0.02` and is appended to the temporary-object
list, which stays free of duplicates; with `L ≤ 0` the call attaches no countdown (the replica
has what the copy of the original brought), the list is unchanged, and a replica that was in
no list is in none afterwards.  On a heap whose child lists are ranked the call returns.
`LogicBeginFrame` leaves the temporary-object list alone; for a temporary object with the
countdown `v`, on a list free of duplicates, it makes the countdown `v - framestep` if that is
positive, not queueing the object by itself, and otherwise queues the object on the
euthanasia list; an object in no temporary-object list, queue or instance list stays so, call
after call.  On a heap whose instance lists are ranked `LogicBeginFrame` returns. -/
theorem lifespan_countdown (fuel : Nat) (h : Heap) (scene : KX_Scene) :
    (∀ (originalobj : Nat) (lifespan : ℚ) (r : Heap × KX_Scene × Nat),
      AddReplicaObject fuel h scene originalobj lifespan = some r →
        r.2.2 = h.next ∧
        r.2.1.m_euthanasyobjects = scene.m_euthanasyobjects ∧
        (0 < lifespan →
          (r.1.obj r.2.2).timebomb = some (lifespan * (2 / 100)) ∧
          r.2.1.m_tempObjectList = scene.m_tempObjectList ++ [r.2.2] ∧
          (scene.m_tempObjectList.Nodup → h.next ∉ scene.m_tempObjectList →
            r.2.1.m_tempObjectList.Nodup)) ∧
        (lifespan ≤ 0 →
          (r.1.obj r.2.2).timebomb = (h.obj originalobj).timebomb ∧
          r.2.1.m_tempObjectList = scene.m_tempObjectList ∧
          (Unlisted h scene h.next → Unlisted r.1 r.2.1 r.2.2))) ∧
    (∀ (originalobj : Nat) (lifespan : ℚ) (rank : Nat → Nat), ChildrenRanked h rank →
      (h.obj originalobj).m_sgNode = true → originalobj < h.next → rank originalobj ≤ fuel →
      ∃ r : Heap × KX_Scene × Nat,
        AddReplicaObject fuel h scene originalobj lifespan = some r) ∧
    (∀ (curtime framestep : ℚ) (r : Heap × KX_Scene),
      LogicBeginFrame fuel curtime framestep h scene = some r →
        r.2.m_tempObjectList = scene.m_tempObjectList ∧
        (∀ (g : Nat) (v : ℚ), scene.m_tempObjectList.Nodup → g ∈ scene.m_tempObjectList →
          (h.obj g).timebomb = some v →
          (0 < v - framestep →
            (r.1.obj g).timebomb = some (v - framestep) ∧
            ((∀ (o : Nat) (l : List Nat), (h.obj o).m_instanceObjects = some l → g ∉ l) →
              g ∉ scene.m_euthanasyobjects → g ∉ r.2.m_euthanasyobjects)) ∧
          (v - framestep ≤ 0 → g ∈ r.2.m_euthanasyobjects)) ∧
        (∀ x : Nat, Unlisted h scene x → Unlisted r.1 r.2 x)) ∧
    (∀ (curtime framestep : ℚ) (rank : Nat → Nat), InstancesRanked h rank →
      (∀ g : Nat, g ∈ scene.m_tempObjectList → 2 * rank g + 2 ≤ fuel) →
      ∃ r : Heap × KX_Scene, LogicBeginFrame fuel curtime framestep h scene = some r) := by
  refine ⟨fun originalobj lifespan r hr => ?_,
    fun originalobj lifespan rank hwf hnode hg hfuel =>
      AddReplicaObject_total fuel h scene originalobj lifespan rank hwf hnode hg hfuel,
    fun curtime framestep r hr => ?_,
    fun curtime framestep rank hwf hfuel =>
      LogicBeginFrame_total fuel curtime framestep h scene rank hwf hfuel⟩
  · obtain ⟨h1, h2, h3, h4, h5⟩ := AddReplicaObject_spec fuel h scene originalobj lifespan r hr
    refine ⟨h1, h3, fun hpos => ?_, fun hle => ?_⟩
    · have hl : lifespan > 0 := hpos
      simp only [hl, if_true] at h2 h4
      rw [h1]
      refine ⟨h4, h2, fun hn hfresh => ?_⟩
      rw [h2, List.nodup_append]
      refine ⟨hn, List.nodup_singleton _, ?_⟩
      intro a ha hb
      simp only [List.mem_singleton] at hb
      subst hb
      exact hfresh ha
    · have hl : ¬ lifespan > 0 := not_lt.mpr hle
      simp only [hl, if_false] at h2 h4
      rw [h1]
      refine ⟨h4, h2, fun hu => ⟨?_, ?_, fun o l hol => ?_⟩⟩
      · rw [h2]
        exact hu.1
      · rw [h3]
        exact hu.2.1
      · obtain ⟨o2, ho2⟩ := h5 o
        exact hu.2.2 o2 l (by rw [← ho2]; exact hol)
  · refine ⟨LogicBeginFrame_tempObjectList fuel curtime framestep h scene r hr,
      fun g v hn hg hv => ?_,
      fun x hx => LogicBeginFrame_unlisted fuel curtime framestep h scene x r hx hr⟩
    rw [LogicBeginFrame_eq] at hr
    have hfold := timebombStep_fold fuel framestep g v scene.m_tempObjectList _ r hn hg hv hr
    refine ⟨fun hpos => ⟨hfold.1 hpos, fun hinst hq => ?_⟩, fun hle => (hfold.2 hle).1⟩
    exact timebombStep_fold_positive fuel framestep g v hpos scene.m_tempObjectList _ r hn hg hv
      hinst hq hr

/-- C21 (witness): the replica of the object 0 (with the child 1) made with the lifespan 150
is the object 2, has the countdown 3 and is the one temporary object; and on the scene with
the temporary object 0 of countdown 3, `LogicBeginFrame` with the frame step 1 returns and
lowers the countdown to 2, while the frame step 3 queues the object. -/
theorem lifespan_countdown_witness :
    (∃ r : Heap × KX_Scene × Nat, AddReplicaObject 1 replicaHeap replicaScene 0 150 = some r ∧
      r.2.2 = 2 ∧ (r.1.obj 2).timebomb = some 3 ∧ r.2.1.m_tempObjectList = [2]) ∧
    (∃ r : Heap × KX_Scene, LogicBeginFrame 2 0 1 timebombHeap timebombScene = some r ∧
      (r.1.obj 0).timebomb = some 2 ∧ 0 ∉ r.2.m_euthanasyobjects) ∧
    (∃ r : Heap × KX_Scene, LogicBeginFrame 2 0 3 timebombHeap timebombScene = some r ∧
      0 ∈ r.2.m_euthanasyobjects) := by
  have hA := lifespan_countdown 1 replicaHeap replicaScene
  have hB := lifespan_countdown 2 timebombHeap timebombScene
  have hranked : ChildrenRanked replicaHeap (fun p => if p = 0 then 1 else 0) := by
    intro o c ho hc
    have ho2 : o < 2 := ho
    interval_cases o
    · simp [replicaHeap] at hc
      subst hc
      exact ⟨by decide, by decide⟩
    · simp [replicaHeap] at hc
  have hinst : InstancesRanked timebombHeap (fun _ => 0) := by
    intro o ho
    by_cases h0 : o = 0
    · subst h0
      simp [timebombHeap] at ho
    · simp [timebombHeap, h0] at ho
  have htemp : ∀ g : Nat, g ∈ timebombScene.m_tempObjectList →
      2 * (fun _ : Nat => 0) g + 2 ≤ 2 := fun _ _ => le_refl _
  refine ⟨?_, ?_, ?_⟩
  · obtain ⟨r, hr⟩ := hA.2.1 0 150 _ hranked rfl (by decide) (by decide)
    obtain ⟨h1, _, h3, _⟩ := hA.1 0 150 r hr
    obtain ⟨h4, h5, _⟩ := h3 (by norm_num)
    rw [h1] at h4 h5
    exact ⟨r, hr, h1, h4.trans (by norm_num), h5⟩
  · obtain ⟨r, hr⟩ := hB.2.2.2 0 1 _ hinst htemp
    obtain ⟨_, h2, _⟩ := hB.2.2.1 0 1 r hr
    obtain ⟨h3, _⟩ := h2 0 3 (by decide) (by decide) rfl
    obtain ⟨h4, h5⟩ := h3 (by norm_num)
    refine ⟨r, hr, h4.trans (by norm_num), h5 (fun o l hol => ?_) (by decide)⟩
    by_cases h0 : o = 0
    · subst h0
      simp [timebombHeap] at hol
    · simp [timebombHeap, h0] at hol
  · obtain ⟨r, hr⟩ := hB.2.2.2 0 3 _ hinst htemp
    obtain ⟨_, h2, _⟩ := hB.2.2.1 0 3 r hr
    exact ⟨r, hr, (h2 0 3 (by decide) (by decide) rfl).2 (by norm_num)⟩

/-! ## Theorems: the apply order of the scene registry -/

/-- Helper: the replacement step of the specification, folded over a list, is the loop
`replaceInList` of the source. -/
theorem replaceOne_foldl (conv : BL_Converter) (e : KX_KetsjiEngine) (o n : String)
    (l : List KX_Scene) :
    ∀ (h : Heap) (pre : List KX_Scene),
      l.foldl (replaceOne conv e o n) (h, pre) =
        ((replaceInList conv e o n h l).1, pre ++ (replaceInList conv e o n h l).2) := by
  induction l with
  | nil => intro h pre; simp [replaceInList]
  | cons s rest ih =>
    intro h pre
    rw [List.foldl_cons]
    by_cases hs : (s.m_name == o) = true
    · cases hbl : conv.GetBlenderSceneForName n with
      | none =>
        have hhead : replaceOne conv e o n (h, pre) s = (h, pre ++ [s]) := by
          simp [replaceOne, hs, hbl]
        have hlist : replaceInList conv e o n h (s :: rest) =
            ((replaceInList conv e o n h rest).1, s :: (replaceInList conv e o n h rest).2) := by
          rw [replaceInList]
          simp [hs, hbl]
        rw [hhead, ih, hlist]
        simp
      | some bl =>
        have hhead : replaceOne conv e o n (h, pre) s =
            ((buildScene conv e h bl).1, pre ++ [(buildScene conv e h bl).2]) := by
          simp [replaceOne, hs, hbl]
        have hlist : replaceInList conv e o n h (s :: rest) =
            ((replaceInList conv e o n (buildScene conv e h bl).1 rest).1,
             (buildScene conv e h bl).2 ::
               (replaceInList conv e o n (buildScene conv e h bl).1 rest).2) := by
          rw [replaceInList]
          simp [hs, hbl, buildScene]
        rw [hhead, ih, hlist]
        simp
    · have hhead : replaceOne conv e o n (h, pre) s = (h, pre ++ [s]) := by
        simp [replaceOne, hs]
      have hlist : replaceInList conv e o n h (s :: rest) =
          ((replaceInList conv e o n h rest).1, s :: (replaceInList conv e o n h rest).2) := by
        rw [replaceInList]
        simp [hs]
      rw [hhead, ih, hlist]
      simp

/-- Helper: the replacements of the specification are the loop of `ReplaceScheduledScenes`. -/
theorem applyReplaces_eq (conv : BL_Converter) (e : KX_KetsjiEngine)
    (rep : List (String × String)) (hl : Heap × List KX_Scene) :
    applyReplaces conv e rep hl =
      rep.foldl (fun (acc : Heap × List KX_Scene) (names : String × String) =>
        replaceInList conv e names.1 names.2 acc.1 acc.2) hl := by
  unfold applyReplaces
  congr 1
  funext acc names
  rw [replaceOne_foldl]
  simp

/-- Helper: the removals of the specification are the loop of `RemoveScheduledScenes`. -/
theorem applyRemoves_eq (rem : List String) (l : List KX_Scene) :
    applyRemoves rem l = rem.foldl removeNamed l := by
  unfold applyRemoves
  congr 1
  funext l name
  unfold removeNamed
  cases hf : l.find? (fun scene => scene.m_name == name) with
  | some s => rfl
  | none =>
    simp only []
    apply List.eraseP_of_forall_not
    intro a ha
    have := List.find?_eq_none.mp hf a ha
    simpa using this

/-- Helper: `buildScene` reads only the camera-override members of the engine. -/
theorem buildScene_congr (conv : BL_Converter) (e e2 : KX_KetsjiEngine) (hso : SameOverride e e2)
    (h : Heap) (bl : Scene) : buildScene conv e2 h bl = buildScene conv e h bl := by
  obtain ⟨h1, h2, h3, h4, h5⟩ := hso
  unfold buildScene
  exact PostProcessScene_congr e e2 _ _ h1 h2 h3 h4 h5

/-- Helper: `buildAll` reads only the camera-override members of the engine. -/
theorem buildAll_congr (conv : BL_Converter) (e e2 : KX_KetsjiEngine) (hso : SameOverride e e2)
    (l : List String) : ∀ h : Heap, buildAll conv e2 l h = buildAll conv e l h := by
  induction l with
  | nil => intro h; rfl
  | cons a rest ih =>
    intro h
    rw [buildAll, buildAll]
    cases conv.GetBlenderSceneForName a with
    | none => exact ih h
    | some bl =>
      simp only []
      rw [buildScene_congr conv e e2 hso, ih]

/-- Helper: the body of the first loop of `AddScheduledScenes`, for a name that resolves. -/
theorem addOverlayScene_resolved (conv : BL_Converter) (e0 x : KX_KetsjiEngine)
    (hso : SameOverride e0 x) (a : String) (bl : Scene)
    (hbl : conv.GetBlenderSceneForName a = some bl) :
    addOverlayScene conv x a =
      { x with
        heap := (buildScene conv e0 x.heap bl).1
        m_scenes := x.m_scenes ++ [(buildScene conv e0 x.heap bl).2] } := by
  obtain ⟨h1, h2, h3, h4, h5⟩ := hso
  unfold addOverlayScene CreateSceneNamed buildScene
  simp only [hbl]
  rw [PostProcessScene_congr e0 x _ _ h1 h2 h3 h4 h5]

/-- Helper: the body of the second loop of `AddScheduledScenes`, for a name that resolves. -/
theorem addBackgroundScene_resolved (conv : BL_Converter) (e0 x : KX_KetsjiEngine)
    (hso : SameOverride e0 x) (a : String) (bl : Scene)
    (hbl : conv.GetBlenderSceneForName a = some bl) :
    addBackgroundScene conv x a =
      { x with
        heap := (buildScene conv e0 x.heap bl).1
        m_scenes := (buildScene conv e0 x.heap bl).2 :: x.m_scenes } := by
  obtain ⟨h1, h2, h3, h4, h5⟩ := hso
  unfold addBackgroundScene CreateSceneNamed buildScene
  simp only [hbl]
  rw [PostProcessScene_congr e0 x _ _ h1 h2 h3 h4 h5]

/-- Helper: the first loop of `AddScheduledScenes` appends the scenes built from the names that
resolve, in queue order. -/
theorem addOverlayScene_foldl (conv : BL_Converter) (e0 : KX_KetsjiEngine) (ov : List String) :
    ∀ x : KX_KetsjiEngine, SameOverride e0 x →
      ov.foldl (addOverlayScene conv) x =
        { x with
          heap := (buildAll conv e0 ov x.heap).1
          m_scenes := x.m_scenes ++ (buildAll conv e0 ov x.heap).2 } := by
  induction ov with
  | nil =>
    intro x _
    simp [buildAll]
  | cons a rest ih =>
    intro x hso
    rw [List.foldl_cons, buildAll]
    cases hbl : conv.GetBlenderSceneForName a with
    | none =>
      have hx : addOverlayScene conv x a = x := by
        simp [addOverlayScene, CreateSceneNamed, hbl]
      rw [hx]
      exact ih x hso
    | some bl =>
      rw [addOverlayScene_resolved conv e0 x hso a bl hbl, ih]
      · simp only [List.append_assoc, List.singleton_append]
      · exact ⟨hso.1, hso.2.1, hso.2.2.1, hso.2.2.2.1, hso.2.2.2.2⟩

/-- Helper: the second loop of `AddScheduledScenes` puts each scene built from a name that
resolves in front of the list. -/
theorem addBackgroundScene_foldl (conv : BL_Converter) (e0 : KX_KetsjiEngine)
    (bg : List String) :
    ∀ x : KX_KetsjiEngine, SameOverride e0 x →
      bg.foldl (addBackgroundScene conv) x =
        { x with
          heap := (buildAll conv e0 bg x.heap).1
          m_scenes := (buildAll conv e0 bg x.heap).2.reverse ++ x.m_scenes } := by
  induction bg with
  | nil =>
    intro x _
    simp [buildAll]
  | cons a rest ih =>
    intro x hso
    rw [List.foldl_cons, buildAll]
    cases hbl : conv.GetBlenderSceneForName a with
    | none =>
      have hx : addBackgroundScene conv x a = x := by
        simp [addBackgroundScene, CreateSceneNamed, hbl]
      rw [hx]
      exact ih x hso
    | some bl =>
      rw [addBackgroundScene_resolved conv e0 x hso a bl hbl, ih]
      · simp only [List.reverse_cons, List.append_assoc, List.singleton_append]
      · exact ⟨hso.1, hso.2.1, hso.2.2.1, hso.2.2.2.1, hso.2.2.2.2⟩

/-- Helper: `ProcessScheduledScenes` empties the four queues, and its heap and scene list are
the additions of the removals of the replacements of the specification. -/
theorem ProcessScheduledScenes_applies (conv : BL_Converter) (e : KX_KetsjiEngine) :
    noPending (ProcessScheduledScenes conv e) ∧
    SameOverride e (ProcessScheduledScenes conv e) ∧
    ((ProcessScheduledScenes conv e).heap, (ProcessScheduledScenes conv e).m_scenes) =
      applyAdds conv e e.m_addingOverlayScenes e.m_addingBackgroundScenes
        ((applyReplaces conv e e.m_replace_scenes (e.heap, e.m_scenes)).1,
         applyRemoves e.m_removingScenes
           (applyReplaces conv e e.m_replace_scenes (e.heap, e.m_scenes)).2) := by
  rw [ProcessScheduledScenes_eq_applyQueues]
  have key : ∀ x : KX_KetsjiEngine, SameOverride e x →
      e.m_addingBackgroundScenes.foldl (addBackgroundScene conv)
          (e.m_addingOverlayScenes.foldl (addOverlayScene conv) x) =
        { x with
          heap := (applyAdds conv e e.m_addingOverlayScenes e.m_addingBackgroundScenes
            (x.heap, x.m_scenes)).1
          m_scenes := (applyAdds conv e e.m_addingOverlayScenes e.m_addingBackgroundScenes
            (x.heap, x.m_scenes)).2 } := by
    intro x hx
    rw [addOverlayScene_foldl conv e e.m_addingOverlayScenes x hx]
    rw [addBackgroundScene_foldl conv e e.m_addingBackgroundScenes]
    · simp only [applyAdds, List.append_assoc]
    · exact ⟨hx.1, hx.2.1, hx.2.2.1, hx.2.2.2.1, hx.2.2.2.2⟩
  unfold applyQueues
  simp only []
  rw [key]
  swap
  · exact ⟨rfl, rfl, rfl, rfl, rfl⟩
  rw [applyReplaces_eq, applyRemoves_eq]
  rw [replaceFold_congr conv e (withQueues e [] [] [] []) rfl rfl rfl rfl rfl]
  refine ⟨?_, ?_, ?_⟩
  · split_ifs <;> exact ⟨rfl, rfl, rfl, rfl⟩
  · split_ifs <;> exact ⟨rfl, rfl, rfl, rfl, rfl⟩
  · split_ifs <;> rfl

/-- Helper: a request changes the pending queues only: each queue gets what the request method
accepts. -/
theorem issue_eq (conv : BL_Converter) (r : Request) (e : KX_KetsjiEngine) :
    issue conv r e =
      withQueues e (e.m_addingOverlayScenes ++ acceptedAdds e true [r])
        (e.m_addingBackgroundScenes ++ acceptedAdds e false [r])
        (e.m_removingScenes ++ acceptedRemoves e [r])
        (e.m_replace_scenes ++ acceptedReplaces conv [r]) := by
  cases r with
  | add name overlay =>
    cases overlay <;> cases hf : FindScene e name <;> cases e <;>
      simp [issue, ConvertAndAddScene, withQueues, acceptedAdds, acceptedRemoves,
        acceptedReplaces, hf]
  | remove name =>
    cases hf : FindScene e name <;> cases e <;>
      simp [issue, RemoveScene, withQueues, acceptedAdds, acceptedRemoves, acceptedReplaces, hf]
  | replace o n =>
    cases hf : conv.GetBlenderSceneForName n <;> cases e <;>
      simp [issue, ReplaceScene, withQueues, acceptedAdds, acceptedRemoves, acceptedReplaces, hf]

/-- Helper: the pending queues after a list of requests: each queue holds what it held,
followed by the accepted requests of its kind in the order they were issued. -/
theorem issueAll_eq (conv : BL_Converter) (reqs : List Request) :
    ∀ e : KX_KetsjiEngine,
      issueAll conv reqs e =
        withQueues e (e.m_addingOverlayScenes ++ acceptedAdds e true reqs)
          (e.m_addingBackgroundScenes ++ acceptedAdds e false reqs)
          (e.m_removingScenes ++ acceptedRemoves e reqs)
          (e.m_replace_scenes ++ acceptedReplaces conv reqs) := by
  induction reqs with
  | nil =>
    intro e
    cases e
    simp [issueAll, withQueues, acceptedAdds, acceptedRemoves, acceptedReplaces]
  | cons r rest ih =>
    intro e
    have hstep : issueAll conv (r :: rest) e = issueAll conv rest (issue conv r e) := rfl
    rw [hstep, ih, issue_eq]
    have h1 : ∀ (o : Bool) (x : KX_KetsjiEngine) (a b c : List String)
        (d : List (String × String)) (l : List Request),
        acceptedAdds (withQueues x a b c d) o l = acceptedAdds x o l := fun _ _ _ _ _ _ _ => rfl
    have h2 : ∀ (x : KX_KetsjiEngine) (a b c : List String) (d : List (String × String))
        (l : List Request), acceptedRemoves (withQueues x a b c d) l = acceptedRemoves x l :=
      fun _ _ _ _ _ _ => rfl
    have ha : ∀ o : Bool, acceptedAdds e o (r :: rest) =
        acceptedAdds e o [r] ++ acceptedAdds e o rest := by
      intro o
      unfold acceptedAdds
      rw [← List.filterMap_append]
      rfl
    have hb : acceptedRemoves e (r :: rest) = acceptedRemoves e [r] ++ acceptedRemoves e rest := by
      unfold acceptedRemoves
      rw [← List.filterMap_append]
      rfl
    have hc : acceptedReplaces conv (r :: rest) =
        acceptedReplaces conv [r] ++ acceptedReplaces conv rest := by
      unfold acceptedReplaces
      rw [← List.filterMap_append]
      rfl
    rw [h1, h1, h2, ha, ha, hb, hc]
    simp only [withQueues, List.append_assoc]

/-- Helper: a `filterMap` that drops every item outside a class sees the items of the class
only. -/
theorem filterMap_filter_class {α β : Type} (f : α → Option β) (p : α → Bool)
    (hf : ∀ x : α, p x = false → f x = none) (l : List α) :
    (l.filter p).filterMap f = l.filterMap f := by
  induction l with
  | nil => rfl
  | cons a rest ih =>
    cases hp : p a
    · rw [List.filter_cons_of_neg (by simp [hp]), List.filterMap_cons, hf a hp, ih]
    · rw [List.filter_cons_of_pos hp, List.filterMap_cons, List.filterMap_cons, ih]

/-- Helper: two lists of requests with the same requests of each kind, in the same order
within the kind, leave the same engine. -/
theorem issueAll_order (conv : BL_Converter) (e : KX_KetsjiEngine) (reqs1 reqs2 : List Request)
    (hk : ∀ k : Nat, reqs1.filter (fun r => r.kind == k) = reqs2.filter (fun r => r.kind == k)) :
    issueAll conv reqs1 e = issueAll conv reqs2 e := by
  have hov : ∀ reqs : List Request,
      acceptedAdds e true (reqs.filter (fun r => r.kind == 0)) = acceptedAdds e true reqs := by
    intro reqs
    unfold acceptedAdds
    apply filterMap_filter_class
    intro r hr
    cases r with
    | add name o => cases o <;> simp [Request.kind] at hr ⊢
    | remove name => rfl
    | replace o n => rfl
  have hbg : ∀ reqs : List Request,
      acceptedAdds e false (reqs.filter (fun r => r.kind == 1)) = acceptedAdds e false reqs := by
    intro reqs
    unfold acceptedAdds
    apply filterMap_filter_class
    intro r hr
    cases r with
    | add name o => cases o <;> simp [Request.kind] at hr ⊢
    | remove name => rfl
    | replace o n => rfl
  have hrem : ∀ reqs : List Request,
      acceptedRemoves e (reqs.filter (fun r => r.kind == 2)) = acceptedRemoves e reqs := by
    intro reqs
    unfold acceptedRemoves
    apply filterMap_filter_class
    intro r hr
    cases r with
    | add name o => rfl
    | remove name => simp [Request.kind] at hr
    | replace o n => rfl
  have hrep : ∀ reqs : List Request,
      acceptedReplaces conv (reqs.filter (fun r => r.kind == 3)) = acceptedReplaces conv reqs := by
    intro reqs
    unfold acceptedReplaces
    apply filterMap_filter_class
    intro r hr
    cases r with
    | add name o => rfl
    | remove name => rfl
    | replace o n => simp [Request.kind] at hr
  rw [issueAll_eq, issueAll_eq, ← hov reqs1, ← hov reqs2, ← hbg reqs1, ← hbg reqs2,
    ← hrem reqs1, ← hrem reqs2, ← hrep reqs1, ← hrep reqs2, hk 0, hk 1, hk 2, hk 3]

/-- C6: for every engine state, `ProcessScheduledScenes` leaves the heap and the scene list
that the specification describes: the queued replacements are applied first, then the queued
removals, then the queued additions (`applyAdds` of `applyRemoves` of `applyReplaces`), and the
four queues are empty afterwards.  After any list of requests each queue holds what it held
followed by the accepted requests of its kind in issue order, so that the result is the one of
the specification for these queues, and two lists of requests that differ only in how the
kinds are interleaved give the same result.  In particular a scene X that is both replaced by a
differently named scene Y and requested for removal in the same tick ends as Y at the index of
X, the list keeping its length, whichever request was issued first. -/
theorem process_replace_remove_add (conv : BL_Converter) (e : KX_KetsjiEngine) :
    (((ProcessScheduledScenes conv e).heap, (ProcessScheduledScenes conv e).m_scenes) =
      applyAdds conv e e.m_addingOverlayScenes e.m_addingBackgroundScenes
        ((applyReplaces conv e e.m_replace_scenes (e.heap, e.m_scenes)).1,
         applyRemoves e.m_removingScenes
           (applyReplaces conv e e.m_replace_scenes (e.heap, e.m_scenes)).2)) ∧
    noPending (ProcessScheduledScenes conv e) ∧
    (∀ reqs : List Request,
      ((ProcessScheduledScenes conv (issueAll conv reqs e)).heap,
        (ProcessScheduledScenes conv (issueAll conv reqs e)).m_scenes) =
        applyAdds conv e (e.m_addingOverlayScenes ++ acceptedAdds e true reqs)
          (e.m_addingBackgroundScenes ++ acceptedAdds e false reqs)
          ((applyReplaces conv e (e.m_replace_scenes ++ acceptedReplaces conv reqs)
              (e.heap, e.m_scenes)).1,
           applyRemoves (e.m_removingScenes ++ acceptedRemoves e reqs)
             (applyReplaces conv e (e.m_replace_scenes ++ acceptedReplaces conv reqs)
               (e.heap, e.m_scenes)).2)) ∧
    (∀ reqs1 reqs2 : List Request,
      (∀ k : Nat, reqs1.filter (fun r => r.kind == k) = reqs2.filter (fun r => r.kind == k)) →
      ProcessScheduledScenes conv (issueAll conv reqs1 e) =
        ProcessScheduledScenes conv (issueAll conv reqs2 e)) ∧
    (∀ (x y : String) (bl : Scene) (i : Nat) (s : KX_Scene), noPending e →
      e.m_scenes[i]? = some s → s.m_name = x → conv.GetBlenderSceneForName y = some bl →
      (∀ h : Heap, (buildScene conv e h bl).2.m_name ≠ x) →
      RemoveScene x (ReplaceScene conv x y e).2 = (ReplaceScene conv x y (RemoveScene x e)).2 ∧
      (ProcessScheduledScenes conv (RemoveScene x (ReplaceScene conv x y e).2)).m_scenes.length =
        e.m_scenes.length ∧
      ∃ h : Heap,
        (ProcessScheduledScenes conv (RemoveScene x (ReplaceScene conv x y e).2)).m_scenes[i]? =
          some (buildScene conv e h bl).2) := by
  refine ⟨(ProcessScheduledScenes_applies conv e).2.2, (ProcessScheduledScenes_applies conv e).1,
    fun reqs => ?_, fun reqs1 reqs2 hk => ?_, ?_⟩
  · have h := (ProcessScheduledScenes_applies conv (issueAll conv reqs e)).2.2
    rw [h, issueAll_eq]
    have hso : SameOverride e
        (withQueues e (e.m_addingOverlayScenes ++ acceptedAdds e true reqs)
          (e.m_addingBackgroundScenes ++ acceptedAdds e false reqs)
          (e.m_removingScenes ++ acceptedRemoves e reqs)
          (e.m_replace_scenes ++ acceptedReplaces conv reqs)) := ⟨rfl, rfl, rfl, rfl, rfl⟩
    have hrep : ∀ (x : KX_KetsjiEngine), SameOverride e x →
        ∀ (q : List (String × String)) (hl : Heap × List KX_Scene),
        applyReplaces conv x q hl = applyReplaces conv e q hl := by
      intro x hx q hl
      rw [applyReplaces_eq, applyReplaces_eq]
      exact replaceFold_congr conv e x hx.1 hx.2.1 hx.2.2.1 hx.2.2.2.1 hx.2.2.2.2 q hl
    unfold applyAdds
    simp only [buildAll_congr conv e _ hso, hrep _ hso]
    rfl
  · rw [issueAll_order conv e reqs1 reqs2 hk]
  · intro x y bl i s hp hs hn hbl hname
    refine ⟨?_, ?_, ?_⟩
    · have hfind : (FindScene e x).isSome = true := FindScene_isSome e x i s hs hn
      have hfind2 : (FindScene (ReplaceScene conv x y e).2 x).isSome = true :=
        FindScene_isSome _ x i s (by simpa [ReplaceScene, hbl] using hs) hn
      simp only [RemoveScene, hfind, hfind2, if_true]
      simp [ReplaceScene, hbl]
    · rw [process_replace_and_remove conv e x y bl hbl hp i s hs hn hname]
      exact replaceInList_length conv e x y e.m_scenes e.heap
    · rw [process_replace_and_remove conv e x y bl hbl hp i s hs hn hname]
      exact replaceInList_named conv e x y bl hbl e.m_scenes e.heap i s hs hn

/-- C6 (witness): on the scenes X, Y, Z the requests to replace X by A, remove Z, add B as
overlay and C as background give C, A, Y, B, and so do the same requests issued in the reverse
order; replacing Y by A and removing Y in the same tick gives X, A, Z. -/
theorem process_replace_remove_add_witness :
    (ProcessScheduledScenes exampleConverter
      (issueAll exampleConverter mixedRequests xyzEngine)).m_scenes.map KX_Scene.m_name =
        ["C", "A", "Y", "B"] ∧
    (ProcessScheduledScenes exampleConverter
      (issueAll exampleConverter mixedRequests.reverse xyzEngine)).m_scenes.map KX_Scene.m_name =
        ["C", "A", "Y", "B"] ∧
    (ProcessScheduledScenes exampleConverter
      (RemoveScene "Y" (ReplaceScene exampleConverter "Y" "A" xyzEngine).2)).m_scenes.map
        KX_Scene.m_name = ["X", "A", "Z"] ∧
    (ProcessScheduledScenes exampleConverter
      (RemoveScene "Y" (ReplaceScene exampleConverter "Y" "A" xyzEngine).2)).m_scenes.length =
        xyzEngine.m_scenes.length := by
  have h := process_replace_remove_add exampleConverter xyzEngine
  have hk : ∀ k : Nat, mixedRequests.reverse.filter (fun r => r.kind == k) =
      mixedRequests.filter (fun r => r.kind == k) := by
    intro k
    rcases k with _ | _ | _ | _ | k
    · decide
    · decide
    · decide
    · decide
    · have hnone : ∀ r : Request, r ∈ mixedRequests → (r.kind == k + 4) = false := by
        intro r hr
        simp only [mixedRequests, List.mem_cons, List.mem_singleton, List.not_mem_nil,
          or_false] at hr
        rcases hr with rfl | rfl | rfl | rfl <;> simp [Request.kind]
      rw [List.filter_eq_nil_iff.mpr (fun r hr => by
          simp [hnone r (List.mem_reverse.mp hr)]),
        List.filter_eq_nil_iff.mpr (fun r hr => by simp [hnone r hr])]
  refine ⟨by decide, ?_, by decide, ?_⟩
  · rw [h.2.2.2.1 mixedRequests.reverse mixedRequests hk]
    decide
  · exact (h.2.2.2.2 "Y" "A" { id_name := "SCA" } 1
      { m_name := "Y"
        m_blenderScene := { id_name := "SCY" }
        m_activeCamera := some 1
        m_objectlist := [1]
        m_cameralist := [1]
        calls := [SceneCall.UpdateParents] }
      ⟨by decide, by decide, by decide, by decide⟩ (by decide) (by decide) (by decide)
      (by
        intro h
        rw [buildScene, PostProcessScene_name]
        show ("SCA".drop 2) ≠ "Y"
        decide)).2.1

/-! ## Theorems: suspended scenes while requests are queued -/

/-- Helper: a scene of the list that `replaceInList` returns was in the list or was built from
the source data of the new name. -/
theorem replaceInList_mem (conv : BL_Converter) (e : KX_KetsjiEngine) (o n : String)
    (l : List KX_Scene) :
    ∀ (h : Heap) (t : KX_Scene), t ∈ (replaceInList conv e o n h l).2 →
      t ∈ l ∨ ∃ (bl : Scene) (h2 : Heap), conv.GetBlenderSceneForName n = some bl ∧
        t = (buildScene conv e h2 bl).2 := by
  induction l with
  | nil => intro h t ht; simp [replaceInList] at ht
  | cons s rest ih =>
    intro h t ht
    rw [replaceInList] at ht
    by_cases hs : (s.m_name == o) = true
    · cases hbl : conv.GetBlenderSceneForName n with
      | none =>
        simp only [hs, if_true, hbl, List.mem_cons] at ht
        rcases ht with ht | ht
        · exact Or.inl (by rw [ht]; exact List.mem_cons_self _ _)
        · rcases ih _ t ht with h1 | h1
          · exact Or.inl (List.mem_cons_of_mem _ h1)
          · rw [hbl] at h1
            exact Or.inr h1
      | some bl =>
        simp only [hs, if_true, hbl, List.mem_cons] at ht
        rcases ht with ht | ht
        · exact Or.inr ⟨bl, h, rfl, ht⟩
        · rcases ih _ t ht with h1 | h1
          · exact Or.inl (List.mem_cons_of_mem _ h1)
          · rw [hbl] at h1
            exact Or.inr h1
    · simp only [hs, Bool.false_eq_true, if_false, List.mem_cons] at ht
      rcases ht with ht | ht
      · exact Or.inl (by rw [ht]; exact List.mem_cons_self _ _)
      · rcases ih _ t ht with h1 | h1
        · exact Or.inl (List.mem_cons_of_mem _ h1)
        · exact Or.inr h1

/-- Helper: `replaceInList` keeps a scene that does not have the old name. -/
theorem replaceInList_keeps (conv : BL_Converter) (e : KX_KetsjiEngine) (o n : String)
    (l : List KX_Scene) :
    ∀ (h : Heap) (t : KX_Scene), t ∈ l → t.m_name ≠ o →
      t ∈ (replaceInList conv e o n h l).2 := by
  induction l with
  | nil => intro h t ht; simp at ht
  | cons s rest ih =>
    intro h t ht hne
    rw [replaceInList]
    rcases List.mem_cons.mp ht with hts | hts
    · subst hts
      have hs : (t.m_name == o) = false := by simpa using hne
      simp [hs]
    · by_cases hs : (s.m_name == o) = true
      · cases hbl : conv.GetBlenderSceneForName n with
        | none =>
          simp only [hs, if_true, List.mem_cons]
          exact Or.inr (ih _ t hts hne)
        | some bl =>
          simp only [hs, if_true, List.mem_cons]
          exact Or.inr (ih _ t hts hne)
      · simp only [hs, Bool.false_eq_true, if_false, List.mem_cons]
        exact Or.inr (ih _ t hts hne)

/-- Helper: the scenes after the replacements of the specification: each was in the list or
was built for the new name of a queued pair; a scene no pair names as the old one is kept. -/
theorem applyReplaces_mem (conv : BL_Converter) (e : KX_KetsjiEngine)
    (rep : List (String × String)) :
    ∀ (hl : Heap × List KX_Scene) (t : KX_Scene),
      (t ∈ (applyReplaces conv e rep hl).2 →
        t ∈ hl.2 ∨ ∃ (p : String × String) (bl : Scene) (h2 : Heap), p ∈ rep ∧
          conv.GetBlenderSceneForName p.2 = some bl ∧ t = (buildScene conv e h2 bl).2) ∧
      (t ∈ hl.2 → (∀ p : String × String, p ∈ rep → p.1 ≠ t.m_name) →
        t ∈ (applyReplaces conv e rep hl).2) := by
  induction rep with
  | nil =>
    intro hl t
    simp [applyReplaces]
  | cons p rest ih =>
    intro hl t
    have hstep : applyReplaces conv e (p :: rest) hl =
        applyReplaces conv e rest (replaceInList conv e p.1 p.2 hl.1 hl.2) := by
      rw [applyReplaces_eq, applyReplaces_eq]
      rfl
    rw [hstep]
    obtain ⟨ih1, ih2⟩ := ih (replaceInList conv e p.1 p.2 hl.1 hl.2) t
    constructor
    · intro ht
      rcases ih1 ht with h1 | ⟨q, bl, h2, hq, hbl, heq⟩
      · rcases replaceInList_mem conv e p.1 p.2 hl.2 hl.1 t h1 with h3 | ⟨bl, h2, hbl, heq⟩
        · exact Or.inl h3
        · exact Or.inr ⟨p, bl, h2, List.mem_cons_self _ _, hbl, heq⟩
      · exact Or.inr ⟨q, bl, h2, List.mem_cons_of_mem _ hq, hbl, heq⟩
    · intro ht hne
      exact ih2 (replaceInList_keeps conv e p.1 p.2 hl.2 hl.1 t ht
          (fun heq => hne p (List.mem_cons_self _ _) heq.symm))
        (fun q hq => hne q (List.mem_cons_of_mem _ hq))

/-- Helper: the removals of the specification return scenes of the list, and keep a scene whose
name is not queued. -/
theorem applyRemoves_mem (rem : List String) :
    ∀ (l : List KX_Scene) (t : KX_Scene),
      (t ∈ applyRemoves rem l → t ∈ l) ∧
      (t ∈ l → t.m_name ∉ rem → t ∈ applyRemoves rem l) := by
  induction rem with
  | nil => intro l t; simp [applyRemoves]
  | cons a rest ih =>
    intro l t
    have hstep : applyRemoves (a :: rest) l =
        applyRemoves rest (l.eraseP (fun scene => scene.m_name == a)) := rfl
    rw [hstep]
    obtain ⟨ih1, ih2⟩ := ih (l.eraseP (fun scene => scene.m_name == a)) t
    constructor
    · intro ht
      exact List.mem_of_mem_eraseP (ih1 ht)
    · intro ht hne
      have hta : t.m_name ≠ a := fun h => hne (by rw [h]; exact List.mem_cons_self _ _)
      refine ih2 ?_ (fun h => hne (List.mem_cons_of_mem _ h))
      exact (List.mem_eraseP_of_neg (by simpa using hta)).mpr ht

/-- Helper: the scenes `buildAll` returns are built for names of the queue. -/
theorem buildAll_mem (conv : BL_Converter) (e : KX_KetsjiEngine) (names : List String) :
    ∀ (h : Heap) (t : KX_Scene), t ∈ (buildAll conv e names h).2 →
      ∃ (name : String) (bl : Scene) (h2 : Heap), name ∈ names ∧
        conv.GetBlenderSceneForName name = some bl ∧ t = (buildScene conv e h2 bl).2 := by
  induction names with
  | nil => intro h t ht; simp [buildAll] at ht
  | cons a rest ih =>
    intro h t ht
    rw [buildAll] at ht
    cases hbl : conv.GetBlenderSceneForName a with
    | none =>
      simp only [hbl] at ht
      obtain ⟨name, bl, h2, h3, h4, h5⟩ := ih h t ht
      exact ⟨name, bl, h2, List.mem_cons_of_mem _ h3, h4, h5⟩
    | some bl =>
      simp only [hbl, List.mem_cons] at ht
      rcases ht with ht | ht
      · exact ⟨a, bl, h, List.mem_cons_self _ _, hbl, ht⟩
      · obtain ⟨name, bl2, h2, h3, h4, h5⟩ := ih _ t ht
        exact ⟨name, bl2, h2, List.mem_cons_of_mem _ h3, h4, h5⟩

/-- Helper: a scene after `ProcessScheduledScenes` was in the list or was built for a name
queued for addition or replacement; a scene whose name is not queued for replacement or
removal stays in the list. -/
theorem ProcessScheduledScenes_mem (conv : BL_Converter) (e : KX_KetsjiEngine) (t : KX_Scene) :
    (t ∈ (ProcessScheduledScenes conv e).m_scenes →
      t ∈ e.m_scenes ∨ ∃ (name : String) (bl : Scene) (h2 : Heap),
        (name ∈ e.m_addingOverlayScenes ∨ name ∈ e.m_addingBackgroundScenes ∨
          ∃ oldscene : String, (oldscene, name) ∈ e.m_replace_scenes) ∧
        conv.GetBlenderSceneForName name = some bl ∧ t = (buildScene conv e h2 bl).2) ∧
    (t ∈ e.m_scenes → (∀ p : String × String, p ∈ e.m_replace_scenes → p.1 ≠ t.m_name) →
      t.m_name ∉ e.m_removingScenes → t ∈ (ProcessScheduledScenes conv e).m_scenes) := by
  have hsc : (ProcessScheduledScenes conv e).m_scenes =
      (applyAdds conv e e.m_addingOverlayScenes e.m_addingBackgroundScenes
        ((applyReplaces conv e e.m_replace_scenes (e.heap, e.m_scenes)).1,
         applyRemoves e.m_removingScenes
           (applyReplaces conv e e.m_replace_scenes (e.heap, e.m_scenes)).2)).2 :=
    congrArg Prod.snd (ProcessScheduledScenes_applies conv e).2.2
  rw [hsc]
  unfold applyAdds
  simp only [List.mem_append, List.mem_reverse]
  obtain ⟨r1, r2⟩ := applyReplaces_mem conv e e.m_replace_scenes (e.heap, e.m_scenes) t
  obtain ⟨m1, m2⟩ := applyRemoves_mem e.m_removingScenes
    (applyReplaces conv e e.m_replace_scenes (e.heap, e.m_scenes)).2 t
  constructor
  · intro ht
    rcases ht with (ht | ht) | ht
    · obtain ⟨name, bl, h2, h3, h4, h5⟩ := buildAll_mem conv e _ _ t ht
      exact Or.inr ⟨name, bl, h2, Or.inr (Or.inl h3), h4, h5⟩
    · rcases r1 (m1 ht) with h1 | ⟨p, bl, h2, hp, hbl, heq⟩
      · exact Or.inl h1
      · exact Or.inr ⟨p.2, bl, h2, Or.inr (Or.inr ⟨p.1, hp⟩), hbl, heq⟩
    · obtain ⟨name, bl, h2, h3, h4, h5⟩ := buildAll_mem conv e _ _ t ht
      exact Or.inr ⟨name, bl, h2, Or.inl h3, h4, h5⟩
  · intro ht hrep hrem
    exact Or.inl (Or.inr (m2 (r2 ht hrep) hrem))

/-- Helper: `PostProcessScene` leaves a quiet scene quiet. -/
theorem PostProcessScene_quiet (e : KX_KetsjiEngine) (h : Heap) (scene : KX_Scene)
    (hq : Quiet scene) : Quiet (PostProcessScene e h scene).2 := by
  unfold PostProcessScene
  simp only []
  split_ifs <;> exact hq

/-- Helper: one tick, whatever is queued: the engine handed to `ProcessScheduledScenes` has
the queues of the engine before; a suspended scene has got the call of `UpdateObjectActivity`
and `framestep` more suspended delta, at its index; a running scene has kept its suspend
state. -/
theorem tick_mid (fuel : Nat) (conv : BL_Converter) (times : FrameTimes)
    (e e1 : KX_KetsjiEngine) (ht : tick fuel conv times e = some e1) :
    ∃ mid : KX_KetsjiEngine, e1 = ProcessScheduledScenes conv mid ∧
      mid.m_addingOverlayScenes = e.m_addingOverlayScenes ∧
      mid.m_addingBackgroundScenes = e.m_addingBackgroundScenes ∧
      mid.m_removingScenes = e.m_removingScenes ∧
      mid.m_replace_scenes = e.m_replace_scenes ∧
      ∀ (i : Nat) (s : KX_Scene), e.m_scenes[i]? = some s →
        (s.m_suspend = true →
          mid.m_scenes[i]? = some (suspendedAfter s 1 times.framestep)) ∧
        (s.m_suspend = false → ∃ t : KX_Scene, mid.m_scenes[i]? = some t ∧ SameSuspend s t) := by
  unfold tick at ht
  cases hsf : scenesFrame fuel (e.m_frameTime + times.framestep) times e.heap e.m_scenes with
  | none => simp [hsf] at ht
  | some r =>
    simp only [hsf, Option.some.injEq] at ht
    refine ⟨_, ht.symm, rfl, rfl, rfl, rfl, fun i s hs => ?_⟩
    obtain ⟨hsus, t, ht1, ht2⟩ := scenesFrame_spec fuel _ times e.m_scenes e.heap r hsf i s hs
    have hscenes : (UpdateSuspendedScenes times.framestep
        { e with m_frameTime := e.m_frameTime + times.framestep, heap := r.1,
                 m_scenes := r.2 }).m_scenes = r.2.map (fun scene =>
        if scene.IsSuspended then
          scene.SetSuspendedDelta (scene.GetSuspendedDelta + times.framestep)
        else scene) := rfl
    rw [hscenes, List.getElem?_map]
    constructor
    · intro hsusp
      rw [hsus hsusp]
      simp [KX_Scene.IsSuspended, KX_Scene.UpdateObjectActivity, KX_Scene.SetSuspendedDelta,
        KX_Scene.GetSuspendedDelta, suspendedAfter, hsusp]
    · intro hrun
      rw [ht1]
      have htr : t.m_suspend = false := ht2.1.trans hrun
      exact ⟨t, by simp [KX_Scene.IsSuspended, htr], ht2⟩

/-- Helper: a tick over quiet scenes has a result when the scenes built for the queued names
are quiet; afterwards nothing is queued and the scenes are quiet. -/
theorem tick_total (fuel : Nat) (conv : BL_Converter) (times : FrameTimes)
    (e : KX_KetsjiEngine) (hq : ∀ s : KX_Scene, s ∈ e.m_scenes → Quiet s)
    (hb : BuildsQuiet conv e) :
    ∃ e1 : KX_KetsjiEngine, tick fuel conv times e = some e1 ∧ noPending e1 ∧
      ∀ s : KX_Scene, s ∈ e1.m_scenes → Quiet s := by
  obtain ⟨l2, hl2, hq2⟩ :=
    scenesFrame_quiet fuel (e.m_frameTime + times.framestep) times e.m_scenes hq e.heap
  refine ⟨_, by rw [tick, hl2], (ProcessScheduledScenes_applies conv _).1, fun s hs => ?_⟩
  rcases (ProcessScheduledScenes_mem conv _ s).1 hs with h1 | ⟨name, bl, h2, hname, hbl, heq⟩
  · have hscenes : (UpdateSuspendedScenes times.framestep
        { e with m_frameTime := e.m_frameTime + times.framestep, heap := e.heap,
                 m_scenes := l2 }).m_scenes = l2.map (fun scene =>
        if scene.IsSuspended then
          scene.SetSuspendedDelta (scene.GetSuspendedDelta + times.framestep)
        else scene) := rfl
    rw [hscenes, List.mem_map] at h1
    obtain ⟨t, ht, rfl⟩ := h1
    have hqt := hq2 t ht
    split_ifs
    · exact hqt
    · exact hqt
  · rw [heq]
    exact PostProcessScene_quiet _ _ _ (hb name bl hname hbl h2)

/-- Helper: `k + 1` ticks are a first tick, after which nothing is queued, and `k` ticks. -/
theorem ticks_first (fuel : Nat) (conv : BL_Converter) (times : FrameTimes) (k : Nat)
    (e e2 : KX_KetsjiEngine) (hk : ticks fuel conv times (k + 1) e = some e2) :
    ∃ e1 : KX_KetsjiEngine, tick fuel conv times e = some e1 ∧ noPending e1 ∧
      ticks fuel conv times k e1 = some e2 := by
  rw [ticks] at hk
  cases ht : tick fuel conv times e with
  | none => simp [ht] at hk
  | some e1 =>
    simp only [ht] at hk
    obtain ⟨mid, hmid, _⟩ := tick_mid fuel conv times e e1 ht
    exact ⟨e1, rfl, by rw [hmid]; exact (ProcessScheduledScenes_applies conv mid).1, hk⟩

/-- Helper: any number of ticks over quiet scenes has a result when the scenes built for the
queued names are quiet. -/
theorem ticks_total (fuel : Nat) (conv : BL_Converter) (times : FrameTimes) (k : Nat)
    (e : KX_KetsjiEngine) (hq : ∀ s : KX_Scene, s ∈ e.m_scenes → Quiet s)
    (hb : BuildsQuiet conv e) :
    ∃ e2 : KX_KetsjiEngine, ticks fuel conv times k e = some e2 := by
  cases k with
  | zero => exact ⟨e, rfl⟩
  | succ n =>
    obtain ⟨e1, h1, hp1, hq1⟩ := tick_total fuel conv times e hq hb
    obtain ⟨e2, h2⟩ := ticks_quiet fuel conv times n e1 hp1 hq1
    exact ⟨e2, by rw [ticks, h1]; exact h2⟩

/-- C10: in every tick of the frame loop of `NextFrame`, whatever requests are queued, a
suspended scene receives the call of `UpdateObjectActivity` and no other call and has
`framestep` more suspended delta when the queued scene changes are applied, a running scene
keeps its suspended delta, and the scene stays in the list if its name is not queued for
replacement or removal; after the tick nothing is queued.  A scene that is suspended and
still in the list after the first of `k + 1` ticks has `(k + 1) × f` more suspended delta and
`k + 1` calls of `UpdateObjectActivity` as its only calls after the last, at the index it
had after the first tick, which is its index before when nothing was queued; the same holds
for a whole `NextFrame` call, which leaves the scene list alone when its frame count is not
positive.  The ticks and `NextFrame` have a result whatever the fuel when every scene is quiet
and the scenes built for the queued names are quiet.  `Resume` only clears the suspend
flag. -/
theorem suspended_time_accounting (fuel : Nat) (conv : BL_Converter) (e : KX_KetsjiEngine) :
    (∀ (times : FrameTimes) (e1 : KX_KetsjiEngine), tick fuel conv times e = some e1 →
      noPending e1 ∧
      ∃ mid : KX_KetsjiEngine, e1 = ProcessScheduledScenes conv mid ∧
        mid.m_addingOverlayScenes = e.m_addingOverlayScenes ∧
        mid.m_addingBackgroundScenes = e.m_addingBackgroundScenes ∧
        mid.m_removingScenes = e.m_removingScenes ∧
        mid.m_replace_scenes = e.m_replace_scenes ∧
        ∀ (i : Nat) (s : KX_Scene), e.m_scenes[i]? = some s →
          (s.m_suspend = true →
            mid.m_scenes[i]? = some (suspendedAfter s 1 times.framestep) ∧
            ((∀ p : String × String, p ∈ e.m_replace_scenes → p.1 ≠ s.m_name) →
              s.m_name ∉ e.m_removingScenes →
              suspendedAfter s 1 times.framestep ∈ e1.m_scenes)) ∧
          (s.m_suspend = false → ∃ t : KX_Scene, mid.m_scenes[i]? = some t ∧
            t.m_suspend = false ∧ t.m_suspendedDelta = s.m_suspendedDelta)) ∧
    (∀ (times : FrameTimes) (k : Nat) (e2 : KX_KetsjiEngine),
      ticks fuel conv times (k + 1) e = some e2 →
      ∃ e1 : KX_KetsjiEngine, tick fuel conv times e = some e1 ∧
        ticks fuel conv times k e1 = some e2 ∧
        (∀ (j : Nat) (s : KX_Scene), s.m_suspend = true →
          e1.m_scenes[j]? = some (suspendedAfter s 1 times.framestep) →
          e2.m_scenes[j]? = some (suspendedAfter s (k + 1) times.framestep)) ∧
        (∀ (j : Nat) (t : KX_Scene), e1.m_scenes[j]? = some t → t.m_suspend = false →
          ∃ u : KX_Scene, e2.m_scenes[j]? = some u ∧ u.m_suspend = false ∧
            u.m_suspendedDelta = t.m_suspendedDelta)) ∧
    (noPending e → ∀ (times : FrameTimes) (k : Nat) (e2 : KX_KetsjiEngine),
      ticks fuel conv times k e = some e2 →
      ∀ (i : Nat) (s : KX_Scene), e.m_scenes[i]? = some s →
        (s.m_suspend = true → e2.m_scenes[i]? = some (suspendedAfter s k times.framestep)) ∧
        (s.m_suspend = false → ∃ t : KX_Scene, e2.m_scenes[i]? = some t ∧
          t.m_suspend = false ∧ t.m_suspendedDelta = s.m_suspendedDelta)) ∧
    (∀ (now : ℚ) (r : Bool × KX_KetsjiEngine), NextFrame fuel conv now e = some r →
      ((GetFrameTimes now e).1.frames ≤ 0 → r.2.m_scenes = e.m_scenes) ∧
      (0 < (GetFrameTimes now e).1.frames →
        ∃ e1 : KX_KetsjiEngine,
          tick fuel conv (GetFrameTimes now e).1 (GetFrameTimes now e).2 = some e1 ∧
          ∀ (j : Nat) (s : KX_Scene), s.m_suspend = true →
            e1.m_scenes[j]? = some (suspendedAfter s 1 (GetFrameTimes now e).1.framestep) →
            r.2.m_scenes[j]? = some (suspendedAfter s (GetFrameTimes now e).1.frames.toNat
              (GetFrameTimes now e).1.framestep)) ∧
      (noPending e → ∀ (i : Nat) (s : KX_Scene), e.m_scenes[i]? = some s →
        s.m_suspend = true →
        r.2.m_scenes[i]? = some (suspendedAfter s (GetFrameTimes now e).1.frames.toNat
          (GetFrameTimes now e).1.framestep))) ∧
    ((∀ s : KX_Scene, s ∈ e.m_scenes → Quiet s) → BuildsQuiet conv e →
      (∀ (times : FrameTimes) (k : Nat),
        ∃ e2 : KX_KetsjiEngine, ticks fuel conv times k e = some e2) ∧
      (∀ now : ℚ, (GetFrameTimes now e).1.frames ≤ 65535 →
        ∃ r : Bool × KX_KetsjiEngine, NextFrame fuel conv now e = some r)) ∧
    (∀ s : KX_Scene, s.Resume = { s with m_suspend := false }) := by
  have hB : ∀ (x : KX_KetsjiEngine) (times : FrameTimes) (k : Nat) (e2 : KX_KetsjiEngine),
      ticks fuel conv times (k + 1) x = some e2 →
      ∃ e1 : KX_KetsjiEngine, tick fuel conv times x = some e1 ∧
        ticks fuel conv times k e1 = some e2 ∧
        (∀ (j : Nat) (s : KX_Scene), s.m_suspend = true →
          e1.m_scenes[j]? = some (suspendedAfter s 1 times.framestep) →
          e2.m_scenes[j]? = some (suspendedAfter s (k + 1) times.framestep)) ∧
        (∀ (j : Nat) (t : KX_Scene), e1.m_scenes[j]? = some t → t.m_suspend = false →
          ∃ u : KX_Scene, e2.m_scenes[j]? = some u ∧ u.m_suspend = false ∧
            u.m_suspendedDelta = t.m_suspendedDelta) := by
    intro x times k e2 hk
    obtain ⟨e1, h1, hp1, h2⟩ := ticks_first fuel conv times k x e2 hk
    refine ⟨e1, h1, h2, fun j s hsusp hj => ?_, fun j t hj hrun => ?_⟩
    · have h3 := (ticks_spec fuel conv times k e1 e2 hp1 h2 j _ hj).1
        (by simpa [suspendedAfter] using hsusp)
      rw [h3, suspendedAfter_succ]
    · obtain ⟨u, hu1, hu2⟩ := (ticks_spec fuel conv times k e1 e2 hp1 h2 j t hj).2 hrun
      exact ⟨u, hu1, hu2.1.trans hrun, hu2.2⟩
  refine ⟨fun times e1 ht => ?_, hB e, fun hp times k e2 hk i s hs => ?_,
    fun now r hr => ?_, fun hq hb => ?_, fun s => rfl⟩
  · obtain ⟨mid, hmid, q1, q2, q3, q4, hsc⟩ := tick_mid fuel conv times e e1 ht
    refine ⟨by rw [hmid]; exact (ProcessScheduledScenes_applies conv mid).1,
      mid, hmid, q1, q2, q3, q4, fun i s hs => ?_⟩
    obtain ⟨h1, h2⟩ := hsc i s hs
    refine ⟨fun hsusp => ⟨h1 hsusp, fun hrep hrem => ?_⟩, fun hrun => ?_⟩
    · rw [hmid]
      refine (ProcessScheduledScenes_mem conv mid _).2 (List.getElem?_mem (h1 hsusp)) ?_ ?_
      · rw [q4]
        exact hrep
      · rw [q3]
        exact hrem
    · obtain ⟨t, ht1, ht2⟩ := h2 hrun
      exact ⟨t, ht1, ht2.1.trans hrun, ht2.2⟩
  · obtain ⟨h1, h2⟩ := ticks_spec fuel conv times k e e2 hp hk i s hs
    refine ⟨h1, fun hrun => ?_⟩
    obtain ⟨t, ht1, ht2⟩ := h2 hrun
    exact ⟨t, ht1, ht2.1.trans hrun, ht2.2⟩
  · unfold NextFrame at hr
    simp only [] at hr
    split_ifs at hr with h0 hbig
    · simp only [Option.some.injEq] at hr
      subst hr
      refine ⟨fun _ => rfl, fun hpos => absurd h0 (by omega), fun _ i s hs _ => ?_⟩
      rw [h0]
      show e.m_scenes[i]? = _
      rw [hs]
      simp [suspendedAfter]
    · cases ht : ticks fuel conv (GetFrameTimes now e).1 (GetFrameTimes now e).1.frames.toNat
          (GetFrameTimes now e).2 with
      | none => simp [ht] at hr
      | some e2 =>
        simp only [ht, Option.some.injEq] at hr
        subst hr
        refine ⟨fun hle => ?_, fun hpos => ?_, fun hp i s hs hsusp => ?_⟩
        · have hz : (GetFrameTimes now e).1.frames.toNat = 0 := Int.toNat_of_nonpos hle
          rw [hz] at ht
          simp only [ticks, Option.some.injEq] at ht
          rw [← ht]
          rfl
        · obtain ⟨n, hn⟩ : ∃ n : Nat, (GetFrameTimes now e).1.frames.toNat = n + 1 :=
            ⟨(GetFrameTimes now e).1.frames.toNat - 1, by omega⟩
          rw [hn] at ht ⊢
          obtain ⟨e1, h1, _, h3, _⟩ := hB (GetFrameTimes now e).2 _ n e2 ht
          exact ⟨e1, h1, h3⟩
        · exact (ticks_spec fuel conv _ _ (GetFrameTimes now e).2 e2 hp ht i s hs).1 hsusp
  · refine ⟨fun times k => ticks_total fuel conv times k e hq hb, fun now hle => ?_⟩
    have hbig : ¬ (GetFrameTimes now e).1.frames > 65535 := by omega
    obtain ⟨e2, he2⟩ := ticks_total fuel conv (GetFrameTimes now e).1
      (GetFrameTimes now e).1.frames.toNat (GetFrameTimes now e).2 hq hb
    unfold NextFrame
    by_cases h0 : (GetFrameTimes now e).1.frames = 0
    · exact ⟨(false, (GetFrameTimes now e).2), by simp only [h0, if_true]⟩
    · exact ⟨(e2.m_doRender, e2), by simp only [h0, hbig, if_false, he2]⟩

/-- C10 (witness): in the engine with a suspended and a running scene, two ticks of 1/60 s
complete and leave the suspended scene with 2 × 1/60 more suspended delta and the two calls of
`UpdateObjectActivity`.  With the removal of the running scene queued and 1/20 s elapsed at
tic rate 60, `NextFrame` has a result without fuel; it runs 3 ticks, the first of which applies
the removal, and leaves the suspended scene at index 0 with 3 × 1/60 more suspended delta. -/
theorem suspended_time_accounting_witness :
    (∃ e2 : KX_KetsjiEngine, ticks 1 exampleConverter twoFrames 2 pausedEngine = some e2 ∧
      e2.m_scenes[0]? = some (suspendedAfter pausedScene 2 (1 / 60)) ∧
      (suspendedAfter pausedScene 2 (1 / 60)).m_suspendedDelta = 1 / 30 ∧
      (suspendedAfter pausedScene 2 (1 / 60)).calls =
        [SceneCall.UpdateObjectActivity, SceneCall.UpdateObjectActivity]) ∧
    (∃ r : Bool × KX_KetsjiEngine,
      NextFrame 0 exampleConverter (1 / 20) removalQueuedEngine = some r ∧
      r.2.m_scenes[0]? = some (suspendedAfter pausedScene 3 (1 / 60)) ∧
      (suspendedAfter pausedScene 3 (1 / 60)).m_suspendedDelta = 1 / 20) := by
  constructor
  · have hsome : (ticks 1 exampleConverter twoFrames 2 pausedEngine).isSome = true := by decide
    cases hs : ticks 1 exampleConverter twoFrames 2 pausedEngine with
    | none => rw [hs] at hsome; exact absurd hsome (by simp)
    | some e2 =>
      refine ⟨e2, rfl, ?_, ?_, ?_⟩
      · exact (((suspended_time_accounting 1 exampleConverter pausedEngine).2.2.1
          ⟨rfl, rfl, rfl, rfl⟩ twoFrames 2 e2 hs) 0 pausedScene rfl).1 rfl
      · norm_num [suspendedAfter, pausedScene]
      · simp [suspendedAfter, pausedScene]
  · have hf : (GetFrameTimes (1 / 20) removalQueuedEngine).1.frames = 3 := by
      norm_num [GetFrameTimes, toInt, removalQueuedEngine, runEngine]
    have hfs : (GetFrameTimes (1 / 20) removalQueuedEngine).1.framestep = 1 / 60 := by
      norm_num [GetFrameTimes, toInt, removalQueuedEngine, runEngine]
    have hquiet : ∀ s : KX_Scene, s ∈ removalQueuedEngine.m_scenes → Quiet s := by
      intro s hs
      have hs2 : s = pausedScene ∨ s = runningScene := by
        simpa [removalQueuedEngine, runEngine] using hs
      rcases hs2 with rfl | rfl
      · exact Or.inl rfl
      · exact Or.inr ⟨rfl, rfl, rfl⟩
    have hbuilds : BuildsQuiet exampleConverter removalQueuedEngine := by
      intro name bl hname
      rcases hname with h | h | ⟨o, h⟩ <;> simp [removalQueuedEngine, runEngine] at h
    obtain ⟨r, hr⟩ := ((suspended_time_accounting 0 exampleConverter removalQueuedEngine).2.2.2.2.1
      hquiet hbuilds).2 (1 / 20) (by rw [hf]; decide)
    obtain ⟨e1, htick, hrest⟩ :=
      ((suspended_time_accounting 0 exampleConverter removalQueuedEngine).2.2.2.1
        (1 / 20) r hr).2.1 (by rw [hf]; decide)
    have hmem : suspendedAfter pausedScene 1
        (GetFrameTimes (1 / 20) removalQueuedEngine).1.framestep ∈ e1.m_scenes := by
      obtain ⟨_, mid, _, _, _, _, _, hsc⟩ :=
        (suspended_time_accounting 0 exampleConverter
          (GetFrameTimes (1 / 20) removalQueuedEngine).2).1 _ e1 htick
      exact ((hsc 0 pausedScene rfl).1 rfl).2
        (fun p hp => by simp [GetFrameTimes, removalQueuedEngine, runEngine] at hp)
        (by
          show pausedScene.m_name ∉ ["Y"]
          decide)
    have hlen : (tick 0 exampleConverter (GetFrameTimes (1 / 20) removalQueuedEngine).1
        (GetFrameTimes (1 / 20) removalQueuedEngine).2).map (fun x => x.m_scenes.length) =
        some 1 := by decide
    rw [htick] at hlen
    simp only [Option.map_some', Option.some.injEq] at hlen
    have hidx : e1.m_scenes[0]? = some (suspendedAfter pausedScene 1
        (GetFrameTimes (1 / 20) removalQueuedEngine).1.framestep) := by
      obtain ⟨x, hx⟩ := List.length_eq_one.mp hlen
      rw [hx] at hmem ⊢
      simp only [List.mem_singleton] at hmem
      rw [hmem]
      rfl
    have h3 := hrest 0 pausedScene rfl hidx
    rw [hf, hfs] at h3
    refine ⟨r, hr, h3, ?_⟩
    norm_num [suspendedAfter, pausedScene]

end Ketsji
